import Mathlib

/-!
# A verification development for `st.c` (chjj/st)

Shallow embedding of the terminal engine of `st.c`: the UTF-8 codec, the
`ttyread` decode loop, and the screen model driven by `tputc`.

Conventions of the embedding.

* `uchar` values are `Nat` below 256, `int` and `long` values are `Int`.
* A `char *` is the list of the bytes from the pointer onwards; `*s` is the
  head of the list converted to `uchar`, `++s` is the tail.
* C arrays that the code indexes are lists; `Line` pointers are indices into
  an explicit heap of rows, so that aliasing of rows is kept.
-/

namespace St

/-! ## Constants of `st.c` -/

/-- Source: `#define UTF_SIZ 4`. -/
abbrev UTF_SIZ : Nat := 4

/-- Source: `enum { B0=1, ... }`. -/
abbrev B0 : Nat := 1
/-- Source: `enum { ..., B1=2, ... }`. -/
abbrev B1 : Nat := 2
/-- Source: `enum { ..., B2=4, ... }`. -/
abbrev B2 : Nat := 4
/-- Source: `enum { ..., B3=8, ... }`. -/
abbrev B3 : Nat := 8
/-- Source: `enum { ..., B4=16, ... }`. -/
abbrev B4 : Nat := 16
/-- Source: `enum { ..., B5=32, ... }`. -/
abbrev B5 : Nat := 32
/-- Source: `enum { ..., B6=64, ... }`. -/
abbrev B6 : Nat := 64
/-- Source: `enum { ..., B7=128 }`. -/
abbrev B7 : Nat := 128

/-! ## UTF-8 codec (`utf8decode`, `utf8encode`, `isfullutf8`) -/

/-- The byte `*s` read as `uchar`: the head of the byte string (0 when the
string is exhausted), reduced modulo 256. -/
def uch (s : List Nat) : Nat := s.headD 0 % 256

/-- The continuation loop of `utf8decode`:
`for(i = n, ++s; i > 0; --i, ++rtn, ++s)`. The list is the string at the
current `s`; the result is `(ok, *u, rtn)`, `ok = false` standing for
`goto invalid`. -/
def utf8decodeCont : Nat → List Nat → Nat → Nat → Bool × Nat × Nat
  | 0, _, u, rtn => (true, u, rtn)
  | i + 1, s, u, rtn =>
    let c := uch s
    if (c &&& (B7 ||| B6)) ≠ B7 then (false, u, rtn)
    else utf8decodeCont i s.tail
      ((u <<< 6) ||| (c &&& (B5 ||| B4 ||| B3 ||| B2 ||| B1 ||| B0))) (rtn + 1)

/-- The part of `utf8decode` after the lead byte: the continuation loop over
`n` bytes starting with `*u = u0`, the overlong and surrogate test, and the
`invalid:` label. The list is the string after the lead byte. -/
def utf8decodeTail (n u0 : Nat) (s : List Nat) : Nat × Nat :=
  let r := utf8decodeCont n s u0 1
  if r.1 = false then (0xFFFD, r.2.2)
  else if (n = 1 ∧ r.2.1 < 0x80) ∨ (n = 2 ∧ r.2.1 < 0x800) ∨ (n = 3 ∧ r.2.1 < 0x10000)
      ∨ (0xD800 ≤ r.2.1 ∧ r.2.1 ≤ 0xDFFF) then (0xFFFD, r.2.2)
  else (r.2.1, r.2.2)

/-- Source: `utf8decode(char *s, long *u)`. Returns `(*u, rtn)`: the code
point stored through `u` and the returned byte count. The test `~c & B7` is
written `c &&& B7 = 0`. -/
def utf8decode (s : List Nat) : Nat × Nat :=
  let c := uch s
  if c &&& B7 = 0 then (c, 1)
  else if (c &&& (B7 ||| B6 ||| B5)) = (B7 ||| B6) then
    utf8decodeTail 1 (c &&& (B4 ||| B3 ||| B2 ||| B1 ||| B0)) s.tail
  else if (c &&& (B7 ||| B6 ||| B5 ||| B4)) = (B7 ||| B6 ||| B5) then
    utf8decodeTail 2 (c &&& (B3 ||| B2 ||| B1 ||| B0)) s.tail
  else if (c &&& (B7 ||| B6 ||| B5 ||| B4 ||| B3)) = (B7 ||| B6 ||| B5 ||| B4) then
    utf8decodeTail 3 (c &&& (B2 ||| B1 ||| B0)) s.tail
  else (0xFFFD, 1)

/-- Storing the bytes `bs` at the start of the buffer `s`; the rest of the
buffer keeps its former contents. -/
def poke (s bs : List Nat) : List Nat := bs ++ s.drop bs.length

/-- The continuation loop of `utf8encode`: `for(i=n,++sp; i>0; --i,++sp)
*sp = ((uc >> 6*(i-1)) & 0x3F) | B7`, as the list of the bytes stored. -/
def utf8encodeCont (uc : Nat) : Nat → List Nat
  | 0 => []
  | i + 1 =>
    (((uc >>> (6 * i)) &&& (B5 ||| B4 ||| B3 ||| B2 ||| B1 ||| B0)) ||| B7) % 256
      :: utf8encodeCont uc i

/-- Conversion of a `long` to `unsigned long`: reduction modulo 2^64. -/
def toUlong (u : Int) : Nat := (u % 18446744073709551616).toNat

/-- The part of `utf8encode` after the lead byte `b` (stored as `uchar`) has
been chosen: the continuation loop over `n` bytes and `return n+1`. -/
def utf8encodeTail (uc b n : Nat) (s : List Nat) : List Nat × Nat :=
  (poke s (b % 256 :: utf8encodeCont uc n), n + 1)

/-- Source: `utf8encode(long *u, char *s)`. The argument `s` is the buffer
before the call; the result is the buffer after the call and the returned
length. `uc` is `*u` converted to `unsigned long`; the second test is the
signed comparison `*u < 0x800` of the source. -/
def utf8encode (u : Int) (s : List Nat) : List Nat × Nat :=
  let uc : Nat := toUlong u
  if uc < 0x80 then (poke s [uc % 256], 1)
  else if u < 0x800 then utf8encodeTail uc ((uc >>> 6) ||| (B7 ||| B6)) 1 s
  else if uc < 0x10000 then utf8encodeTail uc ((uc >>> 12) ||| (B7 ||| B6 ||| B5)) 2 s
  else if uc ≤ 0x10FFFF then
    utf8encodeTail uc ((uc >>> 18) ||| (B7 ||| B6 ||| B5 ||| B4)) 3 s
  else (poke s [0xEF, 0xBF, 0xBD], 3)

/-- Source: `isfullutf8(char *s, int b)`. `c1`, `c2`, `c3` are the first
three bytes at `s`. -/
def isfullutf8 (s : List Nat) (b : Int) : Int :=
  let c1 := uch s
  let c2 := uch s.tail
  let c3 := uch s.tail.tail
  if b < 1 then 0
  else if (c1 &&& (B7 ||| B6 ||| B5)) = (B7 ||| B6) ∧ b = 1 then 0
  else if (c1 &&& (B7 ||| B6 ||| B5 ||| B4)) = (B7 ||| B6 ||| B5) ∧
      (b = 1 ∨ (b = 2 ∧ (c2 &&& (B7 ||| B6)) = B7)) then 0
  else if (c1 &&& (B7 ||| B6 ||| B5 ||| B4 ||| B3)) = (B7 ||| B6 ||| B5 ||| B4) ∧
      (b = 1 ∨ (b = 2 ∧ (c2 &&& (B7 ||| B6)) = B7) ∨
        (b = 3 ∧ (c2 &&& (B7 ||| B6)) = B7 ∧ (c3 &&& (B7 ||| B6)) = B7)) then 0
  else 1

/-- Source: `utf8size(char *s)`. -/
def utf8size (s : List Nat) : Int :=
  let c := uch s
  if c &&& B7 = 0 then 1
  else if (c &&& (B7 ||| B6 ||| B5)) = (B7 ||| B6) then 2
  else if (c &&& (B7 ||| B6 ||| B5 ||| B4)) = (B7 ||| B6 ||| B5) then 3
  else 4

/-- The loop condition of `ttyread`:
`buflen >= UTF_SIZ || isfullutf8(ptr,buflen)`, the list being the unprocessed
part of the buffer (`ptr`, of length `buflen`). -/
def ttyreadCond (buf : List Nat) : Prop :=
  UTF_SIZ ≤ buf.length ∨ isfullutf8 buf buf.length ≠ 0

instance (buf : List Nat) : Decidable (ttyreadCond buf) := by
  unfold ttyreadCond; infer_instance

/-- The decode loop of `ttyread`:
`while(buflen >= UTF_SIZ || isfullutf8(ptr,buflen)) { charsize =
utf8decode(ptr, &utf8c); ...; ptr += charsize; buflen -= charsize; }`.
The list is the unprocessed part of the buffer; the result is the sequence
of `(utf8c, charsize)` handed on to `utf8encode` and `tputc`, and the bytes
kept for the next call. Every round consumes at least one byte, so
`fuel = buflen` rounds are enough. -/
def ttyreadLoop : Nat → List Nat → List (Nat × Nat) × List Nat
  | 0, buf => ([], buf)
  | fuel + 1, buf =>
    if ttyreadCond buf then
      let d := utf8decode buf
      let r := ttyreadLoop fuel (buf.drop d.2)
      (d :: r.1, r.2)
    else ([], buf)

/-- The decode loop of `ttyread` run on the whole pending buffer. -/
def ttyreadDecode (buf : List Nat) : List (Nat × Nat) × List Nat :=
  ttyreadLoop buf.length buf

/-- The continuation loop of `utf8decode` over `n` bytes is settled by the
bytes of `s` alone: it meets a non-continuation byte or finds all `n`
continuation bytes inside `s`. -/
def contDecided : Nat → List Nat → Prop
  | 0, _ => True
  | n + 1, s => s ≠ [] ∧ ((128 ≤ uch s ∧ uch s < 192) → contDecided n s.tail)

/-! ## The terminal: constants and data -/

/-- Source: `#define ESC_BUF_SIZ (128*UTF_SIZ)`. -/
abbrev ESC_BUF_SIZ : Nat := 128 * UTF_SIZ
/-- Source: `#define ESC_ARG_SIZ 16`. -/
abbrev ESC_ARG_SIZ : Nat := 16
/-- Source: `#define STR_BUF_SIZ ESC_BUF_SIZ`. -/
abbrev STR_BUF_SIZ : Nat := ESC_BUF_SIZ
/-- Source: `#define STR_ARG_SIZ ESC_ARG_SIZ`. -/
abbrev STR_ARG_SIZ : Nat := ESC_ARG_SIZ
/-- Source: `#define SCROLLBACK 10000`. -/
abbrev SCROLLBACK : Int := 10000

/-- Source: `enum glyph_attribute`. -/
abbrev ATTR_NULL : Nat := 0
/-- Source: `enum glyph_attribute`. -/
abbrev ATTR_REVERSE : Nat := 1
/-- Source: `enum glyph_attribute`. -/
abbrev ATTR_UNDERLINE : Nat := 2
/-- Source: `enum glyph_attribute`. -/
abbrev ATTR_BOLD : Nat := 4
/-- Source: `enum glyph_attribute`. -/
abbrev ATTR_GFX : Nat := 8
/-- Source: `enum glyph_attribute`. -/
abbrev ATTR_ITALIC : Nat := 16
/-- Source: `enum glyph_attribute`. -/
abbrev ATTR_BLINK : Nat := 32
/-- Source: `enum glyph_attribute`. -/
abbrev ATTR_WRAP : Nat := 64

/-- Source: `enum cursor_state`. -/
abbrev CURSOR_DEFAULT : Nat := 0
/-- Source: `enum cursor_state`. -/
abbrev CURSOR_WRAPNEXT : Nat := 1
/-- Source: `enum cursor_state`. -/
abbrev CURSOR_ORIGIN : Nat := 2

/-- Source: `enum term_mode`. -/
abbrev MODE_WRAP : Nat := 1
/-- Source: `enum term_mode`. -/
abbrev MODE_INSERT : Nat := 2
/-- Source: `enum term_mode`. -/
abbrev MODE_APPKEYPAD : Nat := 4
/-- Source: `enum term_mode`. -/
abbrev MODE_ALTSCREEN : Nat := 8
/-- Source: `enum term_mode`. -/
abbrev MODE_CRLF : Nat := 16
/-- Source: `enum term_mode`. -/
abbrev MODE_MOUSEBTN : Nat := 32
/-- Source: `enum term_mode`. -/
abbrev MODE_MOUSEMOTION : Nat := 64
/-- Source: `enum term_mode`. -/
abbrev MODE_REVERSE : Nat := 128
/-- Source: `enum term_mode`. -/
abbrev MODE_KBDLOCK : Nat := 256
/-- Source: `enum term_mode`. -/
abbrev MODE_HIDE : Nat := 512
/-- Source: `enum term_mode`. -/
abbrev MODE_ECHO : Nat := 1024
/-- Source: `enum term_mode`. -/
abbrev MODE_APPCURSOR : Nat := 2048
/-- Source: `enum term_mode`. -/
abbrev MODE_MOUSESGR : Nat := 4096
/-- Source: `enum term_mode`. -/
abbrev MODE_8BIT : Nat := 8192
/-- Source: `enum term_mode`. -/
abbrev MODE_BLINK : Nat := 16384
/-- Source: `enum term_mode`. -/
abbrev MODE_FBLINK : Nat := 32768
/-- Source: `enum term_mode`, `MODE_MOUSE = 32|64`. -/
abbrev MODE_MOUSE : Nat := 32 ||| 64

/-- Source: `enum escape_state`. -/
abbrev ESC_START : Nat := 1
/-- Source: `enum escape_state`. -/
abbrev ESC_CSI : Nat := 2
/-- Source: `enum escape_state`. -/
abbrev ESC_STR : Nat := 4
/-- Source: `enum escape_state`. -/
abbrev ESC_ALTCHARSET : Nat := 8
/-- Source: `enum escape_state`. -/
abbrev ESC_STR_END : Nat := 16
/-- Source: `enum escape_state`. -/
abbrev ESC_TEST : Nat := 32

/-- Source: `enum selection_type`. -/
abbrev SEL_REGULAR : Int := 1
/-- Source: `enum selection_type`. -/
abbrev SEL_RECTANGULAR : Int := 2

/-- Source: `enum cursor_movement`. -/
inductive CursorMovement where
  | CURSOR_SAVE
  | CURSOR_LOAD
  deriving DecidableEq, Repr

/-- The constants of `config.h` that the terminal engine reads. `config.h`
is not part of the sources at hand, so they are parameters. -/
structure Config where
  /-- Source: `defaultfg`. -/
  defaultfg : Nat
  /-- Source: `defaultbg`. -/
  defaultbg : Nat
  /-- Source: `tabspaces`. -/
  tabspaces : Nat
  /-- Source: `allowaltscreen`. -/
  allowaltscreen : Bool
  deriving DecidableEq, Repr

/-- Source: `Glyph`. `c` holds the `UTF_SIZ` bytes of `char c[UTF_SIZ]`. -/
structure Glyph where
  c : List Nat
  mode : Nat
  fg : Nat
  bg : Nat
  deriving DecidableEq, Repr

/-- The all-zero glyph: the contents of memory obtained from `xcalloc`. -/
def Glyph.zero : Glyph := { c := [0, 0, 0, 0], mode := 0, fg := 0, bg := 0 }

/-- Source: `TCursor`. -/
structure TCursor where
  attr : Glyph
  x : Int
  y : Int
  state : Nat
  deriving DecidableEq, Repr

/-- Source: `CSIEscape`. `buf` holds the first `len` bytes of the raw string
(`len` is the length of the list); the bytes after them are zero, as
`csireset` clears the whole struct before a sequence is collected. -/
structure CSIEscape where
  buf : List Nat
  priv : Nat
  arg : List Int
  narg : Nat
  mode : Nat
  deriving DecidableEq, Repr

/-- Source: `STREscape`. `buf` holds the first `len` bytes of the raw
string. The `args` pointers are used by the window-system calls only and
are not kept. -/
structure STREscape where
  type : Nat
  buf : List Nat
  narg : Nat
  deriving DecidableEq, Repr

/-- Source: `Scrollback`, one entry of the list: the row pointer and the
column count recorded when the line was added. -/
structure Scrollback where
  line : Nat
  col : Int
  deriving DecidableEq, Repr

/-- Source: `ScrollbackList`. The doubly linked list from `head` to `tail`
is the list `entries`, head first; `total` is the counter of the source. -/
structure ScrollbackList where
  entries : List Scrollback
  total : Int
  deriving DecidableEq, Repr

/-- A grid coordinate, as in the members `b` and `e` of `Selection`. -/
structure Point where
  x : Int
  y : Int
  deriving DecidableEq, Repr

/-- Source: `Selection` (the members read or written by the terminal
engine; `by_` is the member `by`). -/
structure Selection where
  mode : Int
  type : Int
  snap : Int
  bx : Int
  by_ : Int
  ex : Int
  ey : Int
  b : Point
  e : Point
  alt : Bool
  deriving DecidableEq, Repr

/-- Source: `Term`. `line`, `alt` and `last_line` are arrays of row
pointers; a row pointer is an index into the heap of rows of `State`, the
null pointer being 0. `cmdfd`, `pid` and `next` are not kept. -/
structure Term where
  row : Int
  col : Int
  line : List Nat
  alt : List Nat
  dirty : List Bool
  c : TCursor
  top : Int
  bot : Int
  mode : Nat
  esc : Nat
  numlock : Bool
  tabs : List Bool
  ybase : Int
  sb : ScrollbackList
  last_line : List Nat
  deriving DecidableEq, Repr

/-- The state the terminal engine works on: one terminal, the file-scope
variables `csiescseq`, `strescseq` and `sel`, the `static TCursor c` of
`tcursor`, the heap of rows, the bytes handed to `ttywrite`, the pending
bytes `buf[0..buflen)` of `ttyread` and the flag `select_mode`. The terminal
is also the `focused_term` of the source. Cell 0 of the heap is the target
of the null pointer and is the empty row. -/
structure State where
  cfg : Config
  term : Term
  csiescseq : CSIEscape
  strescseq : STREscape
  sel : Selection
  saved : TCursor
  heap : List (List Glyph)
  ttyout : List Nat
  rdbuf : List Nat
  select_mode : Bool
  deriving DecidableEq, Repr

/-! ## Machine arithmetic and memory helpers -/

/-- Conversion of an integer to `int`: reduction modulo 2^32 into the range
`[-2^31, 2^31)`. Signed overflow of `int` arithmetic is taken to wrap around
in this way. -/
def wrapInt (x : Int) : Int := (x + 2147483648) % 4294967296 - 2147483648

/-- Source: `#define MIN(a, b)`. -/
def MIN (a b : Int) : Int := if a < b then a else b

/-- Source: `#define MAX(a, b)`. -/
def MAX (a b : Int) : Int := if a < b then b else a

/-- Source: `#define BETWEEN(x, a, b)`. -/
def BETWEEN (x a b : Int) : Prop := a ≤ x ∧ x ≤ b

instance (x a b : Int) : Decidable (BETWEEN x a b) := by unfold BETWEEN; infer_instance

/-- Source: `#define LIMIT(x, a, b)`, as the value assigned to `x`. -/
def LIMIT (x a b : Int) : Int := if x < a then a else if x > b then b else x

/-- Source: `#define DEFAULT(a, b)`, as the value assigned to `a`. -/
def DEFAULT (a b : Int) : Int := if a ≠ 0 then a else b

/-- The expression `m & ~bit` on flag words. -/
def andNot (m bit : Nat) : Nat := m &&& (0xFFFFFFFF ^^^ bit)

/-- Source: `#define MODBIT(x, set, bit)`, as the value assigned to `x`. -/
def MODBIT (x : Nat) (set : Bool) (bit : Nat) : Nat :=
  if set then x ||| bit else andNot x bit

/-- The first `n` bytes at the pointer `c`; bytes past the end of the list
read as 0. -/
def bytesAt (c : List Nat) (n : Nat) : List Nat := (c ++ List.replicate n 0).take n

/-- A `for` loop `for(i = lo; i <= hi; i++)` over a state. -/
def forRange {σ : Type} (lo hi : Int) (f : Int → σ → σ) (s : σ) : σ :=
  (List.range (hi + 1 - lo).toNat).foldl (fun acc k => f (lo + (k : Int)) acc) s

/-- A `for` loop `for(i = hi; i >= lo; i--)` over a state. -/
def forRangeDown {σ : Type} (hi lo : Int) (f : Int → σ → σ) (s : σ) : σ :=
  (List.range (hi + 1 - lo).toNat).foldl (fun acc k => f (hi - (k : Int)) acc) s

/-- The element `a[i]` of an array, `d` outside the array. -/
def idx {α : Type} (a : List α) (i : Int) (d : α) : α :=
  if 0 ≤ i then a.getD i.toNat d else d

/-- The assignment `a[i] = v`; an index outside the array leaves it as it
is. -/
def setIdx {α : Type} (a : List α) (i : Int) (v : α) : List α :=
  if 0 ≤ i then a.set i.toNat v else a

/-- An array of `n` elements that starts with the elements of `a`: the
result of `xrealloc` to `n` elements, new elements being `d`. -/
def resizeTo {α : Type} (a : List α) (n : Int) (d : α) : List α :=
  (a ++ List.replicate n.toNat d).take n.toNat

/-- The row a row pointer points to (the empty row for a pointer outside the
heap). -/
def rowAt (heap : List (List Glyph)) (p : Nat) : List Glyph := heap.getD p []

/-- Source: `memmove(&row[dst], &row[src], size * sizeof(Glyph))` inside one
row. Cells read outside the row are zero glyphs, cells written outside the
row are dropped. -/
def memmoveRow (row : List Glyph) (dst src size : Int) : List Glyph :=
  (List.range size.toNat).foldl
    (fun acc k => setIdx acc (dst + (k : Int)) (idx row (src + (k : Int)) Glyph.zero)) row

/-- The row `term->line[y]` of the current screen. -/
def State.lineAt (s : State) (y : Int) : List Glyph := rowAt s.heap (idx s.term.line y 0)

/-- The cell `term->line[y][x]`. -/
def State.cell (s : State) (x y : Int) : Glyph := idx (s.lineAt y) x Glyph.zero

/-- The assignment `term->line[y][x] = g`. -/
def State.setCell (s : State) (x y : Int) (g : Glyph) : State :=
  { s with heap := s.heap.set (idx s.term.line y 0) (setIdx (rowAt s.heap (idx s.term.line y 0)) x g) }

/-- The row at the row pointer `p` is replaced by `r`. -/
def State.setRow (s : State) (p : Nat) (r : List Glyph) : State :=
  { s with heap := s.heap.set p r }

/-- The assignment `term->dirty[y] = 1`. -/
def State.setDirty (s : State) (y : Int) : State :=
  { s with term := { s.term with dirty := setIdx s.term.dirty y true } }

/-- Allocation of a row with the given cells: the new heap and the pointer
to the row. -/
def allocRow (heap : List (List Glyph)) (r : List Glyph) : List (List Glyph) × Nat :=
  (heap ++ [r], heap.length)

/-- Source: `IS_SET(t, flag)`. -/
def IS_SET (t : Term) (flag : Nat) : Prop := t.mode &&& flag ≠ 0

instance (t : Term) (flag : Nat) : Decidable (IS_SET t flag) := by unfold IS_SET; infer_instance

/-! ## Screen operations -/

/-- Source: `tsetdirt(Term *term, int top, int bot)`. -/
def tsetdirt (s : State) (top bot : Int) : State :=
  let top := LIMIT top 0 (s.term.row - 1)
  let bot := LIMIT bot 0 (s.term.row - 1)
  forRange top bot (fun i s => s.setDirty i) s

/-- Source: `tfulldirt(Term *term)`. -/
def tfulldirt (s : State) : State := tsetdirt s 0 (s.term.row - 1)

/-- Source: `selected(int x, int y)`. -/
def selected (sel : Selection) (x y : Int) : Prop :=
  if sel.ey = y ∧ sel.by_ = y then
    BETWEEN x (MIN sel.bx sel.ex) (MAX sel.bx sel.ex)
  else if sel.type = SEL_RECTANGULAR then
    (sel.b.y ≤ y ∧ y ≤ sel.e.y) ∧ (sel.b.x ≤ x ∧ x ≤ sel.e.x)
  else
    ((sel.b.y < y ∧ y < sel.e.y) ∨ (y = sel.e.y ∧ x ≤ sel.e.x))
      ∨ (y = sel.b.y ∧ x ≥ sel.b.x ∧ (x ≤ sel.e.x ∨ sel.b.y ≠ sel.e.y))

instance (sel : Selection) (x y : Int) : Decidable (selected sel x y) := by
  unfold selected; infer_instance

/-- Source: `selclear(XEvent *e)`. -/
def selclear (s : State) : State :=
  if s.sel.bx = -1 then s
  else tsetdirt { s with sel := { s.sel with bx := -1 } } s.sel.b.y s.sel.e.y

/-- The glyph stored by `tclearregion`: `term->c.attr` with `" "` copied over
the first two bytes of `c`. -/
def blankGlyph (attr : Glyph) : Glyph := { attr with c := poke attr.c [32, 0] }

/-- Source: `tclearregion(Term *term, int x1, int y1, int x2, int y2)`. -/
def tclearregion (s : State) (x1 y1 x2 y2 : Int) : State :=
  let xa := if x1 > x2 then x2 else x1
  let xb := if x1 > x2 then x1 else x2
  let ya := if y1 > y2 then y2 else y1
  let yb := if y1 > y2 then y1 else y2
  let xa := LIMIT xa 0 (s.term.col - 1)
  let xb := LIMIT xb 0 (s.term.col - 1)
  let ya := LIMIT ya 0 (s.term.row - 1)
  let yb := LIMIT yb 0 (s.term.row - 1)
  forRange ya yb (fun y s =>
    forRange xa xb (fun x s =>
      let s := if selected s.sel x y then selclear s else s
      s.setCell x y (blankGlyph s.term.c.attr)) (s.setDirty y)) s

/-- Source: `tmoveto(Term *term, int x, int y)`. -/
def tmoveto (s : State) (x y : Int) : State :=
  let miny := if s.term.c.state &&& CURSOR_ORIGIN ≠ 0 then s.term.top else 0
  let maxy := if s.term.c.state &&& CURSOR_ORIGIN ≠ 0 then s.term.bot else s.term.row - 1
  let x := LIMIT x 0 (s.term.col - 1)
  let y := LIMIT y miny maxy
  { s with term := { s.term with
      c := { s.term.c with state := andNot s.term.c.state CURSOR_WRAPNEXT, x := x, y := y } } }

/-- Source: `tmoveato(Term *term, int x, int y)`. -/
def tmoveato (s : State) (x y : Int) : State :=
  tmoveto s x (wrapInt (y + (if s.term.c.state &&& CURSOR_ORIGIN ≠ 0 then s.term.top else 0)))

/-- Source: `tsetscroll(Term *term, int t, int b)`. -/
def tsetscroll (s : State) (t b : Int) : State :=
  let t := LIMIT t 0 (s.term.row - 1)
  let b := LIMIT b 0 (s.term.row - 1)
  { s with term := { s.term with
      top := if t > b then b else t, bot := if t > b then t else b } }

/-- Source: `tswapscreen(Term *term)`. -/
def tswapscreen (s : State) : State :=
  tfulldirt { s with term := { s.term with
    line := s.term.alt, alt := s.term.line, mode := s.term.mode ^^^ MODE_ALTSCREEN } }

/-- Source: `tcursor(Term *term, int mode)`. The `static TCursor c` is
`State.saved`. -/
def tcursor (s : State) (mode : CursorMovement) : State :=
  match mode with
  | .CURSOR_SAVE => { s with saved := s.term.c }
  | .CURSOR_LOAD =>
    tmoveto { s with term := { s.term with c := s.saved } } s.saved.x s.saved.y

/-- Source: `selscroll(Term *term, int orig, int n)`. -/
def selscroll (s : State) (orig n : Int) : State :=
  if s.sel.bx = -1 then s
  else if BETWEEN s.sel.by_ orig s.term.bot ∨ BETWEEN s.sel.ey orig s.term.bot then
    let by1 := wrapInt (s.sel.by_ + n)
    if by1 > s.term.bot then { s with sel := { s.sel with by_ := by1, bx := -1 } }
    else
      let ey1 := wrapInt (s.sel.ey + n)
      if ey1 < s.term.top then { s with sel := { s.sel with by_ := by1, ey := ey1, bx := -1 } }
      else
        let sel1 : Selection := { s.sel with by_ := by1, ey := ey1 }
        let sel2 : Selection :=
          if sel1.type = SEL_RECTANGULAR then
            let a : Selection := if sel1.by_ < s.term.top then { sel1 with by_ := s.term.top } else sel1
            if a.ey > s.term.bot then { a with ey := s.term.bot } else a
          else
            let a : Selection :=
              if sel1.by_ < s.term.top then { sel1 with by_ := s.term.top, bx := 0 } else sel1
            if a.ey > s.term.bot then { a with ey := s.term.bot, ex := s.term.col } else a
        { s with sel := { sel2 with b := ⟨sel2.bx, sel2.by_⟩, e := ⟨sel2.ex, sel2.ey⟩ } }
  else s

/-- Source: `memcpy(dst, src, n * sizeof(Glyph))` between two rows. Cells
read outside `src` are zero glyphs, cells written outside `dst` are
dropped. -/
def memcpyRow (dst src : List Glyph) (n : Int) : List Glyph :=
  (List.range n.toNat).foldl (fun acc k => setIdx acc (k : Int) (idx src (k : Int) Glyph.zero)) dst

/-- Source: `scrollback_add(Term *term, Glyph *l)`. -/
def scrollback_add (s : State) (l : Nat) : State :=
  let entries := { line := l, col := s.term.col : Scrollback } :: s.term.sb.entries
  let total := s.term.sb.total + 1
  let sb : ScrollbackList :=
    if total > SCROLLBACK then { entries := entries.dropLast, total := total - 1 }
    else { entries := entries, total := total }
  { s with term := { s.term with sb := sb } }

/-- Source: `scrollback_get(Term *term, int i)`: the state after the call
(the row is reallocated in place to the terminal's width when the recorded
width differs) and the row pointer returned, 0 for `NULL`. -/
def scrollback_get (s : State) (i : Int) : State × Nat :=
  match s.term.sb.entries.get? i.toNat with
  | none => (s, 0)
  | some e =>
    if s.term.col ≠ e.col then
      (s.setRow e.line (resizeTo (rowAt s.heap e.line) s.term.col Glyph.zero), e.line)
    else (s, e.line)

/-- The exchange of the row pointers `term->line[i]` and `term->line[j]`,
followed by `term->dirty[i] = 1; term->dirty[j] = 1`, of the scroll loops. -/
def swapLines (s : State) (i j : Int) : State :=
  let temp := idx s.term.line i 0
  let line := setIdx s.term.line i (idx s.term.line j 0)
  let line := setIdx line j temp
  { s with term := { s.term with
      line := line, dirty := setIdx (setIdx s.term.dirty i true) j true } }

/-- Source: `tscrolldown(Term *term, int orig, int n)`. -/
def tscrolldown (s : State) (orig n : Int) : State :=
  let n := LIMIT n 0 (s.term.bot - orig + 1)
  let s := tclearregion s 0 (s.term.bot - n + 1) (s.term.col - 1) s.term.bot
  let s := forRangeDown s.term.bot (orig + n) (fun i s => swapLines s i (i - n)) s
  selscroll s orig n

/-- The body of the first loop of `tscrollup`: a copy of row `i` is
allocated and added to the scrollback. -/
def tscrollupSave (s : State) (i : Int) : State :=
  let r := memcpyRow (List.replicate s.term.col.toNat Glyph.zero) (s.lineAt i) s.term.col
  let a := allocRow s.heap r
  scrollback_add { s with heap := a.1 } a.2

/-- Source: `tscrollup(Term *term, int orig, int n)`. -/
def tscrollup (s : State) (orig n : Int) : State :=
  let n := LIMIT n 0 (s.term.bot - orig + 1)
  let s := if orig = s.term.top ∧ s.term.ybase = 0 then
      forRange orig (orig + n - 1) (fun i s => tscrollupSave s i) s
    else s
  let s := tclearregion s 0 orig (s.term.col - 1) (orig + n - 1)
  let s := forRange orig (s.term.bot - n) (fun i s => swapLines s i (i + n)) s
  selscroll s orig (-n)

/-- The body of the mapping loop of `tscrollback`: row `i` of the screen is
taken from the scrollback or from `last_line`, and marked dirty. -/
def tscrollbackMap (s : State) (i : Int) : State :=
  let si := i + s.term.ybase
  let r : State × Nat :=
    if si < 0 then scrollback_get s (-(si + 1)) else (s, idx s.term.last_line si 0)
  { r.1 with term := { r.1.term with
      line := setIdx r.1.term.line i r.2, dirty := setIdx r.1.term.dirty i true } }

/-- The new view base of `tscrollback`: `term->ybase += n`, then clamped to
`[-term->sb->total, 0]`. -/
def tscrollbackBase (s : State) (n : Int) : Int :=
  let y := wrapInt (s.term.ybase + n)
  if y > 0 then 0 else if y < -s.term.sb.total then -s.term.sb.total else y

/-- The body of the loop of `tscrollback` that returns to the live screen:
`term->line[i] = term->last_line[i]; term->dirty[i] = 1`. -/
def tscrollbackRestore (s : State) (i : Int) : State :=
  { s with term := { s.term with
      line := setIdx s.term.line i (idx s.term.last_line i 0),
      dirty := setIdx s.term.dirty i true } }

/-- The body of the loop of `tscrollback` that saves the live screen:
`memcpy(term->last_line[i], term->line[i], term->col * sizeof(Glyph))`. -/
def tscrollbackSnapshot (s : State) (i : Int) : State :=
  s.setRow (idx s.term.last_line i 0)
    (memcpyRow (rowAt s.heap (idx s.term.last_line i 0)) (s.lineAt i) s.term.col)

/-- Source: `tscrollback(Term *term, int n)`, up to its closing call
`redraw(0)`. That call acts on the window and on the dirty flags of the
focused terminal only: `tfulldirt`, then `drawregion`, which returns at once
unless the window is visible and otherwise clears the dirty flag of every row
it paints. The dirty flags given here are those of a window that is not
visible; with a visible window the dirty flags of the focused terminal are
clear after the call. No other field is concerned. -/
def tscrollback (s : State) (n : Int) : State :=
  let b := s.term.ybase
  let s := { s with term := { s.term with ybase := tscrollbackBase s n } }
  if b ≠ 0 ∧ s.term.ybase = 0 then
    forRange 0 (s.term.row - 1) (fun i s => tscrollbackRestore s i) s
  else
    let s := if b = 0 then forRange 0 (s.term.row - 1) (fun i s => tscrollbackSnapshot s i) s
      else s
    forRange 0 (s.term.row - 1) (fun i s => tscrollbackMap s i) s

/-- Source: `tnewline(Term *term, int first_col)`. -/
def tnewline (s : State) (first_col : Bool) : State :=
  let y := s.term.c.y
  if y = s.term.bot then
    let s := tscrollup s s.term.top 1
    tmoveto s (if first_col then 0 else s.term.c.x) y
  else
    tmoveto s (if first_col then 0 else s.term.c.x) (y + 1)

/-- Source: the table `vt100_0` of `tsetchar`, entries `0x41 - 0x7e`, as
UTF-8 bytes; `[]` stands for a null entry. -/
def vt100_0 : List (List Nat) :=
  [ [226, 134, 145], [226, 134, 147], [226, 134, 146], [226, 134, 144],
    [226, 150, 136], [226, 150, 154], [226, 152, 131], [],
    [], [], [], [],
    [], [], [], [],
    [], [], [], [],
    [], [], [], [],
    [], [], [], [],
    [], [], [32], [226, 151, 134],
    [226, 150, 146], [226, 144, 137], [226, 144, 140], [226, 144, 141],
    [226, 144, 138], [194, 176], [194, 177], [226, 144, 164],
    [226, 144, 139], [226, 148, 152], [226, 148, 144], [226, 148, 140],
    [226, 148, 148], [226, 148, 188], [226, 142, 186], [226, 142, 187],
    [226, 148, 128], [226, 142, 188], [226, 142, 189], [226, 148, 156],
    [226, 148, 164], [226, 148, 180], [226, 148, 172], [226, 148, 130],
    [226, 137, 164], [226, 137, 165], [207, 128], [226, 137, 160],
    [194, 163], [194, 183] ]

/-- Source: `tsetchar(Term *term, char *c, Glyph *attr, int x, int y)`. -/
def tsetchar (s : State) (c : List Nat) (attr : Glyph) (x y : Int) : State :=
  let c0 := uch c
  let c := if attr.mode &&& ATTR_GFX ≠ 0 ∧ 0x41 ≤ c0 ∧ c0 ≤ 0x7e ∧
      vt100_0.getD (c0 - 0x41) [] ≠ [] then vt100_0.getD (c0 - 0x41) [] else c
  (s.setDirty y).setCell x y { attr with c := bytesAt c UTF_SIZ }

/-- Source: `tdeletechar(Term *term, int n)`. -/
def tdeletechar (s : State) (n : Int) : State :=
  let src := wrapInt (s.term.c.x + n)
  let dst := s.term.c.x
  let size := wrapInt (s.term.col - src)
  let s := s.setDirty s.term.c.y
  if src ≥ s.term.col then
    tclearregion s s.term.c.x s.term.c.y (s.term.col - 1) s.term.c.y
  else
    let s := s.setRow (idx s.term.line s.term.c.y 0)
      (memmoveRow (s.lineAt s.term.c.y) dst src size)
    tclearregion s (wrapInt (s.term.col - n)) s.term.c.y (s.term.col - 1) s.term.c.y

/-- Source: `tinsertblank(Term *term, int n)`. -/
def tinsertblank (s : State) (n : Int) : State :=
  let src := s.term.c.x
  let dst := wrapInt (src + n)
  let size := wrapInt (s.term.col - dst)
  let s := s.setDirty s.term.c.y
  if dst ≥ s.term.col then
    tclearregion s s.term.c.x s.term.c.y (s.term.col - 1) s.term.c.y
  else
    let s := s.setRow (idx s.term.line s.term.c.y 0)
      (memmoveRow (s.lineAt s.term.c.y) dst src size)
    tclearregion s src s.term.c.y (wrapInt (dst - 1)) s.term.c.y

/-- Source: `tinsertblankline(Term *term, int n)`. -/
def tinsertblankline (s : State) (n : Int) : State :=
  if s.term.c.y < s.term.top ∨ s.term.c.y > s.term.bot then s
  else tscrolldown s s.term.c.y n

/-- Source: `tdeleteline(Term *term, int n)`. -/
def tdeleteline (s : State) (n : Int) : State :=
  if s.term.c.y < s.term.top ∨ s.term.c.y > s.term.bot then s
  else tscrollup s s.term.c.y n

/-! ## Attributes, modes, tab stops, reset and resize -/

/-- One round of the loop of `tsetattr`, for `a = attr[i]` with `rest` the
arguments `attr[i+1], ..., attr[l-1]`: the new cursor attribute and the
amount added to `i` inside the round (2 after `38;5;n` and `48;5;n`). -/
def tsetattr1 (cfg : Config) (a : Int) (rest : List Int) (g : Glyph) : Glyph × Nat :=
  if a = 0 then
    ({ g with
        mode := andNot g.mode
          (ATTR_REVERSE ||| ATTR_UNDERLINE ||| ATTR_BOLD ||| ATTR_ITALIC ||| ATTR_BLINK),
        fg := cfg.defaultfg, bg := cfg.defaultbg }, 0)
  else if a = 1 then ({ g with mode := g.mode ||| ATTR_BOLD }, 0)
  else if a = 3 then ({ g with mode := g.mode ||| ATTR_ITALIC }, 0)
  else if a = 4 then ({ g with mode := g.mode ||| ATTR_UNDERLINE }, 0)
  else if a = 5 ∨ a = 6 then ({ g with mode := g.mode ||| ATTR_BLINK }, 0)
  else if a = 7 then ({ g with mode := g.mode ||| ATTR_REVERSE }, 0)
  else if a = 21 ∨ a = 22 then ({ g with mode := andNot g.mode ATTR_BOLD }, 0)
  else if a = 23 then ({ g with mode := andNot g.mode ATTR_ITALIC }, 0)
  else if a = 24 then ({ g with mode := andNot g.mode ATTR_UNDERLINE }, 0)
  else if a = 25 ∨ a = 26 then ({ g with mode := andNot g.mode ATTR_BLINK }, 0)
  else if a = 27 then ({ g with mode := andNot g.mode ATTR_REVERSE }, 0)
  else if a = 38 then
    if 2 ≤ rest.length ∧ rest.getD 0 0 = 5 then
      (if BETWEEN (rest.getD 1 0) 0 255 then { g with fg := (rest.getD 1 0).toNat } else g, 2)
    else (g, 0)
  else if a = 39 then ({ g with fg := cfg.defaultfg }, 0)
  else if a = 48 then
    if 2 ≤ rest.length ∧ rest.getD 0 0 = 5 then
      (if BETWEEN (rest.getD 1 0) 0 255 then { g with bg := (rest.getD 1 0).toNat } else g, 2)
    else (g, 0)
  else if a = 49 then ({ g with bg := cfg.defaultbg }, 0)
  else if BETWEEN a 30 37 then ({ g with fg := (a - 30).toNat }, 0)
  else if BETWEEN a 40 47 then ({ g with bg := (a - 40).toNat }, 0)
  else if BETWEEN a 90 97 then ({ g with fg := (a - 90 + 8).toNat }, 0)
  else if BETWEEN a 100 107 then ({ g with bg := (a - 100 + 8).toNat }, 0)
  else (g, 0)

/-- The loop of `tsetattr` over `attr[i], ..., attr[l-1]`; `skip` is the
number of arguments already consumed by the round before. -/
def tsetattrLoop (cfg : Config) : List Int → Nat → Glyph → Glyph
  | [], _, g => g
  | _ :: rest, skip + 1, g => tsetattrLoop cfg rest skip g
  | a :: rest, 0, g => tsetattrLoop cfg rest (tsetattr1 cfg a rest g).2 (tsetattr1 cfg a rest g).1

/-- Source: `tsetattr(Term *term, int *attr, int l)`; the list holds
`attr[0], ..., attr[l-1]`. -/
def tsetattr (s : State) (attr : List Int) : State :=
  { s with term := { s.term with
      c := { s.term.c with attr := tsetattrLoop s.cfg attr 0 s.term.c.attr } } }

/-- The assignment `term->mode = m`. -/
def State.setMode (s : State) (m : Nat) : State :=
  { s with term := { s.term with mode := m } }

/-- The assignment `term->tabs = t` of the whole array of tab stops. -/
def State.setTabs (s : State) (t : List Bool) : State :=
  { s with term := { s.term with tabs := t } }

/-- The assignment `sel = v` of the selection. -/
def State.setSel (s : State) (v : Selection) : State := { s with sel := v }

/-- The assignment `csiescseq = q`. -/
def State.setCsi (s : State) (q : CSIEscape) : State := { s with csiescseq := q }

/-- The assignment `strescseq = q`. -/
def State.setStr (s : State) (q : STREscape) : State := { s with strescseq := q }

/-- The assignment `term->c.state = v`. -/
def State.setCState (s : State) (v : Nat) : State :=
  { s with term := { s.term with c := { s.term.c with state := v } } }

/-- The assignment `term->esc = e`. -/
def State.setEsc (s : State) (e : Nat) : State :=
  { s with term := { s.term with esc := e } }

/-- The body of the loop of `tsetmode` for one argument `*args`. The call
`redraw(REDRAW_TIMEOUT)` of case 5, made when `MODE_REVERSE` changes, is left
out: it acts on the window and on the dirty flags of the focused terminal
only. -/
def tsetmode1 (priv set : Bool) (s : State) (a : Int) : State :=
  if priv then
    if a = 1 then s.setMode (MODBIT s.term.mode set MODE_APPCURSOR)
    else if a = 5 then s.setMode (MODBIT s.term.mode set MODE_REVERSE)
    else if a = 6 then
      tmoveato (s.setCState (MODBIT s.term.c.state set CURSOR_ORIGIN)) 0 0
    else if a = 7 then s.setMode (MODBIT s.term.mode set MODE_WRAP)
    else if a = 0 ∨ a = 2 ∨ a = 3 ∨ a = 4 ∨ a = 8 ∨ a = 18 ∨ a = 19 ∨ a = 42 ∨ a = 12 then s
    else if a = 25 then s.setMode (MODBIT s.term.mode (!set) MODE_HIDE)
    else if a = 1000 then
      s.setMode (MODBIT (MODBIT s.term.mode set MODE_MOUSEBTN) false MODE_MOUSEMOTION)
    else if a = 1002 then
      s.setMode (MODBIT (MODBIT s.term.mode set MODE_MOUSEMOTION) false MODE_MOUSEBTN)
    else if a = 1006 then s.setMode (MODBIT s.term.mode set MODE_MOUSESGR)
    else if a = 1034 then s.setMode (MODBIT s.term.mode set MODE_8BIT)
    else if a = 1049 ∨ a = 47 ∨ a = 1047 then
      if ¬ s.cfg.allowaltscreen then s
      else
        let alt : Bool := decide (IS_SET s.term MODE_ALTSCREEN)
        let s := if alt then tclearregion s 0 0 (s.term.col - 1) (s.term.row - 1) else s
        let s := if xor set alt then tswapscreen s else s
        if a ≠ 1049 then s
        else tcursor s (if set then .CURSOR_SAVE else .CURSOR_LOAD)
    else if a = 1048 then tcursor s (if set then .CURSOR_SAVE else .CURSOR_LOAD)
    else s
  else
    if a = 0 then s
    else if a = 2 then s.setMode (MODBIT s.term.mode set MODE_KBDLOCK)
    else if a = 4 then s.setMode (MODBIT s.term.mode set MODE_INSERT)
    else if a = 12 then s.setMode (MODBIT s.term.mode (!set) MODE_ECHO)
    else if a = 20 then s.setMode (MODBIT s.term.mode set MODE_CRLF)
    else s

/-- Source: `tsetmode(Term *term, bool priv, bool set, int *args, int narg)`.
The list holds `args[0], ..., args[narg-1]`. -/
def tsetmode (s : State) (priv set : Bool) (args : List Int) : State :=
  args.foldl (tsetmode1 priv set) s

/-- The loop `for(++x; x < term->col && !term->tabs[x]; ++x)` of `tputtab`,
started after `++x`. -/
def tabForward (col : Int) (tabs : List Bool) : Nat → Int → Int
  | 0, x => x
  | fuel + 1, x =>
    if x < col ∧ ¬ idx tabs x false then tabForward col tabs fuel (x + 1) else x

/-- The loop `for(--x; x > 0 && !term->tabs[x]; --x)` of `tputtab`, started
after `--x`; also the loop `while(--bp > term->tabs && !*bp)` of `tresize`
after its first decrement. -/
def tabBackward (tabs : List Bool) : Nat → Int → Int
  | 0, x => x
  | fuel + 1, x =>
    if x > 0 ∧ ¬ idx tabs x false then tabBackward tabs fuel (x - 1) else x

/-- Source: `tputtab(Term *term, bool forward)`. The cursor column is
non-negative, so that `uint x` holds it unchanged. -/
def tputtab (s : State) (forward : Bool) : State :=
  let x := s.term.c.x
  if forward then
    if x = s.term.col then s
    else tmoveto s (tabForward s.term.col s.term.tabs (s.term.col - (x + 1)).toNat (x + 1))
      s.term.c.y
  else
    if x = 0 then s
    else tmoveto s (tabBackward s.term.tabs (x - 1).toNat (x - 1)) s.term.c.y

/-- The loop `for(i = from; i < bound; i += tabspaces) tabs[i] = 1` of
`treset` and `tresize`. With `tabspaces >= 1` the loop ends within `fuel =
bound` rounds. -/
def setTabs (tabspaces : Nat) (bound : Int) : Nat → Int → List Bool → List Bool
  | 0, _, tabs => tabs
  | fuel + 1, i, tabs =>
    if i < bound then setTabs tabspaces bound fuel (i + tabspaces) (setIdx tabs i true)
    else tabs

/-- Source: `memset(tabs + from, 0, n * sizeof(*tabs))`. -/
def clearTabs (tabs : List Bool) (start n : Int) : List Bool :=
  forRange start (start + n - 1) (fun i t => setIdx t i false) tabs

/-- Source: `treset(Term *term)`. -/
def treset (s : State) : State :=
  let c : TCursor :=
    { attr := { c := [0, 0, 0, 0], mode := ATTR_NULL, fg := s.cfg.defaultfg, bg := s.cfg.defaultbg },
      x := 0, y := 0, state := CURSOR_DEFAULT }
  let tabs := clearTabs s.term.tabs 0 s.term.col
  let tabs := setTabs s.cfg.tabspaces s.term.col s.term.col.toNat s.cfg.tabspaces tabs
  let s := { s with term := { s.term with
    c := c, tabs := tabs, top := 0, bot := s.term.row - 1, mode := MODE_WRAP } }
  let s := tclearregion s 0 0 (s.term.col - 1) (s.term.row - 1)
  let s := tmoveto s 0 0
  tcursor s .CURSOR_SAVE

/-- Source: `memmove(a, a + slide, n * sizeof(Line))` on an array of row
pointers. -/
def memmovePtrs (a : List Nat) (slide n : Int) : List Nat :=
  (List.range n.toNat).foldl
    (fun acc k => setIdx acc (k : Int) (idx a ((k : Int) + slide) 0)) a

/-- The body of the loop of `tresize` over the rows kept,
`for(i = 0; i < minrow; i++)`: the rows are reallocated in place to `col`
cells. Cells gained by a row are zero glyphs until they are cleared. -/
def tresizeKeep (col : Int) (s : State) (i : Int) : State :=
  let s := s.setDirty i
  let s := s.setRow (idx s.term.line i 0)
    (resizeTo (rowAt s.heap (idx s.term.line i 0)) col Glyph.zero)
  let s := s.setRow (idx s.term.alt i 0)
    (resizeTo (rowAt s.heap (idx s.term.alt i 0)) col Glyph.zero)
  s.setRow (idx s.term.last_line i 0)
    (resizeTo (rowAt s.heap (idx s.term.last_line i 0)) col Glyph.zero)

/-- The body of the loop of `tresize` over the new rows,
`for(; i < row; i++)`: three rows are obtained from `xcalloc`. -/
def tresizeNew (col : Int) (s : State) (i : Int) : State :=
  let s := s.setDirty i
  let a1 := allocRow s.heap (List.replicate col.toNat Glyph.zero)
  let a2 := allocRow a1.1 (List.replicate col.toNat Glyph.zero)
  let a3 := allocRow a2.1 (List.replicate col.toNat Glyph.zero)
  { s with
    heap := a3.1,
    term := { s.term with
      line := setIdx s.term.line i a1.2,
      alt := setIdx s.term.alt i a2.2,
      last_line := setIdx s.term.last_line i a3.2 } }

/-- The body of the loop `do { ... } while(orig != term->line)` that ends
`tresize`. -/
def tresizeClear (col row mincol minrow : Int) (s : State) : State :=
  let s := if mincol < col ∧ 0 < minrow then tclearregion s mincol 0 (col - 1) (minrow - 1) else s
  let s := if 0 < col ∧ minrow < row then tclearregion s 0 minrow (col - 1) (row - 1) else s
  tswapscreen s

/-- The first part of `tresize`, up to the allocation of the new rows: the
row pointers are slid when the cursor would fall off the bottom, the arrays
are reallocated to the new height, the rows kept are reallocated to the new
width and the new rows are allocated. The heap keeps the rows passed to
`free`, and `xrealloc` resizes a row in place: this is what the call does as
long as no row is freed or reallocated twice. The pointers concerned are
listed by `tresizeFreed` and `tresizeRealloced`, and `TresizeSafe` says that
the call is free of such errors. -/
def tresizeRows (s : State) (col row : Int) : State :=
  let minrow := MIN row s.term.row
  let slide := wrapInt (wrapInt (s.term.c.y - row) + 1)
  let s := if slide > 0 then
      { s with term := { s.term with
          line := memmovePtrs s.term.line slide row,
          alt := memmovePtrs s.term.alt slide row,
          last_line := memmovePtrs s.term.last_line slide row } }
    else s
  let s := { s with term := { s.term with
      line := resizeTo s.term.line row 0,
      alt := resizeTo s.term.alt row 0,
      dirty := resizeTo s.term.dirty row false,
      tabs := resizeTo s.term.tabs col false,
      last_line := resizeTo s.term.last_line row 0 } }
  let s := forRange 0 (minrow - 1) (fun i s => tresizeKeep col s i) s
  forRange minrow (row - 1) (fun i s => tresizeNew col s i) s

/-- The part of `tresize` on the tab stops, `if(col > term->col) { ... }`:
the new stops are cleared, `bp` walks back from the old width to the last
stop set (or to column 0), and a stop is set every `tabspaces` columns after
it. -/
def tresizeTabs (s : State) (col : Int) : State :=
  if col > s.term.col then
    let tabs := clearTabs s.term.tabs s.term.col (col - s.term.col)
    let bp := tabBackward tabs (s.term.col - 1).toNat (s.term.col - 1)
    s.setTabs (setTabs s.cfg.tabspaces col col.toNat (bp + s.cfg.tabspaces) tabs)
  else s

/-- The assignments `term->col = col; term->row = row`. -/
def State.setSize (s : State) (col row : Int) : State :=
  { s with term := { s.term with col := col, row := row } }

/-- Source: `tresize(Term *term, int col, int row)`: the state after the
call and the value returned. The arrays `line` and `alt` are distinct, so
that the final `do ... while(orig != term->line)` loop runs twice. -/
def tresize (s : State) (col row : Int) : State × Int :=
  let minrow := MIN row s.term.row
  let mincol := MIN col s.term.col
  let slide := wrapInt (wrapInt (s.term.c.y - row) + 1)
  if col < 1 ∨ row < 1 then (s, 0)
  else
    let s := tresizeRows s col row
    let s := tresizeTabs s col
    let s := s.setSize col row
    let s := tsetscroll s 0 (row - 1)
    let s := tmoveto s s.term.c.x s.term.c.y
    let s := tresizeClear col row mincol minrow s
    let s := tresizeClear col row mincol minrow s
    (s, if slide > 0 then 1 else 0)

/-- The terminal after `memset(term, 0, sizeof(Term))`. The scrollback list
is the empty list that `scrollback_create` installs right after `tnew`. -/
def Term.zero : Term :=
  { row := 0, col := 0, line := [], alt := [], dirty := [],
    c := { attr := Glyph.zero, x := 0, y := 0, state := 0 },
    top := 0, bot := 0, mode := 0, esc := 0, numlock := false, tabs := [],
    ybase := 0, sb := { entries := [], total := 0 }, last_line := [] }

/-- Source: `tnew(Term *term, int col, int row)`. -/
def tnew (s : State) (col row : Int) : State :=
  let s := { s with term := Term.zero }
  let s := (tresize s col row).1
  let s := { s with term := { s.term with numlock := true } }
  treset s

/-! ## The escape parser -/

/-- Source: `csireset(void)`. -/
def csireset (s : State) : State :=
  { s with csiescseq :=
      { buf := [], priv := 0, arg := List.replicate ESC_ARG_SIZ 0, narg := 0, mode := 0 } }

/-- Source: `strreset(void)`. -/
def strreset (s : State) : State :=
  { s with strescseq := { type := 0, buf := [], narg := 0 } }

/-- Source: `isspace` of the C locale. -/
def isspace (c : Nat) : Bool := c = 32 ∨ (9 ≤ c ∧ c ≤ 13)

/-- Source: `isdigit`. -/
def isdigit (c : Nat) : Bool := 48 ≤ c ∧ c ≤ 57

/-- Source: `LONG_MAX` (64-bit `long`). -/
abbrev LONG_MAX : Int := 9223372036854775807
/-- Source: `LONG_MIN` (64-bit `long`). -/
abbrev LONG_MIN : Int := -9223372036854775808

/-- Source: `strtol(p, &np, 10)` of the C library: the value returned and
the string at `np`. White space is skipped, an optional sign is read, then
decimal digits; without a digit the value is 0 and `np` is `p`; a value
outside `long` is replaced by `LONG_MAX` or `LONG_MIN`. The end of the list
is the terminating NUL. -/
def strtol (p : List Nat) : Int × List Nat :=
  let t := p.dropWhile isspace
  let neg : Bool := t.headD 0 = 45
  let t := if t.headD 0 = 45 ∨ t.headD 0 = 43 then t.tail else t
  let ds := t.takeWhile isdigit
  if ds = [] then (0, p)
  else
    let v : Int := ds.foldl (fun (acc : Int) d => acc * 10 + ((d : Int) - 48)) 0
    let v := if neg then -v else v
    (if v > LONG_MAX then LONG_MAX else if v < LONG_MIN then LONG_MIN else v,
      t.dropWhile isdigit)

/-- The loop `while(p < csiescseq.buf+csiescseq.len)` of `csiparse`: the
final `p`, `arg` and `narg`. Each round that goes on consumes a `;`, so
`fuel = len + 1` rounds are enough. -/
def csiparseLoop : Nat → List Nat → List Int → Nat → List Nat × List Int × Nat
  | 0, p, arg, narg => (p, arg, narg)
  | fuel + 1, p, arg, narg =>
    if p = [] then (p, arg, narg)
    else
      let r := strtol p
      let v := if r.1 = LONG_MAX ∨ r.1 = LONG_MIN then -1 else r.1
      let arg := arg.set narg (wrapInt v)
      let narg := narg + 1
      if r.2.headD 0 ≠ 59 ∨ narg = ESC_ARG_SIZ then (r.2, arg, narg)
      else csiparseLoop fuel r.2.tail arg narg

/-- Source: `csiparse(void)`. -/
def csiparse (s : State) : State :=
  let q := s.csiescseq
  let priv := if q.buf.headD 0 = 63 then 1 else q.priv
  let p := if q.buf.headD 0 = 63 then q.buf.tail else q.buf
  let r := csiparseLoop (q.buf.length + 1) p q.arg 0
  { s with csiescseq := { q with priv := priv, arg := r.2.1, narg := r.2.2, mode := r.1.headD 0 } }

/-- The argument `csiescseq.arg[i]`. -/
def State.arg (s : State) (i : Nat) : Int := s.csiescseq.arg.getD i 0

/-- The assignment `csiescseq.arg[i] = v`. -/
def State.setArg (s : State) (i : Nat) (v : Int) : State :=
  { s with csiescseq := { s.csiescseq with arg := s.csiescseq.arg.set i v } }

/-- Source: `DEFAULT(csiescseq.arg[i], d)`. -/
def State.argDefault (s : State) (i : Nat) (d : Int) : State :=
  s.setArg i (DEFAULT (s.arg i) d)

/-- Source: `ttywrite(Term *term, const char *s, size_t n)`: the bytes are
handed to the pty. -/
def ttywrite (s : State) (bytes : List Nat) : State :=
  { s with ttyout := s.ttyout ++ bytes }

/-- Source: `#define VT102ID "\033[?6c"`. -/
def VT102ID : List Nat := [27, 91, 63, 54, 99]

/-- `n` calls of `f`. -/
def repeatN {σ : Type} (f : σ → σ) : Nat → σ → σ
  | 0, s => s
  | n + 1, s => repeatN f n (f s)

/-- Source: `while(csiescseq.arg[0]--) tputtab(term, forward)`. The loop
runs `arg[0]` times, counted modulo 2^32, and leaves `arg[0] = -1`. -/
def tputtabs (s : State) (forward : Bool) : State :=
  (repeatN (fun s => tputtab s forward) ((s.arg 0) % 4294967296).toNat s).setArg 0 (-1)

/-- Source: `csihandle(Term *term)`. The branch `unknown` only prints. -/
def csihandle (s : State) : State :=
  let m := s.csiescseq.mode
  if m = 64 then -- '@' ICH
    let s := s.argDefault 0 1
    tinsertblank s (s.arg 0)
  else if m = 65 then -- 'A' CUU
    let s := s.argDefault 0 1
    tmoveto s s.term.c.x (wrapInt (s.term.c.y - s.arg 0))
  else if m = 66 ∨ m = 101 then -- 'B' CUD, 'e' VPR
    let s := s.argDefault 0 1
    tmoveto s s.term.c.x (wrapInt (s.term.c.y + s.arg 0))
  else if m = 99 then -- 'c' DA
    if s.arg 0 = 0 then ttywrite s VT102ID else s
  else if m = 67 ∨ m = 97 then -- 'C' CUF, 'a' HPR
    let s := s.argDefault 0 1
    tmoveto s (wrapInt (s.term.c.x + s.arg 0)) s.term.c.y
  else if m = 68 then -- 'D' CUB
    let s := s.argDefault 0 1
    tmoveto s (wrapInt (s.term.c.x - s.arg 0)) s.term.c.y
  else if m = 69 then -- 'E' CNL
    let s := s.argDefault 0 1
    tmoveto s 0 (wrapInt (s.term.c.y + s.arg 0))
  else if m = 70 then -- 'F' CPL
    let s := s.argDefault 0 1
    tmoveto s 0 (wrapInt (s.term.c.y - s.arg 0))
  else if m = 103 then -- 'g' TBC
    if s.arg 0 = 0 then
      s.setTabs (setIdx s.term.tabs s.term.c.x false)
    else if s.arg 0 = 3 then
      s.setTabs (clearTabs s.term.tabs 0 s.term.col)
    else s
  else if m = 71 ∨ m = 96 then -- 'G' CHA and HPA
    let s := s.argDefault 0 1
    tmoveto s (wrapInt (s.arg 0 - 1)) s.term.c.y
  else if m = 72 ∨ m = 102 then -- 'H' CUP, 'f' HVP
    let s := s.argDefault 0 1
    let s := s.argDefault 1 1
    tmoveato s (wrapInt (s.arg 1 - 1)) (wrapInt (s.arg 0 - 1))
  else if m = 73 then -- 'I' CHT
    tputtabs (s.argDefault 0 1) true
  else if m = 74 then -- 'J' ED
    let s := s.setSel { s.sel with bx := -1 }
    if s.arg 0 = 0 then
      let s := tclearregion s s.term.c.x s.term.c.y (s.term.col - 1) s.term.c.y
      if s.term.c.y < s.term.row - 1 then
        tclearregion s 0 (s.term.c.y + 1) (s.term.col - 1) (s.term.row - 1)
      else s
    else if s.arg 0 = 1 then
      let s := if s.term.c.y > 1 then
          tclearregion s 0 0 (s.term.col - 1) (s.term.c.y - 1)
        else s
      tclearregion s 0 s.term.c.y s.term.c.x s.term.c.y
    else if s.arg 0 = 2 then
      tclearregion s 0 0 (s.term.col - 1) (s.term.row - 1)
    else s
  else if m = 75 then -- 'K' EL
    if s.arg 0 = 0 then
      tclearregion s s.term.c.x s.term.c.y (s.term.col - 1) s.term.c.y
    else if s.arg 0 = 1 then
      tclearregion s 0 s.term.c.y s.term.c.x s.term.c.y
    else if s.arg 0 = 2 then
      tclearregion s 0 s.term.c.y (s.term.col - 1) s.term.c.y
    else s
  else if m = 83 then -- 'S' SU
    let s := s.argDefault 0 1
    tscrollup s s.term.top (s.arg 0)
  else if m = 84 then -- 'T' SD
    let s := s.argDefault 0 1
    tscrolldown s s.term.top (s.arg 0)
  else if m = 76 then -- 'L' IL
    let s := s.argDefault 0 1
    tinsertblankline s (s.arg 0)
  else if m = 108 then -- 'l' RM
    tsetmode s (decide (s.csiescseq.priv ≠ 0)) false (s.csiescseq.arg.take s.csiescseq.narg)
  else if m = 77 then -- 'M' DL
    let s := s.argDefault 0 1
    tdeleteline s (s.arg 0)
  else if m = 88 then -- 'X' ECH
    let s := s.argDefault 0 1
    tclearregion s s.term.c.x s.term.c.y
      (wrapInt (wrapInt (s.term.c.x + s.arg 0) - 1)) s.term.c.y
  else if m = 80 then -- 'P' DCH
    let s := s.argDefault 0 1
    tdeletechar s (s.arg 0)
  else if m = 90 then -- 'Z' CBT
    tputtabs (s.argDefault 0 1) false
  else if m = 100 then -- 'd' VPA
    let s := s.argDefault 0 1
    tmoveato s s.term.c.x (wrapInt (s.arg 0 - 1))
  else if m = 104 then -- 'h' SM
    tsetmode s (decide (s.csiescseq.priv ≠ 0)) true (s.csiescseq.arg.take s.csiescseq.narg)
  else if m = 109 then -- 'm' SGR
    tsetattr s (s.csiescseq.arg.take s.csiescseq.narg)
  else if m = 114 then -- 'r' DECSTBM
    if s.csiescseq.priv ≠ 0 then s
    else
      let s := s.argDefault 0 1
      let s := s.argDefault 1 s.term.row
      let s := tsetscroll s (wrapInt (s.arg 0 - 1)) (wrapInt (s.arg 1 - 1))
      tmoveato s 0 0
  else if m = 115 then -- 's' DECSC
    tcursor s .CURSOR_SAVE
  else if m = 117 then -- 'u' DECRC
    tcursor s .CURSOR_LOAD
  else s

/-- The first `n` occurrences of `;` before the first NUL of a string are
replaced by NUL: the effect of the calls of `strsep` in `strparse` on the
buffer. -/
def strsepAll : Nat → List Nat → List Nat
  | _, [] => []
  | 0, b :: t => b :: t
  | n + 1, b :: t =>
    if b = 0 then b :: t
    else if b = 59 then 0 :: strsepAll n t
    else b :: strsepAll (n + 1) t

/-- Source: `strparse(void)`: `narg` is the number of fields found, at most
`STR_ARG_SIZ`. -/
def strparse (s : State) : State :=
  { s with strescseq := { s.strescseq with
      buf := strsepAll STR_ARG_SIZ s.strescseq.buf,
      narg := min STR_ARG_SIZ
        (((s.strescseq.buf.takeWhile (fun b => b ≠ 0)).filter (fun b => b = 59)).length + 1) } }

/-- Source: `strhandle(void)`. After `strparse` it only calls the window
system (`xsettitle`, `xsetcolorname`) or prints; the call `redraw(0)` after a
change of colour, which acts on the window and on the dirty flags of the
focused terminal only, is left out. -/
def strhandle (s : State) : State := strparse s

/-- The handling of a byte by `tputc` while a string sequence is collected
(`term->esc & ESC_STR`). `len` is not negative in any call of the source. -/
def tputcStr (s : State) (c : List Nat) (len : Int) : State :=
  let ascii := uch c
  if ascii = 27 then s.setEsc (ESC_START ||| ESC_STR_END)
  else if ascii = 7 then strhandle (s.setEsc 0)
  else if (s.strescseq.buf.length : Int) + len < (STR_BUF_SIZ : Int) - 1 then
    s.setStr { s.strescseq with buf := s.strescseq.buf ++ bytesAt c len.toNat }
  else s

/-- The `switch(ascii)` of `tputc` for control codes: the state after the
case and `true` when the case returns from `tputc` (every case of the switch
does; a control code without a case leaves the switch). The calls of
`xseturgency` have no effect on the state. -/
def tputcControl (s : State) (ascii : Nat) : State × Bool :=
  if ascii = 9 then (tputtab s true, true)
  else if ascii = 8 then (tmoveto s (s.term.c.x - 1) s.term.c.y, true)
  else if ascii = 13 then (tmoveto s 0 s.term.c.y, true)
  else if ascii = 12 ∨ ascii = 11 ∨ ascii = 10 then
    (tnewline s (decide (IS_SET s.term MODE_CRLF)), true)
  else if ascii = 7 then (s, true)
  else if ascii = 27 then ((csireset s).setEsc ESC_START, true)
  else if ascii = 14 ∨ ascii = 15 then (s, true)
  else if ascii = 26 ∨ ascii = 24 then (csireset s, true)
  else if ascii = 5 ∨ ascii = 0 ∨ ascii = 17 ∨ ascii = 19 ∨ ascii = 127 then (s, true)
  else (s, false)

/-- The DEC screen alignment test of `tputc`: every cell is set to `E` with
the cursor attribute, column by column. -/
def tputcAlign (s : State) : State :=
  forRange 0 (s.term.col - 1) (fun x s =>
    forRange 0 (s.term.row - 1) (fun y s => tsetchar s [69, 0, 0, 0] s.term.c.attr x y) s) s

/-- The assignment `term->c.attr.mode = m`. -/
def State.setAttrMode (s : State) (m : Nat) : State :=
  { s with term := { s.term with c := { s.term.c with attr := { s.term.c.attr with mode := m } } } }

/-- The handling of a byte by `tputc` inside an escape sequence
(`term->esc & ESC_START`, the byte not being a control code). The calls of
`xresettitle` have no effect on the state. -/
def tputcEsc (s : State) (ascii : Nat) : State :=
  if s.term.esc &&& ESC_CSI ≠ 0 then
    let s := s.setCsi { s.csiescseq with buf := s.csiescseq.buf ++ [ascii] }
    if (0x40 ≤ ascii ∧ ascii ≤ 0x7E) ∨ s.csiescseq.buf.length ≥ ESC_BUF_SIZ - 1 then
      csihandle (csiparse (s.setEsc 0))
    else s
  else if s.term.esc &&& ESC_STR_END ≠ 0 then
    let s := s.setEsc 0
    if ascii = 92 then strhandle s else s
  else if s.term.esc &&& ESC_ALTCHARSET ≠ 0 then
    let s :=
      if ascii = 48 then s.setAttrMode (s.term.c.attr.mode ||| ATTR_GFX)
      else if ascii = 66 then s.setAttrMode (andNot s.term.c.attr.mode ATTR_GFX)
      else s
    s.setEsc 0
  else if s.term.esc &&& ESC_TEST ≠ 0 then
    let s := if ascii = 56 then tputcAlign s else s
    s.setEsc 0
  else if ascii = 91 then s.setEsc (s.term.esc ||| ESC_CSI)
  else if ascii = 35 then s.setEsc (s.term.esc ||| ESC_TEST)
  else if ascii = 80 ∨ ascii = 95 ∨ ascii = 94 ∨ ascii = 93 ∨ ascii = 107 then
    let s := strreset s
    let s := s.setStr { s.strescseq with type := ascii }
    s.setEsc (s.term.esc ||| ESC_STR)
  else if ascii = 40 then s.setEsc (s.term.esc ||| ESC_ALTCHARSET)
  else if ascii = 41 ∨ ascii = 42 ∨ ascii = 43 then s.setEsc 0
  else if ascii = 68 then
    let s := if s.term.c.y = s.term.bot then tscrollup s s.term.top 1
      else tmoveto s s.term.c.x (s.term.c.y + 1)
    s.setEsc 0
  else if ascii = 69 then (tnewline s true).setEsc 0
  else if ascii = 72 then
    (s.setTabs (setIdx s.term.tabs s.term.c.x true)).setEsc 0
  else if ascii = 77 then
    let s := if s.term.c.y = s.term.top then tscrolldown s s.term.top 1
      else tmoveto s s.term.c.x (s.term.c.y - 1)
    s.setEsc 0
  else if ascii = 90 then (ttywrite s VT102ID).setEsc 0
  else if ascii = 99 then (treset s).setEsc 0
  else if ascii = 61 then (s.setMode (s.term.mode ||| MODE_APPKEYPAD)).setEsc 0
  else if ascii = 62 then (s.setMode (andNot s.term.mode MODE_APPKEYPAD)).setEsc 0
  else if ascii = 55 then (tcursor s .CURSOR_SAVE).setEsc 0
  else if ascii = 56 then (tcursor s .CURSOR_LOAD).setEsc 0
  else s.setEsc 0

/-- The end of `tputc`: the character is written at the cursor and the
cursor advances. -/
def tputcPrint (s : State) (c : List Nat) : State :=
  let s := if s.sel.bx ≠ -1 ∧ BETWEEN s.term.c.y s.sel.by_ s.sel.ey then
      s.setSel { s.sel with bx := -1 }
    else s
  let s := if IS_SET s.term MODE_WRAP ∧ s.term.c.state &&& CURSOR_WRAPNEXT ≠ 0 then
      let g := s.cell s.term.c.x s.term.c.y
      tnewline (s.setCell s.term.c.x s.term.c.y { g with mode := g.mode ||| ATTR_WRAP }) true
    else s
  let s := if IS_SET s.term MODE_INSERT ∧ s.term.c.x + 1 < s.term.col then
      s.setRow (idx s.term.line s.term.c.y 0)
        (memmoveRow (s.lineAt s.term.c.y) (s.term.c.x + 1) s.term.c.x
          (s.term.col - s.term.c.x - 1))
    else s
  let s := tsetchar s c s.term.c.attr s.term.c.x s.term.c.y
  if s.term.c.x + 1 < s.term.col then tmoveto s (s.term.c.x + 1) s.term.c.y
  else s.setCState (s.term.c.state ||| CURSOR_WRAPNEXT)

/-- Source: `tputc(Term *term, char *c, int len)`. `c` is the buffer the
pointer refers to. Nothing is written to `iofd` (no `-o` option). -/
def tputc (s : State) (c : List Nat) (len : Int) : State :=
  let ascii := uch c
  let control : Bool := ascii < 0x20 ∨ ascii = 0x7F
  if s.term.esc &&& ESC_STR ≠ 0 then tputcStr s c len
  else
    let r : State × Bool :=
      if control then tputcControl s ascii
      else if s.term.esc &&& ESC_START ≠ 0 then (tputcEsc s ascii, true)
      else (s, false)
    if r.2 then r.1
    else if control ∧ ¬ (r.1.term.c.attr.mode &&& ATTR_GFX ≠ 0) then r.1
    else tputcPrint r.1 c

/-! ## Reading from the pty -/

/-- One round of the loop of `ttyread` after `utf8decode` has returned
`d = (utf8c, charsize)`: `utf8encode(&utf8c, s); tputc(term, s, charsize)`.
The second component is the local buffer `char s[UTF_SIZ]`. -/
def ttyreadFeed (st : State × List Nat) (d : Nat × Nat) : State × List Nat :=
  let sbuf := (utf8encode d.1 st.2).1
  (tputc st.1 sbuf d.2, sbuf)

/-- Source: `ttyread(Term *term)` for a successful `read` that returned the
bytes `input`. The local buffer `s` starts as four zero bytes. While
`select_mode` is set the bytes read are not counted in `buflen`. -/
def ttyread (s : State) (input : List Nat) : State :=
  if s.select_mode then s
  else
    let s := if s.term.ybase < 0 then tscrollback s (-s.term.ybase) else s
    let r := ttyreadDecode (s.rdbuf ++ input)
    let st := r.1.foldl ttyreadFeed (s, [0, 0, 0, 0])
    { st.1 with rdbuf := r.2 }

/-- A state with every file-scope variable zero and the selection inactive
(`selinit`), before `tnew`. -/
def State.init (cfg : Config) : State :=
  { cfg := cfg, term := Term.zero,
    csiescseq := { buf := [], priv := 0, arg := List.replicate ESC_ARG_SIZ 0, narg := 0, mode := 0 },
    strescseq := { type := 0, buf := [], narg := 0 },
    sel := { mode := 0, type := 0, snap := 0, bx := -1, by_ := 0, ex := 0, ey := 0,
             b := ⟨0, 0⟩, e := ⟨0, 0⟩, alt := false },
    saved := { attr := Glyph.zero, x := 0, y := 0, state := 0 },
    heap := [[]], ttyout := [], rdbuf := [], select_mode := false }

/-- The bytes of a string are fed to `tputc` one by one, each as a buffer of
`UTF_SIZ` bytes holding the byte followed by zeros, with `len = 1`. -/
def tputs (s : State) (bytes : List Nat) : State :=
  bytes.foldl (fun s b => tputc s [b, 0, 0, 0] 1) s

/-- The first byte of each cell of row `y` of the current screen. -/
def State.rowText (s : State) (y : Int) : List Nat := (s.lineAt y).map (fun g => g.c.headD 0)

/-! ## Reachable states and the invariant -/

/-- One call of an entry point of the terminal engine: `tputc` with any
buffer and length, `tscrollback` with any count, `tresize` with any size, or
an insertion into the scrollback by `scrollback_add`. -/
inductive Step : State → State → Prop
  | putc (s : State) (c : List Nat) (len : Int) : Step s (tputc s c len)
  | scrollback (s : State) (n : Int) : Step s (tscrollback s n)
  | resize (s : State) (col row : Int) : Step s (tresize s col row).1
  | sbadd (s : State) (l : Nat) : Step s (scrollback_add s l)

/-- The states reachable from `tnew(col, row)` with `col, row >= 1`, called
on any state of the file-scope variables, by any sequence of steps. -/
inductive Reachable : State → Prop
  | init (s0 : State) (col row : Int) : 1 ≤ col → 1 ≤ row → Reachable (tnew s0 col row)
  | step (s t : State) : Reachable s → Step s t → Reachable t

/-- The part of the state the invariant speaks about. -/
structure Core where
  col : Int
  row : Int
  cx : Int
  cy : Int
  cstate : Nat
  top : Int
  bot : Int
  ybase : Int
  sb : ScrollbackList
  deriving DecidableEq, Repr

/-- The part of a state the invariant speaks about. -/
def core (s : State) : Core :=
  { col := s.term.col, row := s.term.row, cx := s.term.c.x, cy := s.term.c.y,
    cstate := s.term.c.state, top := s.term.top, bot := s.term.bot,
    ybase := s.term.ybase, sb := s.term.sb }

/-- The invariant on the geometry: the grid is not empty, the scroll region
lies inside it, and the view base lies between minus the scrollback count
and zero. -/
def Core.geom (k : Core) : Prop :=
  1 ≤ k.col ∧ 1 ≤ k.row ∧ 0 ≤ k.top ∧ k.top ≤ k.bot ∧ k.bot < k.row ∧
    -k.sb.total ≤ k.ybase ∧ k.ybase ≤ 0

/-- The invariant on the cursor: it lies inside the grid, and it is in the
last column whenever `CURSOR_WRAPNEXT` is set. -/
def Core.curs (k : Core) : Prop :=
  0 ≤ k.cx ∧ k.cx < k.col ∧ 0 ≤ k.cy ∧ k.cy < k.row ∧
    (k.cstate &&& CURSOR_WRAPNEXT ≠ 0 → k.cx = k.col - 1)

/-- The invariant of the terminal engine. -/
def TermInv (s : State) : Prop := (core s).geom ∧ (core s).curs

/-- The scrollback of the state is `sb0` and the view is off the live edge
(`ybase != 0`). -/
def Frozen (sb0 : ScrollbackList) (s : State) : Prop :=
  s.term.sb = sb0 ∧ s.term.ybase ≠ 0

/-! ## Example states -/

/-- A configuration with the values of the stock `config.def.h`: default
foreground 7, default background 0, a tab stop every 8 columns, alternate
screen allowed. -/
def exampleConfig : Config :=
  { defaultfg := 7, defaultbg := 0, tabspaces := 8, allowaltscreen := true }

/-- A terminal of 2 columns and 2 rows after the bytes `ESC [ ? 1 0 4 9 h`
and a line feed: the alternate screen is active and the cursor is on the
bottom row. -/
def altScreenExample : State :=
  tputs (tnew (State.init exampleConfig) 2 2) [27, 91, 63, 49, 48, 52, 57, 104, 10]

/-- A terminal of 4 columns and 2 rows after the bytes `abcde`, which wrap
after the fourth column. -/
def wrappedExample : State :=
  tputs (tnew (State.init exampleConfig) 4 2) [97, 98, 99, 100, 101]

/-- The state `wrappedExample` after `ESC [ H` (cursor home) and `ESC [ P`
(delete one character). -/
def wrapDeleteExample : State := tputs wrappedExample [27, 91, 72, 27, 91, 80]

/-- A terminal of 2 columns and 2 rows after three line feeds, with the view
moved by `tscrollback(-5)`. -/
def scrolledExample : State :=
  tscrollback (tputs (tnew (State.init exampleConfig) 2 2) [10, 10, 10]) (-5)

/-! ## The wrap indicator -/

/-- The cell `term->alt[y][x]` of the other screen. -/
def State.altCell (s : State) (x y : Int) : Glyph :=
  idx (rowAt s.heap (idx s.term.alt y 0)) x Glyph.zero

/-- No cell of the row before column `col - 1` carries `ATTR_WRAP`. -/
def GoodRow (col : Int) (r : List Glyph) : Prop :=
  ∀ x : Int, x < col - 1 → (idx r x Glyph.zero).mode &&& ATTR_WRAP = 0

/-- No row of the heap carries `ATTR_WRAP` before column `col - 1`. -/
def RowsOk (col : Int) (heap : List (List Glyph)) : Prop :=
  ∀ r ∈ heap, GoodRow col r

/-- The cursor attribute and the saved cursor attribute do not carry
`ATTR_WRAP`, and no row in memory carries `ATTR_WRAP` before column
`col - 1`. -/
def WrapOk (s : State) : Prop :=
  s.term.c.attr.mode &&& ATTR_WRAP = 0 ∧ s.saved.attr.mode &&& ATTR_WRAP = 0 ∧
    RowsOk s.term.col s.heap

/-- The invariant on the wrap indicator: the terminal invariant together
with `WrapOk`. -/
def WrapInv (s : State) : Prop := TermInv s ∧ WrapOk s

/-- The state that a call `tputc(term, c, len)` hands to `csihandle` after
`csiparse`, if the call completes a CSI sequence: no string sequence is
being collected, the byte is not a control code, a CSI sequence is being
collected, and the byte is a final byte or fills the buffer. -/
def tputcDispatch (s : State) (c : List Nat) : Option State :=
  if s.term.esc &&& ESC_STR = 0 ∧ ¬ (uch c < 0x20 ∨ uch c = 0x7F) ∧
      s.term.esc &&& ESC_START ≠ 0 ∧ s.term.esc &&& ESC_CSI ≠ 0 ∧
      ((0x40 ≤ uch c ∧ uch c ≤ 0x7E) ∨
        (s.csiescseq.buf ++ [uch c]).length ≥ ESC_BUF_SIZ - 1) then
    some (csiparse ((s.setCsi { s.csiescseq with buf := s.csiescseq.buf ++ [uch c] }).setEsc 0))
  else none

/-- The CSI sequence parsed in `q` moves cells of the cursor row to the
left: it is `CSI P` (`tdeletechar`), or `CSI @` (`tinsertblank`) with a
count for which the destination `c.x + n` precedes the cursor. -/
def shiftsLeft (q : State) : Prop :=
  q.csiescseq.mode = 80 ∨
    (q.csiescseq.mode = 64 ∧
      wrapInt (q.term.c.x + (q.argDefault 0 1).arg 0) < q.term.c.x)

instance (q : State) : Decidable (shiftsLeft q) := by unfold shiftsLeft; infer_instance

/-- One call of `tputc` that does not move cells to the left, of
`tscrollback`, or of `tresize` to a width that is not larger. -/
inductive WrapStep : State → State → Prop
  | putc (s : State) (c : List Nat) (len : Int) :
      (∀ q, tputcDispatch s c = some q → ¬ shiftsLeft q) → WrapStep s (tputc s c len)
  | scrollback (s : State) (n : Int) : WrapStep s (tscrollback s n)
  | resize (s : State) (col row : Int) : col ≤ s.term.col → WrapStep s (tresize s col row).1

/-- The states reachable from `tnew(col, row)` with `col, row >= 1`, called
at program start, by steps that do not move cells to the left and do not
widen the grid. -/
inductive WrapReachable : State → Prop
  | init (cfg : Config) (col row : Int) : 1 ≤ col → 1 ≤ row →
      WrapReachable (tnew (State.init cfg) col row)
  | step (s t : State) : WrapReachable s → WrapStep s t → WrapReachable t

/-- The call `tputc(term, c, len)` completes no CSI sequence that moves
cells to the left. -/
def keepsColumns (s : State) (c : List Nat) : Bool :=
  match tputcDispatch s c with
  | none => true
  | some q => decide (¬ shiftsLeft q)

/-- No byte of the string, fed to `tputc` as by `tputs`, completes a CSI
sequence that moves cells to the left. -/
def tputsKeepsColumns : State → List Nat → Bool
  | _, [] => true
  | s, b :: t => keepsColumns s [b, 0, 0, 0] && tputsKeepsColumns (tputc s [b, 0, 0, 0] 1) t

/-! ## Well-formed grids and observations -/

/-- The value `x` clamped to the interval `[lo, hi]`. -/
def clamp (x lo hi : Int) : Int := max lo (min x hi)

/-- The grid of the current screen is well formed: it has at least one
column and one row, `line` and `dirty` have `row` entries, the row pointers
of `line` are pairwise distinct, and each of them points to a row of `col`
cells. -/
def GridOk (s : State) : Prop :=
  1 ≤ s.term.col ∧ 1 ≤ s.term.row ∧
  s.term.line.length = s.term.row.toNat ∧ s.term.dirty.length = s.term.row.toNat ∧
  s.term.line.Nodup ∧ ∀ p ∈ s.term.line, (rowAt s.heap p).length = s.term.col.toNat

instance (s : State) : Decidable (GridOk s) := by unfold GridOk; infer_instance

/-- A freshly reset terminal in the ground state: the grid is well formed
and, as `treset` leaves it, the cursor is at (0, 0) with the default state
and a null attribute mode, the scroll region is the whole grid, the mode is
`MODE_WRAP`, and every row holds blank glyphs of the cursor attribute; the
escape state is 0. -/
def Fresh (s : State) : Prop :=
  GridOk s ∧ s.term.c.x = 0 ∧ s.term.c.y = 0 ∧ s.term.c.state = CURSOR_DEFAULT ∧
  s.term.c.attr.mode = ATTR_NULL ∧ s.term.top = 0 ∧ s.term.bot = s.term.row - 1 ∧
  s.term.mode = MODE_WRAP ∧ s.term.esc = 0 ∧
  ∀ p ∈ s.term.line,
    rowAt s.heap p = List.replicate s.term.col.toNat (blankGlyph s.term.c.attr)

instance (s : State) : Decidable (Fresh s) := by unfold Fresh; infer_instance

/-- The rows of the other screen of `s0` are kept in `t`: `t` has the `alt`
pointers, the saved cursor, the configuration, the size, the scroll region,
the modes and the escape state of `s0`; the rows that `alt` points to are
allocated in `s0` and have in `t` the contents they have in `s0`; no row
pointer of the current screen of `t` is one of them. -/
def AltKept (s0 t : State) : Prop :=
  t.term.alt = s0.term.alt ∧ t.saved = s0.saved ∧ t.cfg = s0.cfg ∧
  t.term.col = s0.term.col ∧ t.term.row = s0.term.row ∧ t.term.top = s0.term.top ∧
  t.term.bot = s0.term.bot ∧ t.term.mode = s0.term.mode ∧ t.term.esc = s0.term.esc ∧
  s0.heap.length ≤ t.heap.length ∧
  (∀ a ∈ s0.term.alt, a < s0.heap.length ∧ rowAt t.heap a = rowAt s0.heap a) ∧
  (∀ y, idx t.term.line y 0 ∉ s0.term.alt)

/-- The scrollback list is well formed: `total` counts its entries and does
not exceed `SCROLLBACK`. -/
def SbOk (sb : ScrollbackList) : Prop :=
  (sb.entries.length : Int) = sb.total ∧ sb.total ≤ SCROLLBACK

instance (sb : ScrollbackList) : Decidable (SbOk sb) := by unfold SbOk; infer_instance

/-- The contents of the scrollback lines, most recent first. -/
def State.sbLines (s : State) : List (List Glyph) :=
  s.term.sb.entries.map (fun e => rowAt s.heap e.line)

/-- The state `t` with the heap, the selection and the dirty flags of `s`:
two states agree on everything else when their images agree. -/
def State.withGridOf (t s : State) : State :=
  { t with heap := s.heap, sel := s.sel, term := { t.term with dirty := s.term.dirty } }

/-- The states agree on the size of the grid, the scroll region, the modes,
the escape state and the cursor attribute. -/
def SameSetup (s t : State) : Prop :=
  t.term.col = s.term.col ∧ t.term.row = s.term.row ∧ t.term.top = s.term.top ∧
  t.term.bot = s.term.bot ∧ t.term.mode = s.term.mode ∧ t.term.esc = s.term.esc ∧
  t.term.c.attr = s.term.c.attr

/-- The state `t` is the state `s` after the cells in columns `xa..xb` of
the rows `ya..yb` of the current screen were overwritten with the blank
glyph of the cursor attribute: outside the heap, the selection and the dirty
flags the two states agree; rows keep their length; a row that is none of
`line[ya..yb]` and a column outside `xa..xb` keep their cells; the cells in
the rectangle hold the blank glyph; dirty flags are only set, and are set
for the rows `ya..yb`; `sel.bx` is kept or set to -1, and is -1 if a cell of
the rectangle was selected. -/
def Cleared (s t : State) (xa xb ya yb : Int) : Prop :=
  (∀ v : State, t.withGridOf v = s.withGridOf v) ∧
  t.heap.length = s.heap.length ∧
  (∀ q, (∀ y, ya ≤ y → y ≤ yb → q ≠ idx s.term.line y 0) → rowAt t.heap q = rowAt s.heap q) ∧
  (∀ q, (rowAt t.heap q).length = (rowAt s.heap q).length) ∧
  (∀ q x, ¬ (xa ≤ x ∧ x ≤ xb) →
    idx (rowAt t.heap q) x Glyph.zero = idx (rowAt s.heap q) x Glyph.zero) ∧
  (∀ x y, ya ≤ y → y ≤ yb → xa ≤ x → x ≤ xb → 0 ≤ x →
    x.toNat < (rowAt s.heap (idx s.term.line y 0)).length →
    idx (rowAt t.heap (idx s.term.line y 0)) x Glyph.zero = blankGlyph s.term.c.attr) ∧
  t.term.dirty.length = s.term.dirty.length ∧
  (∀ i, idx s.term.dirty i false = true → idx t.term.dirty i false = true) ∧
  (∀ y, ya ≤ y → y ≤ yb → 0 ≤ y → y.toNat < s.term.dirty.length →
    idx t.term.dirty y false = true) ∧
  (t.sel = s.sel ∨ t.sel = { s.sel with bx := -1 }) ∧
  (∀ x y, ya ≤ y → y ≤ yb → xa ≤ x → x ≤ xb → selected s.sel x y → t.sel.bx = -1)

/-- The first byte of each cell of the `k`-th scrollback line, 0 being the
most recent one. -/
def State.sbText (s : State) (k : Nat) : List Nat :=
  (s.sbLines.getD k []).map (fun g => g.c.headD 0)

/-! ## More example states -/

/-- A terminal of 3 columns and 2 rows right after `tnew`, with the cursor
moved to (0, 1). -/
def scrollExample : State := tmoveto (tnew (State.init exampleConfig) 3 2) 0 1

/-- A terminal of 3 columns and 3 rows after the bytes `A CR LF B CR LF C`:
its rows start with `A`, `B` and `C`. -/
def rowsExample : State :=
  tputs (tnew (State.init exampleConfig) 3 3) [65, 13, 10, 66, 13, 10, 67]

/-- A terminal of 5 columns and 3 rows filled with `X`. -/
def filledExample : State :=
  tputs (tnew (State.init exampleConfig) 5 3) (List.replicate 15 88)

/-- A terminal of 3 columns and 2 rows after the bytes `PPPPP`. -/
def primaryExample : State := tputs (tnew (State.init exampleConfig) 3 2) [80, 80, 80, 80, 80]

/-- A terminal of 3 columns and 3 rows after `A CR LF B CR LF C CR LF D`, a
look at the scrollback and back (`tscrollback(-1)`, `tscrollback(1)`), and
`CR LF E CR LF F`: the live rows start with `D`, `E` and `F`, and the
scrollback holds the lines of `C`, `B` and `A`. -/
def aliasExample : State :=
  tputs (tscrollback (tscrollback
    (tputs (tnew (State.init exampleConfig) 3 3) [65, 13, 10, 66, 13, 10, 67, 13, 10, 68])
    (-1)) 1) [13, 10, 69, 13, 10, 70]

/-- The snapshot rows of `tscrollback` are buffers of their own: `last_line`
has `row` row pointers, pairwise distinct, each pointing to a row of `col`
cells that is neither a row of the current screen nor a scrollback line; and
every scrollback line was recorded with the current width. -/
def SnapshotOk (s : State) : Prop :=
  s.term.last_line.length = s.term.row.toNat ∧ s.term.last_line.Nodup ∧
  (∀ p ∈ s.term.last_line, (rowAt s.heap p).length = s.term.col.toNat ∧
    p ∉ s.term.line ∧ ∀ e ∈ s.term.sb.entries, e.line ≠ p) ∧
  ∀ e ∈ s.term.sb.entries, e.col = s.term.col

instance (s : State) : Decidable (SnapshotOk s) := by unfold SnapshotOk; infer_instance

/-- The row pointer that the mapping loop of `tscrollback` stores in
`term->line[i]`: a scrollback line above the live screen, a snapshot row
below (0 when there is none). -/
def viewRow (s : State) (i : Int) : Nat :=
  if i + s.term.ybase < 0 then
    (s.term.sb.entries.map (fun e => e.line)).getD (-(i + s.term.ybase + 1)).toNat 0
  else idx s.term.last_line (i + s.term.ybase) 0

/-- A 3 x 2 terminal after the text `AAA`, `BBB`, `CCC` with CR LF line ends,
written from the bottom row: the scrollback head is `AAA`, the rows are `BBB`
and `CCC`. -/
def evictedExample : State :=
  tputs scrollExample [65, 65, 65, 13, 10, 66, 66, 66, 13, 10, 67, 67, 67]

/-! ## Examples and notions for the view, selections and tabs -/

/-- The view base of the state is `yb`. -/
def YKept (yb : Int) (s : State) : Prop := s.term.ybase = yb

/-- The state `scrolledExample` while `select_mode` is set. -/
def selectingExample : State := { scrolledExample with select_mode := true }

/-- The 3 x 3 terminal `rowsExample` with a regular selection from (1, 0) to
(2, 1). -/
def selectedExample : State :=
  { rowsExample with
    sel := { mode := 0, type := SEL_REGULAR, snap := 0, bx := 1, by_ := 0, ex := 2, ey := 1,
             b := ⟨1, 0⟩, e := ⟨2, 1⟩, alt := false } }

/-- The 3 x 3 terminal `rowsExample` with a regular selection made upwards,
from (1, 2) to (2, 1). -/
def selectedUpExample : State :=
  { rowsExample with
    sel := { mode := 0, type := SEL_REGULAR, snap := 0, bx := 1, by_ := 2, ex := 2, ey := 1,
             b := ⟨2, 1⟩, e := ⟨1, 2⟩, alt := false } }

/-- The value of a string of decimal digits, 0 for the empty string. -/
def digitsValue (ds : List Nat) : Int :=
  ds.foldl (fun (acc : Int) (d : Nat) => acc * 10 + ((d : Int) - 48)) 0

/-- The parameters `p1 ; p2 ; ... ; pk` of a control sequence followed by the
final byte. -/
def csiBody : List (List Nat) → Nat → List Nat
  | [], final => [final]
  | [p], final => p ++ [final]
  | p :: q :: rest, final => p ++ 59 :: csiBody (q :: rest) final

/-- The bytes of a control sequence after `ESC [`: an optional `?`, the
parameters separated by `;`, and the final byte. -/
def csiBytes (priv : Bool) (ps : List (List Nat)) (final : Nat) : List Nat :=
  (if priv then [63] else []) ++ csiBody ps final

/-- A state whose control sequence buffer holds `?25;;7h`, after
`csireset`. -/
def csiExample : State :=
  (csireset (State.init exampleConfig)).setCsi
    { (csireset (State.init exampleConfig)).csiescseq with
      buf := csiBytes true [[50, 53], [], [55]] 104 }

/-! ## Tabs -/

/-- Source: the file-scope variables `terms` and `focused_term`. `terms` is
the list of terminals linked by `Term.next`, in list order, each named by its
pointer; `focused` is the pointer `focused_term`. -/
structure Tabs where
  terms : List Nat
  focused : Nat
  deriving DecidableEq, Repr

/-- Source: `EXIT_SUCCESS`. -/
abbrev EXIT_SUCCESS : Int := 0

/-- How a call of `term_remove` ends: it returns, or the process ends by
`exit(status)`, or by `die("no terminal found\n")`. -/
inductive Removal where
  | running (t : Tabs)
  | exited (status : Int)
  | died
  deriving DecidableEq, Repr

/-- The loop `for (term = terms; term; term = term->next) { if (term->next ==
target) break; }` of `term_remove`, for a target that is not `NULL`: the
terminal found, `none` for `NULL`. -/
def termBefore : List Nat → Nat → Option Nat
  | a :: b :: rest, target => if b = target then some a else termBefore (b :: rest) target
  | _, _ => none

/-- The assignment `term->next = target->next` of `term_remove`, `term` being
the first terminal whose successor is `target`: the list without that
successor. -/
def termUnlink : List Nat → Nat → List Nat
  | a :: b :: rest, target => if b = target then a :: rest else a :: termUnlink (b :: rest) target
  | l, _ => l

/-- Source: `term_remove(Term *target)`, for a target that is not `NULL`. The
calls `free(target)`, `cresize(0, 0)` and `redraw(0)` that follow do not touch
`terms` and `focused_term`. -/
def term_remove (t : Tabs) (target : Nat) : Removal :=
  if t.terms.head? = some target then
    if t.terms.tail = [] then .exited EXIT_SUCCESS
    else .running { terms := t.terms.tail, focused := t.terms.tail.headD 0 }
  else
    match termBefore t.terms target with
    | none => .died
    | some term => .running { terms := termUnlink t.terms target, focused := term }

/-! ## Mouse selection -/

/-- Source: `enum selection_snap`. -/
abbrev SNAP_WORD : Int := 1
/-- Source: `enum selection_snap`. -/
abbrev SNAP_LINE : Int := 2

/-- Source: `Button1Mask` of `X11/X.h`. -/
abbrev Button1Mask : Nat := 256
/-- Source: `#define XK_ANY_MOD UINT_MAX`. -/
abbrev XK_ANY_MOD : Nat := 0xFFFFFFFF
/-- Source: `#define XK_NO_MOD 0`. -/
abbrev XK_NO_MOD : Nat := 0

/-- The values of `config.h` and of the window `xw` that the mouse handlers
read: `borderpx`, the cell size `xw.cw` and `xw.ch` (not zero), the bytes of
`worddelimiters`, the two click timeouts in milliseconds, the array `selmasks`
and `ignoremod`. -/
structure MouseConfig where
  borderpx : Int
  cw : Int
  ch : Int
  worddelimiters : List Nat
  doubleclicktimeout : Int
  tripleclicktimeout : Int
  selmasks : List Nat
  ignoremod : Nat
  deriving DecidableEq, Repr

/-- Source: the members `x`, `y`, `button` and `state` of `XButtonEvent`. -/
structure XButtonEvent where
  x : Int
  y : Int
  button : Nat
  state : Nat
  deriving DecidableEq, Repr

/-- Source: `struct timeval`. -/
structure Timeval where
  sec : Int
  usec : Int
  deriving DecidableEq, Repr

/-- Source: `#define TIMEDIFF(t1, t2)`, in milliseconds. -/
def TIMEDIFF (t1 t2 : Timeval) : Int :=
  (t1.sec - t2.sec) * 1000 + Int.tdiv (t1.usec - t2.usec) 1000

/-- The state of the mouse handlers: the state of the focused terminal with
the selection, and the members of `sel` that `State` does not keep, the click
times `sel.tclick1`, `sel.tclick2` and the string `sel.clip` (`none` for
`NULL`, else the bytes before the terminating NUL). -/
structure Mouse where
  st : State
  tclick1 : Timeval
  tclick2 : Timeval
  clip : Option (List Nat)
  deriving DecidableEq, Repr

/-- Source: `x2col(Term *term, int x)`; the division of C truncates. -/
def x2col (cf : MouseConfig) (term : Term) (x : Int) : Int :=
  LIMIT (Int.tdiv (wrapInt (x - cf.borderpx)) cf.cw) 0 (term.col - 1)

/-- Source: `y2row(Term *term, int y)`. -/
def y2row (cf : MouseConfig) (term : Term) (y : Int) : Int :=
  LIMIT (Int.tdiv (wrapInt (y - cf.borderpx)) cf.ch) 0 (term.row - 1)

/-- Source: `strchr(worddelimiters, c)` is not `NULL`: the byte is one of the
delimiters, or the terminating NUL of the string. -/
def isDelimiter (cf : MouseConfig) (c : Nat) : Bool := c ∈ cf.worddelimiters ∨ c = 0

/-- Source: the loop `for(;;)` of the case `SNAP_WORD` of `selsnap`, from the
position `(x, y)`: the position at the `break`, `none` when the rounds allowed
are used up. A round that goes on moves the position by at least one cell in
the direction of the snap. -/
def selsnapWord (cf : MouseConfig) (s : State) (direction : Int) :
    Nat → Int → Int → Option (Int × Int)
  | 0, _, _ => none
  | fuel + 1, x, y =>
    if direction < 0 ∧ x ≤ 0 ∧
        ¬ (y > 0 ∧ (s.cell (s.term.col - 1) (y - 1)).mode &&& ATTR_WRAP ≠ 0) then some (x, y)
    else
      let p : Int × Int := if direction < 0 ∧ x ≤ 0 then (s.term.col - 1, y - 1) else (x, y)
      if direction > 0 ∧ p.1 ≥ s.term.col - 1 ∧
          ¬ (p.2 < s.term.row - 1 ∧ (s.cell p.1 p.2).mode &&& ATTR_WRAP ≠ 0) then some p
      else
        let q : Int × Int := if direction > 0 ∧ p.1 ≥ s.term.col - 1 then (0, p.2 + 1) else p
        if isDelimiter cf ((s.cell (q.1 + direction) q.2).c.headD 0) then some q
        else selsnapWord cf s direction fuel (q.1 + direction) q.2

/-- Source: the loop `for(; *y > 0; *y += direction)` of the case `SNAP_LINE`
of `selsnap` for `direction = -1`: the final `*y`. The loop ends at `*y = 0`
at the latest, so `fuel = *y` rounds are enough. -/
def selsnapLineUp (s : State) : Nat → Int → Int
  | 0, y => y
  | fuel + 1, y =>
    if y > 0 ∧ (s.cell (s.term.col - 1) (y - 1)).mode &&& ATTR_WRAP ≠ 0 then
      selsnapLineUp s fuel (y - 1)
    else y

/-- Source: the loop `for(; *y < focused_term->row; *y += direction)` of the
case `SNAP_LINE` of `selsnap` for `direction = 1`: the final `*y`. The loop
ends at `*y = row` at the latest, so `fuel = row - *y` rounds are enough. -/
def selsnapLineDown (s : State) : Nat → Int → Int
  | 0, y => y
  | fuel + 1, y =>
    if y < s.term.row ∧ (s.cell (s.term.col - 1) y).mode &&& ATTR_WRAP ≠ 0 then
      selsnapLineDown s fuel (y + 1)
    else y

/-- Source: the loop `while(--i > 0 && focused_term->line[y][i].c[0] == ' ')`
of `selsnap` and `selcopy`: the final `i`, the argument being the value of `i`
before the loop. -/
def textEndFrom (s : State) (y : Int) : Nat → Int
  | 0 => -1
  | 1 => 0
  | n + 2 =>
    if (s.cell ((n : Int) + 1) y).c.headD 0 = 32 then textEndFrom s y (n + 1)
    else (n : Int) + 1

/-- Source: `i = focused_term->col; while(--i > 0 && ...)`: the column of
the last cell of row `y` that is not a space, 0 when there is none after
column 0. -/
def textEnd (s : State) (y : Int) : Int :=
  if s.term.col ≤ 0 then s.term.col - 1 else textEndFrom s y s.term.col.toNat

/-- Source: `selsnap(int mode, int *x, int *y, int direction)`, on the
focused terminal: the new `(*x, *y)`. -/
def selsnap (cf : MouseConfig) (s : State) (mode : Int) (x y : Int) (direction : Int) :
    Option (Int × Int) :=
  if mode = SNAP_WORD then
    selsnapWord cf s direction ((s.term.col * s.term.row).toNat + 1) x y
  else if mode = SNAP_LINE then
    let x1 := if direction < 0 then 0 else s.term.col - 1
    if direction < 0 ∧ y > 0 then some (x1, selsnapLineUp s y.toNat y)
    else if direction > 0 ∧ y < s.term.row - 1 then
      some (x1, selsnapLineDown s (s.term.row - y).toNat y)
    else some (x1, y)
  else if direction > 0 ∧ textEnd s y > 0 ∧ textEnd s y < x then some (s.term.col - 1, y)
  else some (x, y)

/-- Source: `match(uint mask, uint state)`. -/
def match_ (cf : MouseConfig) (mask state : Nat) : Bool :=
  if mask = XK_NO_MOD ∧ andNot state cf.ignoremod ≠ 0 then false
  else if mask ≠ XK_ANY_MOD ∧ mask ≠ XK_NO_MOD ∧ andNot state cf.ignoremod = 0 then false
  else if (andNot state cf.ignoremod) &&& mask ≠ andNot state cf.ignoremod then false
  else true

/-- Source: the loop `for(type = 1; type < LEN(selmasks); ++type)` of
`getbuttoninfo`, after `sel.type = SEL_REGULAR`: the final `sel.type`. -/
def selTypeFor (cf : MouseConfig) (state : Nat) : Int :=
  match ((List.range cf.selmasks.length).drop 1).find?
      (fun t => match_ cf (cf.selmasks.getD t 0) state) with
  | some t => (t : Int)
  | none => SEL_REGULAR

/-- Source: `getbuttoninfo(XEvent *e)`, on the focused terminal; `none` when
a word snap uses up its rounds. -/
def getbuttoninfo (cf : MouseConfig) (s : State) (e : XButtonEvent) : Option State :=
  let sel0 : Selection :=
    { s.sel with
      alt := decide (IS_SET s.term MODE_ALTSCREEN),
      ex := x2col cf s.term e.x, ey := y2row cf s.term e.y }
  let ends : Option ((Int × Int) × (Int × Int)) :=
    if sel0.by_ < sel0.ey ∨ (sel0.by_ = sel0.ey ∧ sel0.bx < sel0.ex) then
      match selsnap cf s sel0.snap sel0.bx sel0.by_ (-1) with
      | none => none
      | some b =>
        match selsnap cf s sel0.snap sel0.ex sel0.ey 1 with
        | none => none
        | some en => some (b, en)
    else
      match selsnap cf s sel0.snap sel0.ex sel0.ey (-1) with
      | none => none
      | some en =>
        match selsnap cf s sel0.snap sel0.bx sel0.by_ 1 with
        | none => none
        | some b => some (b, en)
  match ends with
  | none => none
  | some (b, en) =>
    some { s with sel :=
      { sel0 with
        bx := b.1, by_ := b.2, ex := en.1, ey := en.2,
        b := ⟨if b.2 < en.2 then b.1 else en.1, MIN b.2 en.2⟩,
        e := ⟨if b.2 < en.2 then en.1 else b.1, MAX b.2 en.2⟩,
        type := selTypeFor cf (andNot e.state Button1Mask) } }

/-- Source: `strcmp(g->c, " ") != 0` on the bytes of a glyph. -/
def notBlank (g : Glyph) : Bool := ¬ (g.c.headD 0 = 32 ∧ g.c.getD 1 0 = 0)

/-- Source: the loop `while(--last >= gp && !(selected(last - gp, y) &&
strcmp(last->c, " ") != 0))` of `selcopy`: the final `last - gp`, the argument
being its value before the loop; -1 when no cell of the row is selected and
not blank. -/
def selcopyLast (s : State) (y : Int) : Nat → Int
  | 0 => -1
  | n + 1 =>
    if selected s.sel (n : Int) y ∧ notBlank (s.cell (n : Int) y) = true then (n : Int)
    else selcopyLast s y n

/-- Source: the loop `for(x = 0; gp <= last; x++, ++gp)` of `selcopy`: the
bytes of the selected cells of row `y` up to column `last`, `utf8size` bytes
for each cell. -/
def selcopyCells (s : State) (y : Int) (last : Int) : List Nat :=
  (List.range (last + 1).toNat).flatMap (fun (x : Nat) =>
    if selected s.sel (x : Int) y then
      (s.cell (x : Int) y).c.take (utf8size (s.cell (x : Int) y).c).toNat
    else [])

/-- Source: one round of the loop `for(y = sel.b.y; y < sel.e.y + 1; y++)` of
`selcopy`: the bytes appended for row `y`. The test for the line break reads
`(gp-1)->mode`, the last cell copied; a read before the row gives a zero
glyph. -/
def selcopyRow (s : State) (y : Int) : List Nat :=
  let last := selcopyLast s y s.term.col.toNat
  selcopyCells s y last ++
    (if y < s.sel.e.y ∧ (s.cell last y).mode &&& ATTR_WRAP = 0 then [10] else []) ++
    (if y = s.sel.e.y ∧
        textEnd s y < (if s.sel.b.y = s.sel.e.y ∧ s.sel.e.x < s.sel.b.x then s.sel.b.x
          else s.sel.e.x) then [10] else [])

/-- Source: `selcopy(void)`, on the focused terminal: the string handed to
`xsetsel`, `none` for `NULL`. -/
def selcopy (s : State) : Option (List Nat) :=
  if s.sel.bx = -1 then none
  else some ((List.range (s.sel.e.y - s.sel.b.y + 1).toNat).flatMap
    (fun (k : Nat) => selcopyRow s (s.sel.b.y + (k : Int))))

/-- Source: the block `if(e->xbutton.button == Button1)` of `bpress`, which
runs when `MODE_MOUSE` is clear and no entry of `mshortcuts` matches the
event; `now` is the time read by `gettimeofday`. -/
def bpressButton1 (cf : MouseConfig) (m : Mouse) (e : XButtonEvent) (now : Timeval) :
    Option Mouse :=
  let s := m.st
  let s := if s.sel.bx ≠ -1 then
      tsetdirt { s with sel := { s.sel with bx := -1 } } s.sel.b.y s.sel.e.y
    else s
  let snap : Int :=
    if TIMEDIFF now m.tclick2 ≤ cf.tripleclicktimeout then SNAP_LINE
    else if TIMEDIFF now m.tclick1 ≤ cf.doubleclicktimeout then SNAP_WORD
    else 0
  let x := x2col cf s.term e.x
  let y := y2row cf s.term e.y
  match selsnap cf s snap x y (-1) with
  | none => none
  | some b =>
    match selsnap cf s snap x y 1 with
    | none => none
    | some en =>
      let sel : Selection :=
        { s.sel with
          mode := if snap ≠ 0 then 2 else 1, type := SEL_REGULAR, snap := snap,
          bx := b.1, by_ := b.2, ex := en.1, ey := en.2,
          b := ⟨b.1, b.2⟩, e := ⟨en.1, en.2⟩ }
      let s := { s with sel := sel }
      let s := if snap ≠ 0 then tsetdirt s sel.b.y sel.e.y else s
      some { m with st := s, tclick2 := m.tclick1, tclick1 := now }

/-- Source: `bmotion(XEvent *e)` while `MODE_MOUSE` is clear. -/
def bmotion (cf : MouseConfig) (m : Mouse) (e : XButtonEvent) : Option Mouse :=
  let s := m.st
  if s.sel.mode = 0 then some m
  else
    let s1 := { s with sel := { s.sel with mode := wrapInt (s.sel.mode + 1) } }
    match getbuttoninfo cf s1 e with
    | none => none
    | some t =>
      let u := if s.sel.ey ≠ t.sel.ey ∨ s.sel.ex ≠ t.sel.ex then
          tsetdirt t (MIN t.sel.b.y s.sel.b.y) (MAX t.sel.e.y s.sel.e.y)
        else t
      some { m with st := u }

/-- Source: the branch `else if(e->xbutton.button == Button1)` of `brelease`,
taken when `MODE_MOUSE` is clear; `selcopy` hands its string to `xsetsel`,
which stores it in `sel.clip`. -/
def breleaseButton1 (cf : MouseConfig) (m : Mouse) (e : XButtonEvent) : Option Mouse :=
  if m.st.sel.mode < 2 then
    some { m with st :=
      ({ m.st with sel := { m.st.sel with bx := -1, mode := 0 } }).setDirty m.st.sel.ey }
  else
    match getbuttoninfo cf m.st e with
    | none => none
    | some t =>
      some { m with
        st := ({ t with sel := { t.sel with mode := 0 } }).setDirty t.sel.ey,
        clip := selcopy t }

/-! ## Example mouse scenarios -/

/-- A mouse configuration with a border of 2 pixels, cells of 10 x 20
pixels, the space as the only word delimiter, a double-click timeout of 300 ms
and a triple-click timeout of 600 ms, `selmasks = { 0, Mod1Mask }` and
`ignoremod = Mod2Mask|XK_SWITCH_MOD`. -/
def mouseConfigExample : MouseConfig :=
  { borderpx := 2, cw := 10, ch := 20, worddelimiters := [32], doubleclicktimeout := 300,
    tripleclicktimeout := 600, selmasks := [0, 8], ignoremod := 8208 }

/-- A terminal of 4 columns and 2 rows after the bytes `abcdef`: row 0 is
`abcd` with `ATTR_WRAP` on its last cell, row 1 is `ef` and two spaces. -/
def wordWrapExample : State :=
  tputs (tnew (State.init exampleConfig) 4 2) [97, 98, 99, 100, 101, 102]

/-- A terminal of 4 columns and 2 rows after the bytes `abc d`: row 0 is
`abc` and a space that carries `ATTR_WRAP`, row 1 starts with `d`. -/
def spaceWrapExample : State :=
  tputs (tnew (State.init exampleConfig) 4 2) [97, 98, 99, 32, 100]

/-- The state `wordWrapExample` with a regular selection from (0, 0) to
(1, 1), the whole text `abcdef`. -/
def wrapSelectedExample : State :=
  { wordWrapExample with
    sel := { mode := 0, type := SEL_REGULAR, snap := 0, bx := 0, by_ := 0, ex := 1, ey := 1,
             b := ⟨0, 0⟩, e := ⟨1, 1⟩, alt := false } }

/-- The mouse state right after `selinit` on the terminal state `s`: both
click times zero, no clipboard string. -/
def mouseStart (s : State) : Mouse :=
  { st := s, tclick1 := ⟨0, 0⟩, tclick2 := ⟨0, 0⟩, clip := none }

/-- The centre of the cell `(x, y)` in pixels under `mouseConfigExample`. -/
def cellPixel (x y : Int) : Int × Int := (2 + 10 * x + 5, 2 + 20 * y + 10)

/-- A click of button 1 on the cell `(x, y)` at the time `now`: `bpress`,
then `brelease` at the same place with `Button1Mask` in the event state. -/
def clickAt (m : Mouse) (x y : Int) (now : Timeval) : Option Mouse :=
  match bpressButton1 mouseConfigExample m ⟨(cellPixel x y).1, (cellPixel x y).2, 1, 0⟩ now with
  | none => none
  | some m1 =>
    breleaseButton1 mouseConfigExample m1 ⟨(cellPixel x y).1, (cellPixel x y).2, 1, Button1Mask⟩

/-- Two clicks of button 1 on the cell `(x, y)` of the terminal state `s`,
the second one 200 ms after the first. -/
def doubleClickAt (s : State) (x y : Int) : Option Mouse :=
  match clickAt (mouseStart s) x y ⟨1000, 0⟩ with
  | none => none
  | some m1 => clickAt m1 x y ⟨1000, 200000⟩

/-- A drag with button 1 on the terminal state `s`: `bpress` on the cell
`(x1, y1)`, one `bmotion` to the cell `(x2, y2)` and `brelease` there. -/
def dragTo (s : State) (x1 y1 x2 y2 : Int) : Option Mouse :=
  match bpressButton1 mouseConfigExample (mouseStart s)
      ⟨(cellPixel x1 y1).1, (cellPixel x1 y1).2, 1, 0⟩ ⟨1000, 0⟩ with
  | none => none
  | some m1 =>
    match bmotion mouseConfigExample m1
        ⟨(cellPixel x2 y2).1, (cellPixel x2 y2).2, 1, Button1Mask⟩ with
    | none => none
    | some m2 =>
      breleaseButton1 mouseConfigExample m2
        ⟨(cellPixel x2 y2).1, (cellPixel x2 y2).2, 1, Button1Mask⟩


/-! ## Examples and notions for select mode, reports and the two screens -/

/-! ## Examples and notions for regions, erasing, the mouse and the keyboard -/

/-- A terminal of 3 columns and 4 rows after `ESC [ 1 ; 2 r`, which makes
the rows 0 and 1 the scroll region, with a regular selection from (1, 1) inside
the region to (2, 3) below it. -/
def regionSelectedExample : State :=
  { tputs (tnew (State.init exampleConfig) 3 4) [27, 91, 49, 59, 50, 114] with
    sel := { mode := 0, type := SEL_REGULAR, snap := 0, bx := 1, by_ := 1, ex := 2, ey := 3,
             b := ⟨1, 1⟩, e := ⟨2, 3⟩, alt := false } }

/-- Source: the inner loop `for(j = 0; j < term->col-1; j++)` of `tattrset`
and `tsetdirtattr` on row `i`: whether it finds a cell with
`term->line[i][j].mode & attr`. -/
def rowHasAttr (s : State) (attr : Nat) (i : Int) : Bool :=
  (List.range (s.term.col - 1).toNat).any
    (fun (j : Nat) => decide ((s.cell (j : Int) i).mode &&& attr ≠ 0))

/-- Source: `tattrset(Term *term, int attr)`. -/
def tattrset (s : State) (attr : Nat) : Int :=
  if (List.range (s.term.row - 1).toNat).any (fun (i : Nat) => rowHasAttr s attr (i : Int))
  then 1 else 0

/-- Source: `tsetdirtattr(Term *term, int attr)`; the loop over the rows
is `for(i = 0; i < term->row-1; i++)`. -/
def tsetdirtattr (s : State) (attr : Nat) : State :=
  forRange 0 (s.term.row - 2)
    (fun i s => if rowHasAttr s attr i then tsetdirt s i i else s) s

/-- A terminal of 3 columns and 2 rows after the bytes `ab`, `ESC [ 5 m`
(blink) and `c`, with the dirty flags cleared as after a redraw: the only
blinking cell is the last cell of row 0. -/
def blinkExample : State :=
  { tputs (tnew (State.init exampleConfig) 3 2) [97, 98, 27, 91, 53, 109, 99] with
    term := { (tputs (tnew (State.init exampleConfig) 3 2)
      [97, 98, 27, 91, 53, 109, 99]).term with dirty := [false, false] } }

/-- A terminal of 3 columns and 3 rows after `ESC [ 5 m` (blink) and `a`,
with the dirty flags cleared as after a redraw: the only blinking cell is the
first cell of row 0. -/
def blinkFirstExample : State :=
  { tputs (tnew (State.init exampleConfig) 3 3) [27, 91, 53, 109, 97] with
    term := { (tputs (tnew (State.init exampleConfig) 3 3) [27, 91, 53, 109, 97]).term with
      dirty := [false, false, false] } }

/-- A terminal of 3 columns and 3 rows holding `AAA`, `BBB`, `CCC`, with the
cursor moved to (1, 1) by `ESC [ 2 ; 2 H`. -/
def eraseExample : State :=
  tputs (tnew (State.init exampleConfig) 3 3)
    [65, 65, 65, 13, 10, 66, 66, 66, 13, 10, 67, 67, 67, 27, 91, 50, 59, 50, 72]

/-- The state `eraseExample` with the cursor moved to (1, 2) by
`ESC [ 3 ; 2 H`. -/
def eraseLowExample : State := tputs eraseExample [27, 91, 51, 59, 50, 72]

/-- A terminal of 10 columns and 1 row after `abc` and `ESC H`, which sets
a tab stop in column 3. -/
def tabStopExample : State :=
  tputs (tnew (State.init exampleConfig) 10 1) [97, 98, 99, 27, 72]

/-- The state `tabStopExample` after `ESC [ 3 g`, which clears every tab
stop. -/
def tabClearExample : State := tputs tabStopExample [27, 91, 51, 103]

/-! ## Mouse reports -/

/-- Source: `ShiftMask` of `X11/X.h`. -/
abbrev ShiftMask : Nat := 1
/-- Source: `ControlMask` of `X11/X.h`. -/
abbrev ControlMask : Nat := 4
/-- Source: `Mod4Mask` of `X11/X.h`. -/
abbrev Mod4Mask : Nat := 64
/-- Source: `Button1` of `X11/X.h`. -/
abbrev Button1 : Int := 1
/-- Source: `AnyButton` of `X11/X.h`. -/
abbrev AnyButton : Int := 0
/-- Source: `ButtonPress` of `X11/X.h`. -/
abbrev ButtonPress : Nat := 4
/-- Source: `ButtonRelease` of `X11/X.h`. -/
abbrev ButtonRelease : Nat := 5
/-- Source: `MotionNotify` of `X11/X.h`. -/
abbrev MotionNotify : Nat := 6

/-- Source: the variables `static int ob, ox, oy` of `mousereport`: the
button of the last press and the cell of the last press or reported motion. -/
structure Reported where
  ob : Int
  ox : Int
  oy : Int
  deriving DecidableEq, Repr

/-- The byte that `snprintf` writes for `%c`: its `int` argument converted to
`unsigned char`. -/
def charByte (v : Int) : Nat := (v % 256).toNat

/-- The bytes that `snprintf` writes for `%d`. -/
def decimalBytes (v : Int) : List Nat :=
  if v < 0 then 45 :: (Nat.toDigits 10 v.natAbs).map Char.toNat
  else (Nat.toDigits 10 v.toNat).map Char.toNat

/-- Source: the sum `(state & ShiftMask ? 4 : 0) + (state & Mod4Mask ? 8 : 0)
+ (state & ControlMask ? 16 : 0)` of `mousereport`. -/
def mouseMods (state : Nat) : Int :=
  (if state &&& ShiftMask ≠ 0 then 4 else 0) + (if state &&& Mod4Mask ≠ 0 then 8 else 0) +
    (if state &&& ControlMask ≠ 0 then 16 else 0)

/-- Source: `mousereport(XEvent *e)` on the focused terminal, for an event
of the given `type` (the member `e->xbutton.type`): the state after the call
and the new values of `ob`, `ox`, `oy`. The strings fit into `buf`. -/
def mousereport (cf : MouseConfig) (s : State) (o : Reported) (type : Nat) (e : XButtonEvent) :
    State × Reported :=
  let x := x2col cf s.term e.x
  let y := y2row cf s.term e.y
  let button : Int := wrapInt e.button
  if type = MotionNotify ∧ (¬ IS_SET s.term MODE_MOUSEMOTION ∨ (x = o.ox ∧ y = o.oy)) then (s, o)
  else
    let r : Int × Reported :=
      if type = MotionNotify then (wrapInt (o.ob + 32), { o with ox := x, oy := y })
      else if ¬ IS_SET s.term MODE_MOUSESGR ∧ (type = ButtonRelease ∨ button = AnyButton) then
        (3, o)
      else
        let b := wrapInt (button - Button1)
        let b := if b ≥ 3 then wrapInt (b + (64 - 3)) else b
        (b, if type = ButtonPress then { ob := b, ox := x, oy := y } else o)
    let button := wrapInt (r.1 + mouseMods e.state)
    if IS_SET s.term MODE_MOUSESGR then
      (ttywrite s ([27, 91, 60] ++ decimalBytes button ++ [59] ++ decimalBytes (x + 1) ++ [59] ++
        decimalBytes (y + 1) ++ [if type = ButtonRelease then 109 else 77]), r.2)
    else if x < 223 ∧ y < 223 then
      (ttywrite s [27, 91, 77, charByte (32 + button), charByte (32 + x + 1),
        charByte (32 + y + 1)], r.2)
    else (s, r.2)

/-- A terminal of 3 columns and 3 rows after `ESC [ ? 1 0 0 0 h`:
`MODE_MOUSEBTN` is set, `MODE_MOUSEMOTION` and `MODE_MOUSESGR` are clear. -/
def mouseBtnExample : State :=
  tputs (tnew (State.init exampleConfig) 3 3) [27, 91, 63, 49, 48, 48, 48, 104]

/-! ## Two terminals -/

/-- The terminal of the state is replaced by `b`. -/
def State.setTerm (s : State) (b : Term) : State := { s with term := b }

/-- A call `f` of the terminal engine on another terminal `b` of the tab
list. The file-scope variables, the `static TCursor c` of `tcursor` and the
heap are shared by all terminals; the terminal of the state is not touched.
The result is the state and the other terminal after the call. -/
def onOther (f : State → State) (s : State) (b : Term) : State × Term :=
  ((f { s with term := b }).setTerm s.term, (f { s with term := b }).term)

/-- Two terminals of 3 columns and 3 rows made one after the other by
`tnew`: the state holds the first one, `A`, the second component is `B`. -/
def twoTerminals : State × Term :=
  onOther (fun s => tnew s 3 3) (tnew (State.init exampleConfig) 3 3)
    (tnew (State.init exampleConfig) 3 3).term

/-- The terminals `twoTerminals` after `A` got `ESC [ 2 ; 2 H`, `ESC [ 1 m`
and `ESC 7` (the cursor at (1, 1), bold, is saved), then `B` got
`ESC [ 3 ; 3 H` and `ESC 7` (the cursor at (2, 2) is saved), then `A` got
`ESC [ H` and `ESC 8` (home, restore). -/
def crossSaveExample : State × Term :=
  let a1 := tputs twoTerminals.1 [27, 91, 50, 59, 50, 72, 27, 91, 49, 109, 27, 55]
  let b1 := onOther (fun s => tputs s [27, 91, 51, 59, 51, 72, 27, 55]) a1 twoTerminals.2
  (tputs b1.1 [27, 91, 72, 27, 56], b1.2)

/-- The terminals of `crossSaveExample` when `B` gets no bytes between the
save and the restore of `A`. -/
def ownSaveExample : State :=
  tputs (tputs twoTerminals.1 [27, 91, 50, 59, 50, 72, 27, 91, 49, 109, 27, 55])
    [27, 91, 72, 27, 56]

/-! ## Select mode -/

/-- The state `t` with the heap, the row pointers, the dirty flags and the
view base of `s`: two states agree on everything else when their images
agree. -/
def State.withViewOf (t s : State) : State :=
  { t with heap := s.heap,
           term := { t.term with line := s.term.line, dirty := s.term.dirty,
                                 ybase := s.term.ybase } }

/-- The cursor row lies in the scroll region whenever `CURSOR_ORIGIN` is
set. -/
def OriginOk (s : State) : Prop :=
  s.term.c.state &&& CURSOR_ORIGIN ≠ 0 → s.term.top ≤ s.term.c.y ∧ s.term.c.y ≤ s.term.bot

instance (s : State) : Decidable (OriginOk s) := by unfold OriginOk; infer_instance

/-- The invariant of the engine together with `OriginOk`: it holds in every
reachable state. -/
def OInv (s : State) : Prop := TermInv s ∧ OriginOk s

/-- The `alt` row pointers of the state are `a` and the bit `MODE_ALTSCREEN`
of its mode word has the value `v`. -/
def AltIs (a : List Nat) (v : Nat) (t : State) : Prop :=
  t.term.alt = a ∧ t.term.mode &&& MODE_ALTSCREEN = v

/-- The row pointers of the current screen are `l`, those of the other
screen are `a`, and the bit `MODE_ALTSCREEN` has the value `v`. -/
def BothAre (l a : List Nat) (v : Nat) (t : State) : Prop :=
  t.term.line = l ∧ AltIs a v t

/-- What one call of `tputc` does to the two screens, from the state `s` to
the state `t`: the `alt` pointers and the bit `MODE_ALTSCREEN` are kept; or
the terminal was reset, which keeps the `alt` pointers and the pointers of
the current screen and sets the mode word to `MODE_WRAP`; or the pointers of
the two screens were exchanged and the bit was flipped. -/
def AltStep (s t : State) : Prop :=
  AltIs s.term.alt (s.term.mode &&& MODE_ALTSCREEN) t ∨
  (t.term.alt = s.term.alt ∧ t.term.line = s.term.line ∧ t.term.mode = MODE_WRAP) ∨
  BothAre s.term.alt s.term.line ((s.term.mode &&& MODE_ALTSCREEN) ^^^ MODE_ALTSCREEN) t

/-- The row pointers of the two screens and the mode word. -/
def screens (t : State) : List Nat × List Nat × Nat :=
  (t.term.line, t.term.alt, t.term.mode)

/-- The state of the two screens inside `tsetmode(priv, set, ...)`: they are
as before the call (`l`, `a`, bit `v`), or they were exchanged once and the
bit, flipped, now agrees with `set`. -/
def AltSwap (l a : List Nat) (v : Nat) (set : Bool) (t : State) : Prop :=
  BothAre l a v t ∨
  (BothAre a l (v ^^^ MODE_ALTSCREEN) t ∧ decide (v ^^^ MODE_ALTSCREEN ≠ 0) = set ∧
    decide (v ≠ 0) = !set)


/-! ## Shared rows: examples and the rows freed by `tresize` -/

/-- A terminal of 3 columns and 2 rows after `AAA CR LF BBB CR LF CCC`, with
the view moved back by one line (`tscrollback(-1)`): the scrollback holds
`AAA`, the view shows `AAA` and `BBB`, and row 0 of the screen is the buffer
of the scrollback line. -/
def viewTextExample : State :=
  tscrollback (tputs (tnew (State.init exampleConfig) 3 2)
    [65, 65, 65, 13, 10, 66, 66, 66, 13, 10, 67, 67, 67]) (-1)

/-- A terminal of 2 columns and 2 rows after `tscrollback(-1)` on the primary
screen, `ESC [ ? 1049 h`, `tscrollback(-1)` on the alternate screen,
`ESC [ ? 1049 l` and the bytes `XY`. The scrollback is empty, so both calls
leave the view base at 0, and each sets `line[i] = last_line[i]`: the two
screens share their rows. -/
def sharedRowsExample : State :=
  tputs (tputs (tscrollback (tputs (tscrollback (tnew (State.init exampleConfig) 2 2) (-1))
    [27, 91, 63, 49, 48, 52, 57, 104]) (-1)) [27, 91, 63, 49, 48, 52, 57, 108]) [88, 89]

/-- A terminal of 3 columns and 3 rows after `A CR LF B` and `tscrollback(-1)`
with an empty scrollback: the view base is 0, the cursor is on row 1, and
`line[i] = last_line[i]` for every row. -/
def lookedExample : State :=
  tscrollback (tputs (tnew (State.init exampleConfig) 3 3) [65, 13, 10, 66]) (-1)

/-- The row pointers that `tresize(col, row)` passes to `free`, in the order
of the calls: `line[i]` and `alt[i]` for `i < slide` when the screen is slid,
then, after the `memmove` of the three arrays, `line[i]`, `alt[i]` and
`last_line[i]` for the rows from `i + row` (with `i = slide` or 0) to the old
height. -/
def tresizeFreed (s : State) (row : Int) : List Nat :=
  let slide := wrapInt (wrapInt (s.term.c.y - row) + 1)
  let slid : List Nat :=
    if slide > 0 then
      (List.range slide.toNat).flatMap
        (fun (i : Nat) => [idx s.term.line (i : Int) 0, idx s.term.alt (i : Int) 0])
    else []
  let line := if slide > 0 then memmovePtrs s.term.line slide row else s.term.line
  let alt := if slide > 0 then memmovePtrs s.term.alt slide row else s.term.alt
  let last_line :=
    if slide > 0 then memmovePtrs s.term.last_line slide row else s.term.last_line
  let i0 := wrapInt ((if slide > 0 then slide else 0) + row)
  slid ++ (List.range (s.term.row - i0).toNat).flatMap
    (fun (k : Nat) =>
      [idx line (i0 + (k : Int)) 0, idx alt (i0 + (k : Int)) 0,
        idx last_line (i0 + (k : Int)) 0])

/-- The row pointers that `tresize(col, row)` passes to `xrealloc` in its
loop over the rows kept, in the order of the calls: `line[i]`, `alt[i]` and
`last_line[i]` for `i < minrow`, read from the arrays after the slide. -/
def tresizeRealloced (s : State) (row : Int) : List Nat :=
  let minrow := MIN row s.term.row
  let slide := wrapInt (wrapInt (s.term.c.y - row) + 1)
  let line :=
    resizeTo (if slide > 0 then memmovePtrs s.term.line slide row else s.term.line) row 0
  let alt :=
    resizeTo (if slide > 0 then memmovePtrs s.term.alt slide row else s.term.alt) row 0
  let last_line :=
    resizeTo (if slide > 0 then memmovePtrs s.term.last_line slide row
      else s.term.last_line) row 0
  (List.range minrow.toNat).flatMap
    (fun (i : Nat) =>
      [idx line (i : Int) 0, idx alt (i : Int) 0, idx last_line (i : Int) 0])

/-- The calls of `free` and `xrealloc` on rows in `tresize(col, row)` are
well defined: no row pointer is passed to them twice (no double free, no
reallocation of a row already freed or moved), and none of the rows is a
scrollback line, which would be left dangling. -/
def TresizeSafe (s : State) (row : Int) : Prop :=
  (tresizeFreed s row ++ tresizeRealloced s row).Nodup ∧
  ∀ e ∈ s.term.sb.entries, e.line ∉ tresizeFreed s row ++ tresizeRealloced s row

instance (s : State) (row : Int) : Decidable (TresizeSafe s row) := by
  unfold TresizeSafe; infer_instance

/-! ## Reference notions for UTF-8 (RFC 3629 wording)

These definitions describe byte sequences by value ranges; they are what the
codec theorems compare the bit tests of the source with. -/

namespace Utf8Spec

/-- The byte at offset `i` of a buffer, as `uchar`. -/
def byteAt (s : List Nat) (i : Nat) : Nat := s.getD i 0 % 256

/-- A continuation byte `10xxxxxx`. -/
def isCont (b : Nat) : Prop := 0x80 ≤ b ∧ b ≤ 0xBF

instance (b : Nat) : Decidable (isCont b) := by unfold isCont; infer_instance

/-- The byte `b` is the lead byte of a sequence with `n` continuation bytes:
`110xxxxx` for `n = 1`, `1110xxxx` for `n = 2`, `11110xxx` for `n = 3`. -/
def isLead (n b : Nat) : Prop :=
  (n = 1 ∧ 0xC0 ≤ b ∧ b ≤ 0xDF) ∨ (n = 2 ∧ 0xE0 ≤ b ∧ b ≤ 0xEF) ∨
    (n = 3 ∧ 0xF0 ≤ b ∧ b ≤ 0xF7)

instance (n b : Nat) : Decidable (isLead n b) := by unfold isLead; infer_instance

/-- A byte that cannot start a sequence: a stray continuation byte
`10xxxxxx` or a byte `11111xxx`. -/
def isBadLead (b : Nat) : Prop := (0x80 ≤ b ∧ b ≤ 0xBF) ∨ (0xF8 ≤ b ∧ b ≤ 0xFF)

instance (b : Nat) : Decidable (isBadLead b) := by unfold isBadLead; infer_instance

/-- The payload bits of a lead byte with `n` continuation bytes. -/
def leadBits (n b : Nat) : Nat :=
  if n = 1 then b - 0xC0 else if n = 2 then b - 0xE0 else b - 0xF0

/-- The value denoted by the lead byte `b0` followed by the continuation
bytes `cs`: the payload of the lead byte followed by six bits per
continuation byte. -/
def seqValue (n b0 : Nat) (cs : List Nat) : Nat :=
  cs.foldl (fun v b => v * 64 + (b - 0x80)) (leadBits n b0)

/-- The least value that needs `n` continuation bytes. -/
def minValue (n : Nat) : Nat :=
  if n = 1 then 0x80 else if n = 2 then 0x800 else 0x10000

/-- The total length announced by a lead byte (1 for every other byte). -/
def announced (b : Nat) : Nat :=
  if 0xC0 ≤ b ∧ b ≤ 0xDF then 2
  else if 0xE0 ≤ b ∧ b ≤ 0xEF then 3
  else if 0xF0 ≤ b ∧ b ≤ 0xF7 then 4
  else 1

/-- The `b` available bytes at `s` are a proper prefix of a multi-byte
sequence: the lead byte announces more than `b` bytes and the `b - 1` bytes
after it are all continuation bytes. -/
def isIncomplete (s : List Nat) (b : Int) : Prop :=
  1 ≤ b ∧ b < announced (byteAt s 0) ∧
    ∀ i : Nat, i < 4 → 1 ≤ i → (i : Int) < b → isCont (byteAt s i)

instance (s : List Nat) (b : Int) : Decidable (isIncomplete s b) := by
  unfold isIncomplete; infer_instance

/-- The ways in which `utf8decode` rejects the bytes at `s`, with the number
`k` of bytes it has accepted when it rejects: a bad lead byte (`k = 1`), a
non-continuation byte after the lead byte and `j` continuation bytes
(`k = 1 + j`), or a complete sequence of `n + 1` bytes whose value is
overlong or a surrogate (`k = n + 1`). -/
inductive Rejects : List Nat → Nat → Prop
  | badLead (b : Nat) (t : List Nat) : isBadLead b → Rejects (b :: t) 1
  | badCont (n b0 : Nat) (cs : List Nat) (x : Nat) (t : List Nat) :
      isLead n b0 → cs.length < n → (∀ b ∈ cs, isCont b) → x < 256 → ¬ isCont x →
      Rejects (b0 :: cs ++ x :: t) (1 + cs.length)
  | badValue (n b0 : Nat) (cs t : List Nat) :
      isLead n b0 → cs.length = n → (∀ b ∈ cs, isCont b) →
      (seqValue n b0 cs < minValue n ∨ (0xD800 ≤ seqValue n b0 cs ∧ seqValue n b0 cs ≤ 0xDFFF)) →
      Rejects (b0 :: cs ++ t) (n + 1)

end Utf8Spec

/-! ## Theorems -/

theorem and63 (c : Nat) : c &&& 63 = c % 64 := Nat.and_pow_two_sub_one_eq_mod c 6

theorem and31 (c : Nat) : c &&& 31 = c % 32 := Nat.and_pow_two_sub_one_eq_mod c 5

theorem and15 (c : Nat) : c &&& 15 = c % 16 := Nat.and_pow_two_sub_one_eq_mod c 4

theorem and7 (c : Nat) : c &&& 7 = c % 8 := Nat.and_pow_two_sub_one_eq_mod c 3

theorem shl6_or (u c : Nat) : (u <<< 6) ||| (c &&& 63) = u * 64 + c % 64 := by
  rw [and63, Nat.shiftLeft_eq]
  have hlt : c % 64 < 2 ^ 6 := Nat.mod_lt c (by decide)
  have h := Nat.mul_add_lt_is_or hlt u
  rw [Nat.mul_comm] at h
  exact h.symm

set_option maxRecDepth 100000 in

theorem or_facts : ∀ a, a < 64 →
    (a ||| 128 = 128 + a) ∧ (a < 32 → a ||| 192 = 192 + a) ∧
    (a < 16 → a ||| 224 = 224 + a) ∧ (a < 8 → a ||| 240 = 240 + a) := by decide

set_option maxRecDepth 100000 in

theorem byte_facts : ∀ c, c < 256 →
    ((c &&& 128 = 0) ↔ c < 128) ∧
    ((c &&& 192 = 128) ↔ (128 ≤ c ∧ c < 192)) ∧
    ((c &&& 224 = 192) ↔ (192 ≤ c ∧ c < 224)) ∧
    ((c &&& 240 = 224) ↔ (224 ≤ c ∧ c < 240)) ∧
    ((c &&& 248 = 240) ↔ (240 ≤ c ∧ c < 248)) := by decide

theorem toUlong_natCast (c : Nat) (h : c < 18446744073709551616) : toUlong (c : Int) = c := by
  unfold toUlong; omega

theorem enc_cont_byte (x : Nat) : ((x &&& 63) ||| 128) % 256 = 128 + x % 64 := by
  rw [and63, (or_facts (x % 64) (Nat.mod_lt x (by decide))).1]
  omega

theorem mask_c0 : (B7 ||| B6) = 192 := by decide

theorem mask_e0 : (192 ||| B5) = 224 := by decide

theorem mask_f0 : (224 ||| B4) = 240 := by decide

theorem mask_f8 : (240 ||| B3) = 248 := by decide

theorem mask_3f : (B5 ||| B4 ||| B3 ||| B2 ||| B1 ||| B0) = 63 := by decide

theorem mask_1f : (B4 ||| B3 ||| B2 ||| B1 ||| B0) = 31 := by decide

theorem mask_0f : (B3 ||| B2 ||| B1 ||| B0) = 15 := by decide

theorem mask_07 : (B2 ||| B1 ||| B0) = 7 := by decide

theorem mask_80 : B7 = 128 := rfl

theorem enc1 (c : Nat) (s : List Nat) (h : c < 0x80) :
    utf8encode c s = (c :: s.drop 1, 1) := by
  have hu := toUlong_natCast c (by omega)
  unfold utf8encode
  rw [hu]
  simp only []
  rw [if_pos h]
  have : c % 256 = c := by omega
  simp [poke, this]

theorem enc2 (c : Nat) (s : List Nat) (h1 : 0x80 ≤ c) (h2 : c < 0x800) :
   utf8encode c s = ((192 + c / 64) :: (128 + c % 64) :: s.drop 2, 2) := by
  have hlt : (c:Int) < 0x800 := by omega
  have hu := toUlong_natCast c (by omega)
  unfold utf8encode
  rw [hu]
  simp only []
  rw [if_neg (by omega), if_pos hlt]
  have h6 : c >>> 6 = c / 64 := Nat.shiftRight_eq_div_pow c 6
  have h0 : c >>> 0 = c := rfl
  have hor := (or_facts (c / 64) (by omega)).2.1 (by omega)
  have hm : (192 + c / 64) % 256 = 192 + c / 64 := by omega
  simp only [utf8encodeTail, utf8encodeCont, poke, mask_c0, mask_3f]
  simp only [mask_80, h6, hor,
    enc_cont_byte, hm, Nat.mul_zero, h0, List.length_cons, List.length_nil, List.cons_append,
    List.nil_append]

theorem enc3 (c : Nat) (s : List Nat) (h1 : 0x800 ≤ c) (h2 : c < 0x10000) :
   utf8encode c s =
     ((224 + c / 4096) :: (128 + c / 64 % 64) :: (128 + c % 64) :: s.drop 3, 3) := by
  have hlt : ¬ (c:Int) < 0x800 := by omega
  have hu := toUlong_natCast c (by omega)
  unfold utf8encode
  rw [hu]
  simp only []
  rw [if_neg (by omega), if_neg hlt, if_pos h2]
  have h12 : c >>> 12 = c / 4096 := Nat.shiftRight_eq_div_pow c 12
  have h6 : c >>> 6 = c / 64 := Nat.shiftRight_eq_div_pow c 6
  have h0 : c >>> 0 = c := rfl
  have hor := (or_facts (c / 4096) (by omega)).2.2.1 (by omega)
  have hm : (224 + c / 4096) % 256 = 224 + c / 4096 := by omega
  simp only [utf8encodeTail, utf8encodeCont, poke, mask_c0, mask_e0, mask_3f]
  simp only [mask_80, h6, h12, hor,
    enc_cont_byte, hm, Nat.mul_zero, Nat.mul_one, h0, List.length_cons, List.length_nil,
    List.cons_append, List.nil_append]

theorem enc4 (c : Nat) (s : List Nat) (h1 : 0x10000 ≤ c) (h2 : c ≤ 0x10FFFF) :
   utf8encode c s =
     ((240 + c / 262144) :: (128 + c / 4096 % 64) :: (128 + c / 64 % 64) :: (128 + c % 64)
        :: s.drop 4, 4) := by
  have hlt : ¬ (c:Int) < 0x800 := by omega
  have hu := toUlong_natCast c (by omega)
  unfold utf8encode
  rw [hu]
  simp only []
  rw [if_neg (by omega), if_neg hlt, if_neg (by omega), if_pos h2]
  have h18 : c >>> 18 = c / 262144 := Nat.shiftRight_eq_div_pow c 18
  have h12 : c >>> 12 = c / 4096 := Nat.shiftRight_eq_div_pow c 12
  have h6 : c >>> 6 = c / 64 := Nat.shiftRight_eq_div_pow c 6
  have h0 : c >>> 0 = c := rfl
  have hor := (or_facts (c / 262144) (by omega)).2.2.2 (by omega)
  have hm : (240 + c / 262144) % 256 = 240 + c / 262144 := by omega
  simp only [utf8encodeTail, utf8encodeCont, poke, mask_c0, mask_e0, mask_f0, mask_3f]
  simp only [mask_80, h6, h12, h18, hor,
    enc_cont_byte, hm, Nat.mul_zero, Nat.mul_one, h0, List.length_cons, List.length_nil,
    List.cons_append, List.nil_append]

theorem uch_lt (s : List Nat) : uch s < 256 := Nat.mod_lt _ (by decide)

theorem uch_cons (b : Nat) (t : List Nat) : uch (b :: t) = b % 256 := rfl

theorem uch_nil : uch [] = 0 := rfl

theorem cont_step (i : Nat) (s : List Nat) (u rtn : Nat) :
    utf8decodeCont (i + 1) s u rtn =
      if 128 ≤ uch s ∧ uch s < 192 then
        utf8decodeCont i s.tail (u * 64 + uch s % 64) (rtn + 1)
      else (false, u, rtn) := by
  have hb := (byte_facts (uch s) (uch_lt s)).2.1
  simp only [utf8decodeCont, mask_c0, mask_3f]
  simp only [mask_80, shl6_or]
  by_cases h : 128 ≤ uch s ∧ uch s < 192
  · rw [if_neg (by simpa using hb.2 h), if_pos h]
  · rw [if_pos (by simpa using fun h' => h (hb.1 h')), if_neg h]

theorem cont_zero (s : List Nat) (u rtn : Nat) : utf8decodeCont 0 s u rtn = (true, u, rtn) := rfl

theorem dec_cases (s : List Nat) :
    utf8decode s =
      if uch s < 128 then (uch s, 1)
      else if uch s < 192 then (0xFFFD, 1)
      else if uch s < 224 then utf8decodeTail 1 (uch s % 32) s.tail
      else if uch s < 240 then utf8decodeTail 2 (uch s % 16) s.tail
      else if uch s < 248 then utf8decodeTail 3 (uch s % 8) s.tail
      else (0xFFFD, 1) := by
  obtain ⟨h1, -, h3, h4, h5⟩ := byte_facts (uch s) (uch_lt s)
  simp only [utf8decode, mask_c0, mask_e0, mask_f0, mask_f8, mask_1f, mask_0f, mask_07]
  simp only [mask_80, h1, h3, h4, h5, and31, and15, and7]
  split_ifs <;> first | rfl | omega

theorem cont_ok (cs : List Nat) : ∀ (t : List Nat) (u rtn : Nat),
    (∀ b ∈ cs, 128 ≤ b ∧ b < 192) →
    utf8decodeCont cs.length (cs ++ t) u rtn =
      (true, cs.foldl (fun v b => v * 64 + (b - 128)) u, rtn + cs.length) := by
  induction cs with
  | nil => intro t u rtn _; rfl
  | cons b cs ih =>
    intro t u rtn h
    have hb := h b (List.mem_cons_self b cs)
    have hm : b % 256 = b := by omega
    rw [List.length_cons, cont_step, List.cons_append, uch_cons, hm, if_pos hb, List.tail_cons,
      ih t _ _ (fun x hx => h x (List.mem_cons_of_mem b hx)), List.foldl_cons]
    have e : b % 64 = b - 128 := by omega
    rw [e, Nat.add_assoc, Nat.add_comm 1]

theorem tail_ok (n u0 : Nat) (cs t : List Nat) (hn : cs.length = n)
    (h : ∀ b ∈ cs, 128 ≤ b ∧ b < 192) :
    utf8decodeTail n u0 (cs ++ t) =
      if (n = 1 ∧ cs.foldl (fun v b => v * 64 + (b - 128)) u0 < 0x80)
          ∨ (n = 2 ∧ cs.foldl (fun v b => v * 64 + (b - 128)) u0 < 0x800)
          ∨ (n = 3 ∧ cs.foldl (fun v b => v * 64 + (b - 128)) u0 < 0x10000)
          ∨ (0xD800 ≤ cs.foldl (fun v b => v * 64 + (b - 128)) u0
              ∧ cs.foldl (fun v b => v * 64 + (b - 128)) u0 ≤ 0xDFFF) then
        (0xFFFD, n + 1)
      else (cs.foldl (fun v b => v * 64 + (b - 128)) u0, n + 1) := by
  subst hn
  unfold utf8decodeTail
  rw [cont_ok cs t u0 1 h]
  simp only [Bool.true_eq_false, if_false, Nat.add_comm 1]

theorem utf8_roundtrip_all (c : Nat) (s : List Nat) (hc : c ≤ 0x10FFFF)
    (hs : ¬(0xD800 ≤ c ∧ c ≤ 0xDFFF)) :
    1 ≤ (utf8encode c s).2 ∧ (utf8encode c s).2 ≤ 4 ∧
    (∃ bs : List Nat, bs.length = (utf8encode c s).2 ∧
      (utf8encode c s).1 = bs ++ s.drop bs.length) ∧
    utf8decode (utf8encode c s).1 = (c, (utf8encode c s).2) := by
  by_cases h1 : c < 0x80
  · rw [enc1 c s h1]
    refine ⟨by norm_num, by norm_num, ⟨[c], rfl, rfl⟩, ?_⟩
    rw [dec_cases, uch_cons]
    have : c % 256 = c := by omega
    simp only [this, if_pos h1]
  by_cases h2 : c < 0x800
  · rw [enc2 c s (by omega) h2]
    refine ⟨by norm_num, by norm_num, ⟨[192 + c / 64, 128 + c % 64], rfl, rfl⟩, ?_⟩
    rw [dec_cases, uch_cons]
    have e0 : (192 + c / 64) % 256 = 192 + c / 64 := by omega
    rw [e0, if_neg (by omega), if_neg (by omega), if_pos (by omega), List.tail_cons]
    have hcs : ∀ b ∈ [128 + c % 64], 128 ≤ b ∧ b < 192 := by
      intro b hb; simp only [List.mem_singleton] at hb; omega
    have := tail_ok 1 ((192 + c / 64) % 32) [128 + c % 64] (s.drop 2) rfl hcs
    simp only [List.cons_append, List.nil_append, List.foldl_cons, List.foldl_nil] at this
    rw [this, if_neg (by omega)]
    simp only [Prod.mk.injEq, and_true]
    omega
  by_cases h3 : c < 0x10000
  · rw [enc3 c s (by omega) h3]
    refine ⟨by norm_num, by norm_num,
      ⟨[224 + c / 4096, 128 + c / 64 % 64, 128 + c % 64], rfl, rfl⟩, ?_⟩
    rw [dec_cases, uch_cons]
    have e0 : (224 + c / 4096) % 256 = 224 + c / 4096 := by omega
    rw [e0, if_neg (by omega), if_neg (by omega), if_neg (by omega), if_pos (by omega),
      List.tail_cons]
    have hcs : ∀ b ∈ [128 + c / 64 % 64, 128 + c % 64], 128 ≤ b ∧ b < 192 := by
      intro b hb; simp only [List.mem_cons, List.mem_singleton, List.not_mem_nil, or_false] at hb
      omega
    have := tail_ok 2 ((224 + c / 4096) % 16) [128 + c / 64 % 64, 128 + c % 64] (s.drop 3) rfl hcs
    simp only [List.cons_append, List.nil_append, List.foldl_cons, List.foldl_nil] at this
    rw [this, if_neg (by omega)]
    simp only [Prod.mk.injEq, and_true]
    omega
  · rw [enc4 c s (by omega) hc]
    refine ⟨by norm_num, by norm_num,
      ⟨[240 + c / 262144, 128 + c / 4096 % 64, 128 + c / 64 % 64, 128 + c % 64], rfl, rfl⟩, ?_⟩
    rw [dec_cases, uch_cons]
    have e0 : (240 + c / 262144) % 256 = 240 + c / 262144 := by omega
    rw [e0, if_neg (by omega), if_neg (by omega), if_neg (by omega), if_neg (by omega),
      if_pos (by omega), List.tail_cons]
    have hcs : ∀ b ∈ [128 + c / 4096 % 64, 128 + c / 64 % 64, 128 + c % 64],
        128 ≤ b ∧ b < 192 := by
      intro b hb; simp only [List.mem_cons, List.mem_singleton, List.not_mem_nil, or_false] at hb
      omega
    have := tail_ok 3 ((240 + c / 262144) % 8)
      [128 + c / 4096 % 64, 128 + c / 64 % 64, 128 + c % 64] (s.drop 4) rfl hcs
    simp only [List.cons_append, List.nil_append, List.foldl_cons, List.foldl_nil] at this
    rw [this, if_neg (by omega)]
    simp only [Prod.mk.injEq, and_true]
    omega

open Utf8Spec

theorem dec_lead (n b0 : Nat) (t : List Nat) (h : isLead n b0) :
    utf8decode (b0 :: t) = utf8decodeTail n (leadBits n b0) t := by
  rw [dec_cases, uch_cons, List.tail_cons]
  unfold isLead at h
  unfold leadBits
  rcases h with ⟨rfl, h1, h2⟩ | ⟨rfl, h1, h2⟩ | ⟨rfl, h1, h2⟩
  · have e : b0 % 256 = b0 := by omega
    have c1 : ¬ b0 < 128 := by omega
    have c2 : ¬ b0 < 192 := by omega
    have c3 : b0 < 224 := by omega
    have e2 : b0 % 32 = b0 - 192 := by omega
    simp only [e, if_neg c1, if_neg c2, if_pos c3, e2, if_true]
  · have e : b0 % 256 = b0 := by omega
    have c1 : ¬ b0 < 128 := by omega
    have c2 : ¬ b0 < 192 := by omega
    have c3 : ¬ b0 < 224 := by omega
    have c4 : b0 < 240 := by omega
    have e2 : b0 % 16 = b0 - 224 := by omega
    simp only [e, if_neg c1, if_neg c2, if_neg c3, if_pos c4, e2, if_true,
      if_neg (show ¬ (2 = 1) by decide)]
  · have e : b0 % 256 = b0 := by omega
    have c1 : ¬ b0 < 128 := by omega
    have c2 : ¬ b0 < 192 := by omega
    have c3 : ¬ b0 < 224 := by omega
    have c4 : ¬ b0 < 240 := by omega
    have c5 : b0 < 248 := by omega
    have e2 : b0 % 8 = b0 - 240 := by omega
    simp only [e, if_neg c1, if_neg c2, if_neg c3, if_neg c4, if_pos c5, e2,
      if_neg (show ¬ (3 = 1) by decide), if_neg (show ¬ (3 = 2) by decide)]

theorem isCont_range {cs : List Nat} (h : ∀ b ∈ cs, isCont b) :
    ∀ b ∈ cs, 128 ≤ b ∧ b < 192 := by
  intro b hb
  have := h b hb
  unfold isCont at this
  omega

theorem dec_badValue (n b0 : Nat) (cs t : List Nat)
    (hlead : isLead n b0) (hlen : cs.length = n) (hcont : ∀ b ∈ cs, isCont b)
    (hbad : seqValue n b0 cs < minValue n ∨
      (0xD800 ≤ seqValue n b0 cs ∧ seqValue n b0 cs ≤ 0xDFFF)) :
    utf8decode (b0 :: cs ++ t) = (0xFFFD, n + 1) := by
  rw [List.cons_append, dec_lead n b0 _ hlead, tail_ok n _ cs t hlen (isCont_range hcont)]
  have hn : n = 1 ∨ n = 2 ∨ n = 3 := by
    unfold isLead at hlead; omega
  unfold seqValue at hbad
  unfold minValue at hbad
  rw [if_pos]
  rcases hn with rfl | rfl | rfl
  · simp only [if_pos] at hbad; omega
  · simp only [if_neg (show ¬ (2 = 1) by decide), if_pos] at hbad; omega
  · simp only [if_neg (show ¬ (3 = 1) by decide), if_neg (show ¬ (3 = 2) by decide)] at hbad
    omega

theorem tail_unfold (n u0 : Nat) (s : List Nat) :
    utf8decodeTail n u0 s =
      if (utf8decodeCont n s u0 1).1 = false then (0xFFFD, (utf8decodeCont n s u0 1).2.2)
      else if (n = 1 ∧ (utf8decodeCont n s u0 1).2.1 < 0x80)
          ∨ (n = 2 ∧ (utf8decodeCont n s u0 1).2.1 < 0x800)
          ∨ (n = 3 ∧ (utf8decodeCont n s u0 1).2.1 < 0x10000)
          ∨ (0xD800 ≤ (utf8decodeCont n s u0 1).2.1 ∧ (utf8decodeCont n s u0 1).2.1 ≤ 0xDFFF) then
        (0xFFFD, (utf8decodeCont n s u0 1).2.2)
      else ((utf8decodeCont n s u0 1).2.1, (utf8decodeCont n s u0 1).2.2) := rfl

theorem cont_bad (cs : List Nat) : ∀ (n : Nat) (x : Nat) (t : List Nat) (u rtn : Nat),
    cs.length < n → (∀ b ∈ cs, 128 ≤ b ∧ b < 192) → x < 256 → ¬ (128 ≤ x ∧ x < 192) →
    (utf8decodeCont n (cs ++ x :: t) u rtn).1 = false ∧
    (utf8decodeCont n (cs ++ x :: t) u rtn).2.2 = rtn + cs.length := by
  induction cs with
  | nil =>
    intro n x t u rtn hn _ hx hbad
    obtain ⟨m, rfl⟩ : ∃ m, n = m + 1 := ⟨n - 1, by simp at hn; omega⟩
    have e : x % 256 = x := by omega
    rw [List.nil_append, cont_step, uch_cons, e, if_neg hbad]
    exact ⟨rfl, rfl⟩
  | cons b cs ih =>
    intro n x t u rtn hn h hx hbad
    obtain ⟨m, rfl⟩ : ∃ m, n = m + 1 := ⟨n - 1, by simp at hn; omega⟩
    have hb := h b (List.mem_cons_self b cs)
    have e : b % 256 = b := by omega
    rw [List.cons_append, cont_step, uch_cons, e, if_pos hb, List.tail_cons]
    have := ih m x t (u * 64 + b % 64) (rtn + 1) (by simp at hn; omega)
      (fun y hy => h y (List.mem_cons_of_mem b hy)) hx hbad
    rw [this.1, this.2, List.length_cons]
    exact ⟨rfl, by omega⟩

theorem dec_rejects (s : List Nat) (k : Nat) (h : Rejects s k) :
    utf8decode s = (0xFFFD, k) ∧ 1 ≤ k ∧ k ≤ 4 := by
  cases h with
  | badLead b t hb =>
    refine ⟨?_, by decide, by decide⟩
    rw [dec_cases, uch_cons]
    unfold isBadLead at hb
    have e : b % 256 = b := by omega
    rw [e]
    split_ifs <;> first | rfl | omega
  | badCont n b0 cs x t hlead hlen hcont hx hbad =>
    have hn : n = 1 ∨ n = 2 ∨ n = 3 := by unfold isLead at hlead; omega
    refine ⟨?_, by omega, by omega⟩
    have hbad' : ¬ (128 ≤ x ∧ x < 192) := by unfold isCont at hbad; omega
    have := cont_bad cs n x t (leadBits n b0) 1 hlen (isCont_range hcont) hx hbad'
    rw [List.cons_append, dec_lead n b0 _ hlead, tail_unfold, if_pos this.1, this.2]
  | badValue n b0 cs t hlead hlen hcont hbad =>
    have hn : n = 1 ∨ n = 2 ∨ n = 3 := by unfold isLead at hlead; omega
    exact ⟨dec_badValue n b0 cs t hlead hlen hcont hbad, by omega, by omega⟩

theorem isfull_cases (s : List Nat) (b : Int) :
    isfullutf8 s b =
      if b < 1 then 0
      else if (192 ≤ uch s ∧ uch s < 224) ∧ b = 1 then 0
      else if (224 ≤ uch s ∧ uch s < 240) ∧
          (b = 1 ∨ (b = 2 ∧ (128 ≤ uch s.tail ∧ uch s.tail < 192))) then 0
      else if (240 ≤ uch s ∧ uch s < 248) ∧
          (b = 1 ∨ (b = 2 ∧ (128 ≤ uch s.tail ∧ uch s.tail < 192)) ∨
            (b = 3 ∧ (128 ≤ uch s.tail ∧ uch s.tail < 192) ∧
              (128 ≤ uch s.tail.tail ∧ uch s.tail.tail < 192))) then 0
      else 1 := by
  obtain ⟨-, -, h3, h4, h5⟩ := byte_facts (uch s) (uch_lt s)
  have h2 := (byte_facts (uch s.tail) (uch_lt _)).2.1
  have h2' := (byte_facts (uch s.tail.tail) (uch_lt _)).2.1
  simp only [isfullutf8, mask_c0, mask_e0, mask_f0, mask_f8]
  simp only [mask_80, h3, h4, h5, h2, h2']

theorem byteAt_zero (s : List Nat) : byteAt s 0 = uch s := by
  cases s <;> rfl

theorem byteAt_one (s : List Nat) : byteAt s 1 = uch s.tail := by
  rcases s with _ | ⟨a, _ | ⟨b, t⟩⟩ <;> rfl

theorem byteAt_two (s : List Nat) : byteAt s 2 = uch s.tail.tail := by
  rcases s with _ | ⟨a, _ | ⟨b, _ | ⟨c, t⟩⟩⟩ <;> rfl

theorem incomplete_iff (s : List Nat) (b : Int) :
    isIncomplete s b ↔
      (1 ≤ b ∧ b < announced (uch s) ∧ (1 < b → isCont (uch s.tail)) ∧
        (2 < b → isCont (uch s.tail.tail))) := by
  unfold isIncomplete
  rw [byteAt_zero]
  have ha : announced (uch s) ≤ 4 := by unfold announced; split_ifs <;> decide
  constructor
  · rintro ⟨h1, h2, h3⟩
    refine ⟨h1, h2, ?_, ?_⟩
    · intro hb; rw [← byteAt_one]; exact h3 1 (by decide) (by decide) (by exact_mod_cast hb)
    · intro hb; rw [← byteAt_two]; exact h3 2 (by decide) (by decide) (by exact_mod_cast hb)
  · rintro ⟨h1, h2, h3, h4⟩
    refine ⟨h1, h2, ?_⟩
    intro i hi h1i hib
    have : i = 1 ∨ i = 2 := by omega
    rcases this with rfl | rfl
    · rw [byteAt_one]; exact h3 (by exact_mod_cast hib)
    · rw [byteAt_two]; exact h4 (by exact_mod_cast hib)

theorem isfullutf8_zero_iff (s : List Nat) (b : Int) :
    (isfullutf8 s b = 0 ↔ (b < 1 ∨ isIncomplete s b)) ∧
    (isfullutf8 s b = 0 ∨ isfullutf8 s b = 1) := by
  rw [isfull_cases, incomplete_iff]
  unfold announced isCont
  have := uch_lt s
  have := uch_lt s.tail
  have := uch_lt s.tail.tail
  constructor
  · split_ifs <;> simp only [true_iff, one_ne_zero, false_iff] <;> omega
  · split_ifs <;> simp

theorem cont_local : ∀ (n : Nat) (s t : List Nat) (u rtn : Nat), contDecided n s →
    utf8decodeCont n (s ++ t) u rtn = utf8decodeCont n s u rtn ∧
    rtn ≤ (utf8decodeCont n s u rtn).2.2 ∧ (utf8decodeCont n s u rtn).2.2 ≤ rtn + s.length
  | 0, s, t, u, rtn, _ => ⟨rfl, Nat.le_refl _, Nat.le_add_right _ _⟩
  | n + 1, [], t, u, rtn, h => absurd rfl h.1
  | n + 1, b :: s, t, u, rtn, h => by
    by_cases hb : 128 ≤ b % 256 ∧ b % 256 < 192
    · have e1 : utf8decodeCont (n + 1) (b :: s ++ t) u rtn =
          utf8decodeCont n (s ++ t) (u * 64 + b % 256 % 64) (rtn + 1) := by
        rw [List.cons_append, cont_step, uch_cons, if_pos hb, List.tail_cons]
      have e2 : utf8decodeCont (n + 1) (b :: s) u rtn =
          utf8decodeCont n s (u * 64 + b % 256 % 64) (rtn + 1) := by
        rw [cont_step, uch_cons, if_pos hb, List.tail_cons]
      have := cont_local n s t (u * 64 + b % 256 % 64) (rtn + 1) (h.2 hb)
      rw [e1, e2, List.length_cons]
      exact ⟨this.1, by omega, by omega⟩
    · have e1 : utf8decodeCont (n + 1) (b :: s ++ t) u rtn = (false, u, rtn) := by
        rw [List.cons_append, cont_step, uch_cons, if_neg hb]
      have e2 : utf8decodeCont (n + 1) (b :: s) u rtn = (false, u, rtn) := by
        rw [cont_step, uch_cons, if_neg hb]
      rw [e1, e2]
      exact ⟨rfl, Nat.le_refl _, Nat.le_add_right _ _⟩

theorem contDecided_of : ∀ (n : Nat) (s : List Nat),
    (n ≤ s.length ∨ ∃ i, i < s.length ∧ ¬ isCont (s.getD i 0 % 256)) → contDecided n s
  | 0, _, _ => trivial
  | n + 1, [], h => by
    rcases h with h | ⟨i, hi, _⟩
    · simp at h
    · simp at hi
  | n + 1, b :: s, h => by
    refine ⟨List.cons_ne_nil _ _, fun hb => contDecided_of n s ?_⟩
    rcases h with h | ⟨i, hi, hc⟩
    · left; simpa using h
    · right
      cases i with
      | zero =>
        exfalso; apply hc
        rw [uch_cons] at hb
        simp only [List.getD_cons_zero]
        unfold isCont; omega
      | succ j =>
        refine ⟨j, by simpa using hi, ?_⟩
        simpa using hc

theorem cond_nonempty (buf : List Nat) (h : ttyreadCond buf) : buf ≠ [] := by
  rintro rfl
  unfold ttyreadCond at h
  rcases h with h | h
  · simp [UTF_SIZ] at h
  · exact h (by decide)

theorem announced_of_lead (n b : Nat) (h : isLead n b) : announced b = n + 1 := by
  unfold isLead at h
  unfold announced
  split_ifs <;> omega

theorem byteAt_append (buf t : List Nat) (i : Nat) (h : i < buf.length) :
    byteAt (buf ++ t) i = byteAt buf i := by
  unfold byteAt
  rw [List.getD_append _ _ _ _ h]

theorem cond_decided (buf : List Nat) (h : ttyreadCond buf) (n : Nat)
    (hl : isLead n (uch buf)) : contDecided n buf.tail := by
  have hn : n ≤ 3 := by unfold isLead at hl; omega
  apply contDecided_of
  unfold ttyreadCond at h
  rcases h with h | h
  · left; simp only [UTF_SIZ] at h; rw [List.length_tail]; omega
  · have hc := (isfullutf8_zero_iff buf buf.length).1
    have h' : ¬ (((buf.length : Nat) : Int) < 1 ∨ isIncomplete buf buf.length) :=
      fun hp => h (hc.2 hp)
    push_neg at h'
    obtain ⟨h1, h2⟩ := h'
    unfold isIncomplete at h2
    rw [byteAt_zero, announced_of_lead n _ hl] at h2
    by_cases hlen : n + 1 ≤ buf.length
    · left; rw [List.length_tail]; omega
    · right
      have h3 : ¬ ∀ i : Nat, i < 4 → 1 ≤ i → (i : Int) < buf.length → isCont (byteAt buf i) :=
        fun hh => h2 ⟨by omega, by omega, hh⟩
      push_neg at h3
      obtain ⟨i, _, hi1, hi2, hi3⟩ := h3
      refine ⟨i - 1, by rw [List.length_tail]; omega, ?_⟩
      have : buf.tail.getD (i - 1) 0 = buf.getD i 0 := by
        cases buf with
        | nil => simp at hi2; omega
        | cons b s =>
          obtain ⟨j, rfl⟩ : ∃ j, i = j + 1 := ⟨i - 1, by omega⟩
          simp
      rw [this]
      exact hi3

theorem tail_snd (n u0 : Nat) (s : List Nat) :
    (utf8decodeTail n u0 s).2 = (utf8decodeCont n s u0 1).2.2 := by
  rw [tail_unfold]
  split_ifs <;> rfl

theorem tail_local (n u0 : Nat) (s t : List Nat) (h : contDecided n s) :
    utf8decodeTail n u0 (s ++ t) = utf8decodeTail n u0 s ∧
    1 ≤ (utf8decodeTail n u0 s).2 ∧ (utf8decodeTail n u0 s).2 ≤ 1 + s.length := by
  have := cont_local n s t u0 1 h
  rw [tail_snd, tail_unfold, tail_unfold, this.1]
  exact ⟨rfl, this.2.1, this.2.2⟩

theorem dec_local (buf t : List Nat) (h : ttyreadCond buf) :
    utf8decode (buf ++ t) = utf8decode buf ∧ 1 ≤ (utf8decode buf).2 ∧
      (utf8decode buf).2 ≤ buf.length := by
  have hne := cond_nonempty buf h
  obtain ⟨b, s, rfl⟩ : ∃ b s, buf = b :: s := List.exists_cons_of_ne_nil hne
  have hd := fun n => cond_decided (b :: s) h n
  rw [List.tail_cons, uch_cons] at hd
  have hlt : b % 256 < 256 := Nat.mod_lt _ (by decide)
  rw [List.cons_append, dec_cases, dec_cases, uch_cons, uch_cons, List.tail_cons, List.tail_cons,
    List.length_cons]
  by_cases c1 : b % 256 < 128
  · simp only [if_pos c1]; exact ⟨trivial, Nat.le_refl _, by omega⟩
  simp only [if_neg c1]
  by_cases c2 : b % 256 < 192
  · simp only [if_pos c2]; exact ⟨trivial, Nat.le_refl _, by omega⟩
  simp only [if_neg c2]
  by_cases c3 : b % 256 < 224
  · simp only [if_pos c3]
    have := tail_local 1 (b % 256 % 32) s t (hd 1 (by unfold isLead; omega))
    exact ⟨this.1, this.2.1, by omega⟩
  simp only [if_neg c3]
  by_cases c4 : b % 256 < 240
  · simp only [if_pos c4]
    have := tail_local 2 (b % 256 % 16) s t (hd 2 (by unfold isLead; omega))
    exact ⟨this.1, this.2.1, by omega⟩
  simp only [if_neg c4]
  by_cases c5 : b % 256 < 248
  · simp only [if_pos c5]
    have := tail_local 3 (b % 256 % 8) s t (hd 3 (by unfold isLead; omega))
    exact ⟨this.1, this.2.1, by omega⟩
  simp only [if_neg c5]; exact ⟨trivial, Nat.le_refl _, by omega⟩

theorem incomplete_of_append (buf t : List Nat) (hne : buf ≠ [])
    (h : isIncomplete (buf ++ t) ((buf ++ t).length : Nat)) :
    isIncomplete buf (buf.length : Nat) := by
  have hpos : 0 < buf.length := List.length_pos.mpr hne
  unfold isIncomplete at h ⊢
  rw [byteAt_append buf t 0 hpos, List.length_append] at h
  obtain ⟨_, h2, h3⟩ := h
  refine ⟨by omega, by omega, ?_⟩
  intro i hi4 hi1 hib
  rw [← byteAt_append buf t i (by omega)]
  exact h3 i hi4 hi1 (by omega)

theorem cond_append (buf t : List Nat) (h : ttyreadCond buf) : ttyreadCond (buf ++ t) := by
  have hne := cond_nonempty buf h
  have hpos : 0 < buf.length := List.length_pos.mpr hne
  by_contra hc
  unfold ttyreadCond at h hc
  push_neg at hc
  obtain ⟨hc1, hc2⟩ := hc
  rw [List.length_append] at hc1
  simp only [UTF_SIZ] at hc1 h
  rcases h with h | h
  · omega
  · apply h
    rw [(isfullutf8_zero_iff buf buf.length).1]
    right
    apply incomplete_of_append buf t hne
    have := (isfullutf8_zero_iff (buf ++ t) ((buf ++ t).length : Nat)).1.1 hc2
    rcases this with h1 | h1
    · rw [List.length_append] at h1; omega
    · exact h1

theorem loop_nocond (fuel : Nat) (buf : List Nat) (h : ¬ ttyreadCond buf) :
    ttyreadLoop fuel buf = ([], buf) := by
  cases fuel with
  | zero => rfl
  | succ f => simp only [ttyreadLoop, if_neg h]

theorem loop_cond (fuel : Nat) (buf : List Nat) (h : ttyreadCond buf) :
    ttyreadLoop (fuel + 1) buf =
      (utf8decode buf :: (ttyreadLoop fuel (buf.drop (utf8decode buf).2)).1,
        (ttyreadLoop fuel (buf.drop (utf8decode buf).2)).2) := by
  simp only [ttyreadLoop, if_pos h]

theorem loop_fuel : ∀ (n : Nat) (buf : List Nat) (f1 f2 : Nat),
    buf.length ≤ n → n ≤ f1 → n ≤ f2 → ttyreadLoop f1 buf = ttyreadLoop f2 buf
  | n, buf, f1, f2, hn, h1, h2 => by
    by_cases hc : ttyreadCond buf
    · have hpos : 0 < buf.length := List.length_pos.mpr (cond_nonempty buf hc)
      obtain ⟨m, rfl⟩ : ∃ m, n = m + 1 := ⟨n - 1, by omega⟩
      obtain ⟨g1, rfl⟩ : ∃ g, f1 = g + 1 := ⟨f1 - 1, by omega⟩
      obtain ⟨g2, rfl⟩ : ∃ g, f2 = g + 1 := ⟨f2 - 1, by omega⟩
      have hd := (dec_local buf [] hc).2
      rw [loop_cond g1 buf hc, loop_cond g2 buf hc,
        loop_fuel m (buf.drop (utf8decode buf).2) g1 g2 (by rw [List.length_drop]; omega)
          (by omega) (by omega)]
    · rw [loop_nocond f1 buf hc, loop_nocond f2 buf hc]

theorem loop_exit : ∀ (fuel : Nat) (buf : List Nat), buf.length ≤ fuel →
    ¬ ttyreadCond (ttyreadLoop fuel buf).2
  | fuel, buf, hf => by
    by_cases hc : ttyreadCond buf
    · have hpos : 0 < buf.length := List.length_pos.mpr (cond_nonempty buf hc)
      obtain ⟨g, rfl⟩ : ∃ g, fuel = g + 1 := ⟨fuel - 1, by omega⟩
      have hd := (dec_local buf [] hc).2
      rw [loop_cond g buf hc]
      exact loop_exit g _ (by rw [List.length_drop]; omega)
    · rw [loop_nocond fuel buf hc]; exact hc

theorem loop_append : ∀ (n : Nat) (buf t : List Nat) (f1 f2 f3 : Nat),
    buf.length ≤ n → (buf ++ t).length ≤ f1 → buf.length ≤ f2 →
    ((ttyreadLoop f2 buf).2 ++ t).length ≤ f3 →
    ttyreadLoop f1 (buf ++ t) =
      ((ttyreadLoop f2 buf).1 ++ (ttyreadLoop f3 ((ttyreadLoop f2 buf).2 ++ t)).1,
        (ttyreadLoop f3 ((ttyreadLoop f2 buf).2 ++ t)).2)
  | n, buf, t, f1, f2, f3, hn, h1, h2, h3 => by
    by_cases hc : ttyreadCond buf
    · have hpos : 0 < buf.length := List.length_pos.mpr (cond_nonempty buf hc)
      obtain ⟨m, rfl⟩ : ∃ m, n = m + 1 := ⟨n - 1, by omega⟩
      obtain ⟨g1, rfl⟩ : ∃ g, f1 = g + 1 := ⟨f1 - 1, by rw [List.length_append] at h1; omega⟩
      obtain ⟨g2, rfl⟩ : ∃ g, f2 = g + 1 := ⟨f2 - 1, by omega⟩
      have hd := dec_local buf t hc
      rw [loop_cond g2 buf hc] at h3 ⊢
      rw [loop_cond g1 (buf ++ t) (cond_append buf t hc), hd.1,
        List.drop_append_of_le_length hd.2.2]
      have ih := loop_append m (buf.drop (utf8decode buf).2) t g1 g2 f3
        (by rw [List.length_drop]; omega)
        (by rw [List.length_append, List.length_drop]; rw [List.length_append] at h1; omega)
        (by rw [List.length_drop]; omega) h3
      rw [ih]
      rfl
    · rw [loop_nocond f2 buf hc]
      rw [loop_nocond f2 buf hc] at h3
      rw [List.nil_append]
      exact loop_fuel _ (buf ++ t) f1 f3 (Nat.le_refl _) h1 h3

theorem forRange_induct {σ : Type} (P : σ → Prop) (lo hi : Int) (f : Int → σ → σ)
    (h : ∀ i s, P s → P (f i s)) (s : σ) (hs : P s) : P (forRange lo hi f s) := by
  unfold forRange
  generalize List.range (hi + 1 - lo).toNat = l
  induction l generalizing s with
  | nil => exact hs
  | cons k l ih => exact ih _ (h _ _ hs)

theorem forRangeDown_induct {σ : Type} (P : σ → Prop) (hi lo : Int) (f : Int → σ → σ)
    (h : ∀ i s, P s → P (f i s)) (s : σ) (hs : P s) : P (forRangeDown hi lo f s) := by
  unfold forRangeDown
  generalize List.range (hi + 1 - lo).toNat = l
  induction l generalizing s with
  | nil => exact hs
  | cons k l ih => exact ih _ (h _ _ hs)

theorem repeatN_induct {σ : Type} (P : σ → Prop) (f : σ → σ)
    (h : ∀ s, P s → P (f s)) : ∀ (n : Nat) (s : σ), P s → P (repeatN f n s)
  | 0, _, hs => hs
  | n + 1, s, hs => repeatN_induct P f h n (f s) (h s hs)

theorem core_setDirty (s : State) (y : Int) : core (s.setDirty y) = core s := rfl
theorem core_setCell (s : State) (x y : Int) (g : Glyph) : core (s.setCell x y g) = core s := rfl
theorem core_setRow (s : State) (p : Nat) (r : List Glyph) : core (s.setRow p r) = core s := rfl
theorem core_setMode (s : State) (m : Nat) : core (s.setMode m) = core s := rfl
theorem core_setEsc (s : State) (m : Nat) : core (s.setEsc m) = core s := rfl
theorem core_setAttrMode (s : State) (m : Nat) : core (s.setAttrMode m) = core s := rfl
theorem core_setArg (s : State) (i : Nat) (v : Int) : core (s.setArg i v) = core s := rfl
theorem core_argDefault (s : State) (i : Nat) (v : Int) : core (s.argDefault i v) = core s := rfl
theorem core_ttywrite (s : State) (b : List Nat) : core (ttywrite s b) = core s := rfl
theorem core_csireset (s : State) : core (csireset s) = core s := rfl
theorem core_strreset (s : State) : core (strreset s) = core s := rfl
theorem core_strhandle (s : State) : core (strhandle s) = core s := rfl
theorem core_csiparse (s : State) : core (csiparse s) = core s := rfl
theorem core_tsetattr (s : State) (a : List Int) : core (tsetattr s a) = core s := rfl

theorem forRange_core (lo hi : Int) (f : Int → State → State)
    (h : ∀ i t, core (f i t) = core t) (s : State) : core (forRange lo hi f s) = core s :=
  forRange_induct (fun t => core t = core s) lo hi f (fun i t ht => (h i t).trans ht) s rfl

theorem forRangeDown_core (hi lo : Int) (f : Int → State → State)
    (h : ∀ i t, core (f i t) = core t) (s : State) : core (forRangeDown hi lo f s) = core s :=
  forRangeDown_induct (fun t => core t = core s) hi lo f (fun i t ht => (h i t).trans ht) s rfl

theorem core_tsetdirt (s : State) (a b : Int) : core (tsetdirt s a b) = core s := by
  unfold tsetdirt
  exact forRange_core _ _ _ (fun i t => core_setDirty t i) s

theorem core_selclear (s : State) : core (selclear s) = core s := by
  unfold selclear
  split_ifs
  · rfl
  · rw [core_tsetdirt]; rfl

theorem core_tclearregion (s : State) (x1 y1 x2 y2 : Int) :
    core (tclearregion s x1 y1 x2 y2) = core s := by
  unfold tclearregion
  refine forRange_core _ _ _ (fun y t => ?_) s
  refine (forRange_core _ _ _ (fun x u => ?_) _).trans (core_setDirty t y)
  simp only []
  rw [core_setCell]
  split_ifs
  · exact core_selclear u
  · rfl

theorem core_tfulldirt (s : State) : core (tfulldirt s) = core s := core_tsetdirt s _ _

theorem core_tswapscreen (s : State) : core (tswapscreen s) = core s := by
  unfold tswapscreen
  rw [core_tfulldirt]; rfl

theorem core_selscroll (s : State) (orig n : Int) : core (selscroll s orig n) = core s := by
  unfold selscroll
  simp only []
  split_ifs <;> rfl

theorem core_swapLines (s : State) (i j : Int) : core (swapLines s i j) = core s := rfl

theorem core_tscrolldown (s : State) (orig n : Int) : core (tscrolldown s orig n) = core s := by
  unfold tscrolldown
  simp only []
  rw [core_selscroll, forRangeDown_core _ _ _ (fun i t => core_swapLines t _ _), core_tclearregion]

theorem core_tsetchar (s : State) (c : List Nat) (g : Glyph) (x y : Int) :
    core (tsetchar s c g x y) = core s := rfl

theorem core_tdeletechar (s : State) (n : Int) : core (tdeletechar s n) = core s := by
  unfold tdeletechar
  simp only []
  split_ifs <;> rw [core_tclearregion] <;> rfl

theorem core_tinsertblank (s : State) (n : Int) : core (tinsertblank s n) = core s := by
  unfold tinsertblank
  simp only []
  split_ifs <;> rw [core_tclearregion] <;> rfl

theorem core_tinsertblankline (s : State) (n : Int) : core (tinsertblankline s n) = core s := by
  unfold tinsertblankline
  split_ifs
  · rfl
  · exact core_tscrolldown s _ n

theorem core_tputcAlign (s : State) : core (tputcAlign s) = core s := by
  unfold tputcAlign
  exact forRange_core _ _ _ (fun x t => forRange_core _ _ _ (fun y u => core_tsetchar u _ _ _ _) t) s

theorem core_scrollback_get (s : State) (i : Int) : core (scrollback_get s i).1 = core s := by
  unfold scrollback_get
  split
  · rfl
  · split_ifs <;> rfl

theorem inv_of_core {s t : State} (h : core t = core s) (hs : TermInv s) : TermInv t := by
  unfold TermInv at hs ⊢; rw [h]; exact hs

theorem andNot_wrapnext (m : Nat) : andNot m CURSOR_WRAPNEXT &&& CURSOR_WRAPNEXT = 0 := by
  unfold andNot
  rw [Nat.and_assoc]
  have : (0xFFFFFFFF ^^^ CURSOR_WRAPNEXT) &&& CURSOR_WRAPNEXT = 0 := by decide
  rw [this, Nat.and_zero]

theorem LIMIT_bounds (x a b : Int) (h : a ≤ b) : a ≤ LIMIT x a b ∧ LIMIT x a b ≤ b := by
  unfold LIMIT
  split_ifs <;> omega

theorem inv_tmoveto (s : State) (x y : Int) (h : (core s).geom) : TermInv (tmoveto s x y) := by
  obtain ⟨h1, h2, h3, h4, h5, h6, h7⟩ := h
  simp only [core] at h1 h2 h3 h4 h5 h6 h7
  have hx := LIMIT_bounds x 0 (s.term.col - 1) (by omega)
  have hy := LIMIT_bounds y
    (if s.term.c.state &&& CURSOR_ORIGIN ≠ 0 then s.term.top else 0)
    (if s.term.c.state &&& CURSOR_ORIGIN ≠ 0 then s.term.bot else s.term.row - 1)
    (by split_ifs <;> omega)
  refine ⟨⟨h1, h2, h3, h4, h5, h6, h7⟩, ?_⟩
  simp only [Core.curs, core, tmoveto]
  refine ⟨hx.1, by omega, ?_, ?_, ?_⟩
  · have := hy.1; split_ifs at this <;> omega
  · have := hy.2; split_ifs at this <;> omega
  · intro hw; exact absurd (andNot_wrapnext _) hw

theorem inv_tmoveato (s : State) (x y : Int) (h : TermInv s) : TermInv (tmoveato s x y) :=
  inv_tmoveto s _ _ h.1

theorem inv_tsetscroll (s : State) (t b : Int) (h : TermInv s) : TermInv (tsetscroll s t b) := by
  obtain ⟨⟨h1, h2, h3, h4, h5, h6, h7⟩, hc⟩ := h
  simp only [core] at h1 h2 h3 h4 h5 h6 h7
  have ht := LIMIT_bounds t 0 (s.term.row - 1) (by omega)
  have hb := LIMIT_bounds b 0 (s.term.row - 1) (by omega)
  refine ⟨?_, hc⟩
  simp only [Core.geom, core, tsetscroll]
  refine ⟨h1, h2, ?_, ?_, ?_, h6, h7⟩ <;> split_ifs <;> omega

theorem inv_scrollback_add (s : State) (l : Nat) (h : TermInv s) : TermInv (scrollback_add s l) := by
  obtain ⟨⟨h1, h2, h3, h4, h5, h6, h7⟩, hc⟩ := h
  simp only [core] at h1 h2 h3 h4 h5 h6 h7
  refine ⟨?_, hc⟩
  simp only [Core.geom, core, scrollback_add]
  refine ⟨h1, h2, h3, h4, h5, ?_, h7⟩
  split_ifs <;> simp only [] <;> omega

theorem inv_tscrollupSave (s : State) (i : Int) (h : TermInv s) : TermInv (tscrollupSave s i) := by
  unfold tscrollupSave
  exact inv_scrollback_add _ _ (inv_of_core rfl h)

theorem inv_tscrollup (s : State) (orig n : Int) (h : TermInv s) : TermInv (tscrollup s orig n) := by
  unfold tscrollup
  simp only []
  refine inv_of_core (core_selscroll _ _ _) ?_
  refine inv_of_core (forRange_core _ _ _ (fun i t => core_swapLines t _ _) _) ?_
  refine inv_of_core (core_tclearregion _ _ _ _ _) ?_
  split_ifs
  · exact forRange_induct TermInv _ _ _ (fun i t ht => inv_tscrollupSave t i ht) s h
  · exact h

theorem inv_tdeleteline (s : State) (n : Int) (h : TermInv s) : TermInv (tdeleteline s n) := by
  unfold tdeleteline
  split_ifs
  · exact h
  · exact inv_tscrollup s _ n h

theorem inv_tscrollbackMap (s : State) (i : Int) (h : TermInv s) : TermInv (tscrollbackMap s i) := by
  unfold tscrollbackMap
  simp only []
  split_ifs
  · exact inv_of_core (s := s) (core_scrollback_get s _) h
  · exact h

theorem inv_tscrollback (s : State) (n : Int) (h : TermInv s) : TermInv (tscrollback s n) := by
  obtain ⟨⟨h1, h2, h3, h4, h5, h6, h7⟩, hc⟩ := h
  simp only [core] at h1 h2 h3 h4 h5 h6 h7
  have h0 : TermInv { s with term := { s.term with ybase := tscrollbackBase s n } } := by
    refine ⟨?_, hc⟩
    simp only [Core.geom, core, tscrollbackBase]
    refine ⟨h1, h2, h3, h4, h5, ?_, ?_⟩ <;> split_ifs <;> omega
  unfold tscrollback
  simp only []
  split_ifs
  · exact forRange_induct TermInv _ _ _
      (fun i t ht => inv_of_core (t := tscrollbackRestore t i) rfl ht) _ h0
  · refine forRange_induct TermInv _ _ _ (fun i t ht => inv_tscrollbackMap t i ht) _ ?_
    exact forRange_induct TermInv _ _ _
      (fun i t ht => inv_of_core (t := tscrollbackSnapshot t i) rfl ht) _ h0
  · exact forRange_induct TermInv _ _ _ (fun i t ht => inv_tscrollbackMap t i ht) _ h0

theorem inv_ite {c : Prop} [Decidable c] {a b : State} (ha : TermInv a) (hb : TermInv b) :
    TermInv (if c then a else b) := by
  split_ifs <;> assumption

theorem inv_setMode (s : State) (m : Nat) (h : TermInv s) : TermInv (s.setMode m) :=
  inv_of_core (s := s) rfl h

theorem inv_setEsc (s : State) (m : Nat) (h : TermInv s) : TermInv (s.setEsc m) :=
  inv_of_core (s := s) rfl h

theorem inv_setAttrMode (s : State) (m : Nat) (h : TermInv s) : TermInv (s.setAttrMode m) :=
  inv_of_core (s := s) rfl h

theorem inv_argDefault (s : State) (i : Nat) (d : Int) (h : TermInv s) :
    TermInv (s.argDefault i d) :=
  inv_of_core (s := s) rfl h

theorem inv_tclearregion (s : State) (x1 y1 x2 y2 : Int) (h : TermInv s) :
    TermInv (tclearregion s x1 y1 x2 y2) :=
  inv_of_core (core_tclearregion s x1 y1 x2 y2) h

theorem inv_tswapscreen (s : State) (h : TermInv s) : TermInv (tswapscreen s) :=
  inv_of_core (core_tswapscreen s) h

theorem inv_tcursor (s : State) (m : CursorMovement) (h : TermInv s) : TermInv (tcursor s m) := by
  cases m with
  | CURSOR_SAVE => exact inv_of_core (s := s) rfl h
  | CURSOR_LOAD => exact inv_tmoveto _ _ _ h.1

theorem inv_tmoveto_of_inv (s : State) (x y : Int) (h : TermInv s) : TermInv (tmoveto s x y) :=
  inv_tmoveto s x y h.1

theorem inv_tsetmode1 (priv set : Bool) (s : State) (a : Int) (h : TermInv s) :
    TermInv (tsetmode1 priv set s a) := by
  unfold tsetmode1
  have hm : ∀ (x y : Int),
      TermInv (tmoveato (s.setCState (MODBIT s.term.c.state set CURSOR_ORIGIN)) x y) :=
    fun x y => inv_tmoveto _ _ _ h.1
  repeat' (with_reducible first
    | exact h
    | exact hm _ _
    | apply inv_ite
    | apply inv_setMode
    | apply inv_tcursor
    | apply inv_tswapscreen
    | apply inv_tclearregion)

theorem inv_tsetmode (s : State) (priv set : Bool) (args : List Int) (h : TermInv s) :
    TermInv (tsetmode s priv set args) := by
  unfold tsetmode
  induction args generalizing s with
  | nil => exact h
  | cons a l ih => exact ih _ (inv_tsetmode1 priv set s a h)

theorem inv_tnewline (s : State) (b : Bool) (h : TermInv s) : TermInv (tnewline s b) := by
  unfold tnewline
  repeat' (with_reducible first
    | exact h
    | apply inv_ite
    | apply inv_tmoveto_of_inv
    | apply inv_tscrollup)

theorem inv_tputtab (s : State) (f : Bool) (h : TermInv s) : TermInv (tputtab s f) := by
  unfold tputtab
  repeat' (with_reducible first
    | exact h
    | apply inv_ite
    | apply inv_tmoveto_of_inv)

theorem inv_tputtabs (s : State) (f : Bool) (h : TermInv s) : TermInv (tputtabs s f) := by
  unfold tputtabs
  exact inv_of_core (core_setArg _ _ _)
    (repeatN_induct TermInv _ (fun t ht => inv_tputtab t f ht) _ s h)

theorem inv_treset (s : State) (h : TermInv s) : TermInv (treset s) := by
  obtain ⟨⟨h1, h2, h3, h4, h5, h6, h7⟩, hc⟩ := h
  simp only [core] at h1 h2 h3 h4 h5 h6 h7
  unfold treset
  refine inv_tcursor _ _ (inv_tmoveto _ _ _ ?_)
  rw [core_tclearregion]
  simp only [Core.geom, core]
  exact ⟨h1, h2, le_refl _, by omega, by omega, h6, h7⟩

theorem inv_tinsertblank (s : State) (n : Int) (h : TermInv s) : TermInv (tinsertblank s n) :=
  inv_of_core (core_tinsertblank s n) h

theorem inv_tdeletechar (s : State) (n : Int) (h : TermInv s) : TermInv (tdeletechar s n) :=
  inv_of_core (core_tdeletechar s n) h

theorem inv_tinsertblankline (s : State) (n : Int) (h : TermInv s) :
    TermInv (tinsertblankline s n) :=
  inv_of_core (core_tinsertblankline s n) h

theorem inv_tscrolldown (s : State) (o n : Int) (h : TermInv s) : TermInv (tscrolldown s o n) :=
  inv_of_core (core_tscrolldown s o n) h

theorem inv_ttywrite (s : State) (b : List Nat) (h : TermInv s) : TermInv (ttywrite s b) :=
  inv_of_core (s := s) rfl h

theorem inv_tsetattr (s : State) (a : List Int) (h : TermInv s) : TermInv (tsetattr s a) :=
  inv_of_core (s := s) rfl h

theorem inv_setSel (s : State) (v : Selection) (h : TermInv s) : TermInv (s.setSel v) :=
  inv_of_core (s := s) rfl h

theorem inv_setTabs (s : State) (t : List Bool) (h : TermInv s) : TermInv (s.setTabs t) :=
  inv_of_core (s := s) rfl h

theorem inv_setStr (s : State) (q : STREscape) (h : TermInv s) : TermInv (s.setStr q) :=
  inv_of_core (s := s) rfl h

theorem inv_setCsi (s : State) (q : CSIEscape) (h : TermInv s) : TermInv (s.setCsi q) :=
  inv_of_core (s := s) rfl h

theorem inv_csihandle (s : State) (h : TermInv s) : TermInv (csihandle s) := by
  unfold csihandle
  repeat' (with_reducible first
    | exact h
    | apply inv_ite
    | apply inv_tmoveto_of_inv
    | apply inv_tmoveato
    | apply inv_tsetscroll
    | apply inv_argDefault
    | apply inv_tinsertblank
    | apply inv_tdeletechar
    | apply inv_tinsertblankline
    | apply inv_tdeleteline
    | apply inv_tscrollup
    | apply inv_tscrolldown
    | apply inv_ttywrite
    | apply inv_tsetattr
    | apply inv_tsetmode
    | apply inv_tputtabs
    | apply inv_tcursor
    | apply inv_tclearregion
    | apply inv_setSel
    | apply inv_setTabs)

theorem inv_csiparse (s : State) (h : TermInv s) : TermInv (csiparse s) :=
  inv_of_core (s := s) rfl h

theorem inv_csireset (s : State) (h : TermInv s) : TermInv (csireset s) :=
  inv_of_core (s := s) rfl h

theorem inv_strreset (s : State) (h : TermInv s) : TermInv (strreset s) :=
  inv_of_core (s := s) rfl h

theorem inv_strhandle (s : State) (h : TermInv s) : TermInv (strhandle s) :=
  inv_of_core (s := s) rfl h

theorem inv_tputcStr (s : State) (c : List Nat) (len : Int) (h : TermInv s) :
    TermInv (tputcStr s c len) := by
  unfold tputcStr
  repeat' (with_reducible first
    | exact h
    | apply inv_ite
    | apply inv_setEsc
    | apply inv_strhandle
    | apply inv_setStr)

theorem inv_tputcControl (s : State) (a : Nat) (h : TermInv s) :
    TermInv (tputcControl s a).1 := by
  unfold tputcControl
  split_ifs <;> simp only [] <;>
  repeat' (with_reducible first
    | exact h
    | apply inv_setEsc
    | apply inv_csireset
    | apply inv_tputtab
    | apply inv_tnewline
    | apply inv_tmoveto_of_inv)

theorem inv_tputcAlign (s : State) (h : TermInv s) : TermInv (tputcAlign s) :=
  inv_of_core (core_tputcAlign s) h

theorem inv_tputcEsc (s : State) (a : Nat) (h : TermInv s) : TermInv (tputcEsc s a) := by
  unfold tputcEsc
  repeat' (with_reducible first
    | exact h
    | apply inv_ite
    | apply inv_setEsc
    | apply inv_setMode
    | apply inv_setAttrMode
    | apply inv_csihandle
    | apply inv_csiparse
    | apply inv_strhandle
    | apply inv_strreset
    | apply inv_setStr
    | apply inv_setCsi
    | apply inv_tputcAlign
    | apply inv_tscrollup
    | apply inv_tscrolldown
    | apply inv_tnewline
    | apply inv_treset
    | apply inv_tcursor
    | apply inv_ttywrite
    | apply inv_tmoveto_of_inv
    | apply inv_setTabs)

theorem inv_dite {c : Prop} [Decidable c] {a b : State} (ha : c → TermInv a)
    (hb : ¬ c → TermInv b) : TermInv (if c then a else b) := by
  split_ifs with hc
  · exact ha hc
  · exact hb hc

theorem inv_setCell (s : State) (x y : Int) (g : Glyph) (h : TermInv s) :
    TermInv (s.setCell x y g) :=
  inv_of_core (s := s) rfl h

theorem inv_setRow (s : State) (p : Nat) (r : List Glyph) (h : TermInv s) :
    TermInv (s.setRow p r) :=
  inv_of_core (s := s) rfl h

theorem inv_setDirty (s : State) (y : Int) (h : TermInv s) : TermInv (s.setDirty y) :=
  inv_of_core (s := s) rfl h

theorem inv_tsetchar (s : State) (c : List Nat) (g : Glyph) (x y : Int) (h : TermInv s) :
    TermInv (tsetchar s c g x y) :=
  inv_of_core (s := s) rfl h

theorem inv_wrapnext (s : State) (h : TermInv s) (hx : ¬ (s.term.c.x + 1 < s.term.col)) :
    TermInv (s.setCState (s.term.c.state ||| CURSOR_WRAPNEXT)) := by
  obtain ⟨hg, h1, h2, h3, h4, -⟩ := h
  refine ⟨hg, h1, h2, h3, h4, ?_⟩
  intro _
  simp only [core] at h2 ⊢
  simp only [State.setCState]
  omega

theorem inv_tputcPrint (s : State) (c : List Nat) (h : TermInv s) :
    TermInv (tputcPrint s c) := by
  unfold tputcPrint
  apply inv_dite
  · intro _
    repeat' (with_reducible first
      | exact h
      | apply inv_ite
      | apply inv_tmoveto_of_inv
      | apply inv_tsetchar
      | apply inv_setRow
      | apply inv_tnewline
      | apply inv_setCell
      | apply inv_setSel)
  · intro hc
    apply inv_wrapnext _ _ hc
    repeat' (with_reducible first
      | exact h
      | apply inv_ite
      | apply inv_tsetchar
      | apply inv_setRow
      | apply inv_tnewline
      | apply inv_setCell
      | apply inv_setSel)

theorem inv_tputc (s : State) (c : List Nat) (len : Int) (h : TermInv s) :
    TermInv (tputc s c len) := by
  unfold tputc
  have h1 : TermInv (tputcControl s (uch c)).1 := inv_tputcControl s _ h
  have h2 : TermInv (tputcEsc s (uch c)) := inv_tputcEsc s _ h
  have h3 : TermInv
      (if (decide (uch c < 0x20 ∨ uch c = 0x7F)) = true then tputcControl s (uch c)
        else if s.term.esc &&& ESC_START ≠ 0 then (tputcEsc s (uch c), true)
        else (s, false)).1 := by
    split_ifs
    · exact h1
    · exact h2
    · exact h
  repeat' (with_reducible first
    | exact h3
    | apply inv_ite
    | apply inv_tputcStr
    | apply inv_tputcPrint)
  exact h

theorem core_tresizeKeep (col : Int) (s : State) (i : Int) :
    core (tresizeKeep col s i) = core s := rfl

theorem core_tresizeNew (col : Int) (s : State) (i : Int) :
    core (tresizeNew col s i) = core s := rfl

theorem core_tresizeRows (s : State) (col row : Int) : core (tresizeRows s col row) = core s := by
  unfold tresizeRows
  simp only []
  rw [forRange_core _ _ _ (fun i t => core_tresizeNew col t i),
    forRange_core _ _ _ (fun i t => core_tresizeKeep col t i)]
  split_ifs <;> rfl

theorem core_tresizeTabs (s : State) (col : Int) : core (tresizeTabs s col) = core s := by
  unfold tresizeTabs
  split_ifs <;> rfl

theorem inv_tresizeClear (col row mincol minrow : Int) (s : State) (h : TermInv s) :
    TermInv (tresizeClear col row mincol minrow s) := by
  unfold tresizeClear
  repeat' (with_reducible first
    | exact h
    | apply inv_ite
    | apply inv_tswapscreen
    | apply inv_tclearregion)

theorem geom_tresize (s : State) (col row : Int) (hc : 1 ≤ col) (hr : 1 ≤ row)
    (h6 : -s.term.sb.total ≤ s.term.ybase) (h7 : s.term.ybase ≤ 0) :
    (core (tsetscroll ((tresizeTabs (tresizeRows s col row) col).setSize col row)
      0 (row - 1))).geom := by
  have e : core (tresizeTabs (tresizeRows s col row) col) = core s :=
    (core_tresizeTabs _ _).trans (core_tresizeRows _ _ _)
  have e1 : (tresizeTabs (tresizeRows s col row) col).term.ybase = s.term.ybase :=
    congrArg Core.ybase e
  have e2 : (tresizeTabs (tresizeRows s col row) col).term.sb.total = s.term.sb.total :=
    congrArg (fun k => k.sb.total) e
  simp only [Core.geom, core, tsetscroll, State.setSize, LIMIT]
  rw [e1, e2]
  refine ⟨hc, hr, ?_, ?_, ?_, h6, h7⟩ <;> split_ifs <;> omega

theorem inv_tresize_of (s : State) (col row : Int) (h0 : TermInv s ∨ (1 ≤ col ∧ 1 ≤ row))
    (h6 : -s.term.sb.total ≤ s.term.ybase) (h7 : s.term.ybase ≤ 0) :
    TermInv (tresize s col row).1 := by
  unfold tresize
  by_cases hcr : col < 1 ∨ row < 1
  · simp only [if_pos hcr]
    rcases h0 with h0 | h0
    · exact h0
    · omega
  · simp only [if_neg hcr]
    have hg := geom_tresize s col row (by omega) (by omega) h6 h7
    exact inv_tresizeClear _ _ _ _ _ (inv_tresizeClear _ _ _ _ _ (inv_tmoveto _ _ _ hg))

theorem inv_tresize (s : State) (col row : Int) (h : TermInv s) :
    TermInv (tresize s col row).1 :=
  inv_tresize_of s col row (Or.inl h) h.1.2.2.2.2.2.1 h.1.2.2.2.2.2.2

theorem inv_tnew (s0 : State) (col row : Int) (hc : 1 ≤ col) (hr : 1 ≤ row) :
    TermInv (tnew s0 col row) := by
  unfold tnew
  apply inv_treset
  apply inv_of_core (s := (tresize { s0 with term := Term.zero } col row).1) rfl
  exact inv_tresize_of { s0 with term := Term.zero } col row (Or.inr ⟨hc, hr⟩)
    (show -(0 : Int) ≤ 0 by decide) (show (0 : Int) ≤ 0 by decide)

theorem frozen_of_core {k : ScrollbackList} {s t : State} (h : core t = core s)
    (hs : Frozen k s) : Frozen k t := by
  have e1 : t.term.sb = s.term.sb := congrArg Core.sb h
  have e2 : t.term.ybase = s.term.ybase := congrArg Core.ybase h
  unfold Frozen at hs ⊢
  rw [e1, e2]; exact hs

theorem frozen_ite {k : ScrollbackList} {c : Prop} [Decidable c] {a b : State}
    (ha : Frozen k a) (hb : Frozen k b) : Frozen k (if c then a else b) := by
  split_ifs <;> assumption

theorem frozen_tmoveto {k : ScrollbackList} (s : State) (x y : Int) (h : Frozen k s) :
    Frozen k (tmoveto s x y) := h

theorem frozen_tmoveato {k : ScrollbackList} (s : State) (x y : Int) (h : Frozen k s) :
    Frozen k (tmoveato s x y) := h

theorem frozen_tsetscroll {k : ScrollbackList} (s : State) (t b : Int) (h : Frozen k s) :
    Frozen k (tsetscroll s t b) := h

theorem frozen_setCState {k : ScrollbackList} (s : State) (v : Nat) (h : Frozen k s) :
    Frozen k (s.setCState v) := h

theorem frozen_setMode {k : ScrollbackList} (s : State) (m : Nat) (h : Frozen k s) :
    Frozen k (s.setMode m) := h

theorem frozen_setEsc {k : ScrollbackList} (s : State) (m : Nat) (h : Frozen k s) :
    Frozen k (s.setEsc m) := h

theorem frozen_setAttrMode {k : ScrollbackList} (s : State) (m : Nat) (h : Frozen k s) :
    Frozen k (s.setAttrMode m) := h

theorem frozen_argDefault {k : ScrollbackList} (s : State) (i : Nat) (d : Int)
    (h : Frozen k s) : Frozen k (s.argDefault i d) := h

theorem frozen_setSel {k : ScrollbackList} (s : State) (v : Selection) (h : Frozen k s) :
    Frozen k (s.setSel v) := h

theorem frozen_setTabs {k : ScrollbackList} (s : State) (t : List Bool) (h : Frozen k s) :
    Frozen k (s.setTabs t) := h

theorem frozen_setStr {k : ScrollbackList} (s : State) (q : STREscape) (h : Frozen k s) :
    Frozen k (s.setStr q) := h

theorem frozen_setCsi {k : ScrollbackList} (s : State) (q : CSIEscape) (h : Frozen k s) :
    Frozen k (s.setCsi q) := h

theorem frozen_setCell {k : ScrollbackList} (s : State) (x y : Int) (g : Glyph)
    (h : Frozen k s) : Frozen k (s.setCell x y g) := h

theorem frozen_setRow {k : ScrollbackList} (s : State) (p : Nat) (r : List Glyph)
    (h : Frozen k s) : Frozen k (s.setRow p r) := h

theorem frozen_tsetchar {k : ScrollbackList} (s : State) (c : List Nat) (g : Glyph)
    (x y : Int) (h : Frozen k s) : Frozen k (tsetchar s c g x y) := h

theorem frozen_ttywrite {k : ScrollbackList} (s : State) (b : List Nat) (h : Frozen k s) :
    Frozen k (ttywrite s b) := h

theorem frozen_tsetattr {k : ScrollbackList} (s : State) (a : List Int) (h : Frozen k s) :
    Frozen k (tsetattr s a) := h

theorem frozen_csiparse {k : ScrollbackList} (s : State) (h : Frozen k s) :
    Frozen k (csiparse s) := h

theorem frozen_csireset {k : ScrollbackList} (s : State) (h : Frozen k s) :
    Frozen k (csireset s) := h

theorem frozen_strreset {k : ScrollbackList} (s : State) (h : Frozen k s) :
    Frozen k (strreset s) := h

theorem frozen_strhandle {k : ScrollbackList} (s : State) (h : Frozen k s) :
    Frozen k (strhandle s) := h

theorem frozen_tclearregion {k : ScrollbackList} (s : State) (x1 y1 x2 y2 : Int)
    (h : Frozen k s) : Frozen k (tclearregion s x1 y1 x2 y2) :=
  frozen_of_core (core_tclearregion s x1 y1 x2 y2) h

theorem frozen_tswapscreen {k : ScrollbackList} (s : State) (h : Frozen k s) :
    Frozen k (tswapscreen s) :=
  frozen_of_core (core_tswapscreen s) h

theorem frozen_tinsertblank {k : ScrollbackList} (s : State) (n : Int) (h : Frozen k s) :
    Frozen k (tinsertblank s n) :=
  frozen_of_core (core_tinsertblank s n) h

theorem frozen_tdeletechar {k : ScrollbackList} (s : State) (n : Int) (h : Frozen k s) :
    Frozen k (tdeletechar s n) :=
  frozen_of_core (core_tdeletechar s n) h

theorem frozen_tinsertblankline {k : ScrollbackList} (s : State) (n : Int) (h : Frozen k s) :
    Frozen k (tinsertblankline s n) :=
  frozen_of_core (core_tinsertblankline s n) h

theorem frozen_tscrolldown {k : ScrollbackList} (s : State) (o n : Int) (h : Frozen k s) :
    Frozen k (tscrolldown s o n) :=
  frozen_of_core (core_tscrolldown s o n) h

theorem frozen_tputcAlign {k : ScrollbackList} (s : State) (h : Frozen k s) :
    Frozen k (tputcAlign s) :=
  frozen_of_core (core_tputcAlign s) h

theorem frozen_tcursor {k : ScrollbackList} (s : State) (m : CursorMovement)
    (h : Frozen k s) : Frozen k (tcursor s m) := by
  cases m <;> exact h

theorem frozen_tscrollup {k : ScrollbackList} (s : State) (orig n : Int) (h : Frozen k s) :
    Frozen k (tscrollup s orig n) := by
  unfold tscrollup
  simp only []
  refine frozen_of_core (core_selscroll _ _ _) ?_
  refine frozen_of_core (forRange_core _ _ _ (fun i t => core_swapLines t _ _) _) ?_
  refine frozen_of_core (core_tclearregion _ _ _ _ _) ?_
  rw [if_neg (fun hc => h.2 hc.2)]
  exact h

theorem frozen_tdeleteline {k : ScrollbackList} (s : State) (n : Int) (h : Frozen k s) :
    Frozen k (tdeleteline s n) := by
  unfold tdeleteline
  exact frozen_ite h (frozen_tscrollup s _ n h)

theorem frozen_tnewline {k : ScrollbackList} (s : State) (b : Bool) (h : Frozen k s) :
    Frozen k (tnewline s b) := by
  unfold tnewline
  repeat' (with_reducible first
    | exact h
    | apply frozen_ite
    | apply frozen_tmoveto
    | apply frozen_tscrollup)

theorem frozen_tsetmode1 {k : ScrollbackList} (priv set : Bool) (s : State) (a : Int)
    (h : Frozen k s) : Frozen k (tsetmode1 priv set s a) := by
  unfold tsetmode1
  repeat' (with_reducible first
    | exact h
    | apply frozen_ite
    | apply frozen_tmoveato
    | apply frozen_setCState
    | apply frozen_setMode
    | apply frozen_tcursor
    | apply frozen_tswapscreen
    | apply frozen_tclearregion)

theorem frozen_tsetmode {k : ScrollbackList} (s : State) (priv set : Bool) (args : List Int)
    (h : Frozen k s) : Frozen k (tsetmode s priv set args) := by
  unfold tsetmode
  induction args generalizing s with
  | nil => exact h
  | cons a l ih => exact ih _ (frozen_tsetmode1 priv set s a h)

theorem frozen_tputtab {k : ScrollbackList} (s : State) (f : Bool) (h : Frozen k s) :
    Frozen k (tputtab s f) := by
  unfold tputtab
  repeat' (with_reducible first
    | exact h
    | apply frozen_ite
    | apply frozen_tmoveto)

theorem frozen_tputtabs {k : ScrollbackList} (s : State) (f : Bool) (h : Frozen k s) :
    Frozen k (tputtabs s f) := by
  unfold tputtabs
  exact frozen_of_core (core_setArg _ _ _)
    (repeatN_induct (Frozen k) _ (fun t ht => frozen_tputtab t f ht) _ s h)

theorem frozen_treset {k : ScrollbackList} (s : State) (h : Frozen k s) :
    Frozen k (treset s) := by
  unfold treset
  refine frozen_tcursor _ _ (frozen_tmoveto _ _ _ (frozen_tclearregion _ _ _ _ _ ?_))
  exact h

theorem frozen_csihandle {k : ScrollbackList} (s : State) (h : Frozen k s) :
    Frozen k (csihandle s) := by
  unfold csihandle
  repeat' (with_reducible first
    | exact h
    | apply frozen_ite
    | apply frozen_tmoveto
    | apply frozen_tmoveato
    | apply frozen_tsetscroll
    | apply frozen_argDefault
    | apply frozen_tinsertblank
    | apply frozen_tdeletechar
    | apply frozen_tinsertblankline
    | apply frozen_tdeleteline
    | apply frozen_tscrollup
    | apply frozen_tscrolldown
    | apply frozen_ttywrite
    | apply frozen_tsetattr
    | apply frozen_tsetmode
    | apply frozen_tputtabs
    | apply frozen_tcursor
    | apply frozen_tclearregion
    | apply frozen_setSel
    | apply frozen_setTabs)

theorem frozen_tputcStr {k : ScrollbackList} (s : State) (c : List Nat) (len : Int)
    (h : Frozen k s) : Frozen k (tputcStr s c len) := by
  unfold tputcStr
  repeat' (with_reducible first
    | exact h
    | apply frozen_ite
    | apply frozen_setEsc
    | apply frozen_strhandle
    | apply frozen_setStr)

theorem frozen_tputcControl {k : ScrollbackList} (s : State) (a : Nat) (h : Frozen k s) :
    Frozen k (tputcControl s a).1 := by
  unfold tputcControl
  split_ifs <;> simp only [] <;>
  repeat' (with_reducible first
    | exact h
    | apply frozen_setEsc
    | apply frozen_csireset
    | apply frozen_tputtab
    | apply frozen_tnewline
    | apply frozen_tmoveto)

theorem frozen_tputcEsc {k : ScrollbackList} (s : State) (a : Nat) (h : Frozen k s) :
    Frozen k (tputcEsc s a) := by
  unfold tputcEsc
  repeat' (with_reducible first
    | exact h
    | apply frozen_ite
    | apply frozen_setEsc
    | apply frozen_setMode
    | apply frozen_setAttrMode
    | apply frozen_csihandle
    | apply frozen_csiparse
    | apply frozen_strhandle
    | apply frozen_strreset
    | apply frozen_setStr
    | apply frozen_setCsi
    | apply frozen_tputcAlign
    | apply frozen_tscrollup
    | apply frozen_tscrolldown
    | apply frozen_tnewline
    | apply frozen_treset
    | apply frozen_tcursor
    | apply frozen_ttywrite
    | apply frozen_tmoveto
    | apply frozen_setTabs)

theorem frozen_tputcPrint {k : ScrollbackList} (s : State) (c : List Nat) (h : Frozen k s) :
    Frozen k (tputcPrint s c) := by
  unfold tputcPrint
  repeat' (with_reducible first
    | exact h
    | apply frozen_ite
    | apply frozen_tmoveto
    | apply frozen_setCState
    | apply frozen_tsetchar
    | apply frozen_setRow
    | apply frozen_tnewline
    | apply frozen_setCell
    | apply frozen_setSel)

theorem frozen_tputc {k : ScrollbackList} (s : State) (c : List Nat) (len : Int)
    (h : Frozen k s) : Frozen k (tputc s c len) := by
  unfold tputc
  have h1 : Frozen k (tputcControl s (uch c)).1 := frozen_tputcControl s _ h
  have h2 : Frozen k (tputcEsc s (uch c)) := frozen_tputcEsc s _ h
  have h3 : Frozen k
      (if (decide (uch c < 0x20 ∨ uch c = 0x7F)) = true then tputcControl s (uch c)
        else if s.term.esc &&& ESC_START ≠ 0 then (tputcEsc s (uch c), true)
        else (s, false)).1 := by
    split_ifs
    · exact h1
    · exact h2
    · exact h
  repeat' (with_reducible first
    | exact h3
    | apply frozen_ite
    | apply frozen_tputcStr
    | apply frozen_tputcPrint)
  exact h

/-! ### The wrap indicator stays in the last column -/

theorem wrapbit_or (m b : Nat) (hm : m &&& ATTR_WRAP = 0) (hb : b &&& ATTR_WRAP = 0) :
    (m ||| b) &&& ATTR_WRAP = 0 := by
  rw [Nat.and_comm, Nat.and_or_distrib_left, Nat.and_comm, hm, Nat.and_comm, hb]
  rfl

theorem wrapbit_andNot (m b : Nat) (hm : m &&& ATTR_WRAP = 0) :
    andNot m b &&& ATTR_WRAP = 0 := by
  unfold andNot
  rw [Nat.and_assoc, Nat.and_comm (0xFFFFFFFF ^^^ b), ← Nat.and_assoc, hm, Nat.zero_and]

theorem idx_setIdx {α : Type} (r : List α) (x y : Int) (g d : α) :
    idx (setIdx r x g) y d = idx r y d ∨ idx (setIdx r x g) y d = g ∧ y = x := by
  unfold idx setIdx
  by_cases hy : 0 ≤ y
  · by_cases hx : 0 ≤ x
    · simp only [if_pos hy, if_pos hx]
      by_cases hxy : x.toNat = y.toNat
      · by_cases hl : y.toNat < r.length
        · right
          refine ⟨?_, by omega⟩
          rw [hxy, List.getD_eq_getElem?_getD, List.getElem?_set_self (by omega)]
          rfl
        · left
          simp only [List.getD_eq_getElem?_getD]
          rw [List.getElem?_eq_none (by simp; omega), List.getElem?_eq_none (by omega)]
      · left
        simp only [List.getD_eq_getElem?_getD]
        rw [List.getElem?_set_ne hxy]
    · left; simp only [if_pos hy, if_neg hx]
  · left; simp only [if_neg hy, ite_self]

theorem idx_zero_mode {r : List Glyph} (x : Int) (h : ¬ (0 ≤ x ∧ x.toNat < r.length)) :
    idx r x Glyph.zero = Glyph.zero := by
  unfold idx
  split_ifs with h0
  · rw [List.getD_eq_getElem?_getD, List.getElem?_eq_none (by omega)]; rfl
  · rfl

theorem good_nil (col : Int) : GoodRow col [] := by
  intro x _
  rw [idx_zero_mode x (by simp)]
  rfl

theorem good_mono {col col2 : Int} {r : List Glyph} (h : GoodRow col r) (hc : col2 ≤ col) :
    GoodRow col2 r :=
  fun x hx => h x (by omega)

theorem good_setIdx {col : Int} {r : List Glyph} (h : GoodRow col r) (x : Int) (g : Glyph)
    (hg : x < col - 1 → g.mode &&& ATTR_WRAP = 0) : GoodRow col (setIdx r x g) := by
  intro y hy
  rcases idx_setIdx r x y g Glyph.zero with e | ⟨e, rfl⟩
  · rw [e]; exact h y hy
  · rw [e]; exact hg hy

theorem good_replicate (col : Int) (n : Nat) : GoodRow col (List.replicate n Glyph.zero) := by
  intro x _
  unfold idx
  split_ifs
  · rw [List.getD_eq_getElem?_getD]
    by_cases h : x.toNat < n
    · rw [List.getElem?_replicate, if_pos h]; rfl
    · rw [List.getElem?_eq_none (by simp; omega)]; rfl
  · rfl

theorem good_memcpyRow {col : Int} {dst src : List Glyph} (hd : GoodRow col dst)
    (hs : GoodRow col src) (n : Int) : GoodRow col (memcpyRow dst src n) := by
  unfold memcpyRow
  generalize List.range n.toNat = l
  induction l generalizing dst with
  | nil => exact hd
  | cons k l ih => exact ih (good_setIdx hd _ _ (fun hk => hs _ hk))

theorem good_memmoveRow {col : Int} {row : List Glyph} (h : GoodRow col row)
    (dst src size : Int) (hds : src ≤ dst) : GoodRow col (memmoveRow row dst src size) := by
  unfold memmoveRow
  have key : ∀ (l : List Nat) (acc : List Glyph), GoodRow col acc →
      GoodRow col (l.foldl
        (fun acc k => setIdx acc (dst + (k : Int)) (idx row (src + (k : Int)) Glyph.zero)) acc) := by
    intro l
    induction l with
    | nil => intro acc ha; exact ha
    | cons k l ih => intro acc ha; exact ih _ (good_setIdx ha _ _ (fun hk => h _ (by omega)))
  exact key _ _ h

theorem good_resizeTo {col : Int} {r : List Glyph} (h : GoodRow col r) (n : Int) :
    GoodRow col (resizeTo r n Glyph.zero) := by
  intro x hx
  unfold resizeTo idx
  split_ifs with h0
  · rw [List.getD_eq_getElem?_getD, List.getElem?_take]
    split_ifs with h1
    · by_cases h2 : x.toNat < r.length
      · rw [List.getElem?_append_left h2]
        have := h x hx
        unfold idx at this
        rw [if_pos h0, List.getD_eq_getElem?_getD] at this
        exact this
      · rw [List.getElem?_append_right (by omega)]
        by_cases h3 : x.toNat - r.length < n.toNat
        · rw [List.getElem?_replicate, if_pos h3]; rfl
        · rw [List.getElem?_eq_none (by simp; omega)]; rfl
    · rfl
  · rfl

theorem wok_frame {s t : State} (h : WrapOk s) (e1 : t.term.col = s.term.col)
    (e2 : t.term.c.attr = s.term.c.attr) (e3 : t.saved = s.saved) (e4 : t.heap = s.heap) :
    WrapOk t := by
  unfold WrapOk at h ⊢
  rw [e1, e2, e3, e4]; exact h

theorem wok_ite {c : Prop} [Decidable c] {a b : State} (ha : WrapOk a) (hb : WrapOk b) :
    WrapOk (if c then a else b) := by
  split_ifs <;> assumption

theorem wok_dite {c : Prop} [Decidable c] {a b : State} (ha : c → WrapOk a)
    (hb : ¬ c → WrapOk b) : WrapOk (if c then a else b) := by
  split_ifs with hc
  · exact ha hc
  · exact hb hc

theorem rows_set {col : Int} {heap : List (List Glyph)} (h : RowsOk col heap) (p : Nat)
    (r : List Glyph) (hr : GoodRow col r) : RowsOk col (heap.set p r) := by
  intro q hq
  rcases List.mem_or_eq_of_mem_set hq with hq | rfl
  · exact h q hq
  · exact hr

theorem rows_append {col : Int} {heap : List (List Glyph)} (h : RowsOk col heap)
    (r : List Glyph) (hr : GoodRow col r) : RowsOk col (heap ++ [r]) := by
  intro q hq
  rcases List.mem_append.1 hq with hq | hq
  · exact h q hq
  · rw [List.mem_singleton.1 hq]; exact hr

theorem rows_rowAt {col : Int} {heap : List (List Glyph)} (h : RowsOk col heap) (p : Nat) :
    GoodRow col (rowAt heap p) := by
  unfold rowAt
  rw [List.getD_eq_getElem?_getD]
  by_cases hp : p < heap.length
  · rw [List.getElem?_eq_getElem hp]
    exact h _ (List.getElem_mem hp)
  · rw [List.getElem?_eq_none (by omega)]
    exact good_nil col

theorem rows_mono {col col2 : Int} {heap : List (List Glyph)} (h : RowsOk col heap)
    (hc : col2 ≤ col) : RowsOk col2 heap :=
  fun r hr => good_mono (h r hr) hc

theorem wok_lineAt {s : State} (h : WrapOk s) (y : Int) : GoodRow s.term.col (s.lineAt y) :=
  rows_rowAt h.2.2 _

theorem wok_setDirty (s : State) (y : Int) (h : WrapOk s) : WrapOk (s.setDirty y) :=
  wok_frame h rfl rfl rfl rfl

theorem wok_setCState (s : State) (v : Nat) (h : WrapOk s) : WrapOk (s.setCState v) :=
  wok_frame h rfl rfl rfl rfl

theorem wok_setMode (s : State) (m : Nat) (h : WrapOk s) : WrapOk (s.setMode m) :=
  wok_frame h rfl rfl rfl rfl

theorem wok_setEsc (s : State) (m : Nat) (h : WrapOk s) : WrapOk (s.setEsc m) :=
  wok_frame h rfl rfl rfl rfl

theorem wok_setSel (s : State) (v : Selection) (h : WrapOk s) : WrapOk (s.setSel v) :=
  wok_frame h rfl rfl rfl rfl

theorem wok_setTabs (s : State) (t : List Bool) (h : WrapOk s) : WrapOk (s.setTabs t) :=
  wok_frame h rfl rfl rfl rfl

theorem wok_setStr (s : State) (q : STREscape) (h : WrapOk s) : WrapOk (s.setStr q) :=
  wok_frame h rfl rfl rfl rfl

theorem wok_setCsi (s : State) (q : CSIEscape) (h : WrapOk s) : WrapOk (s.setCsi q) :=
  wok_frame h rfl rfl rfl rfl

theorem wok_setArg (s : State) (i : Nat) (v : Int) (h : WrapOk s) : WrapOk (s.setArg i v) :=
  wok_frame h rfl rfl rfl rfl

theorem wok_argDefault (s : State) (i : Nat) (d : Int) (h : WrapOk s) :
    WrapOk (s.argDefault i d) :=
  wok_frame h rfl rfl rfl rfl

theorem wok_ttywrite (s : State) (b : List Nat) (h : WrapOk s) : WrapOk (ttywrite s b) :=
  wok_frame h rfl rfl rfl rfl

theorem wok_csiparse (s : State) (h : WrapOk s) : WrapOk (csiparse s) :=
  wok_frame h rfl rfl rfl rfl

theorem wok_csireset (s : State) (h : WrapOk s) : WrapOk (csireset s) :=
  wok_frame h rfl rfl rfl rfl

theorem wok_strreset (s : State) (h : WrapOk s) : WrapOk (strreset s) :=
  wok_frame h rfl rfl rfl rfl

theorem wok_strhandle (s : State) (h : WrapOk s) : WrapOk (strhandle s) :=
  wok_frame h rfl rfl rfl rfl

theorem wok_tmoveto (s : State) (x y : Int) (h : WrapOk s) : WrapOk (tmoveto s x y) :=
  wok_frame h rfl rfl rfl rfl

theorem wok_tmoveato (s : State) (x y : Int) (h : WrapOk s) : WrapOk (tmoveato s x y) :=
  wok_frame h rfl rfl rfl rfl

theorem wok_tsetscroll (s : State) (t b : Int) (h : WrapOk s) : WrapOk (tsetscroll s t b) :=
  wok_frame h rfl rfl rfl rfl

theorem wok_swapLines (s : State) (i j : Int) (h : WrapOk s) : WrapOk (swapLines s i j) :=
  wok_frame h rfl rfl rfl rfl

theorem wok_scrollback_add (s : State) (l : Nat) (h : WrapOk s) :
    WrapOk (scrollback_add s l) :=
  wok_frame h rfl rfl rfl rfl

theorem wok_setAttrMode (s : State) (m : Nat) (h : WrapOk s) (hm : m &&& ATTR_WRAP = 0) :
    WrapOk (s.setAttrMode m) :=
  ⟨hm, h.2.1, h.2.2⟩

theorem wok_setRow (s : State) (p : Nat) (r : List Glyph) (h : WrapOk s)
    (hr : GoodRow s.term.col r) : WrapOk (s.setRow p r) :=
  ⟨h.1, h.2.1, rows_set h.2.2 p r hr⟩

theorem wok_setCell (s : State) (x y : Int) (g : Glyph) (h : WrapOk s)
    (hg : x < s.term.col - 1 → g.mode &&& ATTR_WRAP = 0) : WrapOk (s.setCell x y g) :=
  ⟨h.1, h.2.1, rows_set h.2.2 _ _ (good_setIdx (rows_rowAt h.2.2 _) x g hg)⟩

theorem wok_tsetdirt (s : State) (a b : Int) (h : WrapOk s) : WrapOk (tsetdirt s a b) := by
  unfold tsetdirt
  exact forRange_induct WrapOk _ _ _ (fun i t ht => wok_setDirty t i ht) s h

theorem wok_tfulldirt (s : State) (h : WrapOk s) : WrapOk (tfulldirt s) :=
  wok_tsetdirt s _ _ h

theorem wok_selclear (s : State) (h : WrapOk s) : WrapOk (selclear s) := by
  unfold selclear
  split_ifs
  · exact h
  · exact wok_tsetdirt _ _ _ (wok_frame h rfl rfl rfl rfl)

theorem wok_tclearregion (s : State) (x1 y1 x2 y2 : Int) (h : WrapOk s) :
    WrapOk (tclearregion s x1 y1 x2 y2) := by
  unfold tclearregion
  simp only []
  refine forRange_induct WrapOk _ _ _ (fun y t ht => ?_) s h
  refine forRange_induct WrapOk _ _ _ (fun x u hu => ?_) _ (wok_setDirty t y ht)
  have hu2 : WrapOk (if selected u.sel x y then selclear u else u) :=
    wok_ite (wok_selclear u hu) hu
  exact wok_setCell _ _ _ _ hu2 (fun _ => hu2.1)

theorem wok_tswapscreen (s : State) (h : WrapOk s) : WrapOk (tswapscreen s) := by
  unfold tswapscreen
  exact wok_tfulldirt _ (wok_frame h rfl rfl rfl rfl)

theorem wok_tcursor (s : State) (m : CursorMovement) (h : WrapOk s) :
    WrapOk (tcursor s m) := by
  cases m
  · exact ⟨h.1, h.1, h.2.2⟩
  · exact ⟨h.2.1, h.2.1, h.2.2⟩

theorem wok_selscroll (s : State) (orig n : Int) (h : WrapOk s) :
    WrapOk (selscroll s orig n) := by
  unfold selscroll
  simp only []
  split_ifs <;> exact wok_frame h rfl rfl rfl rfl

theorem wok_scrollback_get (s : State) (i : Int) (h : WrapOk s) :
    WrapOk (scrollback_get s i).1 := by
  unfold scrollback_get
  split
  · exact h
  · split_ifs
    · exact wok_setRow _ _ _ h (good_resizeTo (rows_rowAt h.2.2 _) _)
    · exact h

theorem wok_tscrolldown (s : State) (orig n : Int) (h : WrapOk s) :
    WrapOk (tscrolldown s orig n) := by
  unfold tscrolldown
  simp only []
  refine wok_selscroll _ _ _ ?_
  refine forRangeDown_induct WrapOk _ _ _ (fun i t ht => wok_swapLines t _ _ ht) _ ?_
  exact wok_tclearregion _ _ _ _ _ h

theorem wok_tscrollupSave (s : State) (i : Int) (h : WrapOk s) :
    WrapOk (tscrollupSave s i) := by
  unfold tscrollupSave
  simp only []
  refine wok_scrollback_add _ _ ?_
  exact ⟨h.1, h.2.1, rows_append h.2.2 _
    (good_memcpyRow (good_replicate _ _) (wok_lineAt h i) _)⟩

theorem wok_tscrollup (s : State) (orig n : Int) (h : WrapOk s) :
    WrapOk (tscrollup s orig n) := by
  unfold tscrollup
  simp only []
  refine wok_selscroll _ _ _ ?_
  refine forRange_induct WrapOk _ _ _ (fun i t ht => wok_swapLines t _ _ ht) _ ?_
  refine wok_tclearregion _ _ _ _ _ ?_
  split_ifs
  · exact forRange_induct WrapOk _ _ _ (fun i t ht => wok_tscrollupSave t i ht) s h
  · exact h

theorem wok_tscrollbackMap (s : State) (i : Int) (h : WrapOk s) :
    WrapOk (tscrollbackMap s i) := by
  unfold tscrollbackMap
  simp only []
  split_ifs
  · exact wok_frame (wok_scrollback_get s _ h) rfl rfl rfl rfl
  · exact wok_frame h rfl rfl rfl rfl

theorem wok_tscrollbackRestore (s : State) (i : Int) (h : WrapOk s) :
    WrapOk (tscrollbackRestore s i) :=
  wok_frame h rfl rfl rfl rfl

theorem wok_tscrollbackSnapshot (s : State) (i : Int) (h : WrapOk s) :
    WrapOk (tscrollbackSnapshot s i) := by
  unfold tscrollbackSnapshot
  exact wok_setRow _ _ _ h (good_memcpyRow (rows_rowAt h.2.2 _) (wok_lineAt h i) _)

theorem wok_tscrollback (s : State) (n : Int) (h : WrapOk s) : WrapOk (tscrollback s n) := by
  unfold tscrollback
  simp only []
  have h0 : WrapOk { s with term := { s.term with ybase := tscrollbackBase s n } } :=
    wok_frame h rfl rfl rfl rfl
  split_ifs
  · exact forRange_induct WrapOk _ _ _ (fun i t ht => wok_tscrollbackRestore t i ht) _ h0
  · refine forRange_induct WrapOk _ _ _ (fun i t ht => wok_tscrollbackMap t i ht) _ ?_
    exact forRange_induct WrapOk _ _ _ (fun i t ht => wok_tscrollbackSnapshot t i ht) _ h0
  · exact forRange_induct WrapOk _ _ _ (fun i t ht => wok_tscrollbackMap t i ht) _ h0

theorem wok_tnewline (s : State) (b : Bool) (h : WrapOk s) : WrapOk (tnewline s b) := by
  unfold tnewline
  repeat' (with_reducible first
    | exact h
    | apply wok_ite
    | apply wok_tmoveto
    | apply wok_tscrollup)

theorem wok_tsetchar (s : State) (c : List Nat) (g : Glyph) (x y : Int) (h : WrapOk s)
    (hg : g.mode &&& ATTR_WRAP = 0) : WrapOk (tsetchar s c g x y) := by
  unfold tsetchar
  exact wok_setCell _ _ _ _ (wok_setDirty s y h) (fun _ => hg)

theorem wok_tinsertblank (s : State) (n : Int) (h : WrapOk s)
    (hn : s.term.c.x ≤ wrapInt (s.term.c.x + n)) : WrapOk (tinsertblank s n) := by
  unfold tinsertblank
  simp only []
  have h1 : WrapOk (s.setDirty s.term.c.y) := wok_setDirty s _ h
  split_ifs
  · exact wok_tclearregion _ _ _ _ _ h1
  · refine wok_tclearregion _ _ _ _ _ (wok_setRow _ _ _ h1 ?_)
    exact good_memmoveRow (wok_lineAt h1 _) _ _ _ hn

theorem wok_tinsertblankline (s : State) (n : Int) (h : WrapOk s) :
    WrapOk (tinsertblankline s n) := by
  unfold tinsertblankline
  exact wok_ite h (wok_tscrolldown s _ n h)

theorem wok_tdeleteline (s : State) (n : Int) (h : WrapOk s) :
    WrapOk (tdeleteline s n) := by
  unfold tdeleteline
  exact wok_ite h (wok_tscrollup s _ n h)

theorem wrap_ite_pair {c : Prop} [Decidable c] {a b : Glyph × Nat}
    (ha : a.1.mode &&& ATTR_WRAP = 0) (hb : b.1.mode &&& ATTR_WRAP = 0) :
    (if c then a else b).1.mode &&& ATTR_WRAP = 0 := by
  split_ifs <;> assumption

theorem wrap_ite_glyph {c : Prop} [Decidable c] {a b : Glyph} {k : Nat}
    (ha : a.mode &&& ATTR_WRAP = 0) (hb : b.mode &&& ATTR_WRAP = 0) :
    ((if c then a else b), k).1.mode &&& ATTR_WRAP = 0 := by
  show (if c then a else b).mode &&& ATTR_WRAP = 0
  split_ifs <;> assumption

theorem tsetattr1_wrap (cfg : Config) (a : Int) (rest : List Int) (g : Glyph)
    (hg : g.mode &&& ATTR_WRAP = 0) : (tsetattr1 cfg a rest g).1.mode &&& ATTR_WRAP = 0 := by
  unfold tsetattr1
  repeat' (with_reducible first
    | exact hg
    | exact wrapbit_andNot _ _ hg
    | exact wrapbit_or _ ATTR_BOLD hg (by decide)
    | exact wrapbit_or _ ATTR_ITALIC hg (by decide)
    | exact wrapbit_or _ ATTR_UNDERLINE hg (by decide)
    | exact wrapbit_or _ ATTR_BLINK hg (by decide)
    | exact wrapbit_or _ ATTR_REVERSE hg (by decide)
    | apply wrap_ite_pair
    | apply wrap_ite_glyph)

theorem tsetattrLoop_wrap (cfg : Config) (l : List Int) (k : Nat) (g : Glyph)
    (hg : g.mode &&& ATTR_WRAP = 0) : (tsetattrLoop cfg l k g).mode &&& ATTR_WRAP = 0 := by
  induction l generalizing k g with
  | nil => unfold tsetattrLoop; exact hg
  | cons a rest ih =>
    cases k with
    | zero => unfold tsetattrLoop; exact ih _ _ (tsetattr1_wrap cfg a rest g hg)
    | succ k => unfold tsetattrLoop; exact ih _ _ hg

theorem wok_tsetattr (s : State) (a : List Int) (h : WrapOk s) : WrapOk (tsetattr s a) :=
  ⟨tsetattrLoop_wrap s.cfg a 0 _ h.1, h.2.1, h.2.2⟩

theorem wok_tsetmode1 (priv set : Bool) (s : State) (a : Int) (h : WrapOk s) :
    WrapOk (tsetmode1 priv set s a) := by
  unfold tsetmode1
  repeat' (with_reducible first
    | exact h
    | apply wok_ite
    | apply wok_tmoveato
    | apply wok_setCState
    | apply wok_setMode
    | apply wok_tcursor
    | apply wok_tswapscreen
    | apply wok_tclearregion)

theorem wok_tsetmode (s : State) (priv set : Bool) (args : List Int) (h : WrapOk s) :
    WrapOk (tsetmode s priv set args) := by
  unfold tsetmode
  induction args generalizing s with
  | nil => exact h
  | cons a l ih => exact ih _ (wok_tsetmode1 priv set s a h)

theorem wok_tputtab (s : State) (f : Bool) (h : WrapOk s) : WrapOk (tputtab s f) := by
  unfold tputtab
  repeat' (with_reducible first
    | exact h
    | apply wok_ite
    | apply wok_tmoveto)

theorem wok_tputtabs (s : State) (f : Bool) (h : WrapOk s) : WrapOk (tputtabs s f) := by
  unfold tputtabs
  exact wok_setArg _ _ _ (repeatN_induct WrapOk _ (fun t ht => wok_tputtab t f ht) _ s h)

theorem wok_treset (s : State) (h : WrapOk s) : WrapOk (treset s) := by
  unfold treset
  refine wok_tcursor _ _ (wok_tmoveto _ _ _ (wok_tclearregion _ _ _ _ _ ?_))
  exact ⟨(by decide : ATTR_NULL &&& ATTR_WRAP = 0), h.2.1, h.2.2⟩

theorem wok_csihandle (s : State) (h : WrapOk s) (hs : ¬ shiftsLeft s) :
    WrapOk (csihandle s) := by
  have h80 : s.csiescseq.mode = 80 → False := fun e => hs (Or.inl e)
  have h64 : s.csiescseq.mode = 64 →
      (s.argDefault 0 1).term.c.x ≤
        wrapInt ((s.argDefault 0 1).term.c.x + (s.argDefault 0 1).arg 0) := by
    intro e
    have : ¬ wrapInt (s.term.c.x + (s.argDefault 0 1).arg 0) < s.term.c.x :=
      fun hlt => hs (Or.inr ⟨e, hlt⟩)
    show s.term.c.x ≤ wrapInt (s.term.c.x + (s.argDefault 0 1).arg 0)
    omega
  unfold csihandle
  repeat' (with_reducible first
    | exact h
    | intro _
    | (exfalso; exact h80 (by assumption))
    | exact h64 (by assumption)
    | apply wok_dite
    | apply wok_tmoveto
    | apply wok_tmoveato
    | apply wok_tsetscroll
    | apply wok_argDefault
    | apply wok_tinsertblank
    | apply wok_tinsertblankline
    | apply wok_tdeleteline
    | apply wok_tscrollup
    | apply wok_tscrolldown
    | apply wok_ttywrite
    | apply wok_tsetattr
    | apply wok_tsetmode
    | apply wok_tputtabs
    | apply wok_tcursor
    | apply wok_tclearregion
    | apply wok_setSel
    | apply wok_setTabs)

theorem wok_tputcStr (s : State) (c : List Nat) (len : Int) (h : WrapOk s) :
    WrapOk (tputcStr s c len) := by
  unfold tputcStr
  repeat' (with_reducible first
    | exact h
    | apply wok_ite
    | apply wok_setEsc
    | apply wok_strhandle
    | apply wok_setStr)

theorem wok_tputcControl (s : State) (a : Nat) (h : WrapOk s) :
    WrapOk (tputcControl s a).1 := by
  unfold tputcControl
  split_ifs <;> simp only [] <;>
  repeat' (with_reducible first
    | exact h
    | apply wok_setEsc
    | apply wok_csireset
    | apply wok_tputtab
    | apply wok_tnewline
    | apply wok_tmoveto)

theorem wok_tputcAlign (s : State) (h : WrapOk s) : WrapOk (tputcAlign s) := by
  unfold tputcAlign
  refine forRange_induct WrapOk _ _ _ (fun x t ht => ?_) s h
  exact forRange_induct WrapOk _ _ _ (fun y u hu => wok_tsetchar u _ _ x y hu hu.1) t ht

theorem wok_tputcEsc (s : State) (a : Nat) (h : WrapOk s)
    (hd : s.term.esc &&& ESC_CSI ≠ 0 →
      ((0x40 ≤ a ∧ a ≤ 0x7E) ∨ (s.csiescseq.buf ++ [a]).length ≥ ESC_BUF_SIZ - 1) →
      shiftsLeft
        (csiparse ((s.setCsi { s.csiescseq with buf := s.csiescseq.buf ++ [a] }).setEsc 0)) →
      False) :
    WrapOk (tputcEsc s a) := by
  have hgfx1 : (s.term.c.attr.mode ||| ATTR_GFX) &&& ATTR_WRAP = 0 :=
    wrapbit_or _ _ h.1 (by decide)
  have hgfx2 : andNot s.term.c.attr.mode ATTR_GFX &&& ATTR_WRAP = 0 :=
    wrapbit_andNot _ _ h.1
  unfold tputcEsc
  repeat' (first
    | with_reducible (first
      | exact h
      | exact hgfx1
      | exact hgfx2
      | intro _
      | apply wok_dite
      | apply wok_setEsc
      | apply wok_setMode
      | apply wok_setAttrMode
      | apply wok_csihandle
      | apply wok_csiparse
      | apply wok_strhandle
      | apply wok_strreset
      | apply wok_setStr
      | apply wok_setCsi
      | apply wok_tputcAlign
      | apply wok_tscrollup
      | apply wok_tscrolldown
      | apply wok_tnewline
      | apply wok_treset
      | apply wok_tcursor
      | apply wok_ttywrite
      | apply wok_tmoveto
      | apply wok_setTabs)
    | exact hd (by assumption) (by assumption))

theorem winv_sel (s : State) (v : Selection) (c : Prop) [Decidable c] (h : WrapInv s) :
    WrapInv (if c then s.setSel v else s) := by
  split_ifs
  · exact ⟨inv_setSel s v h.1, wok_setSel s v h.2⟩
  · exact h

theorem winv_wrap (s : State) (h : WrapInv s) :
    WrapInv (if IS_SET s.term MODE_WRAP ∧ s.term.c.state &&& CURSOR_WRAPNEXT ≠ 0 then
      tnewline (s.setCell s.term.c.x s.term.c.y
        { s.cell s.term.c.x s.term.c.y with
          mode := (s.cell s.term.c.x s.term.c.y).mode ||| ATTR_WRAP }) true
      else s) := by
  split_ifs with hc
  · refine ⟨inv_tnewline _ _ (inv_setCell _ _ _ _ h.1), wok_tnewline _ _ ?_⟩
    refine wok_setCell _ _ _ _ h.2 (fun hx => ?_)
    have := h.1.2.2.2.2.2 hc.2
    simp only [core] at this
    omega
  · exact h

theorem winv_insert (s : State) (h : WrapInv s) :
    WrapInv (if IS_SET s.term MODE_INSERT ∧ s.term.c.x + 1 < s.term.col then
      s.setRow (idx s.term.line s.term.c.y 0)
        (memmoveRow (s.lineAt s.term.c.y) (s.term.c.x + 1) s.term.c.x
          (s.term.col - s.term.c.x - 1))
      else s) := by
  split_ifs
  · refine ⟨inv_setRow _ _ _ h.1, wok_setRow _ _ _ h.2 ?_⟩
    exact good_memmoveRow (wok_lineAt h.2 _) _ _ _ (by omega)
  · exact h

theorem winv_tsetchar (s : State) (c : List Nat) (h : WrapInv s) :
    WrapInv (tsetchar s c s.term.c.attr s.term.c.x s.term.c.y) :=
  ⟨inv_tsetchar _ _ _ _ _ h.1, wok_tsetchar _ _ _ _ _ h.2 h.2.1⟩

theorem wok_advance (s : State) (h : WrapOk s) :
    WrapOk (if s.term.c.x + 1 < s.term.col then tmoveto s (s.term.c.x + 1) s.term.c.y
      else s.setCState (s.term.c.state ||| CURSOR_WRAPNEXT)) :=
  wok_ite (wok_tmoveto _ _ _ h) (wok_setCState _ _ h)

theorem wok_tputcPrint (s : State) (c : List Nat) (h : WrapInv s) :
    WrapOk (tputcPrint s c) := by
  unfold tputcPrint
  exact wok_advance _ (winv_tsetchar _ c (winv_insert _ (winv_wrap _ (winv_sel s _ _ h)))).2

theorem wok_tputc (s : State) (c : List Nat) (len : Int) (h : WrapInv s)
    (hd : ∀ q, tputcDispatch s c = some q → ¬ shiftsLeft q) : WrapOk (tputc s c len) := by
  unfold tputc
  by_cases hstr : s.term.esc &&& ESC_STR ≠ 0
  · simp only [if_pos hstr]
    exact wok_tputcStr s c len h.2
  · simp only [if_neg hstr]
    have h1 : WrapInv (tputcControl s (uch c)).1 :=
      ⟨inv_tputcControl s _ h.1, wok_tputcControl s _ h.2⟩
    have h3 : WrapInv
        (if (decide (uch c < 0x20 ∨ uch c = 0x7F)) = true then tputcControl s (uch c)
          else if s.term.esc &&& ESC_START ≠ 0 then (tputcEsc s (uch c), true)
          else (s, false)).1 := by
      split_ifs with hctl hstart
      · exact h1
      · refine ⟨inv_tputcEsc s _ h.1, wok_tputcEsc s _ h.2 ?_⟩
        intro hcsi hfin hsl
        refine hd _ ?_ hsl
        unfold tputcDispatch
        rw [if_pos]
        refine ⟨not_not.1 hstr, ?_, hstart, hcsi, hfin⟩
        simpa using hctl
      · exact h
    repeat' (with_reducible first
      | exact h3.2
      | apply wok_ite
      | apply wok_tputcPrint)
    all_goals first
      | exact h3
      | exact h3.2

theorem rows_setRow_resize (k : Int) (t : State) (p : Nat) (n : Int)
    (h : RowsOk k t.heap) :
    RowsOk k (t.setRow p (resizeTo (rowAt t.heap p) n Glyph.zero)).heap :=
  rows_set h _ _ (good_resizeTo (rows_rowAt h _) _)

theorem rows_tresizeKeep (k col : Int) (t : State) (i : Int) (h : RowsOk k t.heap) :
    RowsOk k (tresizeKeep col t i).heap := by
  unfold tresizeKeep
  exact rows_setRow_resize k _ _ _ (rows_setRow_resize k _ _ _
    (rows_setRow_resize k (t.setDirty i) _ _ h))

theorem rows_tresizeNew (k col : Int) (t : State) (i : Int) (h : RowsOk k t.heap) :
    RowsOk k (tresizeNew col t i).heap := by
  unfold tresizeNew allocRow
  exact rows_append (rows_append (rows_append h _ (good_replicate _ _)) _
    (good_replicate _ _)) _ (good_replicate _ _)

theorem rows_tresizeRows (k : Int) (s : State) (col row : Int) (h : RowsOk k s.heap) :
    RowsOk k (tresizeRows s col row).heap := by
  unfold tresizeRows
  simp only []
  refine forRange_induct (fun t : State => RowsOk k t.heap) _ _ _
    (fun i t ht => rows_tresizeNew k col t i ht) _ ?_
  refine forRange_induct (fun t : State => RowsOk k t.heap) _ _ _
    (fun i t ht => rows_tresizeKeep k col t i ht) _ ?_
  split_ifs <;> exact h

theorem cursor_tresizeKeep (col : Int) (t : State) (i : Int) :
    (tresizeKeep col t i).term.c = t.term.c ∧ (tresizeKeep col t i).saved = t.saved :=
  ⟨rfl, rfl⟩

theorem cursor_tresizeNew (col : Int) (t : State) (i : Int) :
    (tresizeNew col t i).term.c = t.term.c ∧ (tresizeNew col t i).saved = t.saved :=
  ⟨rfl, rfl⟩

theorem cursor_tresizeRows (s : State) (col row : Int) :
    (tresizeRows s col row).term.c = s.term.c ∧ (tresizeRows s col row).saved = s.saved := by
  unfold tresizeRows
  simp only []
  refine forRange_induct (fun t : State => t.term.c = s.term.c ∧ t.saved = s.saved) _ _ _
    (fun i t ht => ⟨(cursor_tresizeNew col t i).1.trans ht.1,
      (cursor_tresizeNew col t i).2.trans ht.2⟩) _ ?_
  refine forRange_induct (fun t : State => t.term.c = s.term.c ∧ t.saved = s.saved) _ _ _
    (fun i t ht => ⟨(cursor_tresizeKeep col t i).1.trans ht.1,
      (cursor_tresizeKeep col t i).2.trans ht.2⟩) _ ?_
  split_ifs <;> exact ⟨rfl, rfl⟩

theorem frame_tresizeTabs (s : State) (col : Int) :
    (tresizeTabs s col).term.c = s.term.c ∧ (tresizeTabs s col).saved = s.saved ∧
      (tresizeTabs s col).heap = s.heap := by
  unfold tresizeTabs
  split_ifs <;> exact ⟨rfl, rfl, rfl⟩

theorem wok_tresizeClear (col row mincol minrow : Int) (s : State) (h : WrapOk s) :
    WrapOk (tresizeClear col row mincol minrow s) := by
  unfold tresizeClear
  repeat' (with_reducible first
    | exact h
    | apply wok_ite
    | apply wok_tswapscreen
    | apply wok_tclearregion)

theorem wok_tresize_of (s : State) (col row : Int) (h0 : WrapOk s ∨ (1 ≤ col ∧ 1 ≤ row))
    (h1 : s.term.c.attr.mode &&& ATTR_WRAP = 0) (h2 : s.saved.attr.mode &&& ATTR_WRAP = 0)
    (h3 : RowsOk col s.heap) : WrapOk (tresize s col row).1 := by
  unfold tresize
  by_cases hcr : col < 1 ∨ row < 1
  · simp only [if_pos hcr]
    rcases h0 with h0 | h0
    · exact h0
    · omega
  · simp only [if_neg hcr]
    have e1 := cursor_tresizeRows s col row
    have e2 := frame_tresizeTabs (tresizeRows s col row) col
    have hw : WrapOk ((tresizeTabs (tresizeRows s col row) col).setSize col row) := by
      refine ⟨?_, ?_, ?_⟩
      · show (tresizeTabs (tresizeRows s col row) col).term.c.attr.mode &&& ATTR_WRAP = 0
        rw [e2.1, e1.1]; exact h1
      · show (tresizeTabs (tresizeRows s col row) col).saved.attr.mode &&& ATTR_WRAP = 0
        rw [e2.2.1, e1.2]; exact h2
      · show RowsOk col (tresizeTabs (tresizeRows s col row) col).heap
        rw [e2.2.2]; exact rows_tresizeRows col s col row h3
    exact wok_tresizeClear _ _ _ _ _ (wok_tresizeClear _ _ _ _ _
      (wok_tmoveto _ _ _ (wok_tsetscroll _ _ _ hw)))

theorem wok_tresize (s : State) (col row : Int) (h : WrapOk s) (hc : col ≤ s.term.col) :
    WrapOk (tresize s col row).1 :=
  wok_tresize_of s col row (Or.inl h) h.1 h.2.1 (rows_mono h.2.2 hc)

theorem wok_tnew (cfg : Config) (col row : Int) (hc : 1 ≤ col) (hr : 1 ≤ row) :
    WrapOk (tnew (State.init cfg) col row) := by
  unfold tnew
  apply wok_treset
  apply wok_frame (s := (tresize { State.init cfg with term := Term.zero } col row).1)
    _ rfl rfl rfl rfl
  refine wok_tresize_of _ col row (Or.inr ⟨hc, hr⟩)
    (show (0 : Nat) &&& ATTR_WRAP = 0 by decide) (show (0 : Nat) &&& ATTR_WRAP = 0 by decide) ?_
  intro r hr
  have : r = [] := List.mem_singleton.1 hr
  rw [this]; exact good_nil col

theorem winv_step (s t : State) (h : WrapInv s) (hst : WrapStep s t) : WrapInv t := by
  cases hst with
  | putc c len hd => exact ⟨inv_tputc s c len h.1, wok_tputc s c len h hd⟩
  | scrollback n => exact ⟨inv_tscrollback s n h.1, wok_tscrollback s n h.2⟩
  | resize col row hc => exact ⟨inv_tresize s col row h.1, wok_tresize s col row h.2 hc⟩

theorem winv_reachable (s : State) (h : WrapReachable s) : WrapInv s := by
  induction h with
  | init cfg col row hc hr => exact ⟨inv_tnew _ col row hc hr, wok_tnew cfg col row hc hr⟩
  | step s t _ hst ih => exact winv_step s t ih hst

theorem wrap_cell_of_rows {heap : List (List Glyph)} {col : Int} (h : RowsOk col heap)
    (p : Nat) (x : Int) (hx : (idx (rowAt heap p) x Glyph.zero).mode &&& ATTR_WRAP ≠ 0) :
    col - 1 ≤ x := by
  by_contra hlt
  exact hx (rows_rowAt h p x (by omega))

theorem wreach_tputs (s : State) (bytes : List Nat) (h : WrapReachable s)
    (hk : tputsKeepsColumns s bytes = true) : WrapReachable (tputs s bytes) := by
  unfold tputs
  induction bytes generalizing s with
  | nil => exact h
  | cons b t ih =>
    unfold tputsKeepsColumns at hk
    rw [Bool.and_eq_true] at hk
    refine ih _ (WrapReachable.step s _ h (WrapStep.putc s _ 1 ?_)) hk.2
    intro q hq
    have h1 := hk.1
    unfold keepsColumns at h1
    rw [hq] at h1
    exact of_decide_eq_true h1


/-! ## Grid lemmas: loops, clearing, scrolling, printing -/

theorem forRange_ind {σ : Type} (P : Int → σ → Prop) (lo hi : Int) (f : Int → σ → σ) (s : σ)
    (hle : lo ≤ hi + 1) (h0 : P lo s)
    (hstep : ∀ i t, lo ≤ i → i ≤ hi → P i t → P (i + 1) (f i t)) :
    P (hi + 1) (forRange lo hi f s) := by
  unfold forRange
  have key : ∀ n : Nat, (lo + (n : Int) ≤ hi + 1) →
      P (lo + (n : Int)) ((List.range n).foldl (fun acc k => f (lo + (k : Int)) acc) s) := by
    intro n
    induction n with
    | zero => intro _; simpa using h0
    | succ n ih =>
      intro hn
      simp only [List.range_succ, List.foldl_append, List.foldl_cons, List.foldl_nil]
      have h1 := ih (by push_cast at hn ⊢; omega)
      have h2 := hstep _ _ (by omega) (by push_cast at hn ⊢; omega) h1
      simpa [add_assoc] using h2
  have h3 := key (hi + 1 - lo).toNat (by omega)
  have e : lo + ((hi + 1 - lo).toNat : Int) = hi + 1 := by omega
  rw [e] at h3
  exact h3

theorem forRange_empty {σ : Type} (lo hi : Int) (f : Int → σ → σ) (s : σ) (h : hi < lo) :
    forRange lo hi f s = s := by
  unfold forRange
  have : (hi + 1 - lo).toNat = 0 := by omega
  rw [this]; rfl

theorem forRangeDown_empty {σ : Type} (hi lo : Int) (f : Int → σ → σ) (s : σ) (h : hi < lo) :
    forRangeDown hi lo f s = s := by
  unfold forRangeDown
  have : (hi + 1 - lo).toNat = 0 := by omega
  rw [this]; rfl

theorem length_setIdx {α : Type} (r : List α) (x : Int) (g : α) :
    (setIdx r x g).length = r.length := by
  unfold setIdx
  split_ifs <;> simp

theorem idx_setIdx_ne {α : Type} (r : List α) (x y : Int) (g d : α) (h : y ≠ x) :
    idx (setIdx r x g) y d = idx r y d := by
  rcases idx_setIdx r x y g d with e | ⟨_, e⟩
  · exact e
  · exact absurd e h

theorem idx_setIdx_eq {α : Type} (r : List α) (x : Int) (g d : α) (h0 : 0 ≤ x)
    (h1 : x.toNat < r.length) : idx (setIdx r x g) x d = g := by
  unfold idx setIdx
  rw [if_pos h0, if_pos h0, List.getD_eq_getElem?_getD, List.getElem?_set_self (by omega)]
  rfl

theorem idx_of_ge {α : Type} (r : List α) (x : Int) (d : α) (h : r.length ≤ x.toNat) :
    idx r x d = d := by
  unfold idx
  split_ifs
  · rw [List.getD_eq_getElem?_getD, List.getElem?_eq_none h]; rfl
  · rfl

theorem idx_of_neg {α : Type} (r : List α) (x : Int) (d : α) (h : x < 0) :
    idx r x d = d := by
  unfold idx
  rw [if_neg (by omega)]

theorem idx_mem {α : Type} (r : List α) (x : Int) (d : α) (h0 : 0 ≤ x)
    (h1 : x.toNat < r.length) : idx r x d ∈ r := by
  unfold idx
  rw [if_pos h0, List.getD_eq_getElem?_getD, List.getElem?_eq_getElem h1]
  exact List.getElem_mem h1

theorem idx_eq_getElem {α : Type} (r : List α) (x : Int) (d : α) (h0 : 0 ≤ x)
    (h1 : x.toNat < r.length) : idx r x d = r.get ⟨x.toNat, h1⟩ := by
  unfold idx
  rw [if_pos h0, List.getD_eq_getElem?_getD, List.getElem?_eq_getElem h1]
  rfl

theorem list_ext_idx {α : Type} (a b : List α) (d : α) (hl : a.length = b.length)
    (h : ∀ x : Int, 0 ≤ x → x.toNat < a.length → idx a x d = idx b x d) : a = b := by
  apply List.ext_getElem hl
  intro n h1 h2
  have := h (n : Int) (by omega) (by simpa using h1)
  rw [idx_eq_getElem a _ d (by omega) (by simpa using h1),
    idx_eq_getElem b _ d (by omega) (by simpa using h2)] at this
  simpa using this

theorem rowAt_set_ne (heap : List (List Glyph)) (p q : Nat) (r : List Glyph) (h : q ≠ p) :
    rowAt (heap.set p r) q = rowAt heap q := by
  unfold rowAt
  rw [List.getD_eq_getElem?_getD, List.getD_eq_getElem?_getD, List.getElem?_set_ne (Ne.symm h)]

theorem rowAt_set_eq (heap : List (List Glyph)) (p : Nat) (r : List Glyph)
    (h : p < heap.length) : rowAt (heap.set p r) p = r := by
  unfold rowAt
  rw [List.getD_eq_getElem?_getD, List.getElem?_set_self h]
  rfl

theorem rowAt_of_ge (heap : List (List Glyph)) (p : Nat) (h : heap.length ≤ p) :
    rowAt heap p = [] := by
  unfold rowAt
  rw [List.getD_eq_getElem?_getD, List.getElem?_eq_none h]; rfl

theorem setIdx_nil {α : Type} (x : Int) (g : α) : setIdx ([] : List α) x g = [] := by
  unfold setIdx
  split_ifs <;> rfl

theorem rowAt_set_setIdx (heap : List (List Glyph)) (p : Nat) (x : Int) (g : Glyph) :
    rowAt (heap.set p (setIdx (rowAt heap p) x g)) p = setIdx (rowAt heap p) x g := by
  by_cases h : p < heap.length
  · exact rowAt_set_eq heap p _ h
  · rw [rowAt_of_ge heap p (by omega), setIdx_nil]
    exact rowAt_of_ge _ p (by simp; omega)

theorem rowAt_append (heap : List (List Glyph)) (r : List Glyph) (p : Nat)
    (h : p < heap.length) : rowAt (heap ++ [r]) p = rowAt heap p := by
  unfold rowAt
  rw [List.getD_eq_getElem?_getD, List.getD_eq_getElem?_getD, List.getElem?_append_left h]

theorem rowAt_append_new (heap : List (List Glyph)) (r : List Glyph) :
    rowAt (heap ++ [r]) heap.length = r := by
  unfold rowAt
  rw [List.getD_eq_getElem?_getD, List.getElem?_append_right (le_refl _)]
  simp

theorem rowAt_setCell (s : State) (x y : Int) (g : Glyph) (q : Nat) :
    rowAt (s.setCell x y g).heap q =
      if q = idx s.term.line y 0 then setIdx (rowAt s.heap q) x g else rowAt s.heap q := by
  unfold State.setCell
  split_ifs with h
  · subst h; exact rowAt_set_setIdx _ _ _ _
  · exact rowAt_set_ne _ _ _ _ h

theorem LIMIT_eq_clamp (x a b : Int) (h : a ≤ b) : LIMIT x a b = clamp x a b := by
  unfold LIMIT clamp
  split_ifs <;> omega

theorem andNot_wrapnext_origin (m : Nat) :
    andNot m CURSOR_WRAPNEXT &&& CURSOR_ORIGIN = m &&& CURSOR_ORIGIN := by
  unfold andNot
  rw [Nat.and_assoc]
  rfl

theorem scrollback_add_entries (s : State) (l : Nat) (h : SbOk s.term.sb) :
    (scrollback_add s l).term.sb.entries =
        ({ line := l, col := s.term.col } :: s.term.sb.entries).take SCROLLBACK.toNat ∧
      (scrollback_add s l).term.sb.total = min (s.term.sb.total + 1) SCROLLBACK := by
  obtain ⟨hlen, hmax⟩ := h
  unfold scrollback_add
  simp only []
  have e : SCROLLBACK.toNat = 10000 := rfl
  by_cases hc : s.term.sb.total + 1 > SCROLLBACK
  · rw [if_pos hc]
    have ht : s.term.sb.total = 10000 := by
      have : SCROLLBACK = 10000 := rfl
      omega
    have hl : s.term.sb.entries.length = 10000 := by omega
    refine ⟨?_, ?_⟩
    · show ({ line := l, col := s.term.col } :: s.term.sb.entries).dropLast = _
      rw [List.dropLast_eq_take, e]
      simp [hl]
    · show s.term.sb.total + 1 - 1 = _
      rw [min_eq_right (le_of_lt hc)]
      show s.term.sb.total + 1 - 1 = 10000
      omega
  · rw [if_neg hc]
    have ht : s.term.sb.total + 1 ≤ 10000 := by
      have : SCROLLBACK = 10000 := rfl
      omega
    refine ⟨?_, ?_⟩
    · show { line := l, col := s.term.col } :: s.term.sb.entries = _
      rw [List.take_of_length_le]
      rw [e]; simp; omega
    · show s.term.sb.total + 1 = _
      rw [min_eq_left (by omega)]

theorem sbOk_scrollback_add (s : State) (l : Nat) (h : SbOk s.term.sb) :
    SbOk (scrollback_add s l).term.sb := by
  obtain ⟨e1, e2⟩ := scrollback_add_entries s l h
  obtain ⟨hlen, hmax⟩ := h
  have hs : SCROLLBACK = 10000 := rfl
  have e : SCROLLBACK.toNat = 10000 := rfl
  refine ⟨?_, ?_⟩
  · rw [e1, e2, List.length_take, e, hs]
    simp only [List.length_cons]
    rw [hs] at hmax
    omega
  · rw [e2]; exact min_le_right _ _

theorem frame_setDirty (t s : State) (y : Int) : (t.setDirty y).withGridOf s = t.withGridOf s :=
  rfl

theorem frame_setCell (t s : State) (x y : Int) (g : Glyph) :
    (t.setCell x y g).withGridOf s = t.withGridOf s := rfl

theorem idx_setIdx_true (d : List Bool) (y i : Int) (h : idx d i false = true) :
    idx (setIdx d y true) i false = true := by
  rcases idx_setIdx d y i true false with e | ⟨e, _⟩
  · rw [e]; exact h
  · exact e

/-- What `tsetdirt` changes: only dirty flags, and only from clear to set. -/
theorem tsetdirt_spec (s : State) (a b : Int) :
    (∀ u : State, (tsetdirt s a b).withGridOf u = s.withGridOf u) ∧
    (tsetdirt s a b).heap = s.heap ∧ (tsetdirt s a b).sel = s.sel ∧
    (tsetdirt s a b).term.dirty.length = s.term.dirty.length ∧
    (∀ i, idx s.term.dirty i false = true → idx (tsetdirt s a b).term.dirty i false = true) := by
  unfold tsetdirt
  simp only []
  refine forRange_induct (fun t : State =>
    (∀ u : State, t.withGridOf u = s.withGridOf u) ∧ t.heap = s.heap ∧ t.sel = s.sel ∧
    t.term.dirty.length = s.term.dirty.length ∧
    (∀ i, idx s.term.dirty i false = true → idx t.term.dirty i false = true)) _ _ _ ?_ s
    ⟨fun _ => rfl, rfl, rfl, rfl, fun _ h => h⟩
  rintro i t ⟨h1, h2, h3, h4, h5⟩
  refine ⟨fun u => (frame_setDirty t u i).trans (h1 u), h2, h3, ?_, ?_⟩
  · show (setIdx t.term.dirty i true).length = _
    rw [length_setIdx, h4]
  · intro j hj
    exact idx_setIdx_true _ _ _ (h5 j hj)

/-- What `selclear` changes: dirty flags from clear to set, and `sel.bx`,
which is -1 afterwards. -/
theorem selclear_spec (s : State) :
    (∀ u : State, (selclear s).withGridOf u = s.withGridOf u) ∧
    (selclear s).heap = s.heap ∧
    (selclear s).sel = { s.sel with bx := -1 } ∧
    (selclear s).term.dirty.length = s.term.dirty.length ∧
    (∀ i, idx s.term.dirty i false = true → idx (selclear s).term.dirty i false = true) := by
  unfold selclear
  split_ifs with h
  · refine ⟨fun _ => rfl, rfl, ?_, rfl, fun _ h => h⟩
    cases hs : s.sel
    rw [hs] at h
    simp only [] at h
    subst h
    rfl
  · obtain ⟨h1, h2, h3, h4, h5⟩ :=
      tsetdirt_spec { s with sel := { s.sel with bx := -1 } } s.sel.b.y s.sel.e.y
    exact ⟨fun u => (h1 u).trans rfl, h2, h3, h4, h5⟩

theorem fields_of_frame {t u v : State} (h : t.withGridOf v = u.withGridOf v) :
    t.term.line = u.term.line ∧ t.term.c = u.term.c ∧ t.term.col = u.term.col ∧
    t.term.row = u.term.row :=
  ⟨show (t.withGridOf v).term.line = (u.withGridOf v).term.line by rw [h],
    show (t.withGridOf v).term.c = (u.withGridOf v).term.c by rw [h],
    show (t.withGridOf v).term.col = (u.withGridOf v).term.col by rw [h],
    show (t.withGridOf v).term.row = (u.withGridOf v).term.row by rw [h]⟩

/-- The step of the inner loop of `tclearregion`: an optional `selclear`. -/
theorem selstep_spec (t : State) (x y : Int) :
    (∀ v : State, (if selected t.sel x y then selclear t else t).withGridOf v = t.withGridOf v) ∧
    (if selected t.sel x y then selclear t else t).heap = t.heap ∧
    ((if selected t.sel x y then selclear t else t).sel = t.sel ∨
      (if selected t.sel x y then selclear t else t).sel = { t.sel with bx := -1 }) ∧
    (selected t.sel x y → (if selected t.sel x y then selclear t else t).sel.bx = -1) ∧
    (if selected t.sel x y then selclear t else t).term.dirty.length = t.term.dirty.length ∧
    (∀ i, idx t.term.dirty i false = true →
      idx (if selected t.sel x y then selclear t else t).term.dirty i false = true) := by
  obtain ⟨h1, h2, h3, h4, h5⟩ := selclear_spec t
  split_ifs with h
  · exact ⟨h1, h2, Or.inr h3, fun _ => by rw [h3], h4, h5⟩
  · exact ⟨fun _ => rfl, rfl, Or.inl rfl, fun hc => absurd hc h, rfl, fun _ hi => hi⟩

theorem sel_bx_absorb (a b : Selection)
    (h : b = a ∨ b = { a with bx := -1 }) (c : Selection)
    (hc : c = b ∨ c = { b with bx := -1 }) : c = a ∨ c = { a with bx := -1 } := by
  rcases h with rfl | rfl
  · exact hc
  · rcases hc with rfl | rfl
    · exact Or.inr rfl
    · exact Or.inr rfl

theorem sel_bx_keep (a b : Selection) (h : b = a ∨ b = { a with bx := -1 })
    (ha : a.bx = -1) : b.bx = -1 := by
  rcases h with rfl | rfl
  · exact ha
  · rfl

/-- The inner loop of `tclearregion` on row `y`, columns `xa..xb`. -/
theorem clearCols_spec (u : State) (y xa xb : Int) :
    let t := forRange xa xb (fun x s =>
      (if selected s.sel x y then selclear s else s).setCell x y
        (blankGlyph (if selected s.sel x y then selclear s else s).term.c.attr)) u
    (∀ v : State, t.withGridOf v = u.withGridOf v) ∧
    t.heap.length = u.heap.length ∧
    (∀ q, q ≠ idx u.term.line y 0 → rowAt t.heap q = rowAt u.heap q) ∧
    (∀ q, (rowAt t.heap q).length = (rowAt u.heap q).length) ∧
    (∀ q x, ¬ (xa ≤ x ∧ x ≤ xb) →
      idx (rowAt t.heap q) x Glyph.zero = idx (rowAt u.heap q) x Glyph.zero) ∧
    (∀ x, xa ≤ x → x ≤ xb → 0 ≤ x →
      x.toNat < (rowAt u.heap (idx u.term.line y 0)).length →
      idx (rowAt t.heap (idx u.term.line y 0)) x Glyph.zero = blankGlyph u.term.c.attr) ∧
    t.term.dirty.length = u.term.dirty.length ∧
    (∀ i, idx u.term.dirty i false = true → idx t.term.dirty i false = true) ∧
    (t.sel = u.sel ∨ t.sel = { u.sel with bx := -1 }) ∧
    (∀ x, xa ≤ x → x ≤ xb → selected u.sel x y → t.sel.bx = -1) := by
  intro t
  by_cases hemp : xb < xa
  · have e : t = u := forRange_empty _ _ _ _ hemp
    rw [e]
    exact ⟨fun _ => rfl, rfl, fun _ _ => rfl, fun _ => rfl, fun _ _ _ => rfl,
      fun x h1 h2 _ _ => by omega, rfl, fun _ h => h, Or.inl rfl, fun x h1 h2 _ => by omega⟩
  have := forRange_ind (fun (k : Int) (t : State) =>
    (∀ v : State, t.withGridOf v = u.withGridOf v) ∧
    t.heap.length = u.heap.length ∧
    (∀ q, q ≠ idx u.term.line y 0 → rowAt t.heap q = rowAt u.heap q) ∧
    (∀ q, (rowAt t.heap q).length = (rowAt u.heap q).length) ∧
    (∀ q x, ¬ (xa ≤ x ∧ x < k) →
      idx (rowAt t.heap q) x Glyph.zero = idx (rowAt u.heap q) x Glyph.zero) ∧
    (∀ x, xa ≤ x → x < k → 0 ≤ x →
      x.toNat < (rowAt u.heap (idx u.term.line y 0)).length →
      idx (rowAt t.heap (idx u.term.line y 0)) x Glyph.zero = blankGlyph u.term.c.attr) ∧
    t.term.dirty.length = u.term.dirty.length ∧
    (∀ i, idx u.term.dirty i false = true → idx t.term.dirty i false = true) ∧
    (t.sel = u.sel ∨ t.sel = { u.sel with bx := -1 }) ∧
    (∀ x, xa ≤ x → x < k → selected u.sel x y → t.sel.bx = -1)) xa xb
    (fun x s =>
      (if selected s.sel x y then selclear s else s).setCell x y
        (blankGlyph (if selected s.sel x y then selclear s else s).term.c.attr)) u
    (by omega)
    ⟨fun _ => rfl, rfl, fun _ _ => rfl, fun _ => rfl, fun _ _ _ => rfl,
      fun x h1 h2 _ _ => by omega, rfl, fun _ h => h, Or.inl rfl, fun x h1 h2 _ => by omega⟩
    (by
      rintro k w hk1 hk2 ⟨f1, f2, f3, f4, f5, f6, f7, f8, f9, f10⟩
      obtain ⟨g1, g2, g3, g4, g5, g6⟩ := selstep_spec w k y
      have hline : (if selected w.sel k y then selclear w else w).term.line = u.term.line :=
        (fields_of_frame (g1 u)).1.trans (fields_of_frame (f1 u)).1
      have hc : (if selected w.sel k y then selclear w else w).term.c = u.term.c :=
        (fields_of_frame (g1 u)).2.1.trans (fields_of_frame (f1 u)).2.1
      have hrow : ∀ q, rowAt ((if selected w.sel k y then selclear w else w).setCell k y
          (blankGlyph (if selected w.sel k y then selclear w else w).term.c.attr)).heap q =
          if q = idx u.term.line y 0 then
            setIdx (rowAt w.heap q) k (blankGlyph u.term.c.attr)
          else rowAt w.heap q := by
        intro q
        rw [rowAt_setCell, hline, hc, g2]
      refine ⟨?_, ?_, ?_, ?_, ?_, ?_, ?_, ?_, ?_, ?_⟩
      · intro v
        exact (frame_setCell _ v _ _ _).trans ((g1 v).trans (f1 v))
      · show (List.set _ _ _).length = _
        rw [List.length_set, g2, f2]
      · intro q hq
        rw [hrow, if_neg hq]
        exact f3 q hq
      · intro q
        rw [hrow]
        split_ifs
        · rw [length_setIdx]; exact f4 q
        · exact f4 q
      · intro q x hx
        rw [hrow]
        split_ifs
        · rw [idx_setIdx_ne _ _ _ _ _ (by omega)]
          exact f5 q x (by omega)
        · exact f5 q x (by omega)
      · intro x h1 h2 h3 h4
        rw [hrow, if_pos rfl]
        by_cases hx : x = k
        · subst hx
          exact idx_setIdx_eq _ _ _ _ h3 (by rw [f4]; exact h4)
        · rw [idx_setIdx_ne _ _ _ _ _ hx]
          exact f6 x h1 (by omega) h3 h4
      · show (if selected w.sel k y then selclear w else w).term.dirty.length = _
        rw [g5, f7]
      · intro i hi
        exact g6 i (f8 i hi)
      · exact sel_bx_absorb _ _ f9 _ g3
      · intro x h1 h2 hsel
        show (if selected w.sel k y then selclear w else w).sel.bx = -1
        by_cases hx : x = k
        · subst hx
          rcases f9 with e | e
          · rw [← e] at hsel
            exact g4 hsel
          · exact sel_bx_keep _ _ g3 (by rw [e])
        · exact sel_bx_keep _ _ g3 (f10 x h1 (by omega) hsel))
  obtain ⟨f1, f2, f3, f4, f5, f6, f7, f8, f9, f10⟩ := this
  exact ⟨f1, f2, f3, f4, fun q x hx => f5 q x (by omega),
    fun x h1 h2 => f6 x h1 (by omega), f7, f8, f9, fun x h1 h2 => f10 x h1 (by omega)⟩

/-- The loops of `tclearregion` on rows `ya..yb` and columns `xa..xb`. -/
theorem clearRows_spec (s : State) (xa xb ya yb : Int) :
    let t := forRange ya yb (fun y s =>
      forRange xa xb (fun x s =>
        (if selected s.sel x y then selclear s else s).setCell x y
          (blankGlyph (if selected s.sel x y then selclear s else s).term.c.attr))
        (s.setDirty y)) s
    (∀ v : State, t.withGridOf v = s.withGridOf v) ∧
    t.heap.length = s.heap.length ∧
    (∀ q, (∀ y, ya ≤ y → y ≤ yb → q ≠ idx s.term.line y 0) → rowAt t.heap q = rowAt s.heap q) ∧
    (∀ q, (rowAt t.heap q).length = (rowAt s.heap q).length) ∧
    (∀ q x, ¬ (xa ≤ x ∧ x ≤ xb) →
      idx (rowAt t.heap q) x Glyph.zero = idx (rowAt s.heap q) x Glyph.zero) ∧
    (∀ x y, ya ≤ y → y ≤ yb → xa ≤ x → x ≤ xb → 0 ≤ x →
      x.toNat < (rowAt s.heap (idx s.term.line y 0)).length →
      idx (rowAt t.heap (idx s.term.line y 0)) x Glyph.zero = blankGlyph s.term.c.attr) ∧
    t.term.dirty.length = s.term.dirty.length ∧
    (∀ i, idx s.term.dirty i false = true → idx t.term.dirty i false = true) ∧
    (∀ y, ya ≤ y → y ≤ yb → 0 ≤ y → y.toNat < s.term.dirty.length →
      idx t.term.dirty y false = true) ∧
    (t.sel = s.sel ∨ t.sel = { s.sel with bx := -1 }) ∧
    (∀ x y, ya ≤ y → y ≤ yb → xa ≤ x → x ≤ xb → selected s.sel x y → t.sel.bx = -1) := by
  intro t
  by_cases hemp : yb < ya
  · have e : t = s := forRange_empty _ _ _ _ hemp
    rw [e]
    exact ⟨fun _ => rfl, rfl, fun _ _ => rfl, fun _ => rfl, fun _ _ _ => rfl,
      fun x y h1 h2 => by omega, rfl, fun _ h => h, fun y h1 h2 => by omega, Or.inl rfl,
      fun x y h1 h2 => by omega⟩
  have := forRange_ind (fun (k : Int) (t : State) =>
    (∀ v : State, t.withGridOf v = s.withGridOf v) ∧
    t.heap.length = s.heap.length ∧
    (∀ q, (∀ y, ya ≤ y → y < k → q ≠ idx s.term.line y 0) → rowAt t.heap q = rowAt s.heap q) ∧
    (∀ q, (rowAt t.heap q).length = (rowAt s.heap q).length) ∧
    (∀ q x, ¬ (xa ≤ x ∧ x ≤ xb) →
      idx (rowAt t.heap q) x Glyph.zero = idx (rowAt s.heap q) x Glyph.zero) ∧
    (∀ x y, ya ≤ y → y < k → xa ≤ x → x ≤ xb → 0 ≤ x →
      x.toNat < (rowAt s.heap (idx s.term.line y 0)).length →
      idx (rowAt t.heap (idx s.term.line y 0)) x Glyph.zero = blankGlyph s.term.c.attr) ∧
    t.term.dirty.length = s.term.dirty.length ∧
    (∀ i, idx s.term.dirty i false = true → idx t.term.dirty i false = true) ∧
    (∀ y, ya ≤ y → y < k → 0 ≤ y → y.toNat < s.term.dirty.length →
      idx t.term.dirty y false = true) ∧
    (t.sel = s.sel ∨ t.sel = { s.sel with bx := -1 }) ∧
    (∀ x y, ya ≤ y → y < k → xa ≤ x → x ≤ xb → selected s.sel x y → t.sel.bx = -1))
    ya yb
    (fun y s =>
      forRange xa xb (fun x s =>
        (if selected s.sel x y then selclear s else s).setCell x y
          (blankGlyph (if selected s.sel x y then selclear s else s).term.c.attr))
        (s.setDirty y)) s
    (by omega)
    ⟨fun _ => rfl, rfl, fun _ _ => rfl, fun _ => rfl, fun _ _ _ => rfl,
      fun x y h1 h2 => by omega, rfl, fun _ h => h, fun y h1 h2 => by omega, Or.inl rfl,
      fun x y h1 h2 => by omega⟩
    (by
      rintro k w hk1 hk2 ⟨f1, f2, f3, f4, f5, f6, f7, f8, f9, f10, f11⟩
      obtain ⟨g1, g2, g3, g4, g5, g6, g7, g8, g9, g10⟩ := clearCols_spec (w.setDirty k) k xa xb
      have hline : (w.setDirty k).term.line = s.term.line := (fields_of_frame (f1 s)).1
      have hc : (w.setDirty k).term.c = s.term.c := (fields_of_frame (f1 s)).2.1
      have hheap : (w.setDirty k).heap = w.heap := rfl
      have hsel : (w.setDirty k).sel = w.sel := rfl
      rw [hline, hheap] at g3 g6
      rw [hheap] at g2 g4 g5
      rw [hc] at g6
      rw [hsel] at g9 g10
      refine ⟨?_, ?_, ?_, ?_, ?_, ?_, ?_, ?_, ?_, ?_, ?_⟩
      · intro v
        exact (g1 v).trans ((frame_setDirty w v k).trans (f1 v))
      · rw [g2, f2]
      · intro q hq
        rw [g3 q (hq k hk1 (by omega))]
        exact f3 q (fun y h1 h2 => hq y h1 (by omega))
      · intro q
        rw [g4, f4]
      · intro q x hx
        rw [g5 q x hx]
        exact f5 q x hx
      · intro x y h1 h2 h3 h4 h5 h6
        by_cases hp : idx s.term.line y 0 = idx s.term.line k 0
        · rw [hp]
          rw [hp] at h6
          exact g6 x h3 h4 h5 (by rw [f4]; exact h6)
        · rw [g3 _ hp]
          exact f6 x y h1 (by
            by_contra hh
            have : y = k := by omega
            exact hp (by rw [this])) h3 h4 h5 h6
      · rw [g7]
        show (setIdx w.term.dirty k true).length = _
        rw [length_setIdx, f7]
      · intro i hi
        exact g8 i (idx_setIdx_true _ _ _ (f8 i hi))
      · intro y h1 h2 h3 h4
        apply g8
        by_cases hy : y = k
        · subst hy
          exact idx_setIdx_eq _ _ _ _ h3 (by rw [f7]; exact h4)
        · exact idx_setIdx_true _ _ _ (f9 y h1 (by omega) h3 h4)
      · exact sel_bx_absorb _ _ f10 _ g9
      · intro x y h1 h2 h3 h4 hs
        by_cases hy : y = k
        · subst hy
          rcases f10 with e | e
          · rw [← e] at hs
            exact g10 x h3 h4 hs
          · exact sel_bx_keep _ _ g9 (by rw [e])
        · exact sel_bx_keep _ _ g9 (f11 x y h1 (by omega) h3 h4 hs))
  obtain ⟨f1, f2, f3, f4, f5, f6, f7, f8, f9, f10, f11⟩ := this
  exact ⟨f1, f2, fun q hq => f3 q (fun y h1 h2 => hq y h1 (by omega)), f4, f5,
    fun x y h1 h2 => f6 x y h1 (by omega), f7, f8, fun y h1 h2 => f9 y h1 (by omega), f10,
    fun x y h1 h2 => f11 x y h1 (by omega)⟩

theorem gridOk_inj {s : State} (h : GridOk s) {y z : Int} (hy0 : 0 ≤ y) (hy1 : y < s.term.row)
    (hz0 : 0 ≤ z) (hz1 : z < s.term.row) (e : idx s.term.line y 0 = idx s.term.line z 0) :
    y = z := by
  obtain ⟨_, _, hl, _, hn, _⟩ := h
  have h1 : y.toNat < s.term.line.length := by omega
  have h2 : z.toNat < s.term.line.length := by omega
  rw [idx_eq_getElem _ _ _ hy0 h1, idx_eq_getElem _ _ _ hz0 h2] at e
  have := (List.Nodup.get_inj_iff hn).1 e
  have : y.toNat = z.toNat := congrArg Fin.val this
  omega

theorem gridOk_len {s : State} (h : GridOk s) {y : Int} (hy0 : 0 ≤ y) (hy1 : y < s.term.row) :
    (rowAt s.heap (idx s.term.line y 0)).length = s.term.col.toNat := by
  obtain ⟨_, _, hl, _, _, hr⟩ := h
  exact hr _ (idx_mem _ _ _ hy0 (by omega))

theorem gridOk_lineAt_len {s : State} (h : GridOk s) {y : Int} (hy0 : 0 ≤ y)
    (hy1 : y < s.term.row) : (s.lineAt y).length = s.term.col.toNat :=
  gridOk_len h hy0 hy1

theorem clamp_bounds (x lo hi : Int) (h : lo ≤ hi) : lo ≤ clamp x lo hi ∧ clamp x lo hi ≤ hi := by
  unfold clamp
  omega

theorem limit_min (a b hi : Int) (h : 0 ≤ hi) :
    LIMIT (if a > b then b else a) 0 hi = clamp (min a b) 0 hi := by
  rw [LIMIT_eq_clamp _ _ _ h]
  split_ifs with hc
  · rw [min_eq_right (by omega)]
  · rw [min_eq_left (by omega)]

theorem limit_max (a b hi : Int) (h : 0 ≤ hi) :
    LIMIT (if a > b then a else b) 0 hi = clamp (max a b) 0 hi := by
  rw [LIMIT_eq_clamp _ _ _ h]
  split_ifs with hc
  · rw [max_eq_left (by omega)]
  · rw [max_eq_right (by omega)]

/-- The effect of `tclearregion` on a grid with at least one column and one
row. -/
theorem tclearregion_cleared (s : State) (x1 y1 x2 y2 : Int) (hc : 1 ≤ s.term.col)
    (hr : 1 ≤ s.term.row) :
    Cleared s (tclearregion s x1 y1 x2 y2)
      (clamp (min x1 x2) 0 (s.term.col - 1)) (clamp (max x1 x2) 0 (s.term.col - 1))
      (clamp (min y1 y2) 0 (s.term.row - 1)) (clamp (max y1 y2) 0 (s.term.row - 1)) := by
  unfold tclearregion
  simp only []
  rw [limit_min x1 x2 _ (by omega), limit_max x1 x2 _ (by omega),
    limit_min y1 y2 _ (by omega), limit_max y1 y2 _ (by omega)]
  exact clearRows_spec s _ _ _ _

theorem cleared_gridOk {s t : State} {xa xb ya yb : Int} (h : GridOk s)
    (hc : Cleared s t xa xb ya yb) : GridOk t := by
  obtain ⟨f1, f2, f3, f4, f5, f6, f7, f8, f9, f10, f11⟩ := hc
  obtain ⟨e1, e2, e3, e4⟩ := fields_of_frame (f1 s)
  obtain ⟨g1, g2, g3, g4, g5, g6⟩ := h
  refine ⟨by rw [e3]; exact g1, by rw [e4]; exact g2, by rw [e1, e4]; exact g3,
    by rw [f7, e4]; exact g4, by rw [e1]; exact g5, ?_⟩
  intro p hp
  rw [e1] at hp
  rw [f4, e3]
  exact g6 p hp

theorem cleared_lineAt_out {s t : State} {xa xb ya yb : Int} (h : GridOk s)
    (hc : Cleared s t xa xb ya yb) (h0 : 0 ≤ ya) (h1 : yb < s.term.row)
    (y : Int) (hy0 : 0 ≤ y) (hy1 : y < s.term.row) (hy : ¬ (ya ≤ y ∧ y ≤ yb)) :
    t.lineAt y = s.lineAt y := by
  obtain ⟨f1, f2, f3, f4, f5, f6, f7, f8, f9, f10, f11⟩ := hc
  obtain ⟨e1, e2, e3, e4⟩ := fields_of_frame (f1 s)
  unfold State.lineAt
  rw [e1]
  apply f3
  intro z hz1 hz2 e
  have := gridOk_inj h hy0 hy1 (by omega) (by omega) e
  omega

theorem cleared_cell {s t : State} {xa xb ya yb : Int} (h : GridOk s)
    (hc : Cleared s t xa xb ya yb) (h0 : 0 ≤ ya) (h1 : yb < s.term.row)
    (x y : Int) (hx0 : 0 ≤ x) (hx1 : x < s.term.col) (hy0 : 0 ≤ y) (hy1 : y < s.term.row) :
    t.cell x y =
      if xa ≤ x ∧ x ≤ xb ∧ ya ≤ y ∧ y ≤ yb then blankGlyph s.term.c.attr else s.cell x y := by
  have hout := cleared_lineAt_out h hc h0 h1 y hy0 hy1
  obtain ⟨f1, f2, f3, f4, f5, f6, f7, f8, f9, f10, f11⟩ := hc
  obtain ⟨e1, e2, e3, e4⟩ := fields_of_frame (f1 s)
  split_ifs with hin
  · unfold State.cell State.lineAt
    rw [e1]
    exact f6 x y hin.2.2.1 hin.2.2.2 hin.1 hin.2.1 hx0 (by rw [gridOk_len h hy0 hy1]; omega)
  · by_cases hy : ya ≤ y ∧ y ≤ yb
    · unfold State.cell State.lineAt
      rw [e1]
      exact f5 _ x (fun hx => hin ⟨hx.1, hx.2, hy.1, hy.2⟩)
    · unfold State.cell
      rw [hout hy]

theorem cleared_lineAt_full {s t : State} {xa xb ya yb : Int} (h : GridOk s)
    (hc : Cleared s t xa xb ya yb) (h0 : 0 ≤ ya) (h1 : yb < s.term.row)
    (hxa : xa ≤ 0) (hxb : s.term.col - 1 ≤ xb) (y : Int) (hy0 : ya ≤ y) (hy1 : y ≤ yb) :
    t.lineAt y = List.replicate s.term.col.toNat (blankGlyph s.term.c.attr) := by
  have hlen : (t.lineAt y).length = s.term.col.toNat := by
    have := gridOk_lineAt_len (cleared_gridOk h hc) (y := y) (by omega)
      (by rw [(fields_of_frame (hc.1 s)).2.2.2]; omega)
    rw [this, (fields_of_frame (hc.1 s)).2.2.1]
  apply list_ext_idx _ _ Glyph.zero (by rw [hlen, List.length_replicate])
  intro x hx0 hx1
  have hcell := cleared_cell h hc h0 h1 x y hx0 (by omega) (by omega) (by omega)
  rw [if_pos ⟨by omega, by omega, hy0, hy1⟩] at hcell
  unfold State.cell at hcell
  rw [hcell]
  unfold idx
  rw [if_pos hx0, List.getD_eq_getElem?_getD, List.getElem?_replicate, if_pos (by omega)]
  rfl

theorem foldl_flatMap_single {σ α β : Type} (f : σ → β → σ) (g : α → β) (l : List α)
    (s : σ) :
    List.foldl f s (l.flatMap fun a => [g a]) = List.foldl (fun acc a => f acc (g a)) s l := by
  induction l generalizing s with
  | nil => rfl
  | cons a l ih =>
    simp only [List.flatMap_cons, List.foldl_append, List.foldl_cons, List.foldl_nil, ih]

theorem memcpyRow_nat (dst src : List Glyph) (n : Int) :
    memcpyRow dst src n = (List.range n.toNat).foldl
      (fun (acc : List Glyph) (j : Nat) =>
        setIdx acc (j : Int) (idx src (j : Int) Glyph.zero)) dst := by
  unfold memcpyRow
  exact foldl_flatMap_single _ _ _ _

theorem idx_memcpyRow_aux (src : List Glyph) (k : Nat) (dst : List Glyph) (x : Int) :
    ((List.range k).foldl
        (fun (acc : List Glyph) (j : Nat) => setIdx acc (j : Int) (idx src (j : Int) Glyph.zero)) dst).length
        = dst.length ∧
    idx ((List.range k).foldl
        (fun (acc : List Glyph) (j : Nat) => setIdx acc (j : Int) (idx src (j : Int) Glyph.zero)) dst) x Glyph.zero =
      if 0 ≤ x ∧ x < (k : Int) ∧ x.toNat < dst.length then idx src x Glyph.zero
      else idx dst x Glyph.zero := by
  induction k with
  | zero =>
    refine ⟨rfl, ?_⟩
    rw [if_neg (by omega)]
    rfl
  | succ k ih =>
    simp only [List.range_succ, List.foldl_append, List.foldl_cons, List.foldl_nil]
    obtain ⟨h1, h2⟩ := ih
    refine ⟨by rw [length_setIdx, h1], ?_⟩
    by_cases hx : x = (k : Int)
    · subst hx
      by_cases hl : k < dst.length
      · rw [idx_setIdx_eq _ _ _ _ (by omega) (by rw [h1]; simpa using hl),
          if_pos ⟨by omega, by push_cast; omega, by simpa using hl⟩]
      · rw [idx_of_ge _ _ _ (by rw [length_setIdx, h1]; simp; omega),
          if_neg (by simp; omega), idx_of_ge _ _ _ (by simp; omega)]
    · rw [idx_setIdx_ne _ _ _ _ _ hx, h2]
      by_cases hc : 0 ≤ x ∧ x < (k : Int) ∧ x.toNat < dst.length
      · rw [if_pos hc, if_pos ⟨hc.1, by push_cast; omega, hc.2.2⟩]
      · rw [if_neg hc, if_neg (by push_cast; omega)]

theorem memcpyRow_full (dst src : List Glyph) (n : Int) (hd : dst.length = n.toNat)
    (hs : src.length = n.toNat) : memcpyRow dst src n = src := by
  rw [memcpyRow_nat]
  obtain ⟨h1, _⟩ := idx_memcpyRow_aux src n.toNat dst 0
  apply list_ext_idx _ _ Glyph.zero (by rw [h1, hd, hs])
  intro x hx0 hx1
  rw [(idx_memcpyRow_aux src n.toNat dst x).2, if_pos ⟨hx0, by omega, by omega⟩]

theorem rowAt_lt_of_ne_nil (heap : List (List Glyph)) (p : Nat) (h : rowAt heap p ≠ []) :
    p < heap.length := by
  by_contra hc
  exact h (rowAt_of_ge heap p (by omega))

theorem rowAt_append_left (heap extra : List (List Glyph)) (p : Nat) (h : p < heap.length) :
    rowAt (heap ++ extra) p = rowAt heap p := by
  unfold rowAt
  rw [List.getD_eq_getElem?_getD, List.getD_eq_getElem?_getD, List.getElem?_append_left h]

theorem rowAt_append_right (heap extra : List (List Glyph)) (j : Nat) :
    rowAt (heap ++ extra) (heap.length + j) = extra.getD j [] := by
  unfold rowAt
  rw [List.getD_eq_getElem?_getD, List.getD_eq_getElem?_getD,
    List.getElem?_append_right (by omega)]
  congr 2
  omega

theorem selscroll_spec (s : State) (orig n : Int) :
    (selscroll s orig n).term = s.term ∧ (selscroll s orig n).heap = s.heap := by
  unfold selscroll
  simp only []
  split_ifs <;> exact ⟨rfl, rfl⟩

theorem LIMIT_id (x a b : Int) (h1 : a ≤ x) (h2 : x ≤ b) : LIMIT x a b = x := by
  unfold LIMIT
  split_ifs <;> omega

theorem lineAt_congr {s t : State} (hh : t.heap = s.heap) (i j : Int)
    (hp : idx t.term.line i 0 = idx s.term.line j 0) : t.lineAt i = s.lineAt j := by
  unfold State.lineAt
  rw [hh, hp]

theorem tputs_cons (s : State) (b : Nat) (bs : List Nat) :
    tputs s (b :: bs) = tputs (tputc s [b, 0, 0, 0] 1) bs := rfl

theorem tputs_nil (s : State) : tputs s [] = s := rfl

theorem tputs_append (s : State) (a b : List Nat) : tputs s (a ++ b) = tputs (tputs s a) b := by
  unfold tputs
  rw [List.foldl_append]

theorem uch_small (b : Nat) (t : List Nat) (h : b < 256) : uch (b :: t) = b := by
  unfold uch
  exact Nat.mod_eq_of_lt h

/-- The byte ESC in the ground state starts an escape sequence. -/
theorem tputc_esc (s : State) (len : Int) (hesc : s.term.esc = 0) :
    tputc s [27, 0, 0, 0] len = (csireset s).setEsc ESC_START := by
  unfold tputc
  simp only [hesc]
  rfl

/-- The byte `[` after ESC starts a CSI sequence. -/
theorem tputc_bracket (s : State) (len : Int) (hesc : s.term.esc = ESC_START) :
    tputc s [91, 0, 0, 0] len = s.setEsc (ESC_START ||| ESC_CSI) := by
  unfold tputc
  simp only [hesc]
  unfold tputcEsc
  simp only [hesc]
  rfl

/-- A parameter byte inside a CSI sequence is appended to the buffer. -/
theorem tputc_param (s : State) (b : Nat) (len : Int)
    (hesc : s.term.esc = ESC_START ||| ESC_CSI) (hb1 : 0x20 ≤ b) (hb2 : b < 0x40)
    (hlen : s.csiescseq.buf.length + 1 < ESC_BUF_SIZ - 1) :
    tputc s [b, 0, 0, 0] len = s.setCsi { s.csiescseq with buf := s.csiescseq.buf ++ [b] } := by
  have hu : uch [b, 0, 0, 0] = b := uch_small b _ (by omega)
  have hctl : ¬ (b < 0x20 ∨ b = 0x7F) := by omega
  have hfin : ¬ ((0x40 ≤ b ∧ b ≤ 0x7E) ∨
      (s.setCsi { s.csiescseq with buf := s.csiescseq.buf ++ [b] }).csiescseq.buf.length
        ≥ ESC_BUF_SIZ - 1) := by
    show ¬ ((0x40 ≤ b ∧ b ≤ 0x7E) ∨ (s.csiescseq.buf ++ [b]).length ≥ ESC_BUF_SIZ - 1)
    rw [List.length_append, List.length_singleton]
    omega
  have h1 : tputcEsc s b = s.setCsi { s.csiescseq with buf := s.csiescseq.buf ++ [b] } := by
    unfold tputcEsc
    rw [if_pos (by rw [hesc]; decide)]
    simp only []
    rw [if_neg hfin]
  unfold tputc
  simp only [hu, hesc]
  rw [← h1]
  simp only [hctl, decide_False]
  rfl

/-- A final byte inside a CSI sequence ends it: the sequence is parsed and
handled. -/
theorem tputc_final (s : State) (b : Nat) (len : Int)
    (hesc : s.term.esc = ESC_START ||| ESC_CSI) (hb1 : 0x40 ≤ b) (hb2 : b ≤ 0x7E) :
    tputc s [b, 0, 0, 0] len =
      csihandle (csiparse
        ((s.setCsi { s.csiescseq with buf := s.csiescseq.buf ++ [b] }).setEsc 0)) := by
  have hu : uch [b, 0, 0, 0] = b := uch_small b _ (by omega)
  have hctl : ¬ (b < 0x20 ∨ b = 0x7F) := by omega
  have h1 : tputcEsc s b = csihandle (csiparse
        ((s.setCsi { s.csiescseq with buf := s.csiescseq.buf ++ [b] }).setEsc 0)) := by
    unfold tputcEsc
    rw [if_pos (by rw [hesc]; decide)]
    simp only []
    rw [if_pos (Or.inl ⟨hb1, hb2⟩)]
  unfold tputc
  simp only [hu, hesc]
  rw [← h1]
  simp only [hctl, decide_False]
  rfl

theorem tputs_params (ps : List Nat) (s : State)
    (hesc : s.term.esc = ESC_START ||| ESC_CSI) (hps : ∀ b ∈ ps, 0x20 ≤ b ∧ b < 0x40)
    (hlen : s.csiescseq.buf.length + ps.length < ESC_BUF_SIZ - 1) :
    tputs s ps = s.setCsi { s.csiescseq with buf := s.csiescseq.buf ++ ps } := by
  induction ps generalizing s with
  | nil =>
    rw [tputs_nil, List.append_nil]
    rfl
  | cons b ps ih =>
    have hb := hps b (List.mem_cons_self _ _)
    rw [List.length_cons] at hlen
    rw [tputs_cons, tputc_param s b 1 hesc hb.1 hb.2 (by omega)]
    have e2 := ih (s.setCsi { s.csiescseq with buf := s.csiescseq.buf ++ [b] }) hesc
      (fun c hc => hps c (List.mem_cons_of_mem _ hc))
      (by
        show (s.csiescseq.buf ++ [b]).length + ps.length < _
        rw [List.length_append, List.length_singleton]
        omega)
    rw [e2]
    show s.setCsi { s.csiescseq with buf := (s.csiescseq.buf ++ [b]) ++ ps } = _
    rw [List.append_assoc]
    rfl

/-- A whole CSI sequence `ESC [ ps f` fed in the ground state: the buffer
`ps f` is parsed and handled. -/
theorem tputs_csi (s : State) (ps : List Nat) (f : Nat) (hesc : s.term.esc = 0)
    (hps : ∀ b ∈ ps, 0x20 ≤ b ∧ b < 0x40) (hf1 : 0x40 ≤ f) (hf2 : f ≤ 0x7E)
    (hlen : ps.length < ESC_BUF_SIZ - 1) :
    tputs s (27 :: 91 :: (ps ++ [f])) =
      csihandle (csiparse ((s.setCsi
        { buf := ps ++ [f], priv := 0, arg := List.replicate ESC_ARG_SIZ 0, narg := 0,
          mode := 0 }).setEsc 0)) := by
  rw [tputs_cons, tputs_cons, tputs_append, tputc_esc s 1 hesc,
    tputc_bracket ((csireset s).setEsc ESC_START) 1 rfl,
    tputs_params ps (((csireset s).setEsc ESC_START).setEsc (ESC_START ||| ESC_CSI)) rfl hps
      (by
        show ([] : List Nat).length + ps.length < _
        rw [List.length_nil, Nat.zero_add]
        exact hlen),
    tputs_cons, tputs_nil, tputc_final _ f 1 rfl hf1 hf2]
  rfl

set_option maxRecDepth 100000

theorem csiparse_erase (s : State) :
    csiparse ((s.setCsi
        { buf := [50, 74], priv := 0, arg := List.replicate ESC_ARG_SIZ 0, narg := 0,
          mode := 0 }).setEsc 0) =
      (s.setCsi
        { buf := [50, 74], priv := 0, arg := 2 :: List.replicate 15 0, narg := 1,
          mode := 74 }).setEsc 0 := by
  unfold csiparse
  rfl

theorem csihandle_ED (s : State) (hm : s.csiescseq.mode = 74) (ha : s.arg 0 = 2) :
    csihandle s =
      tclearregion (s.setSel { s.sel with bx := -1 }) 0 0 (s.term.col - 1) (s.term.row - 1) := by
  have ha2 : (s.setSel { s.sel with bx := -1 }).arg 0 = 2 := ha
  unfold csihandle
  simp only [hm, ha2]
  rfl

theorem cell_setCell (s : State) (h : GridOk s) (x y : Int) (g : Glyph)
    (hx0 : 0 ≤ x) (hx1 : x < s.term.col) (hy0 : 0 ≤ y) (hy1 : y < s.term.row)
    (x2 y2 : Int) (hz0 : 0 ≤ y2) (hz1 : y2 < s.term.row) :
    (s.setCell x y g).cell x2 y2 = if x2 = x ∧ y2 = y then g else s.cell x2 y2 := by
  unfold State.cell State.lineAt
  have hl : (s.setCell x y g).term.line = s.term.line := rfl
  rw [hl, rowAt_setCell]
  by_cases hy : y2 = y
  · subst hy
    rw [if_pos rfl]
    by_cases hx : x2 = x
    · subst hx
      rw [if_pos ⟨rfl, rfl⟩]
      exact idx_setIdx_eq _ _ _ _ hx0 (by rw [gridOk_len h hy0 hy1]; omega)
    · rw [if_neg (fun hc => hx hc.1), idx_setIdx_ne _ _ _ _ _ hx]
  · rw [if_neg (fun e => hy (gridOk_inj h hz0 hz1 hy0 hy1 e)), if_neg (fun hc => hy hc.2)]

theorem gridOk_setCell (s : State) (h : GridOk s) (x y : Int) (g : Glyph) :
    GridOk (s.setCell x y g) := by
  obtain ⟨g1, g2, g3, g4, g5, g6⟩ := h
  refine ⟨g1, g2, g3, g4, g5, ?_⟩
  intro p hp
  rw [rowAt_setCell]
  split_ifs
  · rw [length_setIdx]; exact g6 p hp
  · exact g6 p hp

theorem gridOk_setDirty (s : State) (h : GridOk s) (y : Int) : GridOk (s.setDirty y) := by
  obtain ⟨g1, g2, g3, g4, g5, g6⟩ := h
  refine ⟨g1, g2, g3, ?_, g5, g6⟩
  show (setIdx s.term.dirty y true).length = _
  rw [length_setIdx]; exact g4

/-- A printable byte in the ground state goes to the end of `tputc`. -/
theorem tputc_print (s : State) (b : Nat) (len : Int) (hesc : s.term.esc = 0)
    (hb1 : 0x20 ≤ b) (hb2 : b ≤ 0x7E) :
    tputc s [b, 0, 0, 0] len = tputcPrint s [b, 0, 0, 0] := by
  have hu : uch [b, 0, 0, 0] = b := uch_small b _ (by omega)
  have hctl : ¬ (b < 0x20 ∨ b = 0x7F) := by omega
  unfold tputc
  simp only [hu, hesc, hctl, decide_False]
  rfl

theorem bytesAt_four (b : Nat) : bytesAt [b, 0, 0, 0] UTF_SIZ = [b, 0, 0, 0] := rfl

/-- The glyph written by `tsetchar` for a byte that is not translated. -/
theorem tsetchar_plain (s : State) (b : Nat) (g : Glyph) (x y : Int)
    (hg : g.mode &&& ATTR_GFX = 0) :
    tsetchar s [b, 0, 0, 0] g x y = (s.setDirty y).setCell x y { g with c := [b, 0, 0, 0] } := by
  unfold tsetchar
  simp only [hg]
  rfl

/-- The end of `tputc` for a byte written without wrap, without insert mode
and without translation: the selection may be dropped, the row is marked
dirty, the glyph is stored, and the cursor advances or `CURSOR_WRAPNEXT` is
set. -/
theorem tputcPrint_plain (s : State) (b : Nat) (hst : s.term.c.state &&& CURSOR_WRAPNEXT = 0)
    (hins : s.term.mode &&& MODE_INSERT = 0) (hgfx : s.term.c.attr.mode &&& ATTR_GFX = 0) :
    ∃ v : Selection, tputcPrint s [b, 0, 0, 0] =
      if s.term.c.x + 1 < s.term.col then
        tmoveto (((s.setSel v).setDirty s.term.c.y).setCell s.term.c.x s.term.c.y
          { s.term.c.attr with c := [b, 0, 0, 0] }) (s.term.c.x + 1) s.term.c.y
      else
        (((s.setSel v).setDirty s.term.c.y).setCell s.term.c.x s.term.c.y
          { s.term.c.attr with c := [b, 0, 0, 0] }).setCState
            (s.term.c.state ||| CURSOR_WRAPNEXT) := by
  have key : ∀ v : Selection, 
      (let s := s.setSel v
       let s := if IS_SET s.term MODE_WRAP ∧ s.term.c.state &&& CURSOR_WRAPNEXT ≠ 0 then
          tnewline (s.setCell s.term.c.x s.term.c.y
            { s.cell s.term.c.x s.term.c.y with
              mode := (s.cell s.term.c.x s.term.c.y).mode ||| ATTR_WRAP }) true
        else s
       let s := if IS_SET s.term MODE_INSERT ∧ s.term.c.x + 1 < s.term.col then
          s.setRow (idx s.term.line s.term.c.y 0)
            (memmoveRow (s.lineAt s.term.c.y) (s.term.c.x + 1) s.term.c.x
              (s.term.col - s.term.c.x - 1))
        else s
       let s := tsetchar s [b, 0, 0, 0] s.term.c.attr s.term.c.x s.term.c.y
       if s.term.c.x + 1 < s.term.col then tmoveto s (s.term.c.x + 1) s.term.c.y
       else s.setCState (s.term.c.state ||| CURSOR_WRAPNEXT)) =
      if s.term.c.x + 1 < s.term.col then
        tmoveto (((s.setSel v).setDirty s.term.c.y).setCell s.term.c.x s.term.c.y
          { s.term.c.attr with c := [b, 0, 0, 0] }) (s.term.c.x + 1) s.term.c.y
      else
        (((s.setSel v).setDirty s.term.c.y).setCell s.term.c.x s.term.c.y
          { s.term.c.attr with c := [b, 0, 0, 0] }).setCState
            (s.term.c.state ||| CURSOR_WRAPNEXT) := by
    intro v
    have h1 : ¬ (IS_SET (s.setSel v).term MODE_WRAP ∧
        (s.setSel v).term.c.state &&& CURSOR_WRAPNEXT ≠ 0) := fun hc => hc.2 hst
    have h2 : ¬ (IS_SET (s.setSel v).term MODE_INSERT ∧
        (s.setSel v).term.c.x + 1 < (s.setSel v).term.col) := fun hc => hc.1 hins
    have h3 : (s.setSel v).term.c.attr.mode &&& ATTR_GFX = 0 := hgfx
    simp only []
    rw [if_neg h1, if_neg h2, tsetchar_plain _ _ _ _ _ h3]
    rfl
  by_cases hc : s.sel.bx ≠ -1 ∧ BETWEEN s.term.c.y s.sel.by_ s.sel.ey
  · refine ⟨{ s.sel with bx := -1 }, ?_⟩
    rw [← key]
    unfold tputcPrint
    rw [if_pos hc]
  · refine ⟨s.sel, ?_⟩
    rw [← key]
    unfold tputcPrint
    rw [if_neg hc]
    rfl

theorem sameSetup_refl (s : State) : SameSetup s s := ⟨rfl, rfl, rfl, rfl, rfl, rfl, rfl⟩

theorem sameSetup_trans {s t u : State} (h1 : SameSetup s t) (h2 : SameSetup t u) :
    SameSetup s u :=
  ⟨h2.1.trans h1.1, h2.2.1.trans h1.2.1, h2.2.2.1.trans h1.2.2.1,
    h2.2.2.2.1.trans h1.2.2.2.1, h2.2.2.2.2.1.trans h1.2.2.2.2.1,
    h2.2.2.2.2.2.1.trans h1.2.2.2.2.2.1, h2.2.2.2.2.2.2.trans h1.2.2.2.2.2.2⟩

theorem gridOk_setSel (s : State) (h : GridOk s) (v : Selection) : GridOk (s.setSel v) := h

theorem gridOk_tmoveto (s : State) (h : GridOk s) (x y : Int) : GridOk (tmoveto s x y) := h

theorem gridOk_setCState (s : State) (h : GridOk s) (v : Nat) : GridOk (s.setCState v) := h

/-- One printable byte written without wrap, insert mode or translation. -/
theorem step_plain (s : State) (b : Nat) (hg : GridOk s) (hesc : s.term.esc = 0)
    (hst : s.term.c.state = 0) (hins : s.term.mode &&& MODE_INSERT = 0)
    (hgfx : s.term.c.attr.mode &&& ATTR_GFX = 0)
    (hx0 : 0 ≤ s.term.c.x) (hx1 : s.term.c.x < s.term.col)
    (hy0 : 0 ≤ s.term.c.y) (hy1 : s.term.c.y < s.term.row)
    (hb1 : 0x20 ≤ b) (hb2 : b ≤ 0x7E) :
    GridOk (tputc s [b, 0, 0, 0] 1) ∧ SameSetup s (tputc s [b, 0, 0, 0] 1) ∧
    (tputc s [b, 0, 0, 0] 1).term.c.y = s.term.c.y ∧
    (if s.term.c.x + 1 < s.term.col then
        (tputc s [b, 0, 0, 0] 1).term.c.x = s.term.c.x + 1 ∧
        (tputc s [b, 0, 0, 0] 1).term.c.state = 0
      else
        (tputc s [b, 0, 0, 0] 1).term.c.x = s.term.c.x ∧
        (tputc s [b, 0, 0, 0] 1).term.c.state = CURSOR_WRAPNEXT) ∧
    (∀ x y, 0 ≤ y → y < s.term.row →
      (tputc s [b, 0, 0, 0] 1).cell x y =
        if x = s.term.c.x ∧ y = s.term.c.y then { s.term.c.attr with c := [b, 0, 0, 0] }
        else s.cell x y) := by
  obtain ⟨v, hv⟩ := tputcPrint_plain s b (by rw [hst]; rfl) hins hgfx
  rw [tputc_print s b 1 hesc hb1 hb2, hv]
  have hgW : GridOk (((s.setSel v).setDirty s.term.c.y).setCell s.term.c.x s.term.c.y
      { s.term.c.attr with c := [b, 0, 0, 0] }) :=
    gridOk_setCell _ (gridOk_setDirty _ (gridOk_setSel s hg v) _) _ _ _
  have hcell : ∀ x y, 0 ≤ y → y < s.term.row →
      (((s.setSel v).setDirty s.term.c.y).setCell s.term.c.x s.term.c.y
        { s.term.c.attr with c := [b, 0, 0, 0] }).cell x y =
        if x = s.term.c.x ∧ y = s.term.c.y then { s.term.c.attr with c := [b, 0, 0, 0] }
        else s.cell x y := by
    intro x y h0 h1
    exact cell_setCell ((s.setSel v).setDirty s.term.c.y)
      (gridOk_setDirty _ (gridOk_setSel s hg v) _) _ _ _ hx0 hx1 hy0 hy1 x y h0 h1
  by_cases hc : s.term.c.x + 1 < s.term.col
  · rw [if_pos hc, if_pos hc]
    refine ⟨gridOk_tmoveto _ hgW _ _, ⟨rfl, rfl, rfl, rfl, rfl, rfl, rfl⟩, ?_, ⟨?_, ?_⟩, hcell⟩
    · have e : s.term.c.state &&& CURSOR_ORIGIN = 0 := by rw [hst]; rfl
      show LIMIT s.term.c.y (if s.term.c.state &&& CURSOR_ORIGIN ≠ 0 then s.term.top else 0)
        (if s.term.c.state &&& CURSOR_ORIGIN ≠ 0 then s.term.bot else s.term.row - 1) = _
      rw [if_neg (fun h => h e), if_neg (fun h => h e)]
      exact LIMIT_id _ _ _ hy0 (by omega)
    · show LIMIT (s.term.c.x + 1) 0 (s.term.col - 1) = _
      exact LIMIT_id _ _ _ (by omega) (by omega)
    · show andNot s.term.c.state CURSOR_WRAPNEXT = 0
      rw [hst]; rfl
  · rw [if_neg hc, if_neg hc]
    refine ⟨gridOk_setCState _ hgW _, ⟨rfl, rfl, rfl, rfl, rfl, rfl, rfl⟩, rfl, ⟨rfl, ?_⟩, hcell⟩
    show s.term.c.state ||| CURSOR_WRAPNEXT = CURSOR_WRAPNEXT
    rw [hst]; rfl

/-- A run of printable bytes that fits in the rest of the cursor row. -/
theorem run_row (bs : List Nat) (s : State) (hg : GridOk s) (hesc : s.term.esc = 0)
    (hst : s.term.c.state = 0) (hins : s.term.mode &&& MODE_INSERT = 0)
    (hgfx : s.term.c.attr.mode &&& ATTR_GFX = 0)
    (hx0 : 0 ≤ s.term.c.x) (hy0 : 0 ≤ s.term.c.y) (hy1 : s.term.c.y < s.term.row)
    (hfit : s.term.c.x + (bs.length : Int) ≤ s.term.col)
    (hpr : ∀ b ∈ bs, 0x20 ≤ b ∧ b ≤ 0x7E) :
    GridOk (tputs s bs) ∧ SameSetup s (tputs s bs) ∧
    (tputs s bs).term.c.y = s.term.c.y ∧
    (bs ≠ [] → s.term.c.x + (bs.length : Int) = s.term.col →
      (tputs s bs).term.c.x = s.term.col - 1 ∧
      (tputs s bs).term.c.state = CURSOR_WRAPNEXT) ∧
    (s.term.c.x + (bs.length : Int) < s.term.col →
      (tputs s bs).term.c.x = s.term.c.x + (bs.length : Int) ∧
      (tputs s bs).term.c.state = 0) ∧
    (∀ x y, 0 ≤ y → y < s.term.row →
      (tputs s bs).cell x y =
        if y = s.term.c.y ∧ s.term.c.x ≤ x ∧ x < s.term.c.x + (bs.length : Int) then
          { s.term.c.attr with c := [bs.getD (x - s.term.c.x).toNat 0, 0, 0, 0] }
        else s.cell x y) := by
  induction bs generalizing s with
  | nil =>
    rw [tputs_nil]
    refine ⟨hg, sameSetup_refl s, rfl, fun h => absurd rfl h, fun _ => ⟨by simp, hst⟩, ?_⟩
    intro x y _ _
    rw [if_neg]
    simp only [List.length_nil, Nat.cast_zero, add_zero]
    omega
  | cons b bs ih =>
    have hb := hpr b (List.mem_cons_self _ _)
    rw [List.length_cons] at hfit
    push_cast at hfit
    obtain ⟨p1, p2, p3, p4, p5⟩ := step_plain s b hg hesc hst hins hgfx hx0 (by omega) hy0 hy1
      hb.1 hb.2
    rw [tputs_cons]
    by_cases hc : s.term.c.x + 1 < s.term.col
    · rw [if_pos hc] at p4
      obtain ⟨q1, q2, q3, q4, q5, q6⟩ := ih (tputc s [b, 0, 0, 0] 1) p1
        (p2.2.2.2.2.2.1.trans hesc) p4.2 (by rw [p2.2.2.2.2.1]; exact hins)
        (by rw [p2.2.2.2.2.2.2]; exact hgfx) (by rw [p4.1]; omega) (by rw [p3]; exact hy0)
        (by rw [p3, p2.2.1]; exact hy1) (by rw [p4.1, p2.1]; omega)
        (fun c hc => hpr c (List.mem_cons_of_mem _ hc))
      rw [p4.1, p2.1] at q4 q5
      refine ⟨q1, sameSetup_trans p2 q2, q3.trans p3, ?_, ?_, ?_⟩
      · intro _ he
        rw [List.length_cons] at he
        push_cast at he
        by_cases hbs : bs = []
        · subst hbs
          simp only [List.length_nil, Nat.cast_zero] at he
          omega
        · exact q4 hbs (by omega)
      · intro hlt
        rw [List.length_cons] at hlt ⊢
        push_cast at hlt ⊢
        have := q5 (by omega)
        exact ⟨by rw [this.1]; omega, this.2⟩
      · intro x y h0 h1
        rw [q6 x y h0 (by rw [p2.2.1]; exact h1), p5 x y h0 h1, p4.1, p3, p2.2.2.2.2.2.2]
        rw [List.length_cons]
        push_cast
        by_cases hin : y = s.term.c.y ∧ s.term.c.x + 1 ≤ x ∧ x < s.term.c.x + 1 + (bs.length : Int)
        · rw [if_pos hin, if_pos ⟨hin.1, by omega, by omega⟩]
          have e : (x - s.term.c.x).toNat = (x - (s.term.c.x + 1)).toNat + 1 := by omega
          rw [e]
          rfl
        · rw [if_neg hin]
          by_cases hx : x = s.term.c.x ∧ y = s.term.c.y
          · rw [if_pos hx, if_pos ⟨hx.2, by omega, by omega⟩]
            have e : (x - s.term.c.x).toNat = 0 := by omega
            rw [e]
            rfl
          · rw [if_neg hx, if_neg (by omega)]
    · rw [if_neg hc] at p4
      have hbs : bs = [] := by
        apply List.eq_nil_of_length_eq_zero
        omega
      subst hbs
      rw [tputs_nil]
      refine ⟨p1, p2, p3, fun _ _ => ⟨by rw [p4.1]; omega, p4.2⟩, ?_, ?_⟩
      · intro hlt
        simp only [List.length_cons, List.length_nil] at hlt
        push_cast at hlt
        omega
      · intro x y h0 h1
        rw [p5 x y h0 h1]
        simp only [List.length_cons, List.length_nil]
        push_cast
        by_cases hx : x = s.term.c.x ∧ y = s.term.c.y
        · rw [if_pos hx, if_pos ⟨hx.2, by omega, by omega⟩]
          have e : (x - s.term.c.x).toNat = 0 := by omega
          rw [e]
          rfl
        · rw [if_neg hx, if_neg (by omega)]

theorem tnewline_down (s : State) (h : s.term.c.y ≠ s.term.bot) :
    tnewline s true = tmoveto s 0 (s.term.c.y + 1) := by
  unfold tnewline
  simp only []
  rw [if_neg h]
  rfl

/-- The last steps of `tputc` without insert mode and without translation:
the row is marked dirty, the glyph is stored, and the cursor advances or
`CURSOR_WRAPNEXT` is set. -/
theorem rest_plain (u : State) (b : Nat) (hins : u.term.mode &&& MODE_INSERT = 0)
    (hgfx : u.term.c.attr.mode &&& ATTR_GFX = 0) :
    (let s := if IS_SET u.term MODE_INSERT ∧ u.term.c.x + 1 < u.term.col then
          u.setRow (idx u.term.line u.term.c.y 0)
            (memmoveRow (u.lineAt u.term.c.y) (u.term.c.x + 1) u.term.c.x
              (u.term.col - u.term.c.x - 1))
        else u
     let s := tsetchar s [b, 0, 0, 0] s.term.c.attr s.term.c.x s.term.c.y
     if s.term.c.x + 1 < s.term.col then tmoveto s (s.term.c.x + 1) s.term.c.y
     else s.setCState (s.term.c.state ||| CURSOR_WRAPNEXT)) =
      if u.term.c.x + 1 < u.term.col then
        tmoveto ((u.setDirty u.term.c.y).setCell u.term.c.x u.term.c.y
          { u.term.c.attr with c := [b, 0, 0, 0] }) (u.term.c.x + 1) u.term.c.y
      else
        ((u.setDirty u.term.c.y).setCell u.term.c.x u.term.c.y
          { u.term.c.attr with c := [b, 0, 0, 0] }).setCState
            (u.term.c.state ||| CURSOR_WRAPNEXT) := by
  have h2 : ¬ (IS_SET u.term MODE_INSERT ∧ u.term.c.x + 1 < u.term.col) := fun hc => hc.1 hins
  simp only []
  rw [if_neg h2, tsetchar_plain _ _ _ _ _ hgfx]
  rfl

/-- The end of `tputc` for a byte written while `CURSOR_WRAPNEXT` is set in
wrap mode, the cursor not being on the bottom row of the scroll region. -/
theorem tputcPrint_wrap (s : State) (b : Nat) (hwrap : IS_SET s.term MODE_WRAP)
    (hst : s.term.c.state &&& CURSOR_WRAPNEXT ≠ 0)
    (hins : s.term.mode &&& MODE_INSERT = 0) (hgfx : s.term.c.attr.mode &&& ATTR_GFX = 0)
    (hy : s.term.c.y ≠ s.term.bot) :
    ∃ v : Selection, tputcPrint s [b, 0, 0, 0] =
      (fun u : State =>
        if u.term.c.x + 1 < u.term.col then
          tmoveto ((u.setDirty u.term.c.y).setCell u.term.c.x u.term.c.y
            { u.term.c.attr with c := [b, 0, 0, 0] }) (u.term.c.x + 1) u.term.c.y
        else
          ((u.setDirty u.term.c.y).setCell u.term.c.x u.term.c.y
            { u.term.c.attr with c := [b, 0, 0, 0] }).setCState
              (u.term.c.state ||| CURSOR_WRAPNEXT))
      (tmoveto ((s.setSel v).setCell s.term.c.x s.term.c.y
        { s.cell s.term.c.x s.term.c.y with
          mode := (s.cell s.term.c.x s.term.c.y).mode ||| ATTR_WRAP }) 0 (s.term.c.y + 1)) := by
  have key : ∀ v : Selection,
      (let s := s.setSel v
       let s := if IS_SET s.term MODE_WRAP ∧ s.term.c.state &&& CURSOR_WRAPNEXT ≠ 0 then
          tnewline (s.setCell s.term.c.x s.term.c.y
            { s.cell s.term.c.x s.term.c.y with
              mode := (s.cell s.term.c.x s.term.c.y).mode ||| ATTR_WRAP }) true
        else s
       let s := if IS_SET s.term MODE_INSERT ∧ s.term.c.x + 1 < s.term.col then
          s.setRow (idx s.term.line s.term.c.y 0)
            (memmoveRow (s.lineAt s.term.c.y) (s.term.c.x + 1) s.term.c.x
              (s.term.col - s.term.c.x - 1))
        else s
       let s := tsetchar s [b, 0, 0, 0] s.term.c.attr s.term.c.x s.term.c.y
       if s.term.c.x + 1 < s.term.col then tmoveto s (s.term.c.x + 1) s.term.c.y
       else s.setCState (s.term.c.state ||| CURSOR_WRAPNEXT)) =
      (fun u : State =>
        if u.term.c.x + 1 < u.term.col then
          tmoveto ((u.setDirty u.term.c.y).setCell u.term.c.x u.term.c.y
            { u.term.c.attr with c := [b, 0, 0, 0] }) (u.term.c.x + 1) u.term.c.y
        else
          ((u.setDirty u.term.c.y).setCell u.term.c.x u.term.c.y
            { u.term.c.attr with c := [b, 0, 0, 0] }).setCState
              (u.term.c.state ||| CURSOR_WRAPNEXT))
      (tmoveto ((s.setSel v).setCell s.term.c.x s.term.c.y
        { s.cell s.term.c.x s.term.c.y with
          mode := (s.cell s.term.c.x s.term.c.y).mode ||| ATTR_WRAP }) 0 (s.term.c.y + 1)) := by
    intro v
    have h1 : IS_SET (s.setSel v).term MODE_WRAP ∧
        (s.setSel v).term.c.state &&& CURSOR_WRAPNEXT ≠ 0 := ⟨hwrap, hst⟩
    have hnl := tnewline_down ((s.setSel v).setCell (s.setSel v).term.c.x (s.setSel v).term.c.y
            { (s.setSel v).cell (s.setSel v).term.c.x (s.setSel v).term.c.y with
              mode := ((s.setSel v).cell (s.setSel v).term.c.x (s.setSel v).term.c.y).mode
                ||| ATTR_WRAP }) hy
    simp only []
    rw [if_pos h1, hnl]
    exact rest_plain _ b (by exact hins) (by exact hgfx)
  by_cases hc : s.sel.bx ≠ -1 ∧ BETWEEN s.term.c.y s.sel.by_ s.sel.ey
  · refine ⟨{ s.sel with bx := -1 }, ?_⟩
    rw [← key]
    unfold tputcPrint
    rw [if_pos hc]
  · refine ⟨s.sel, ?_⟩
    rw [← key]
    unfold tputcPrint
    rw [if_neg hc]
    rfl

/-- One printable byte written while `CURSOR_WRAPNEXT` is set in wrap mode,
above the bottom row: the cell under the cursor gets `ATTR_WRAP`, the byte
goes to column 0 of the next row, and the cursor to column 1. -/
theorem step_wrap (s : State) (b : Nat) (hg : GridOk s) (hesc : s.term.esc = 0)
    (hst : s.term.c.state = CURSOR_WRAPNEXT) (hwrap : IS_SET s.term MODE_WRAP)
    (hins : s.term.mode &&& MODE_INSERT = 0) (hgfx : s.term.c.attr.mode &&& ATTR_GFX = 0)
    (hx0 : 0 ≤ s.term.c.x) (hx1 : s.term.c.x < s.term.col)
    (hy0 : 0 ≤ s.term.c.y) (hy1 : s.term.c.y + 1 < s.term.row)
    (hy : s.term.c.y ≠ s.term.bot) (hcol : 2 ≤ s.term.col)
    (hb1 : 0x20 ≤ b) (hb2 : b ≤ 0x7E) :
    GridOk (tputc s [b, 0, 0, 0] 1) ∧ SameSetup s (tputc s [b, 0, 0, 0] 1) ∧
    (tputc s [b, 0, 0, 0] 1).term.c.x = 1 ∧
    (tputc s [b, 0, 0, 0] 1).term.c.y = s.term.c.y + 1 ∧
    (tputc s [b, 0, 0, 0] 1).term.c.state = 0 ∧
    (∀ x y, 0 ≤ y → y < s.term.row →
      (tputc s [b, 0, 0, 0] 1).cell x y =
        if x = 0 ∧ y = s.term.c.y + 1 then { s.term.c.attr with c := [b, 0, 0, 0] }
        else if x = s.term.c.x ∧ y = s.term.c.y then
          { s.cell s.term.c.x s.term.c.y with
            mode := (s.cell s.term.c.x s.term.c.y).mode ||| ATTR_WRAP }
        else s.cell x y) := by
  obtain ⟨v, hv⟩ := tputcPrint_wrap s b hwrap (by rw [hst]; decide) hins hgfx hy
  rw [tputc_print s b 1 hesc hb1 hb2, hv]
  have eo : s.term.c.state &&& CURSOR_ORIGIN = 0 := by rw [hst]; rfl
  have hu : GridOk (tmoveto ((s.setSel v).setCell s.term.c.x s.term.c.y
        { s.cell s.term.c.x s.term.c.y with
          mode := (s.cell s.term.c.x s.term.c.y).mode ||| ATTR_WRAP }) 0 (s.term.c.y + 1)) ∧
      SameSetup s (tmoveto ((s.setSel v).setCell s.term.c.x s.term.c.y
        { s.cell s.term.c.x s.term.c.y with
          mode := (s.cell s.term.c.x s.term.c.y).mode ||| ATTR_WRAP }) 0 (s.term.c.y + 1)) ∧
      (tmoveto ((s.setSel v).setCell s.term.c.x s.term.c.y
        { s.cell s.term.c.x s.term.c.y with
          mode := (s.cell s.term.c.x s.term.c.y).mode ||| ATTR_WRAP }) 0
          (s.term.c.y + 1)).term.c.x = 0 ∧
      (tmoveto ((s.setSel v).setCell s.term.c.x s.term.c.y
        { s.cell s.term.c.x s.term.c.y with
          mode := (s.cell s.term.c.x s.term.c.y).mode ||| ATTR_WRAP }) 0
          (s.term.c.y + 1)).term.c.y = s.term.c.y + 1 ∧
      (tmoveto ((s.setSel v).setCell s.term.c.x s.term.c.y
        { s.cell s.term.c.x s.term.c.y with
          mode := (s.cell s.term.c.x s.term.c.y).mode ||| ATTR_WRAP }) 0
          (s.term.c.y + 1)).term.c.state = 0 ∧
      ∀ x y, 0 ≤ y → y < s.term.row →
        (tmoveto ((s.setSel v).setCell s.term.c.x s.term.c.y
          { s.cell s.term.c.x s.term.c.y with
            mode := (s.cell s.term.c.x s.term.c.y).mode ||| ATTR_WRAP }) 0
            (s.term.c.y + 1)).cell x y =
          if x = s.term.c.x ∧ y = s.term.c.y then
            { s.cell s.term.c.x s.term.c.y with
              mode := (s.cell s.term.c.x s.term.c.y).mode ||| ATTR_WRAP }
          else s.cell x y := by
    refine ⟨gridOk_tmoveto _ (gridOk_setCell _ (gridOk_setSel s hg v) _ _ _) _ _,
      ⟨rfl, rfl, rfl, rfl, rfl, rfl, rfl⟩, ?_, ?_, ?_, ?_⟩
    · show LIMIT 0 0 (s.term.col - 1) = 0
      exact LIMIT_id _ _ _ (le_refl _) (by omega)
    · show LIMIT (s.term.c.y + 1)
        (if s.term.c.state &&& CURSOR_ORIGIN ≠ 0 then s.term.top else 0)
        (if s.term.c.state &&& CURSOR_ORIGIN ≠ 0 then s.term.bot else s.term.row - 1) = _
      rw [if_neg (fun h => h eo), if_neg (fun h => h eo)]
      exact LIMIT_id _ _ _ (by omega) (by omega)
    · show andNot s.term.c.state CURSOR_WRAPNEXT = 0
      rw [hst]; rfl
    · intro x y h0 h1
      exact cell_setCell (s.setSel v) (gridOk_setSel s hg v) _ _ _ hx0 hx1 hy0
        (show s.term.c.y < s.term.row by omega) x y h0 h1
  generalize tmoveto ((s.setSel v).setCell s.term.c.x s.term.c.y
        { s.cell s.term.c.x s.term.c.y with
          mode := (s.cell s.term.c.x s.term.c.y).mode ||| ATTR_WRAP }) 0 (s.term.c.y + 1) = u
    at hu ⊢
  obtain ⟨u1, u2, u3, u4, u5, u6⟩ := hu
  beta_reduce
  have hlt : u.term.c.x + 1 < u.term.col := by rw [u3, u2.1]; omega
  rw [if_pos hlt]
  have eo2 : u.term.c.state &&& CURSOR_ORIGIN = 0 := by rw [u5]; rfl
  refine ⟨gridOk_tmoveto _ (gridOk_setCell _ (gridOk_setDirty _ u1 _) _ _ _) _ _,
    sameSetup_trans u2 ⟨rfl, rfl, rfl, rfl, rfl, rfl, rfl⟩, ?_, ?_, ?_, ?_⟩
  · show LIMIT (u.term.c.x + 1) 0 (u.term.col - 1) = 1
    rw [u3, u2.1]
    exact LIMIT_id _ _ _ (by omega) (by omega)
  · show LIMIT u.term.c.y
      (if u.term.c.state &&& CURSOR_ORIGIN ≠ 0 then u.term.top else 0)
      (if u.term.c.state &&& CURSOR_ORIGIN ≠ 0 then u.term.bot else u.term.row - 1) = _
    rw [if_neg (fun h => h eo2), if_neg (fun h => h eo2), u4, u2.2.1]
    exact LIMIT_id _ _ _ (by omega) (by omega)
  · show andNot u.term.c.state CURSOR_WRAPNEXT = 0
    rw [u5]; rfl
  · intro x y h0 h1
    have := cell_setCell (u.setDirty u.term.c.y) (gridOk_setDirty _ u1 _) u.term.c.x u.term.c.y
      { u.term.c.attr with c := [b, 0, 0, 0] } (show 0 ≤ u.term.c.x by rw [u3])
      (show u.term.c.x < u.term.col by rw [u3, u2.1]; omega)
      (show 0 ≤ u.term.c.y by rw [u4]; omega)
      (show u.term.c.y < u.term.row by rw [u4, u2.2.1]; omega) x y h0
      (show y < u.term.row by rw [u2.2.1]; exact h1)
    have e : (tmoveto ((u.setDirty u.term.c.y).setCell u.term.c.x u.term.c.y
        { u.term.c.attr with c := [b, 0, 0, 0] }) (u.term.c.x + 1) u.term.c.y).cell x y =
        ((u.setDirty u.term.c.y).setCell u.term.c.x u.term.c.y
          { u.term.c.attr with c := [b, 0, 0, 0] }).cell x y := rfl
    rw [e, this, u3, u4, u2.2.2.2.2.2.2]
    have e2 : (u.setDirty (s.term.c.y + 1)).cell x y = u.cell x y := rfl
    rw [e2, u6 x y h0 h1]

theorem fresh_cell (s : State) (hf : Fresh s) (x y : Int) (hx0 : 0 ≤ x) (hx1 : x < s.term.col)
    (hy0 : 0 ≤ y) (hy1 : y < s.term.row) : s.cell x y = blankGlyph s.term.c.attr := by
  obtain ⟨hg, _, _, _, _, _, _, _, _, hb⟩ := hf
  unfold State.cell State.lineAt
  rw [hb _ (idx_mem _ _ _ hy0 (by rw [hg.2.2.1]; omega))]
  unfold idx
  rw [if_pos hx0, List.getD_eq_getElem?_getD, List.getElem?_replicate, if_pos (by omega)]
  rfl

theorem getD_take (bs : List Nat) (n i : Nat) (h : i < n) :
    (bs.take n).getD i 0 = bs.getD i 0 := by
  rw [List.getD_eq_getElem?_getD, List.getD_eq_getElem?_getD, List.getElem?_take, if_pos h]

theorem getD_drop (bs : List Nat) (n i : Nat) : (bs.drop n).getD i 0 = bs.getD (n + i) 0 := by
  rw [List.getD_eq_getElem?_getD, List.getD_eq_getElem?_getD, List.getElem?_drop]

theorem k_of_eq {s0 t u : State} (h : AltKept s0 t) (e1 : u.term.alt = t.term.alt)
    (e2 : u.saved = t.saved) (e3 : u.cfg = t.cfg) (e4 : u.term.col = t.term.col)
    (e5 : u.term.row = t.term.row) (e6 : u.term.top = t.term.top)
    (e7 : u.term.bot = t.term.bot) (e8 : u.term.mode = t.term.mode)
    (e9 : u.term.esc = t.term.esc) (e10 : u.heap = t.heap)
    (e11 : u.term.line = t.term.line) : AltKept s0 u := by
  unfold AltKept at h ⊢
  rw [e1, e2, e3, e4, e5, e6, e7, e8, e9, e10, e11]
  exact h

theorem k_heap {s0 t u : State} (h : AltKept s0 t) (e1 : u.term.alt = t.term.alt)
    (e2 : u.saved = t.saved) (e3 : u.cfg = t.cfg) (e4 : u.term.col = t.term.col)
    (e5 : u.term.row = t.term.row) (e6 : u.term.top = t.term.top)
    (e7 : u.term.bot = t.term.bot) (e8 : u.term.mode = t.term.mode)
    (e9 : u.term.esc = t.term.esc) (e11 : u.term.line = t.term.line)
    (hl : t.heap.length ≤ u.heap.length)
    (hr : ∀ a, a < t.heap.length → (∀ y, idx t.term.line y 0 ≠ a) →
      rowAt u.heap a = rowAt t.heap a) : AltKept s0 u := by
  obtain ⟨f1, f2, f3, f4, f5, f6, f7, f8, f9, f10, f11, f12⟩ := h
  refine ⟨e1.trans f1, e2.trans f2, e3.trans f3, e4.trans f4, e5.trans f5, e6.trans f6,
    e7.trans f7, e8.trans f8, e9.trans f9, le_trans f10 hl, ?_, ?_⟩
  · intro a ha
    refine ⟨(f11 a ha).1, ?_⟩
    rw [hr a (lt_of_lt_of_le (f11 a ha).1 f10) (fun y e => f12 y (by rw [e]; exact ha))]
    exact (f11 a ha).2
  · intro y
    rw [e11]
    exact f12 y

theorem k_ite {s0 : State} {c : Prop} [Decidable c] {a b : State} (ha : AltKept s0 a)
    (hb : AltKept s0 b) : AltKept s0 (if c then a else b) := by
  split_ifs <;> assumption

theorem k_setSel {s0 : State} (t : State) (v : Selection) (h : AltKept s0 t) :
    AltKept s0 (t.setSel v) :=
  k_of_eq h rfl rfl rfl rfl rfl rfl rfl rfl rfl rfl rfl

theorem k_setDirty {s0 : State} (t : State) (y : Int) (h : AltKept s0 t) :
    AltKept s0 (t.setDirty y) :=
  k_of_eq h rfl rfl rfl rfl rfl rfl rfl rfl rfl rfl rfl

theorem k_setCState {s0 : State} (t : State) (v : Nat) (h : AltKept s0 t) :
    AltKept s0 (t.setCState v) :=
  k_of_eq h rfl rfl rfl rfl rfl rfl rfl rfl rfl rfl rfl

theorem k_tmoveto {s0 : State} (t : State) (x y : Int) (h : AltKept s0 t) :
    AltKept s0 (tmoveto t x y) :=
  k_of_eq h rfl rfl rfl rfl rfl rfl rfl rfl rfl rfl rfl

theorem k_selscroll {s0 : State} (t : State) (o n : Int) (h : AltKept s0 t) :
    AltKept s0 (selscroll t o n) := by
  obtain ⟨e1, e2⟩ := selscroll_spec t o n
  have e3 : (selscroll t o n).saved = t.saved ∧ (selscroll t o n).cfg = t.cfg := by
    unfold selscroll
    simp only []
    split_ifs <;> exact ⟨rfl, rfl⟩
  exact k_of_eq h (by rw [e1]) e3.1 e3.2 (by rw [e1]) (by rw [e1]) (by rw [e1]) (by rw [e1])
    (by rw [e1]) (by rw [e1]) e2 (by rw [e1])

theorem k_scrollback_add {s0 : State} (t : State) (l : Nat) (h : AltKept s0 t) :
    AltKept s0 (scrollback_add t l) :=
  k_of_eq h rfl rfl rfl rfl rfl rfl rfl rfl rfl rfl rfl

theorem k_setRow_line {s0 : State} (t : State) (y : Int) (r : List Glyph)
    (h : AltKept s0 t) : AltKept s0 (t.setRow (idx t.term.line y 0) r) := by
  refine k_heap h rfl rfl rfl rfl rfl rfl rfl rfl rfl rfl ?_ ?_
  · show t.heap.length ≤ (t.heap.set _ _).length
    rw [List.length_set]
  · intro a _ hy
    exact rowAt_set_ne _ _ _ _ (fun e => hy y e.symm)

theorem k_setCell {s0 : State} (t : State) (x y : Int) (g : Glyph) (h : AltKept s0 t) :
    AltKept s0 (t.setCell x y g) :=
  k_setRow_line t y _ h

theorem k_tsetchar {s0 : State} (t : State) (c : List Nat) (g : Glyph) (x y : Int)
    (h : AltKept s0 t) : AltKept s0 (tsetchar t c g x y) := by
  unfold tsetchar
  exact k_setCell _ _ _ _ (k_setDirty t y h)

theorem k_tsetdirt {s0 : State} (t : State) (a b : Int) (h : AltKept s0 t) :
    AltKept s0 (tsetdirt t a b) := by
  unfold tsetdirt
  exact forRange_induct (AltKept s0) _ _ _ (fun i u hu => k_setDirty u i hu) t h

theorem k_selclear {s0 : State} (t : State) (h : AltKept s0 t) : AltKept s0 (selclear t) := by
  unfold selclear
  split_ifs
  · exact h
  · exact k_tsetdirt _ _ _ (k_of_eq h rfl rfl rfl rfl rfl rfl rfl rfl rfl rfl rfl)

theorem k_tclearregion {s0 : State} (t : State) (x1 y1 x2 y2 : Int) (h : AltKept s0 t) :
    AltKept s0 (tclearregion t x1 y1 x2 y2) := by
  unfold tclearregion
  simp only []
  refine forRange_induct (AltKept s0) _ _ _ (fun y u hu => ?_) t h
  refine forRange_induct (AltKept s0) _ _ _ (fun x w hw => ?_) _ (k_setDirty u y hu)
  exact k_setCell _ _ _ _ (k_ite (k_selclear w hw) hw)

theorem k_swapLines {s0 : State} (t : State) (i j : Int) (h : AltKept s0 t) :
    AltKept s0 (swapLines t i j) := by
  obtain ⟨f1, f2, f3, f4, f5, f6, f7, f8, f9, f10, f11, f12⟩ := h
  refine ⟨f1, f2, f3, f4, f5, f6, f7, f8, f9, f10, f11, ?_⟩
  intro y
  show idx (setIdx (setIdx t.term.line i (idx t.term.line j 0)) j (idx t.term.line i 0)) y 0 ∉ _
  rcases idx_setIdx (setIdx t.term.line i (idx t.term.line j 0)) j y (idx t.term.line i 0) 0
    with e | ⟨e, _⟩
  · rw [e]
    rcases idx_setIdx t.term.line i y (idx t.term.line j 0) 0 with e2 | ⟨e2, _⟩
    · rw [e2]; exact f12 y
    · rw [e2]; exact f12 j
  · rw [e]; exact f12 i

theorem k_tscrollupSave {s0 : State} (t : State) (i : Int) (h : AltKept s0 t) :
    AltKept s0 (tscrollupSave t i) := by
  unfold tscrollupSave allocRow
  simp only []
  refine k_scrollback_add _ _ ?_
  refine k_heap h rfl rfl rfl rfl rfl rfl rfl rfl rfl rfl ?_ ?_
  · show t.heap.length ≤ (t.heap ++ [_]).length
    rw [List.length_append]
    omega
  · intro a ha _
    exact rowAt_append _ _ _ ha

theorem k_tscrollup {s0 : State} (t : State) (orig n : Int) (h : AltKept s0 t) :
    AltKept s0 (tscrollup t orig n) := by
  unfold tscrollup
  simp only []
  refine k_selscroll _ _ _ ?_
  refine forRange_induct (AltKept s0) _ _ _ (fun i u hu => k_swapLines u _ _ hu) _ ?_
  refine k_tclearregion _ _ _ _ _ ?_
  split_ifs
  · exact forRange_induct (AltKept s0) _ _ _ (fun i u hu => k_tscrollupSave u i hu) t h
  · exact h

theorem k_tnewline {s0 : State} (t : State) (b : Bool) (h : AltKept s0 t) :
    AltKept s0 (tnewline t b) := by
  unfold tnewline
  repeat' (with_reducible first
    | exact h
    | apply k_ite
    | apply k_tmoveto
    | apply k_tscrollup)

theorem k_tputcPrint {s0 : State} (t : State) (c : List Nat) (h : AltKept s0 t) :
    AltKept s0 (tputcPrint t c) := by
  unfold tputcPrint
  repeat' (with_reducible first
    | exact h
    | apply k_ite
    | apply k_tmoveto
    | apply k_setCState
    | apply k_tsetchar
    | apply k_setRow_line
    | apply k_tnewline
    | apply k_setCell
    | apply k_setSel)

theorem k_tputs {s0 : State} (bs : List Nat) (t : State) (h : AltKept s0 t)
    (hesc : s0.term.esc = 0) (hpr : ∀ b ∈ bs, 0x20 ≤ b ∧ b ≤ 0x7E) :
    AltKept s0 (tputs t bs) := by
  induction bs generalizing t with
  | nil => exact h
  | cons b bs ih =>
    have hb := hpr b (List.mem_cons_self _ _)
    rw [tputs_cons, tputc_print t b 1 (h.2.2.2.2.2.2.2.2.1.trans hesc) hb.1 hb.2]
    exact ih _ (k_tputcPrint t _ h) (fun c hc => hpr c (List.mem_cons_of_mem _ hc))

set_option maxRecDepth 100000

theorem csiparse_enter (s : State) :
    csiparse ((s.setCsi
        { buf := [63, 49, 48, 52, 57, 104], priv := 0, arg := List.replicate ESC_ARG_SIZ 0,
          narg := 0, mode := 0 }).setEsc 0) =
      (s.setCsi
        { buf := [63, 49, 48, 52, 57, 104], priv := 1, arg := 1049 :: List.replicate 15 0,
          narg := 1, mode := 104 }).setEsc 0 := by
  unfold csiparse
  rfl

theorem csiparse_leave (s : State) :
    csiparse ((s.setCsi
        { buf := [63, 49, 48, 52, 57, 108], priv := 0, arg := List.replicate ESC_ARG_SIZ 0,
          narg := 0, mode := 0 }).setEsc 0) =
      (s.setCsi
        { buf := [63, 49, 48, 52, 57, 108], priv := 1, arg := 1049 :: List.replicate 15 0,
          narg := 1, mode := 108 }).setEsc 0 := by
  unfold csiparse
  rfl

theorem csihandle_SM (s : State) (hm : s.csiescseq.mode = 104) :
    csihandle s =
      tsetmode s (decide (s.csiescseq.priv ≠ 0)) true (s.csiescseq.arg.take s.csiescseq.narg) := by
  unfold csihandle
  simp only [hm]
  rfl

theorem csihandle_RM (s : State) (hm : s.csiescseq.mode = 108) :
    csihandle s =
      tsetmode s (decide (s.csiescseq.priv ≠ 0)) false
        (s.csiescseq.arg.take s.csiescseq.narg) := by
  unfold csihandle
  simp only [hm]
  rfl

theorem tsetmode1_enter (s : State) (hallow : s.cfg.allowaltscreen = true)
    (halt : s.term.mode &&& MODE_ALTSCREEN = 0) :
    tsetmode1 true true s 1049 = tcursor (tswapscreen s) .CURSOR_SAVE := by
  have h1 : ¬ IS_SET s.term MODE_ALTSCREEN := fun h => h halt
  unfold tsetmode1
  simp only [hallow, h1]
  rfl

theorem tsetmode1_leave (s : State) (hallow : s.cfg.allowaltscreen = true)
    (halt : s.term.mode &&& MODE_ALTSCREEN ≠ 0) :
    tsetmode1 true false s 1049 =
      tcursor (tswapscreen (tclearregion s 0 0 (s.term.col - 1) (s.term.row - 1)))
        .CURSOR_LOAD := by
  have h1 : IS_SET s.term MODE_ALTSCREEN := halt
  unfold tsetmode1
  simp only [hallow, h1]
  rfl

theorem xor_alt_set (m : Nat) (h : m &&& MODE_ALTSCREEN = 0) :
    (m ^^^ MODE_ALTSCREEN) &&& MODE_ALTSCREEN ≠ 0 := by
  rw [Nat.and_xor_distrib_right, h]
  decide

theorem xor_alt_twice (m : Nat) : (m ^^^ MODE_ALTSCREEN) ^^^ MODE_ALTSCREEN = m := by
  rw [Nat.xor_assoc, Nat.xor_self, Nat.xor_zero]

theorem tswapscreen_spec (s : State) :
    (tswapscreen s).term.line = s.term.alt ∧ (tswapscreen s).term.alt = s.term.line ∧
    (tswapscreen s).term.mode = s.term.mode ^^^ MODE_ALTSCREEN ∧
    (tswapscreen s).heap = s.heap ∧ (tswapscreen s).saved = s.saved ∧
    (tswapscreen s).cfg = s.cfg ∧ (tswapscreen s).term.c = s.term.c ∧
    (tswapscreen s).term.col = s.term.col ∧ (tswapscreen s).term.row = s.term.row ∧
    (tswapscreen s).term.top = s.term.top ∧ (tswapscreen s).term.bot = s.term.bot ∧
    (tswapscreen s).term.esc = s.term.esc := by
  unfold tswapscreen tfulldirt
  obtain ⟨h1, h2, _, _, _⟩ := tsetdirt_spec
    ({ s with term := { s.term with
      line := s.term.alt, alt := s.term.line, mode := s.term.mode ^^^ MODE_ALTSCREEN } })
    0 (({ s with term := { s.term with
      line := s.term.alt, alt := s.term.line,
      mode := s.term.mode ^^^ MODE_ALTSCREEN } } : State).term.row - 1)
  have hf := h1 s
  refine ⟨?_, ?_, ?_, h2, ?_, ?_, ?_, ?_, ?_, ?_, ?_, ?_⟩
  · have := congrArg (fun w : State => w.term.line) hf
    exact this
  · have := congrArg (fun w : State => w.term.alt) hf
    exact this
  · have := congrArg (fun w : State => w.term.mode) hf
    exact this
  · have := congrArg (fun w : State => w.saved) hf
    exact this
  · have := congrArg (fun w : State => w.cfg) hf
    exact this
  · have := congrArg (fun w : State => w.term.c) hf
    exact this
  · have := congrArg (fun w : State => w.term.col) hf
    exact this
  · have := congrArg (fun w : State => w.term.row) hf
    exact this
  · have := congrArg (fun w : State => w.term.top) hf
    exact this
  · have := congrArg (fun w : State => w.term.bot) hf
    exact this
  · have := congrArg (fun w : State => w.term.esc) hf
    exact this

/-- The sequence `ESC [ ? 1049 h` fed in the ground state on the primary
screen: the screens are swapped and the cursor is saved. -/
theorem enter_alt (s : State) (hesc : s.term.esc = 0) (hallow : s.cfg.allowaltscreen = true)
    (halt : s.term.mode &&& MODE_ALTSCREEN = 0) :
    tputs s [27, 91, 63, 49, 48, 52, 57, 104] =
      tcursor (tswapscreen ((s.setCsi
        { buf := [63, 49, 48, 52, 57, 104], priv := 1, arg := 1049 :: List.replicate 15 0,
          narg := 1, mode := 104 }).setEsc 0)) .CURSOR_SAVE := by
  show tputs s (27 :: 91 :: ([63, 49, 48, 52, 57] ++ [104])) = _
  rw [tputs_csi s [63, 49, 48, 52, 57] 104 hesc (by decide) (by decide) (by decide) (by decide)]
  show csihandle (csiparse ((s.setCsi
        { buf := [63, 49, 48, 52, 57, 104], priv := 0, arg := List.replicate ESC_ARG_SIZ 0,
          narg := 0, mode := 0 }).setEsc 0)) = _
  rw [csiparse_enter, csihandle_SM _ (by rfl)]
  show tsetmode1 true true _ 1049 = _
  rw [tsetmode1_enter _ (by exact hallow) (by exact halt)]

/-- The sequence `ESC [ ? 1049 l` fed in the ground state on the alternate
screen: the screen is cleared, the screens are swapped and the cursor is
restored. -/
theorem leave_alt (s : State) (hesc : s.term.esc = 0) (hallow : s.cfg.allowaltscreen = true)
    (halt : s.term.mode &&& MODE_ALTSCREEN ≠ 0) :
    tputs s [27, 91, 63, 49, 48, 52, 57, 108] =
      tcursor (tswapscreen (tclearregion ((s.setCsi
        { buf := [63, 49, 48, 52, 57, 108], priv := 1, arg := 1049 :: List.replicate 15 0,
          narg := 1, mode := 108 }).setEsc 0) 0 0 (s.term.col - 1) (s.term.row - 1)))
        .CURSOR_LOAD := by
  show tputs s (27 :: 91 :: ([63, 49, 48, 52, 57] ++ [108])) = _
  rw [tputs_csi s [63, 49, 48, 52, 57] 108 hesc (by decide) (by decide) (by decide) (by decide)]
  show csihandle (csiparse ((s.setCsi
        { buf := [63, 49, 48, 52, 57, 108], priv := 0, arg := List.replicate ESC_ARG_SIZ 0,
          narg := 0, mode := 0 }).setEsc 0)) = _
  rw [csiparse_leave, csihandle_RM _ (by rfl)]
  show tsetmode1 true false _ 1049 = _
  rw [tsetmode1_leave _ (by exact hallow) (by exact halt)]
  rfl

theorem gridOk_mem_lt {s : State} (h : GridOk s) {p : Nat} (hp : p ∈ s.term.line) :
    p < s.heap.length := by
  apply rowAt_lt_of_ne_nil
  intro e
  have h1 := h.2.2.2.2.2 p hp
  rw [e] at h1
  have h2 := h.1
  simp only [List.length_nil] at h1
  omega

/-- A read of a list at any index, with a default outside, avoids a second
list when every element of the first and the default do. -/
theorem idx_not_mem (a l : List Nat) (d : Nat) (h : ∀ p ∈ a, p ∉ l) (hd : d ∉ l) :
    ∀ y : Int, idx a y d ∉ l := by
  intro y
  unfold idx
  by_cases h0 : 0 ≤ y
  · rw [if_pos h0]
    by_cases h1 : y.toNat < a.length
    · rw [List.getD_eq_getElem?_getD, List.getElem?_eq_getElem h1]
      exact h _ (List.getElem_mem h1)
    · rw [List.getD_eq_getElem?_getD, List.getElem?_eq_none (by omega)]
      exact hd
  · rw [if_neg h0]
    exact hd

/-! ## The scrolled view of `tscrollback` -/

theorem scrollback_get_same (w : State) (k : Int)
    (hk : k.toNat < w.term.sb.entries.length)
    (hcols : ∀ e ∈ w.term.sb.entries, e.col = w.term.col) :
    scrollback_get w k = (w, (w.term.sb.entries.map (fun e => e.line)).getD k.toNat 0) := by
  unfold scrollback_get
  rw [List.get?_eq_getElem?, List.getElem?_eq_getElem hk]
  have hc := hcols _ (List.getElem_mem hk)
  simp only [ne_eq, hc.symm, not_true_eq_false, if_false]
  rw [List.getD_eq_getElem?_getD, List.getElem?_map, List.getElem?_eq_getElem hk]
  rfl

theorem tscrollbackMap_eq (w : State) (i : Int)
    (hk : i + w.term.ybase < 0 →
      (-(i + w.term.ybase + 1)).toNat < w.term.sb.entries.length)
    (hcols : ∀ e ∈ w.term.sb.entries, e.col = w.term.col) :
    tscrollbackMap w i = { w with term := { w.term with
      line := setIdx w.term.line i (viewRow w i),
      dirty := setIdx w.term.dirty i true } } := by
  unfold tscrollbackMap viewRow
  by_cases h : i + w.term.ybase < 0
  · simp only [h, if_true]
    rw [scrollback_get_same w _ (hk h) hcols]
  · simp only [h, if_false]

/-- The mapping loop of `tscrollback`: every row pointer of the screen is
replaced by `viewRow` and every row is marked dirty; the heap, the view base,
the scrollback and the snapshot rows are kept. -/
theorem viewMap_spec (t : State) (hlen : t.term.line.length = t.term.row.toNat)
    (hd : t.term.dirty.length = t.term.row.toNat) (hrow : 1 ≤ t.term.row)
    (hcols : ∀ e ∈ t.term.sb.entries, e.col = t.term.col)
    (hy1 : -(t.term.sb.entries.length : Int) ≤ t.term.ybase) :
    (forRange 0 (t.term.row - 1) (fun i s => tscrollbackMap s i) t).heap = t.heap ∧
    (forRange 0 (t.term.row - 1) (fun i s => tscrollbackMap s i) t).term.ybase =
      t.term.ybase ∧
    (∀ i, 0 ≤ i → i < t.term.row →
      idx (forRange 0 (t.term.row - 1) (fun i s => tscrollbackMap s i) t).term.line i 0 =
        viewRow t i ∧
      idx (forRange 0 (t.term.row - 1) (fun i s => tscrollbackMap s i) t).term.dirty i false =
        true) := by
  have key := forRange_ind
    (fun (i : Int) (w : State) =>
      w.heap = t.heap ∧ w.term.ybase = t.term.ybase ∧ w.term.sb = t.term.sb ∧
      w.term.last_line = t.term.last_line ∧ w.term.col = t.term.col ∧
      w.term.line.length = t.term.line.length ∧ w.term.dirty.length = t.term.dirty.length ∧
      ∀ j, 0 ≤ j → j < i →
        idx w.term.line j 0 = viewRow t j ∧ idx w.term.dirty j false = true)
    0 (t.term.row - 1) (fun i s => tscrollbackMap s i) t (by omega)
    ⟨rfl, rfl, rfl, rfl, rfl, rfl, rfl, fun j h0 h1 => by omega⟩
    (by
      intro i w hi0 hi1 ⟨q1, q2, q3, q4, q5, q6, q7, q8⟩
      have e := tscrollbackMap_eq w i
        (by
          intro h
          rw [q3]
          rw [q2] at h ⊢
          omega)
        (by rw [q3, q5]; exact hcols)
      have hv : viewRow w i = viewRow t i := by
        unfold viewRow
        rw [q2, q3, q4]
      rw [hv] at e
      beta_reduce
      rw [e]
      refine ⟨q1, q2, q3, q4, q5, ?_, ?_, ?_⟩
      · show (setIdx w.term.line i (viewRow t i)).length = _
        rw [length_setIdx, q6]
      · show (setIdx w.term.dirty i true).length = _
        rw [length_setIdx, q7]
      · intro j hj0 hj1
        show idx (setIdx w.term.line i (viewRow t i)) j 0 = _ ∧
          idx (setIdx w.term.dirty i true) j false = true
        by_cases hji : j = i
        · subst hji
          rw [idx_setIdx_eq _ _ _ _ hj0 (by rw [q6, hlen]; omega),
            idx_setIdx_eq _ _ _ _ hj0 (by rw [q7, hd]; omega)]
          exact ⟨rfl, rfl⟩
        · obtain ⟨r1, r2⟩ := q8 j hj0 (by omega)
          rw [idx_setIdx_ne _ _ _ _ _ hji]
          exact ⟨r1, idx_setIdx_true _ _ _ r2⟩)
  have e : t.term.row - 1 + 1 = t.term.row := by omega
  rw [e] at key
  obtain ⟨k1, k2, _, _, _, _, _, k8⟩ := key
  exact ⟨k1, k2, k8⟩

/-- The snapshot loop of `tscrollback` when the snapshot rows are buffers of
their own: snapshot row `j` receives the cells of screen row `j`, every other
row of the heap is kept, and nothing but the heap changes. -/
theorem snapshot_spec (s : State) (hg : GridOk s) (hv : SnapshotOk s) :
    (forRange 0 (s.term.row - 1) (fun i s => tscrollbackSnapshot s i) s).term = s.term ∧
    (∀ p, p ∉ s.term.last_line →
      rowAt (forRange 0 (s.term.row - 1) (fun i s => tscrollbackSnapshot s i) s).heap p =
        rowAt s.heap p) ∧
    (∀ j, 0 ≤ j → j < s.term.row →
      rowAt (forRange 0 (s.term.row - 1) (fun i s => tscrollbackSnapshot s i) s).heap
        (idx s.term.last_line j 0) = s.lineAt j) := by
  obtain ⟨v1, v2, v3, v4⟩ := hv
  have hrow := hg.2.1
  have hcol := hg.1
  have hmem : ∀ j, 0 ≤ j → j < s.term.row → idx s.term.last_line j 0 ∈ s.term.last_line :=
    fun j h0 h1 => idx_mem _ _ _ h0 (by rw [v1]; omega)
  have hinj : ∀ i j, 0 ≤ i → i < s.term.row → 0 ≤ j → j < s.term.row →
      idx s.term.last_line i 0 = idx s.term.last_line j 0 → i = j := by
    intro i j hi0 hi1 hj0 hj1 h
    rw [idx_eq_getElem _ _ _ hi0 (by rw [v1]; omega),
      idx_eq_getElem _ _ _ hj0 (by rw [v1]; omega)] at h
    have := (List.Nodup.get_inj_iff v2).1 h
    have h2 := congrArg Fin.val this
    simp only at h2
    omega
  have key := forRange_ind
    (fun (i : Int) (w : State) =>
      w.term = s.term ∧ w.heap.length = s.heap.length ∧
      (∀ p, (∀ j, 0 ≤ j → j < i → idx s.term.last_line j 0 ≠ p) →
        rowAt w.heap p = rowAt s.heap p) ∧
      ∀ j, 0 ≤ j → j < i → rowAt w.heap (idx s.term.last_line j 0) = s.lineAt j)
    0 (s.term.row - 1) (fun i s => tscrollbackSnapshot s i) s (by omega)
    ⟨rfl, rfl, fun _ _ => rfl, fun j h0 h1 => by omega⟩
    (by
      intro i w hi0 hi1 ⟨q1, q2, q3, q4⟩
      beta_reduce
      have hi1 : i < s.term.row := by omega
      have hp := v3 _ (hmem i hi0 hi1)
      -- the row read is the one of the screen before the loop
      have e1 : w.lineAt i = s.lineAt i := by
        unfold State.lineAt
        rw [q1]
        apply q3
        intro j hj0 hj1 h
        have hm : idx s.term.line i 0 ∈ s.term.line :=
          idx_mem _ _ _ hi0 (by rw [hg.2.2.1]; omega)
        rw [← h] at hm
        exact (v3 _ (hmem j hj0 (by omega))).2.1 hm
      -- the row written has not been written before
      have e2 : rowAt w.heap (idx s.term.last_line i 0) =
          rowAt s.heap (idx s.term.last_line i 0) := by
        apply q3
        intro j hj0 hj1 h
        have := hinj j i hj0 (by omega) hi0 hi1 h
        omega
      have e3 : tscrollbackSnapshot w i =
          w.setRow (idx s.term.last_line i 0) (s.lineAt i) := by
        unfold tscrollbackSnapshot
        rw [q1, e1, e2, memcpyRow_full _ _ _ hp.1 (gridOk_lineAt_len hg hi0 hi1)]
      rw [e3]
      have hlt : idx s.term.last_line i 0 < w.heap.length := by
        rw [q2]
        apply rowAt_lt_of_ne_nil
        intro h0
        have := hp.1
        rw [h0] at this
        simp only [List.length_nil] at this
        omega
      refine ⟨q1, ?_, ?_, ?_⟩
      · show (w.heap.set _ _).length = _
        rw [List.length_set, q2]
      · intro p hpne
        show rowAt (w.heap.set _ _) p = _
        rw [rowAt_set_ne _ _ _ _ (fun h => hpne i hi0 (by omega) h.symm)]
        exact q3 p (fun j hj0 hj1 => hpne j hj0 (by omega))
      · intro j hj0 hj1
        show rowAt (w.heap.set _ _) _ = _
        by_cases hji : j = i
        · subst hji
          exact rowAt_set_eq _ _ _ hlt
        · rw [rowAt_set_ne _ _ _ _ (fun h => hji (hinj j i hj0 (by omega) hi0 hi1 h))]
          exact q4 j hj0 (by omega))
  have e : s.term.row - 1 + 1 = s.term.row := by omega
  rw [e] at key
  obtain ⟨k1, _, k3, k4⟩ := key
  refine ⟨k1, ?_, k4⟩
  intro p hp
  apply k3
  intro j hj0 hj1 h
  rw [← h] at hp
  exact hp (hmem j hj0 hj1)

theorem wrapInt_of_range (x : Int) (h1 : -2147483648 ≤ x) (h2 : x < 2147483648) :
    wrapInt x = x := by
  unfold wrapInt
  omega

theorem tscrollbackBase_clamp (s : State) (n : Int) (hy : s.term.ybase = 0)
    (ht : 0 ≤ s.term.sb.total) (hn1 : -2147483648 ≤ n) (hn2 : n < 2147483648) :
    tscrollbackBase s n = clamp n (-s.term.sb.total) 0 := by
  unfold tscrollbackBase clamp
  rw [hy, zero_add, wrapInt_of_range n hn1 hn2]
  simp only [gt_iff_lt]
  split_ifs <;> omega

/-! ## The terminal made by `tnew` -/

theorem resizeTo_nil {α : Type} (n : Int) (d : α) :
    resizeTo ([] : List α) n d = List.replicate n.toNat d := by
  unfold resizeTo
  rw [List.nil_append, List.take_replicate, Nat.min_self]

/-- The allocation loop of `tresize` on arrays of `row` entries: row `j` of the
screen becomes the new row `H + 3 * j` of `col` zero glyphs, `H` being the size
of the heap before the loop. -/
theorem tresizeNew_spec (col row : Int) (w0 : State)
    (hl : w0.term.line.length = row.toNat) (hd : w0.term.dirty.length = row.toNat) :
    (forRange 0 (row - 1) (fun i s => tresizeNew col s i) w0).term.line.length = row.toNat ∧
    (forRange 0 (row - 1) (fun i s => tresizeNew col s i) w0).term.dirty.length = row.toNat ∧
    (forRange 0 (row - 1) (fun i s => tresizeNew col s i) w0).term.esc = w0.term.esc ∧
    (∀ j, 0 ≤ j → j < row →
      idx (forRange 0 (row - 1) (fun i s => tresizeNew col s i) w0).term.line j 0 =
        w0.heap.length + 3 * j.toNat ∧
      rowAt (forRange 0 (row - 1) (fun i s => tresizeNew col s i) w0).heap
        (w0.heap.length + 3 * j.toNat) = List.replicate col.toNat Glyph.zero) := by
  by_cases hrow : row ≤ 0
  · rw [forRange_empty _ _ _ _ (by omega)]
    exact ⟨hl, hd, rfl, fun j h0 h1 => by omega⟩
  have key := forRange_ind
    (fun (i : Int) (w : State) =>
      w.heap.length = w0.heap.length + 3 * i.toNat ∧
      w.term.line.length = row.toNat ∧ w.term.dirty.length = row.toNat ∧
      w.term.esc = w0.term.esc ∧
      ∀ j, 0 ≤ j → j < i →
        idx w.term.line j 0 = w0.heap.length + 3 * j.toNat ∧
        rowAt w.heap (w0.heap.length + 3 * j.toNat) = List.replicate col.toNat Glyph.zero)
    0 (row - 1) (fun i s => tresizeNew col s i) w0 (by omega)
    ⟨rfl, hl, hd, rfl, fun j h0 h1 => by omega⟩
    (by
      intro i w hi0 hi1 ⟨q1, q2, q3, q4, q5⟩
      beta_reduce
      have e : tresizeNew col w i =
          { w.setDirty i with
            heap := w.heap ++ [List.replicate col.toNat Glyph.zero]
              ++ [List.replicate col.toNat Glyph.zero]
              ++ [List.replicate col.toNat Glyph.zero],
            term := { (w.setDirty i).term with
              line := setIdx w.term.line i w.heap.length,
              alt := setIdx w.term.alt i (w.heap ++ [List.replicate col.toNat Glyph.zero]).length,
              last_line := setIdx w.term.last_line i
                (w.heap ++ [List.replicate col.toNat Glyph.zero]
                  ++ [List.replicate col.toNat Glyph.zero]).length } } := rfl
      rw [e]
      refine ⟨?_, ?_, ?_, q4, ?_⟩
      · show (w.heap ++ _ ++ _ ++ _).length = _
        simp only [List.length_append, List.length_singleton]
        omega
      · show (setIdx w.term.line i w.heap.length).length = _
        rw [length_setIdx, q2]
      · show (setIdx w.term.dirty i true).length = _
        rw [length_setIdx, q3]
      · intro j hj0 hj1
        show idx (setIdx w.term.line i w.heap.length) j 0 = _ ∧
          rowAt (w.heap ++ _ ++ _ ++ _) _ = _
        by_cases hji : j = i
        · subst hji
          rw [idx_setIdx_eq _ _ _ _ hj0 (by rw [q2]; omega), q1]
          refine ⟨rfl, ?_⟩
          rw [List.append_assoc, List.append_assoc, ← q1]
          have := rowAt_append_right w.heap
            ([List.replicate col.toNat Glyph.zero] ++
              ([List.replicate col.toNat Glyph.zero] ++ [List.replicate col.toNat Glyph.zero])) 0
          rw [Nat.add_zero] at this
          rw [this]
          rfl
        · obtain ⟨r1, r2⟩ := q5 j hj0 (by omega)
          rw [idx_setIdx_ne _ _ _ _ _ hji]
          refine ⟨r1, ?_⟩
          rw [List.append_assoc, List.append_assoc,
            rowAt_append_left _ _ _ (by rw [q1]; omega)]
          exact r2)
  have e : row - 1 + 1 = row := by omega
  rw [e] at key
  obtain ⟨_, k2, k3, k4, k5⟩ := key
  exact ⟨k2, k3, k4, k5⟩

theorem tresizeRows_zero (s : State) (col row : Int) (hr : 1 ≤ row) (hr2 : row < 2147483648) :
    tresizeRows { s with term := Term.zero } col row =
      forRange 0 (row - 1) (fun i s => tresizeNew col s i)
        { s with term := { Term.zero with
            line := List.replicate row.toNat 0, alt := List.replicate row.toNat 0,
            dirty := List.replicate row.toNat false, tabs := List.replicate col.toNat false,
            last_line := List.replicate row.toNat 0 } } := by
  have hmin : MIN row 0 = 0 := by unfold MIN; rw [if_neg (by omega)]
  have hslide : ¬ (wrapInt (wrapInt (0 - row) + 1) > 0) := by unfold wrapInt; omega
  unfold tresizeRows
  simp only [Term.zero, hmin, hslide, if_false, resizeTo_nil]
  rw [forRange_empty 0 (0 - 1) _ _ (by decide)]

/-- What `tswapscreen` keeps of the dirty flags: their number. -/
theorem tswapscreen_dirty (s : State) :
    (tswapscreen s).term.dirty.length = s.term.dirty.length := by
  unfold tswapscreen tfulldirt
  exact (tsetdirt_spec _ _ _).2.2.2.1

/-- What `tclearregion` keeps besides the grid: the other screen and the escape
state. -/
theorem cleared_fields {s t : State} {xa xb ya yb : Int} (hc : Cleared s t xa xb ya yb) :
    t.term.line = s.term.line ∧ t.term.alt = s.term.alt ∧ t.term.col = s.term.col ∧
    t.term.row = s.term.row ∧ t.term.esc = s.term.esc :=
  ⟨show (t.withGridOf s).term.line = (s.withGridOf s).term.line by rw [hc.1 s],
    show (t.withGridOf s).term.alt = (s.withGridOf s).term.alt by rw [hc.1 s],
    show (t.withGridOf s).term.col = (s.withGridOf s).term.col by rw [hc.1 s],
    show (t.withGridOf s).term.row = (s.withGridOf s).term.row by rw [hc.1 s],
    show (t.withGridOf s).term.esc = (s.withGridOf s).term.esc by rw [hc.1 s]⟩

/-- The two rounds of the loop that ends `tresize`, when no row was kept: both
screens are cleared and the screens are swapped twice, which leaves a
well-formed grid well formed. -/
theorem gridOk_tresizeClear (s : State) (col row : Int) (hg : GridOk s)
    (hcol : s.term.col = col) (hrow : s.term.row = row) :
    GridOk (tresizeClear col row 0 0 (tresizeClear col row 0 0 s)) ∧
    (tresizeClear col row 0 0 (tresizeClear col row 0 0 s)).term.esc = s.term.esc := by
  obtain ⟨g1, g2, g3, g4, g5, g6⟩ := hg
  have hc1 : 0 < col := by omega
  have hr1 : 0 < row := by omega
  have e : ∀ t : State, tresizeClear col row 0 0 t =
      tswapscreen (tclearregion t 0 0 (col - 1) (row - 1)) := by
    intro t
    unfold tresizeClear
    simp only [lt_self_iff_false, and_false, if_false, hc1, hr1, and_self, if_true]
  rw [e, e]
  have c1 := tclearregion_cleared s 0 0 (col - 1) (row - 1) g1 g2
  obtain ⟨a1, a2, a3, a4, a5⟩ := cleared_fields c1
  generalize tclearregion s 0 0 (col - 1) (row - 1) = u1 at c1 a1 a2 a3 a4 a5
  obtain ⟨b1, b2, _, b4, _, _, _, b8, b9, _, _, b12⟩ := tswapscreen_spec u1
  have bd := tswapscreen_dirty u1
  generalize tswapscreen u1 = u2 at b1 b2 b4 b8 b9 b12 bd
  have c3 := tclearregion_cleared u2 0 0 (col - 1) (row - 1) (by rw [b8, a3]; exact g1)
    (by rw [b9, a4]; exact g2)
  obtain ⟨d1, d2, d3, d4, d5⟩ := cleared_fields c3
  generalize tclearregion u2 0 0 (col - 1) (row - 1) = u3 at c3 d1 d2 d3 d4 d5
  obtain ⟨f1, f2, _, f4, _, _, _, f8, f9, _, _, f12⟩ := tswapscreen_spec u3
  have fd := tswapscreen_dirty u3
  generalize tswapscreen u3 = u4 at f1 f2 f4 f8 f9 f12 fd
  have hline : u4.term.line = s.term.line := by rw [f1, d2, b2, a1]
  refine ⟨⟨?_, ?_, ?_, ?_, ?_, ?_⟩, ?_⟩
  · rw [f8, d3, b8, a3]; exact g1
  · rw [f9, d4, b9, a4]; exact g2
  · rw [hline, f9, d4, b9, a4]; exact g3
  · rw [fd, c3.2.2.2.2.2.2.1, bd, c1.2.2.2.2.2.2.1, f9, d4, b9, a4]; exact g4
  · rw [hline]; exact g5
  · intro p hp
    rw [hline] at hp
    rw [f4, c3.2.2.2.1 p, b4, c1.2.2.2.1 p, f8, d3, b8, a3]
    exact g6 p hp
  · rw [f12, d5, b12, a5]

theorem tresizeTabs_frame (s : State) (col : Int) :
    (tresizeTabs s col).term.line = s.term.line ∧
    (tresizeTabs s col).term.dirty = s.term.dirty ∧
    (tresizeTabs s col).heap = s.heap ∧ (tresizeTabs s col).term.esc = s.term.esc := by
  unfold tresizeTabs
  split_ifs
  · exact ⟨rfl, rfl, rfl, rfl⟩
  · exact ⟨rfl, rfl, rfl, rfl⟩

/-- The terminal that `tresize` makes of a zeroed one has a well-formed grid
of the size asked for, and the escape state 0. -/
theorem gridOk_tresize_zero (s : State) (col row : Int) (hc : 1 ≤ col) (hr : 1 ≤ row)
    (hr2 : row < 2147483648) :
    GridOk (tresize { s with term := Term.zero } col row).1 ∧
    (tresize { s with term := Term.zero } col row).1.term.esc = 0 := by
  have e : (tresize { s with term := Term.zero } col row).1 =
      tresizeClear col row 0 0 (tresizeClear col row 0 0
        (tmoveto (tsetscroll ((tresizeTabs (tresizeRows { s with term := Term.zero } col row)
            col).setSize col row) 0 (row - 1))
          (tsetscroll ((tresizeTabs (tresizeRows { s with term := Term.zero } col row)
            col).setSize col row) 0 (row - 1)).term.c.x
          (tsetscroll ((tresizeTabs (tresizeRows { s with term := Term.zero } col row)
            col).setSize col row) 0 (row - 1)).term.c.y)) := by
    have hmc : MIN col 0 = 0 := by unfold MIN; rw [if_neg (by omega)]
    have hmr : MIN row 0 = 0 := by unfold MIN; rw [if_neg (by omega)]
    have hn : ¬ (col < 1 ∨ row < 1) := by omega
    unfold tresize
    simp only [Term.zero, hmc, hmr, hn, if_false]
  rw [e, tresizeRows_zero s col row hr hr2]
  obtain ⟨a1, a2, a3, a4⟩ := tresizeNew_spec col row
    { s with term := { Term.zero with
        line := List.replicate row.toNat 0, alt := List.replicate row.toNat 0,
        dirty := List.replicate row.toNat false, tabs := List.replicate col.toNat false,
        last_line := List.replicate row.toNat 0 } }
    (List.length_replicate _ _) (List.length_replicate _ _)
  generalize forRange 0 (row - 1) (fun i s => tresizeNew col s i)
    { s with term := { Term.zero with
        line := List.replicate row.toNat 0, alt := List.replicate row.toNat 0,
        dirty := List.replicate row.toNat false, tabs := List.replicate col.toNat false,
        last_line := List.replicate row.toNat 0 } } = w at a1 a2 a3 a4
  obtain ⟨t1, t2, t3, t4⟩ := tresizeTabs_frame w col
  have hline : w.term.line = (List.range row.toNat).map (fun j => s.heap.length + 3 * j) := by
    apply list_ext_idx _ _ 0
    · rw [a1, List.length_map, List.length_range]
    · intro x hx0 hx1
      rw [a1] at hx1
      rw [(a4 x hx0 (by omega)).1]
      unfold idx
      rw [if_pos hx0, List.getD_eq_getElem?_getD, List.getElem?_map,
        List.getElem?_range (by omega)]
      rfl
  have hg : GridOk (tmoveto (tsetscroll ((tresizeTabs w col).setSize col row) 0 (row - 1))
      (tsetscroll ((tresizeTabs w col).setSize col row) 0 (row - 1)).term.c.x
      (tsetscroll ((tresizeTabs w col).setSize col row) 0 (row - 1)).term.c.y) := by
    refine ⟨hc, hr, ?_, ?_, ?_, ?_⟩
    · show (tresizeTabs w col).term.line.length = row.toNat
      rw [t1, a1]
    · show (tresizeTabs w col).term.dirty.length = row.toNat
      rw [t2, a2]
    · show (tresizeTabs w col).term.line.Nodup
      rw [t1, hline]
      exact List.Nodup.map (fun a b h => by
        have h2 : s.heap.length + 3 * a = s.heap.length + 3 * b := h
        omega) (List.nodup_range _)
    · intro p hp
      have hp2 : p ∈ w.term.line := by
        rw [← t1]
        exact hp
      rw [hline, List.mem_map] at hp2
      obtain ⟨j, hj, hjp⟩ := hp2
      rw [List.mem_range] at hj
      show (rowAt (tresizeTabs w col).heap p).length = col.toNat
      have := (a4 (j : Int) (by omega) (by omega)).2
      rw [Int.toNat_ofNat] at this
      rw [t3, ← hjp, this, List.length_replicate]
  obtain ⟨k1, k2⟩ := gridOk_tresizeClear _ col row hg rfl rfl
  refine ⟨k1, ?_⟩
  rw [k2]
  show (tresizeTabs w col).term.esc = 0
  rw [t4, a3]
  rfl

/-- A reset of a terminal with a well-formed grid, at the ground state of the
parser, gives a fresh terminal. -/
theorem fresh_treset (t : State) (hg : GridOk t) (hesc : t.term.esc = 0) :
    Fresh (treset t) := by
  generalize ht1 : ({ t with term := { t.term with
      c := { attr := { c := [0, 0, 0, 0], mode := ATTR_NULL, fg := t.cfg.defaultfg,
                       bg := t.cfg.defaultbg },
             x := 0, y := 0, state := CURSOR_DEFAULT },
      tabs := setTabs t.cfg.tabspaces t.term.col t.term.col.toNat t.cfg.tabspaces
        (clearTabs t.term.tabs 0 t.term.col),
      top := 0, bot := t.term.row - 1, mode := MODE_WRAP } } : State) = t1
  have e : treset t = tcursor (tmoveto (tclearregion t1 0 0 (t1.term.col - 1)
      (t1.term.row - 1)) 0 0) .CURSOR_SAVE := by
    rw [← ht1]
    rfl
  have hg1 : GridOk t1 := by rw [← ht1]; exact hg
  have p1 : t1.term.c.x = 0 := by rw [← ht1]
  have p2 : t1.term.c.state = CURSOR_DEFAULT := by rw [← ht1]
  have p3 : t1.term.c.attr.mode = ATTR_NULL := by rw [← ht1]
  have p4 : t1.term.top = 0 := by rw [← ht1]
  have p5 : t1.term.bot = t1.term.row - 1 := by rw [← ht1]
  have p6 : t1.term.mode = MODE_WRAP := by rw [← ht1]
  have p7 : t1.term.esc = 0 := by rw [← ht1]; exact hesc
  rw [e]
  have hc := tclearregion_cleared t1 0 0 (t1.term.col - 1) (t1.term.row - 1) hg1.1 hg1.2.1
  have hcol := hg1.1
  have hrow := hg1.2.1
  have c1 : clamp (min 0 (t1.term.col - 1)) 0 (t1.term.col - 1) = 0 := by unfold clamp; omega
  have c2 : clamp (max 0 (t1.term.col - 1)) 0 (t1.term.col - 1) = t1.term.col - 1 := by
    unfold clamp; omega
  have c3 : clamp (min 0 (t1.term.row - 1)) 0 (t1.term.row - 1) = 0 := by unfold clamp; omega
  have c4 : clamp (max 0 (t1.term.row - 1)) 0 (t1.term.row - 1) = t1.term.row - 1 := by
    unfold clamp; omega
  rw [c1, c2, c3, c4] at hc
  have hg2 := cleared_gridOk hg1 hc
  have hfull := cleared_lineAt_full hg1 hc (le_refl _) (by omega) (le_refl _) (le_refl _)
  have q : ∀ v : State, (tclearregion t1 0 0 (t1.term.col - 1) (t1.term.row - 1)).withGridOf v
      = t1.withGridOf v := hc.1
  generalize tclearregion t1 0 0 (t1.term.col - 1) (t1.term.row - 1) = t2 at hc hg2 hfull q
  have qc : t2.term.c = t1.term.c :=
    show (t2.withGridOf t1).term.c = (t1.withGridOf t1).term.c by rw [q t1]
  have qcol : t2.term.col = t1.term.col :=
    show (t2.withGridOf t1).term.col = (t1.withGridOf t1).term.col by rw [q t1]
  have qrow : t2.term.row = t1.term.row :=
    show (t2.withGridOf t1).term.row = (t1.withGridOf t1).term.row by rw [q t1]
  have qtop : t2.term.top = t1.term.top :=
    show (t2.withGridOf t1).term.top = (t1.withGridOf t1).term.top by rw [q t1]
  have qbot : t2.term.bot = t1.term.bot :=
    show (t2.withGridOf t1).term.bot = (t1.withGridOf t1).term.bot by rw [q t1]
  have qmode : t2.term.mode = t1.term.mode :=
    show (t2.withGridOf t1).term.mode = (t1.withGridOf t1).term.mode by rw [q t1]
  have qesc : t2.term.esc = t1.term.esc :=
    show (t2.withGridOf t1).term.esc = (t1.withGridOf t1).term.esc by rw [q t1]
  have qline : t2.term.line = t1.term.line :=
    show (t2.withGridOf t1).term.line = (t1.withGridOf t1).term.line by rw [q t1]
  have ho : t2.term.c.state &&& CURSOR_ORIGIN = 0 := by rw [qc, p2]; rfl
  refine ⟨hg2, ?_, ?_, ?_, ?_, ?_, ?_, ?_, ?_, ?_⟩
  · show LIMIT 0 0 (t2.term.col - 1) = 0
    unfold LIMIT
    rw [if_neg (by omega), if_neg (by omega)]
  · show LIMIT 0 (if t2.term.c.state &&& CURSOR_ORIGIN ≠ 0 then t2.term.top else 0)
      (if t2.term.c.state &&& CURSOR_ORIGIN ≠ 0 then t2.term.bot else t2.term.row - 1) = 0
    rw [if_neg (fun h => h ho), if_neg (fun h => h ho)]
    unfold LIMIT
    rw [if_neg (by omega), if_neg (by omega)]
  · show andNot t2.term.c.state CURSOR_WRAPNEXT = CURSOR_DEFAULT
    rw [qc, p2]
    rfl
  · show t2.term.c.attr.mode = ATTR_NULL
    rw [qc, p3]
  · show t2.term.top = 0
    rw [qtop, p4]
  · show t2.term.bot = t2.term.row - 1
    rw [qbot, p5, qrow]
  · show t2.term.mode = MODE_WRAP
    rw [qmode, p6]
  · show t2.term.esc = 0
    rw [qesc, p7]
  · intro p hp
    show rowAt t2.heap p = List.replicate t2.term.col.toNat (blankGlyph t2.term.c.attr)
    have hp2 : p ∈ t2.term.line := hp
    obtain ⟨n, hn, hnp⟩ := List.getElem_of_mem hp2
    have hlen := hg2.2.2.1
    have := hfull (n : Int) (by omega) (by omega)
    unfold State.lineAt at this
    rw [idx_eq_getElem _ _ _ (by omega) (by rw [Int.toNat_ofNat]; exact hn)] at this
    simp only [Int.toNat_ofNat, List.get_eq_getElem] at this
    rw [hnp] at this
    rw [this, qcol, qc]

/-- The terminal made by `tnew` is fresh. -/
theorem fresh_tnew (s : State) (col row : Int) (hc : 1 ≤ col) (hr : 1 ≤ row)
    (hr2 : row < 2147483648) : Fresh (tnew s col row) := by
  obtain ⟨h1, h2⟩ := gridOk_tresize_zero s col row hc hr hr2
  exact fresh_treset _ h1 h2


/-! ## Reachability of the example states -/

theorem reachable_tputs (bytes : List Nat) : ∀ (s : State), Reachable s →
    Reachable (tputs s bytes) := by
  unfold tputs
  induction bytes with
  | nil => intro s h; exact h
  | cons b l ih =>
    intro s h
    exact ih _ (Reachable.step _ _ h (Step.putc s [b, 0, 0, 0] 1))

theorem reachable_example (col row : Int) (hc : 1 ≤ col) (hr : 1 ≤ row) (bytes : List Nat) :
    Reachable (tputs (tnew (State.init exampleConfig) col row) bytes) :=
  reachable_tputs bytes _ (Reachable.init _ col row hc hr)

theorem reachable_viewTextExample : Reachable viewTextExample :=
  Reachable.step
    (tputs (tnew (State.init exampleConfig) 3 2)
      [65, 65, 65, 13, 10, 66, 66, 66, 13, 10, 67, 67, 67])
    viewTextExample
    (reachable_example 3 2 (by decide) (by decide)
      [65, 65, 65, 13, 10, 66, 66, 66, 13, 10, 67, 67, 67])
    (Step.scrollback
      (tputs (tnew (State.init exampleConfig) 3 2)
        [65, 65, 65, 13, 10, 66, 66, 66, 13, 10, 67, 67, 67]) (-1))

theorem reachable_sharedRowsExample : Reachable sharedRowsExample :=
  reachable_tputs [88, 89] _
    (reachable_tputs [27, 91, 63, 49, 48, 52, 57, 108] _
      (Reachable.step _ _
        (reachable_tputs [27, 91, 63, 49, 48, 52, 57, 104] _
          (Reachable.step _ _
            (Reachable.init (State.init exampleConfig) 2 2 (by decide) (by decide))
            (Step.scrollback (tnew (State.init exampleConfig) 2 2) (-1))))
        (Step.scrollback
          (tputs (tscrollback (tnew (State.init exampleConfig) 2 2) (-1))
            [27, 91, 63, 49, 48, 52, 57, 104]) (-1))))

theorem reachable_lookedExample : Reachable lookedExample :=
  Reachable.step
    (tputs (tnew (State.init exampleConfig) 3 3) [65, 13, 10, 66])
    lookedExample
    (reachable_example 3 3 (by decide) (by decide) [65, 13, 10, 66])
    (Step.scrollback (tputs (tnew (State.init exampleConfig) 3 3) [65, 13, 10, 66]) (-1))

/-! ## Rows written by the scroll functions -/

set_option maxRecDepth 100000

/-- C1. UTF-8 round trip: for every code point `c` with `c <= 0x10FFFF`
outside `0xD800..0xDFFF` and every buffer `s`, `utf8encode` returns a length
between 1 and 4, writes exactly that many bytes at the start of the buffer,
and `utf8decode` applied to the buffer yields the code point `c` and returns
the same length. -/
theorem utf8_roundtrip (c : Nat) (s : List Nat) (hc : c ≤ 0x10FFFF)
    (hs : ¬(0xD800 ≤ c ∧ c ≤ 0xDFFF)) :
    1 ≤ (utf8encode c s).2 ∧ (utf8encode c s).2 ≤ 4 ∧
    (∃ bs : List Nat, bs.length = (utf8encode c s).2 ∧
      (utf8encode c s).1 = bs ++ s.drop bs.length) ∧
    utf8decode (utf8encode c s).1 = (c, (utf8encode c s).2) :=
  utf8_roundtrip_all c s hc hs

/-- Witness of C1 at the code point U+20AC and a buffer of four zero
bytes. -/
theorem utf8_roundtrip_witness :
    (0x20AC ≤ 0x10FFFF ∧ ¬(0xD800 ≤ 0x20AC ∧ 0x20AC ≤ 0xDFFF)) ∧
    (1 ≤ (utf8encode (0x20AC : Nat) [0, 0, 0, 0]).2 ∧
      (utf8encode (0x20AC : Nat) [0, 0, 0, 0]).2 ≤ 4 ∧
      (∃ bs : List Nat, bs.length = (utf8encode (0x20AC : Nat) [0, 0, 0, 0]).2 ∧
        (utf8encode (0x20AC : Nat) [0, 0, 0, 0]).1 = bs ++ [0, 0, 0, 0].drop bs.length) ∧
      utf8decode (utf8encode (0x20AC : Nat) [0, 0, 0, 0]).1 =
        (0x20AC, (utf8encode (0x20AC : Nat) [0, 0, 0, 0]).2)) :=
  ⟨by decide, utf8_roundtrip 0x20AC [0, 0, 0, 0] (by decide) (by decide)⟩

/-- C4, counterexample. In the reachable state `altScreenExample` the
alternate screen is active (`MODE_ALTSCREEN` set) and the scrollback is
empty; one more line feed through `tputc` scrolls the alternate screen and
adds an entry to the scrollback. -/
theorem altscreen_gains_scrollback :
    IS_SET altScreenExample.term MODE_ALTSCREEN ∧
    altScreenExample.term.sb.total = 0 ∧
    (tputc altScreenExample [10, 0, 0, 0] 1).term.sb.total = 1 ∧
    (tputc altScreenExample [10, 0, 0, 0] 1).term.sb ≠ altScreenExample.term.sb := by
  decide

/-- C4, amended. `tputc` never looks at `MODE_ALTSCREEN` when it scrolls:
for every terminal state whose view is off the live edge (`ybase != 0`),
alternate screen or not, no `tputc` call (and no `tscrollup` it triggers)
adds, drops or reorders a scrollback entry: the scrollback record `term->sb`,
that is the list of line pointers with their widths and the total, stays as it
is, and `ybase` stays nonzero. Nothing is said of the cells of the scrollback
lines: in a scrolled view the rows of the screen are scrollback lines, and
`tputc` writes to them. -/
theorem tputc_keeps_scrollback_off_edge (s : State) (c : List Nat) (len : Int)
    (h : s.term.ybase ≠ 0) :
    (tputc s c len).term.sb = s.term.sb ∧ (tputc s c len).term.ybase ≠ 0 :=
  frozen_tputc s c len ⟨rfl, h⟩

/-- Witness of the amended C4 at the state `scrolledExample` and a line
feed; and at the reachable state `viewTextExample`, whose row 0 is the
scrollback line `AAA`: the byte `X` leaves the scrollback record as it is,
while the cells of that line become `X` and two blanks. -/
theorem tputc_keeps_scrollback_off_edge_witness :
    scrolledExample.term.ybase ≠ 0 ∧
    (tputc scrolledExample [10, 0, 0, 0] 1).term.sb = scrolledExample.term.sb ∧
    (tputc scrolledExample [10, 0, 0, 0] 1).term.ybase ≠ 0 ∧
    Reachable viewTextExample ∧ viewTextExample.term.ybase ≠ 0 ∧
    viewTextExample.sbText 0 = [65, 65, 65] ∧
    (tputc viewTextExample [88, 0, 0, 0] 1).term.sb = viewTextExample.term.sb ∧
    (tputc viewTextExample [88, 0, 0, 0] 1).sbText 0 = [88, 32, 32] :=
  have h := tputc_keeps_scrollback_off_edge scrolledExample [10, 0, 0, 0] 1 (by decide)
  ⟨by decide, h.1, h.2, reachable_viewTextExample, by decide, by decide,
    (tputc_keeps_scrollback_off_edge viewTextExample [88, 0, 0, 0] 1 (by decide)).1,
    by decide⟩

/-- C5, counterexample. The state `wrapDeleteExample` is reachable from
`tnew(4, 2)` by `tputc` calls (`abcde`, `ESC [ H`, `ESC [ P`); its cell in
column 2 of row 0 carries `ATTR_WRAP`, and column 2 is not the last column
`col - 1 = 3`. -/
theorem wrap_flag_leaves_last_column :
    Reachable wrapDeleteExample ∧ wrapDeleteExample.term.col = 4 ∧
    (wrapDeleteExample.cell 2 0).mode &&& ATTR_WRAP ≠ 0 :=
  ⟨reachable_tputs _ _ (reachable_example 4 2 (by decide) (by decide) _), by decide, by decide⟩

/-- C5, amended. In every state reachable from `tnew` at program start by
`tputc` calls that complete no `CSI P` and no `CSI @` whose destination
`c.x + n` precedes the cursor, by `tscrollback` calls, and by `tresize`
calls that do not widen the grid, every cell of the current screen and of
the alternate screen in a column below `col` whose mode has `ATTR_WRAP` set
is in column `col - 1`. -/
theorem wrap_flag_in_last_column (s : State) (h : WrapReachable s) (x y : Int)
    (hx : x < s.term.col)
    (hw : (s.cell x y).mode &&& ATTR_WRAP ≠ 0 ∨ (s.altCell x y).mode &&& ATTR_WRAP ≠ 0) :
    x = s.term.col - 1 := by
  have hr := (winv_reachable s h).2.2.2
  rcases hw with hw | hw
  · have := wrap_cell_of_rows hr _ x hw
    omega
  · have := wrap_cell_of_rows hr _ x hw
    omega

/-- Witness of the amended C5 at the state `wrappedExample`, whose cell in
column 3 of row 0 carries `ATTR_WRAP`. -/
theorem wrap_flag_in_last_column_witness :
    (3 : Int) < wrappedExample.term.col ∧
    (wrappedExample.cell 3 0).mode &&& ATTR_WRAP ≠ 0 ∧
    (3 : Int) = wrappedExample.term.col - 1 :=
  ⟨by decide, by decide,
    wrap_flag_in_last_column wrappedExample
      (wreach_tputs (tnew (State.init exampleConfig) 4 2) [97, 98, 99, 100, 101]
        (WrapReachable.init exampleConfig 4 2 (by decide) (by decide)) (by decide))
      3 0 (by decide)
      (Or.inl (by decide))⟩

/-- C6. `utf8decode` rejects overlong and surrogate encodings: for every
sequence made of a valid lead byte for `n` continuation bytes (`n` = 1, 2 or
3) followed by `n` valid continuation bytes, whose value is below the
minimum for its length (0x80, 0x800, 0x10000) or lies in U+D800..U+DFFF,
`utf8decode` stores U+FFFD as the code point, whatever follows the
sequence. -/
theorem utf8decode_rejects_overlong_surrogate (n b0 : Nat) (cs t : List Nat)
    (hlead : Utf8Spec.isLead n b0) (hlen : cs.length = n)
    (hcont : ∀ b ∈ cs, Utf8Spec.isCont b)
    (hbad : Utf8Spec.seqValue n b0 cs < Utf8Spec.minValue n ∨
      (0xD800 ≤ Utf8Spec.seqValue n b0 cs ∧ Utf8Spec.seqValue n b0 cs ≤ 0xDFFF)) :
    (utf8decode (b0 :: cs ++ t)).1 = 0xFFFD := by
  rw [dec_badValue n b0 cs t hlead hlen hcont hbad]

/-- Witness of C6 at the surrogate `ED A0 80` followed by `A`. -/
theorem utf8decode_rejects_overlong_surrogate_witness :
    (utf8decode (0xED :: [0xA0, 0x80] ++ [0x41])).1 = 0xFFFD :=
  utf8decode_rejects_overlong_surrogate 2 0xED [0xA0, 0x80] [0x41]
    (by decide) rfl (by decide) (by decide)

/-- C7, evaluation at the failing input. The four bytes `F4 90 80 80` are a
lead byte `11110xxx` and three continuation bytes with the value 0x110000,
above U+10FFFF; `utf8decode` stores 0x110000, not U+FFFD, and returns 4. The
encoder does treat this value as invalid: `utf8encode` writes the bytes of
U+FFFD for it. -/
theorem utf8decode_accepts_above_max :
    utf8decode [0xF4, 0x90, 0x80, 0x80] = (0x110000, 4) ∧
    utf8encode 0x110000 [0, 0, 0, 0] = ([0xEF, 0xBF, 0xBD, 0], 3) := by
  decide

/-- C8, counterexample. For the overlong sequence `C0 80`, `utf8decode`
stores U+FFFD and returns 2, not 1. -/
theorem utf8decode_reject_returns_two :
    (utf8decode [0xC0, 0x80]).1 = 0xFFFD ∧ (utf8decode [0xC0, 0x80]).2 ≠ 1 := by
  decide

/-- C8, amended. Whenever `utf8decode` substitutes U+FFFD for a rejected
input, it returns the number of bytes it has accepted before rejecting: 1
for a bad lead byte, `1 + j` when the lead byte and `j` continuation bytes
are followed by a byte that is not a continuation byte (so 1 only when the
first continuation byte is bad), and the full length `n + 1` for an overlong
or surrogate sequence; the value returned is always between 1 and 4. -/
theorem utf8decode_reject_length (s : List Nat) (k : Nat) (h : Utf8Spec.Rejects s k) :
    (utf8decode s).1 = 0xFFFD ∧ (utf8decode s).2 = k ∧ 1 ≤ k ∧ k ≤ 4 := by
  obtain ⟨h1, h2, h3⟩ := dec_rejects s k h
  rw [h1]
  exact ⟨rfl, rfl, h2, h3⟩

/-- Witness of the amended C8 at `E0 80 41`: the second continuation byte is
bad and 2 is returned. -/
theorem utf8decode_reject_length_witness :
    (utf8decode (0xE0 :: [0x80] ++ 0x41 :: [])).1 = 0xFFFD ∧
    (utf8decode (0xE0 :: [0x80] ++ 0x41 :: [])).2 = 1 + [0x80].length ∧
    1 ≤ 1 + [0x80].length ∧ 1 + [0x80].length ≤ 4 :=
  utf8decode_reject_length _ _
    (Utf8Spec.Rejects.badCont 2 0xE0 [0x80] 0x41 [] (by decide) (by decide) (by decide)
      (by decide) (by decide))

/-- C9. Feed is chunking-invariant: for every byte string split as
`s1 ++ s2`, running the decode loop of `ttyread` on `s1` and then on the
retained leftover followed by `s2` hands on exactly the same sequence of
(code point, consumed length) pairs, and leaves the same unconsumed tail, as
running it once on `s1 ++ s2`; and the loop ends because its condition
fails on the tail. -/
theorem ttyread_chunking (s1 s2 : List Nat) :
    ttyreadDecode (s1 ++ s2) =
      ((ttyreadDecode s1).1 ++ (ttyreadDecode ((ttyreadDecode s1).2 ++ s2)).1,
        (ttyreadDecode ((ttyreadDecode s1).2 ++ s2)).2) ∧
    ¬ ttyreadCond (ttyreadDecode (s1 ++ s2)).2 :=
  ⟨loop_append s1.length s1 s2 _ _ _ (Nat.le_refl _) (Nat.le_refl _) (Nat.le_refl _)
      (Nat.le_refl _),
    loop_exit _ _ (Nat.le_refl _)⟩

/-- C10. `isfullutf8(s, b)` returns 0 exactly when `b < 1` or the `b`
available bytes are a proper start of a multi-byte sequence (a lead byte
`110xxxxx`, `1110xxxx` or `11110xxx` announcing more than `b` bytes,
followed by `b - 1` continuation bytes); in every other case it returns
1. -/
theorem isfullutf8_spec (s : List Nat) (b : Int) :
    (isfullutf8 s b = 0 ↔ (b < 1 ∨ Utf8Spec.isIncomplete s b)) ∧
    (isfullutf8 s b = 0 ∨ isfullutf8 s b = 1) :=
  isfullutf8_zero_iff s b

/-! ## Claims C11 to C20: printing, scrolling, clearing, screens -/

/-- C11. Wrap on write: on a freshly reset terminal (`Fresh`: blank
grid, cursor at (0,0) with the default state, `MODE_WRAP` the only mode, parser
at ground) with at least 2 rows, feeding `col + k` printable ASCII bytes,
`1 ≤ k < col`, through `tputc` leaves row 0 holding the first `col` bytes with
`ATTR_WRAP` on cell `col - 1` and on no other cell, row 1 holding the next `k`
bytes followed by blanks, every row below as it was, and the cursor at
`(k, 1)`. -/
theorem wrap_on_write (s : State) (bs : List Nat) (k : Int) (hf : Fresh s)
    (hrow : 2 ≤ s.term.row) (hk1 : 1 ≤ k) (hk2 : k < s.term.col)
    (hlen : (bs.length : Int) = s.term.col + k) (hpr : ∀ b ∈ bs, 0x20 ≤ b ∧ b ≤ 0x7E) :
    (∀ x, 0 ≤ x → x < s.term.col →
      (tputs s bs).cell x 0 =
        { c := [bs.getD x.toNat 0, 0, 0, 0],
          mode := if x = s.term.col - 1 then ATTR_WRAP else ATTR_NULL,
          fg := s.term.c.attr.fg, bg := s.term.c.attr.bg }) ∧
    (∀ x, 0 ≤ x → x < k →
      (tputs s bs).cell x 1 =
        { c := [bs.getD (s.term.col + x).toNat 0, 0, 0, 0], mode := ATTR_NULL,
          fg := s.term.c.attr.fg, bg := s.term.c.attr.bg }) ∧
    (∀ x, k ≤ x → x < s.term.col → (tputs s bs).cell x 1 = blankGlyph s.term.c.attr) ∧
    (∀ x y, 2 ≤ y → y < s.term.row → (tputs s bs).cell x y = s.cell x y) ∧
    (tputs s bs).term.c.x = k ∧ (tputs s bs).term.c.y = 1 := by
  have hf0 := hf
  obtain ⟨hg, hcx, hcy, hcs, ham, htop, hbot, hmode, hesc, hblank⟩ := hf
  have hcol := hg.1
  have hins : s.term.mode &&& MODE_INSERT = 0 := by rw [hmode]; rfl
  have hgfx : s.term.c.attr.mode &&& ATTR_GFX = 0 := by rw [ham]; rfl
  -- the three parts of the input
  have hsplit : bs = bs.take s.term.col.toNat ++
      (bs.getD s.term.col.toNat 0 :: bs.drop (s.term.col.toNat + 1)) := by
    have h1 : s.term.col.toNat < bs.length := by omega
    rw [List.getD_eq_getElem?_getD, List.getElem?_eq_getElem h1]
    show bs = List.take s.term.col.toNat bs ++ (bs[s.term.col.toNat] :: _)
    rw [← List.drop_eq_getElem_cons h1, List.take_append_drop]
  have hl1 : ((bs.take s.term.col.toNat).length : Int) = s.term.col := by
    rw [List.length_take]
    omega
  have hl3 : ((bs.drop (s.term.col.toNat + 1)).length : Int) = k - 1 := by
    rw [List.length_drop]
    omega
  have hpr1 : ∀ b ∈ bs.take s.term.col.toNat, 0x20 ≤ b ∧ b ≤ 0x7E :=
    fun b hb => hpr b (List.mem_of_mem_take hb)
  have hpr2 : 0x20 ≤ bs.getD s.term.col.toNat 0 ∧ bs.getD s.term.col.toNat 0 ≤ 0x7E := by
    have h1 : s.term.col.toNat < bs.length := by omega
    rw [List.getD_eq_getElem?_getD, List.getElem?_eq_getElem h1]
    exact hpr _ (List.getElem_mem h1)
  have hpr3 : ∀ b ∈ bs.drop (s.term.col.toNat + 1), 0x20 ≤ b ∧ b ≤ 0x7E :=
    fun b hb => hpr b (List.mem_of_mem_drop hb)
  -- the first `col` bytes
  obtain ⟨a1, a2, a3, a4, a5, a6⟩ := run_row (bs.take s.term.col.toNat) s hg hesc hcs hins hgfx
    (by rw [hcx]) (by rw [hcy]) (by rw [hcy]; omega) (by rw [hcx, hl1]; omega) hpr1
  have hne : bs.take s.term.col.toNat ≠ [] := by
    intro e
    rw [e] at hl1
    simp only [List.length_nil, Nat.cast_zero] at hl1
    omega
  obtain ⟨a41, a42⟩ := a4 hne (by rw [hcx, hl1]; omega)
  rw [hcx, hcy, hl1] at a6
  rw [hcy] at a3
  -- the byte that wraps
  obtain ⟨b1, b2, b3, b4, b5, b6⟩ := step_wrap (tputs s (bs.take s.term.col.toNat))
    (bs.getD s.term.col.toNat 0) a1 (a2.2.2.2.2.2.1.trans hesc) a42
    (by unfold IS_SET; rw [a2.2.2.2.2.1, hmode]; decide)
    (by rw [a2.2.2.2.2.1]; exact hins) (by rw [a2.2.2.2.2.2.2]; exact hgfx)
    (by rw [a41]; omega) (by rw [a41, a2.1]; omega) (by rw [a3]) (by rw [a3, a2.2.1]; omega)
    (by rw [a3, a2.2.2.2.1, hbot]; omega) (by rw [a2.1]; omega) hpr2.1 hpr2.2
  rw [a41, a3, a2.2.1, a2.2.2.2.2.2.2] at b6
  rw [a3] at b4
  -- the last `k - 1` bytes
  have c2 := sameSetup_trans a2 b2
  obtain ⟨d1, d2, d3, d4, d5, d6⟩ := run_row (bs.drop (s.term.col.toNat + 1))
    (tputc (tputs s (bs.take s.term.col.toNat)) [bs.getD s.term.col.toNat 0, 0, 0, 0] 1)
    b1 (c2.2.2.2.2.2.1.trans hesc) b5 (by rw [c2.2.2.2.2.1]; exact hins)
    (by rw [c2.2.2.2.2.2.2]; exact hgfx) (by rw [b3]; omega) (by rw [b4]; omega)
    (by rw [b4, c2.2.1]; omega) (by rw [b3, hl3, c2.1]; omega) hpr3
  obtain ⟨d51, d52⟩ := d5 (by rw [b3, hl3, c2.1]; omega)
  rw [b3, b4, hl3, c2.2.1, c2.2.2.2.2.2.2] at d6
  have hfinal : tputs s bs =
      tputs (tputc (tputs s (bs.take s.term.col.toNat)) [bs.getD s.term.col.toNat 0, 0, 0, 0] 1)
        (bs.drop (s.term.col.toNat + 1)) := by
    conv_lhs => rw [hsplit]
    rw [tputs_append, tputs_cons]
  rw [hfinal]
  have hglyph : ∀ (b : Nat) (m : Nat), m = s.term.c.attr.mode →
      ({ c := [b, 0, 0, 0], mode := m, fg := s.term.c.attr.fg, bg := s.term.c.attr.bg } : Glyph)
        = { s.term.c.attr with c := [b, 0, 0, 0] } := by
    intro b m hm
    rw [hm]
  refine ⟨?_, ?_, ?_, ?_, ?_, ?_⟩
  · intro x hx0 hx1
    rw [d6 x 0 (le_refl _) (by omega), if_neg (by omega), b6 x 0 (le_refl _) (by omega),
      if_neg (by omega)]
    have e1 : (bs.take s.term.col.toNat).getD (x - 0).toNat 0 = bs.getD x.toNat 0 := by
      rw [sub_zero]; exact getD_take _ _ _ (by omega)
    by_cases hx : x = s.term.col - 1
    · rw [if_pos ⟨hx, rfl⟩, if_pos hx, a6 (s.term.col - 1) 0 (le_refl _) (by omega),
        if_pos ⟨rfl, by omega, by omega⟩, ← hx, e1]
      show Glyph.mk _ (s.term.c.attr.mode ||| ATTR_WRAP) _ _ = _
      rw [ham]
      rfl
    · rw [if_neg (fun h => hx h.1), if_neg hx, a6 x 0 (le_refl _) (by omega),
        if_pos ⟨rfl, by omega, by omega⟩, e1]
      exact (hglyph _ _ ham.symm).symm
  · intro x hx0 hx1
    rw [d6 x 1 (by omega) (by omega)]
    by_cases hx : 1 ≤ x
    · rw [if_pos ⟨rfl, hx, by omega⟩, getD_drop]
      have e : s.term.col.toNat + 1 + (x - 1).toNat = (s.term.col + x).toNat := by omega
      rw [e]
      exact (hglyph _ _ ham.symm).symm
    · have e : x = 0 := by omega
      subst e
      rw [if_neg (by omega), b6 0 1 (by omega) (by omega), if_pos ⟨rfl, rfl⟩, add_zero]
      exact (hglyph _ _ ham.symm).symm
  · intro x hx0 hx1
    rw [d6 x 1 (by omega) (by omega), if_neg (by omega), b6 x 1 (by omega) (by omega),
      if_neg (by omega), if_neg (by omega), a6 x 1 (by omega) (by omega), if_neg (by omega)]
    exact fresh_cell s hf0 x 1 (by omega) hx1 (by omega) (by omega)
  · intro x y hy0 hy1
    rw [d6 x y (by omega) hy1, if_neg (by omega), b6 x y (by omega) hy1, if_neg (by omega),
      if_neg (by omega), a6 x y (by omega) hy1, if_neg (by omega)]
  · rw [d51]; omega
  · rw [d3, b4]; rfl

/-- Witness of C11 on a 4 x 2 grid with input `abcdef`: the terminal made
by `tnew` is fresh, cell 3 of row 0 holds `d` with `ATTR_WRAP`, cell 1 of row 1
holds `f`, and the cursor is at (2, 1). -/
theorem wrap_on_write_witness :
    Fresh (tnew (State.init exampleConfig) 4 2) ∧
    (tputs (tnew (State.init exampleConfig) 4 2) [97, 98, 99, 100, 101, 102]).cell 3 0 =
      { c := [100, 0, 0, 0], mode := ATTR_WRAP, fg := 7, bg := 0 } ∧
    (tputs (tnew (State.init exampleConfig) 4 2) [97, 98, 99, 100, 101, 102]).cell 1 1 =
      { c := [102, 0, 0, 0], mode := ATTR_NULL, fg := 7, bg := 0 } ∧
    (tputs (tnew (State.init exampleConfig) 4 2) [97, 98, 99, 100, 101, 102]).term.c.x = 2 ∧
    (tputs (tnew (State.init exampleConfig) 4 2) [97, 98, 99, 100, 101, 102]).term.c.y = 1 :=
  have h := wrap_on_write (tnew (State.init exampleConfig) 4 2) [97, 98, 99, 100, 101, 102] 2
    (by decide) (by decide) (by decide) (by decide) (by decide) (by decide)
  ⟨by decide, h.1 3 (by decide) (by decide), h.2.1 1 (by decide) (by decide), h.2.2.2.2.1,
    h.2.2.2.2.2⟩

/-- C12, counterexample. On the fresh 3 x 2 terminal with the cursor at
(0, 1), the bytes `AAA\nBBB\nCCC` leave the rows `"  C"` and `"CC "`, the
scrollback head `"BB "` and the cursor in column 2. A bare line feed moves the
cursor down and keeps its column, so the text after it starts in column 2. -/
theorem lf_keeps_column :
    Fresh (tnew (State.init exampleConfig) 3 2) ∧
    scrollExample.term.c.x = 0 ∧ scrollExample.term.c.y = 1 ∧
    scrollExample.term.sb.total = 0 ∧
    (tputs scrollExample [65, 65, 65, 10, 66, 66, 66, 10, 67, 67, 67]).rowText 0 = [32, 32, 67] ∧
    (tputs scrollExample [65, 65, 65, 10, 66, 66, 66, 10, 67, 67, 67]).rowText 1 = [67, 67, 32] ∧
    (tputs scrollExample [65, 65, 65, 10, 66, 66, 66, 10, 67, 67, 67]).sbText 0 = [66, 66, 32] ∧
    (tputs scrollExample [65, 65, 65, 10, 66, 66, 66, 10, 67, 67, 67]).term.c.x = 2 ∧
    (tputs scrollExample [65, 65, 65, 10, 66, 66, 66, 10, 67, 67, 67]).term.c.y = 1 := by
  decide

/-- C12, amended. When each line ends with CR LF, or when `MODE_CRLF` has
been set by `ESC [ 2 0 h` before the bytes of the claim, the scrollback head
holds `AAA`, the visible rows are `BBB` then `CCC`, and the cursor stays on the
last written cell (2, 1) with `CURSOR_WRAPNEXT` set. -/
theorem crlf_scroll_eviction :
    (tputs scrollExample [65, 65, 65, 13, 10, 66, 66, 66, 13, 10, 67, 67, 67]).sbText 0 =
      [65, 65, 65] ∧
    (tputs scrollExample [65, 65, 65, 13, 10, 66, 66, 66, 13, 10, 67, 67, 67]).rowText 0 =
      [66, 66, 66] ∧
    (tputs scrollExample [65, 65, 65, 13, 10, 66, 66, 66, 13, 10, 67, 67, 67]).rowText 1 =
      [67, 67, 67] ∧
    (tputs scrollExample [65, 65, 65, 13, 10, 66, 66, 66, 13, 10, 67, 67, 67]).term.c.x = 2 ∧
    (tputs scrollExample [65, 65, 65, 13, 10, 66, 66, 66, 13, 10, 67, 67, 67]).term.c.y = 1 ∧
    (tputs scrollExample [65, 65, 65, 13, 10, 66, 66, 66, 13, 10, 67, 67, 67]).term.c.state =
      CURSOR_WRAPNEXT ∧
    (tputs (tputs scrollExample [27, 91, 50, 48, 104])
      [65, 65, 65, 10, 66, 66, 66, 10, 67, 67, 67]).sbText 0 = [65, 65, 65] ∧
    (tputs (tputs scrollExample [27, 91, 50, 48, 104])
      [65, 65, 65, 10, 66, 66, 66, 10, 67, 67, 67]).rowText 0 = [66, 66, 66] ∧
    (tputs (tputs scrollExample [27, 91, 50, 48, 104])
      [65, 65, 65, 10, 66, 66, 66, 10, 67, 67, 67]).rowText 1 = [67, 67, 67] ∧
    (tputs (tputs scrollExample [27, 91, 50, 48, 104])
      [65, 65, 65, 10, 66, 66, 66, 10, 67, 67, 67]).term.c.x = 2 ∧
    (tputs (tputs scrollExample [27, 91, 50, 48, 104])
      [65, 65, 65, 10, 66, 66, 66, 10, 67, 67, 67]).term.c.y = 1 ∧
    (tputs (tputs scrollExample [27, 91, 50, 48, 104])
      [65, 65, 65, 10, 66, 66, 66, 10, 67, 67, 67]).term.c.state = CURSOR_WRAPNEXT := by
  decide

/-- C15. Bounded scrollback, most recent first: when the scrollback
list has `total` entries, at most `SCROLLBACK`, then after
`scrollback_add(term, l)` the head entry is `l` (with the current width), the
entries after it are the previous entries in their order, cut to the
`SCROLLBACK - 1` most recent ones, `total` is
`min (previous total + 1) SCROLLBACK`, the list is still within the bound, and
on overflow exactly the last (oldest) entry is gone. -/
theorem scrollback_add_bounded (s : State) (l : Nat) (h : SbOk s.term.sb) :
    (scrollback_add s l).term.sb.entries.head? = some { line := l, col := s.term.col } ∧
    (scrollback_add s l).term.sb.entries.tail =
      s.term.sb.entries.take (SCROLLBACK.toNat - 1) ∧
    (scrollback_add s l).term.sb.total = min (s.term.sb.total + 1) SCROLLBACK ∧
    SbOk (scrollback_add s l).term.sb ∧
    (s.term.sb.total = SCROLLBACK →
      (scrollback_add s l).term.sb.entries.tail = s.term.sb.entries.dropLast) := by
  obtain ⟨e1, e2⟩ := scrollback_add_entries s l h
  have e : SCROLLBACK.toNat = 10000 := rfl
  refine ⟨?_, ?_, e2, sbOk_scrollback_add s l h, ?_⟩
  · rw [e1, e]; rfl
  · rw [e1, e]; rfl
  · intro ht
    rw [e1, e, List.dropLast_eq_take]
    have : s.term.sb.entries.length = 10000 := by
      have := h.1
      rw [ht] at this
      have hs : SCROLLBACK = 10000 := rfl
      omega
    rw [this]; rfl

/-- Witness of C15 on a 3 x 3 terminal: after `scrollback_add` with row 5
the head entry is row 5 and the total is one more. -/
theorem scrollback_add_bounded_witness :
    SbOk rowsExample.term.sb ∧
    (scrollback_add rowsExample 5).term.sb.entries.head? = some { line := 5, col := 3 } ∧
    (scrollback_add rowsExample 5).term.sb.total =
      min (rowsExample.term.sb.total + 1) SCROLLBACK :=
  have h := scrollback_add_bounded rowsExample 5 (by decide)
  ⟨by decide, h.1, h.2.2.1⟩

/-- C16. `tmoveto` clamps: for all integers `x`, `y` and every terminal
state with `1 ≤ col` and `0 ≤ top ≤ bot < row`, after `tmoveto(x, y)` the cursor
column is `x` clamped to `[0, col - 1]`, the cursor row is `y` clamped to
`[top, bot]` if `CURSOR_ORIGIN` is set and to `[0, row - 1]` otherwise,
`CURSOR_WRAPNEXT` is clear, `CURSOR_ORIGIN` and the cursor attribute are as they
were, and nothing outside the cursor changes. -/
theorem tmoveto_clamps (s : State) (x y : Int) (hc : 1 ≤ s.term.col)
    (ht : 0 ≤ s.term.top) (htb : s.term.top ≤ s.term.bot) (hb : s.term.bot < s.term.row) :
    (tmoveto s x y).term.c.x = clamp x 0 (s.term.col - 1) ∧
    (tmoveto s x y).term.c.y =
      (if s.term.c.state &&& CURSOR_ORIGIN ≠ 0 then clamp y s.term.top s.term.bot
        else clamp y 0 (s.term.row - 1)) ∧
    (tmoveto s x y).term.c.state &&& CURSOR_WRAPNEXT = 0 ∧
    (tmoveto s x y).term.c.state &&& CURSOR_ORIGIN = s.term.c.state &&& CURSOR_ORIGIN ∧
    (tmoveto s x y).term.c.attr = s.term.c.attr ∧
    { tmoveto s x y with term := { (tmoveto s x y).term with c := s.term.c } } = s := by
  refine ⟨?_, ?_, andNot_wrapnext _, andNot_wrapnext_origin _, rfl, rfl⟩
  · show LIMIT x 0 (s.term.col - 1) = _
    exact LIMIT_eq_clamp _ _ _ (by omega)
  · show LIMIT y _ _ = _
    split_ifs with h
    · exact LIMIT_eq_clamp _ _ _ htb
    · exact LIMIT_eq_clamp _ _ _ (by omega)

/-- Witness of C16 on a 3 x 3 terminal: `tmoveto(7, -2)` puts the cursor in
column 2 and row 0 and clears `CURSOR_WRAPNEXT`. -/
theorem tmoveto_clamps_witness :
    (tmoveto rowsExample 7 (-2)).term.c.x = clamp 7 0 (rowsExample.term.col - 1) ∧
    (tmoveto rowsExample 7 (-2)).term.c.x = 2 ∧ (tmoveto rowsExample 7 (-2)).term.c.y = 0 ∧
    (tmoveto rowsExample 7 (-2)).term.c.state &&& CURSOR_WRAPNEXT = 0 :=
  have h := tmoveto_clamps rowsExample 7 (-2) (by decide) (by decide) (by decide) (by decide)
  ⟨h.1, by decide, by decide, h.2.2.1⟩

/-- C17. `tclearregion` postcondition: for all integers `x1`, `y1`,
`x2`, `y2` and every well-formed terminal state, after `tclearregion` every cell
of the grid inside the rectangle got by ordering the two corners and clamping
them to the grid is a space with the cursor attribute, every other cell of the
grid is as it was, every row of the rectangle is marked dirty, and if a cell of
the rectangle was selected the selection is cleared (`sel.bx = -1`). -/
theorem tclearregion_post (s : State) (x1 y1 x2 y2 : Int) (h : GridOk s) :
    (∀ x y, 0 ≤ x → x < s.term.col → 0 ≤ y → y < s.term.row →
      (tclearregion s x1 y1 x2 y2).cell x y =
        if clamp (min x1 x2) 0 (s.term.col - 1) ≤ x ∧ x ≤ clamp (max x1 x2) 0 (s.term.col - 1) ∧
            clamp (min y1 y2) 0 (s.term.row - 1) ≤ y ∧ y ≤ clamp (max y1 y2) 0 (s.term.row - 1)
        then blankGlyph s.term.c.attr else s.cell x y) ∧
    (∀ y, clamp (min y1 y2) 0 (s.term.row - 1) ≤ y → y ≤ clamp (max y1 y2) 0 (s.term.row - 1) →
      idx (tclearregion s x1 y1 x2 y2).term.dirty y false = true) ∧
    ((∃ x y, clamp (min x1 x2) 0 (s.term.col - 1) ≤ x ∧ x ≤ clamp (max x1 x2) 0 (s.term.col - 1) ∧
        clamp (min y1 y2) 0 (s.term.row - 1) ≤ y ∧ y ≤ clamp (max y1 y2) 0 (s.term.row - 1) ∧
        selected s.sel x y) → (tclearregion s x1 y1 x2 y2).sel.bx = -1) := by
  have hc := tclearregion_cleared s x1 y1 x2 y2 h.1 h.2.1
  have b1 := clamp_bounds (min y1 y2) 0 (s.term.row - 1) (by have := h.2.1; omega)
  have b2 := clamp_bounds (max y1 y2) 0 (s.term.row - 1) (by have := h.2.1; omega)
  refine ⟨?_, ?_, ?_⟩
  · intro x y hx0 hx1 hy0 hy1
    exact cleared_cell h hc b1.1 (by omega) x y hx0 hx1 hy0 hy1
  · intro y hy1 hy2
    exact hc.2.2.2.2.2.2.2.2.1 y hy1 hy2 (by omega) (by rw [h.2.2.2.1]; omega)
  · rintro ⟨x, y, h1, h2, h3, h4, h5⟩
    exact hc.2.2.2.2.2.2.2.2.2.2 x y h3 h4 h1 h2 h5

/-- Witness of C17 on a 3 x 3 grid with corners given in the wrong
order and outside the grid: cell (1, 1) is blank after
`tclearregion(5, 1, 1, 0)` and cell (0, 1) keeps its `B`. -/
theorem tclearregion_post_witness :
    GridOk rowsExample ∧
    (tclearregion rowsExample 5 1 1 0).cell 1 1 =
      (if clamp (min 5 1) 0 (rowsExample.term.col - 1) ≤ 1 ∧
          1 ≤ clamp (max 5 1) 0 (rowsExample.term.col - 1) ∧
          clamp (min 1 0) 0 (rowsExample.term.row - 1) ≤ 1 ∧
          1 ≤ clamp (max 1 0) 0 (rowsExample.term.row - 1)
        then blankGlyph rowsExample.term.c.attr else rowsExample.cell 1 1) ∧
    (tclearregion rowsExample 5 1 1 0).cell 1 1 = blankGlyph rowsExample.term.c.attr ∧
    (tclearregion rowsExample 5 1 1 0).rowText 1 = [66, 32, 32] :=
  have h := tclearregion_post rowsExample 5 1 1 0 (by decide)
  ⟨by decide, h.1 1 1 (by decide) (by decide) (by decide) (by decide), by decide, by decide⟩

/-- C18. Erase all through the parser: for every well-formed terminal
state whose parser is at ground (`esc = 0`), feeding the four bytes `ESC [ 2 J`
through `tputc` leaves every cell of the grid holding a space with the cursor
attribute, the cursor where it was, and the parser at ground. -/
theorem erase_all (s : State) (h : GridOk s) (hesc : s.term.esc = 0) :
    (∀ x y, 0 ≤ x → x < s.term.col → 0 ≤ y → y < s.term.row →
      (tputs s [27, 91, 50, 74]).cell x y = blankGlyph s.term.c.attr) ∧
    (tputs s [27, 91, 50, 74]).term.c.x = s.term.c.x ∧
    (tputs s [27, 91, 50, 74]).term.c.y = s.term.c.y ∧
    (tputs s [27, 91, 50, 74]).term.esc = 0 := by
  have e : tputs s [27, 91, 50, 74] =
      tclearregion ((((s.setCsi
        { buf := [50, 74], priv := 0, arg := 2 :: List.replicate 15 0, narg := 1,
          mode := 74 }).setEsc 0)).setSel { s.sel with bx := -1 })
        0 0 (s.term.col - 1) (s.term.row - 1) := by
    show tputs s (27 :: 91 :: ([50] ++ [74])) = _
    rw [tputs_csi s [50] 74 hesc (by decide) (by decide) (by decide) (by decide)]
    show csihandle (csiparse ((s.setCsi
        { buf := [50, 74], priv := 0, arg := List.replicate ESC_ARG_SIZ 0, narg := 0,
          mode := 0 }).setEsc 0)) = _
    rw [csiparse_erase, csihandle_ED _ (by rfl) (by rfl)]
    rfl
  rw [e]
  generalize hX : (((s.setCsi
        { buf := [50, 74], priv := 0, arg := 2 :: List.replicate 15 0, narg := 1,
          mode := 74 }).setEsc 0)).setSel { s.sel with bx := -1 } = X
  have hgX : GridOk X := by rw [← hX]; exact h
  have hcol : X.term.col = s.term.col := by rw [← hX]; rfl
  have hrow : X.term.row = s.term.row := by rw [← hX]; rfl
  have hcur : X.term.c = s.term.c := by rw [← hX]; rfl
  have hXesc : X.term.esc = 0 := by rw [← hX]; rfl
  have hcell : ∀ x y, X.cell x y = s.cell x y := by intro x y; rw [← hX]; rfl
  rw [← hcol, ← hrow]
  have hc := tclearregion_cleared X 0 0 (X.term.col - 1) (X.term.row - 1) hgX.1 hgX.2.1
  have c1 : clamp (min 0 (X.term.col - 1)) 0 (X.term.col - 1) = 0 := by
    have := hgX.1
    unfold clamp; omega
  have c2 : clamp (max 0 (X.term.col - 1)) 0 (X.term.col - 1) = X.term.col - 1 := by
    have := hgX.1
    unfold clamp; omega
  have c3 : clamp (min 0 (X.term.row - 1)) 0 (X.term.row - 1) = 0 := by
    have := hgX.2.1
    unfold clamp; omega
  have c4 : clamp (max 0 (X.term.row - 1)) 0 (X.term.row - 1) = X.term.row - 1 := by
    have := hgX.2.1
    unfold clamp; omega
  rw [c1, c2, c3, c4] at hc
  obtain ⟨e1, e2, e3, e4⟩ := fields_of_frame (hc.1 X)
  refine ⟨?_, ?_, ?_, ?_⟩
  · intro x y hx0 hx1 hy0 hy1
    rw [cleared_cell hgX hc (le_refl _) (by omega) x y hx0 hx1 hy0 hy1,
      if_pos ⟨hx0, by omega, hy0, by omega⟩, hcur]
  · rw [e2, hcur]
  · rw [e2, hcur]
  · have := congrArg (fun w : State => w.term.esc) (hc.1 X)
    exact this.trans hXesc

/-- Witness of C18: a 5 x 3 grid filled with `X` is blank after
`ESC [ 2 J`, and the cursor has not moved. -/
theorem erase_all_witness :
    GridOk filledExample ∧ filledExample.rowText 0 = [88, 88, 88, 88, 88] ∧
    filledExample.rowText 1 = [88, 88, 88, 88, 88] ∧
    filledExample.rowText 2 = [88, 88, 88, 88, 88] ∧
    (tputs filledExample [27, 91, 50, 74]).cell 4 2 = blankGlyph filledExample.term.c.attr ∧
    (tputs filledExample [27, 91, 50, 74]).term.c.x = filledExample.term.c.x ∧
    (tputs filledExample [27, 91, 50, 74]).term.c.y = filledExample.term.c.y ∧
    (tputs filledExample [27, 91, 50, 74]).term.esc = 0 :=
  have h := erase_all filledExample (by decide) (by decide)
  ⟨by decide, by decide, by decide, by decide,
    h.1 4 2 (by decide) (by decide) (by decide) (by decide), h.2.1, h.2.2.1, h.2.2.2⟩

/-- C19, where it holds. Alternate screen round trip: for every well-formed
terminal state on the primary screen (`MODE_ALTSCREEN` clear, parser at ground,
alternate screen allowed, the cursor inside the grid and, in origin mode, inside
the scroll region) whose two screens share no row, feeding `ESC [ ? 1049 h`, then any
printable ASCII bytes, then `ESC [ ? 1049 l` leaves the grid cell for cell equal
to the grid before the first sequence, `MODE_ALTSCREEN` clear, and the cursor at
the position it had before the first sequence. -/
theorem altscreen_roundtrip (s : State) (bs : List Nat) (hg : GridOk s)
    (halt : s.term.mode &&& MODE_ALTSCREEN = 0) (hesc : s.term.esc = 0)
    (hallow : s.cfg.allowaltscreen = true)
    (hdisj : ∀ y, idx s.term.alt y 0 ∉ s.term.line)
    (hx0 : 0 ≤ s.term.c.x) (hx1 : s.term.c.x < s.term.col)
    (hy0 : 0 ≤ s.term.c.y) (hy1 : s.term.c.y < s.term.row)
    (horg : s.term.c.state &&& CURSOR_ORIGIN ≠ 0 →
      s.term.top ≤ s.term.c.y ∧ s.term.c.y ≤ s.term.bot)
    (hpr : ∀ b ∈ bs, 0x20 ≤ b ∧ b ≤ 0x7E) :
    (∀ x y, 0 ≤ y → y < s.term.row →
      (tputs (tputs (tputs s [27, 91, 63, 49, 48, 52, 57, 104]) bs)
        [27, 91, 63, 49, 48, 52, 57, 108]).cell x y = s.cell x y) ∧
    (tputs (tputs (tputs s [27, 91, 63, 49, 48, 52, 57, 104]) bs)
      [27, 91, 63, 49, 48, 52, 57, 108]).term.mode &&& MODE_ALTSCREEN = 0 ∧
    (tputs (tputs (tputs s [27, 91, 63, 49, 48, 52, 57, 104]) bs)
      [27, 91, 63, 49, 48, 52, 57, 108]).term.c.x = s.term.c.x ∧
    (tputs (tputs (tputs s [27, 91, 63, 49, 48, 52, 57, 104]) bs)
      [27, 91, 63, 49, 48, 52, 57, 108]).term.c.y = s.term.c.y := by
  -- entering the alternate screen
  rw [enter_alt s hesc hallow halt]
  obtain ⟨w1, w2, w3, w4, w5, w6, w7, w8, w9, w10, w11, w12⟩ := tswapscreen_spec ((s.setCsi
        { buf := [63, 49, 48, 52, 57, 104], priv := 1, arg := 1049 :: List.replicate 15 0,
          narg := 1, mode := 104 }).setEsc 0)
  have hs0 : ∀ s0 : State, s0 = tcursor (tswapscreen ((s.setCsi
        { buf := [63, 49, 48, 52, 57, 104], priv := 1, arg := 1049 :: List.replicate 15 0,
          narg := 1, mode := 104 }).setEsc 0)) .CURSOR_SAVE →
      s0.term.line = s.term.alt ∧ s0.term.alt = s.term.line ∧
      s0.term.mode = s.term.mode ^^^ MODE_ALTSCREEN ∧ s0.heap = s.heap ∧
      s0.saved = s.term.c ∧ s0.cfg = s.cfg ∧ s0.term.col = s.term.col ∧
      s0.term.row = s.term.row ∧ s0.term.top = s.term.top ∧ s0.term.bot = s.term.bot ∧
      s0.term.esc = 0 := by
    intro s0 e
    rw [e]
    exact ⟨w1, w2, w3, w4, w7, w6, w8, w9, w10, w11, w12⟩
  generalize hgen : tcursor (tswapscreen ((s.setCsi
        { buf := [63, 49, 48, 52, 57, 104], priv := 1, arg := 1049 :: List.replicate 15 0,
          narg := 1, mode := 104 }).setEsc 0)) .CURSOR_SAVE = s0
  obtain ⟨a1, a2, a3, a4, a5, a6, a7, a8, a9, a10, a11⟩ := hs0 s0 hgen.symm
  have hk0 : AltKept s0 s0 := by
    refine ⟨rfl, rfl, rfl, rfl, rfl, rfl, rfl, rfl, rfl, le_refl _, ?_, ?_⟩
    · intro a ha
      rw [a2] at ha
      rw [a4]
      exact ⟨gridOk_mem_lt hg ha, rfl⟩
    · intro y
      rw [a1, a2]
      exact hdisj y
  -- the printable bytes
  have hk1 := k_tputs bs s0 hk0 a11 hpr
  generalize tputs s0 bs = s1 at hk1
  have hesc1 : s1.term.esc = 0 := hk1.2.2.2.2.2.2.2.2.1.trans a11
  have hallow1 : s1.cfg.allowaltscreen = true := by rw [hk1.2.2.1, a6]; exact hallow
  have halt1 : s1.term.mode &&& MODE_ALTSCREEN ≠ 0 := by
    rw [hk1.2.2.2.2.2.2.2.1, a3]
    exact xor_alt_set _ halt
  -- leaving the alternate screen
  rw [leave_alt s1 hesc1 hallow1 halt1]
  have hkY : AltKept s0 ((s1.setCsi
        { buf := [63, 49, 48, 52, 57, 108], priv := 1, arg := 1049 :: List.replicate 15 0,
          narg := 1, mode := 108 }).setEsc 0) :=
    k_of_eq hk1 rfl rfl rfl rfl rfl rfl rfl rfl hesc1.symm rfl rfl
  have hkZ := k_tclearregion _ 0 0 (s1.term.col - 1) (s1.term.row - 1) hkY
  generalize tclearregion ((s1.setCsi
        { buf := [63, 49, 48, 52, 57, 108], priv := 1, arg := 1049 :: List.replicate 15 0,
          narg := 1, mode := 108 }).setEsc 0) 0 0 (s1.term.col - 1) (s1.term.row - 1) = Z
    at hkZ ⊢
  obtain ⟨z1, z2, z3, z4, z5, z6, z7, z8, z9, z10, z11, z12⟩ := hkZ
  obtain ⟨v1, v2, v3, v4, v5, v6, v7, v8, v9, v10, v11, v12⟩ := tswapscreen_spec Z
  have hline : (tcursor (tswapscreen Z) .CURSOR_LOAD).term.line = s.term.line :=
    v1.trans (z1.trans a2)
  have hheap : (tcursor (tswapscreen Z) .CURSOR_LOAD).heap = Z.heap := v4
  have hsaved : (tswapscreen Z).saved = s.term.c := v5.trans (z2.trans a5)
  refine ⟨?_, ?_, ?_, ?_⟩
  · intro x y h0 h1
    unfold State.cell State.lineAt
    rw [hline, hheap]
    have hmem : idx s.term.line y 0 ∈ s0.term.alt := by
      rw [a2]
      exact idx_mem _ _ _ h0 (by rw [hg.2.2.1]; omega)
    rw [(z11 _ hmem).2, a4]
  · show (tswapscreen Z).term.mode &&& MODE_ALTSCREEN = 0
    rw [v3, z8, a3, xor_alt_twice]
    exact halt
  · show LIMIT (tswapscreen Z).saved.x 0 ((tswapscreen Z).term.col - 1) = _
    rw [hsaved, v8, z4, a7]
    exact LIMIT_id _ _ _ hx0 (by omega)
  · show LIMIT (tswapscreen Z).saved.y
      (if (tswapscreen Z).saved.state &&& CURSOR_ORIGIN ≠ 0 then (tswapscreen Z).term.top
        else 0)
      (if (tswapscreen Z).saved.state &&& CURSOR_ORIGIN ≠ 0 then (tswapscreen Z).term.bot
        else (tswapscreen Z).term.row - 1) = _
    rw [hsaved, v9, v10, v11, z5, z6, z7, a8, a9, a10]
    by_cases ho : s.term.c.state &&& CURSOR_ORIGIN ≠ 0
    · rw [if_pos ho, if_pos ho]
      exact LIMIT_id _ _ _ (horg ho).1 (horg ho).2
    · rw [if_neg ho, if_neg ho]
      exact LIMIT_id _ _ _ hy0 (by omega)

/-- Witness of C19 on a 3 x 2 primary screen filled with `P`: after the
round trip with `AAAA` written on the alternate screen, cell (1, 1) and the
cursor are as before. -/
theorem altscreen_roundtrip_witness :
    GridOk primaryExample ∧
    (tputs (tputs (tputs primaryExample [27, 91, 63, 49, 48, 52, 57, 104]) [65, 65, 65, 65])
      [27, 91, 63, 49, 48, 52, 57, 108]).cell 1 1 = primaryExample.cell 1 1 ∧
    (tputs (tputs (tputs primaryExample [27, 91, 63, 49, 48, 52, 57, 104]) [65, 65, 65, 65])
      [27, 91, 63, 49, 48, 52, 57, 108]).term.c.x = primaryExample.term.c.x ∧
    (tputs (tputs (tputs primaryExample [27, 91, 63, 49, 48, 52, 57, 104]) [65, 65, 65, 65])
      [27, 91, 63, 49, 48, 52, 57, 108]).term.c.y = primaryExample.term.c.y :=
  have h := altscreen_roundtrip primaryExample [65, 65, 65, 65] (by decide) (by decide)
    (by decide) (by decide)
    (idx_not_mem primaryExample.term.alt primaryExample.term.line 0 (by decide) (by decide))
    (by decide) (by decide) (by decide) (by decide) (by decide) (by decide)
  ⟨by decide, h.1 1 1 (by decide) (by decide), h.2.2.1, h.2.2.2⟩

/-- C19, counterexample. The state `sharedRowsExample` is reached from
`tnew(2, 2)` by `tscrollback(-1)` on the primary screen, `ESC [ ? 1049 h`,
`tscrollback(-1)` on the alternate screen, `ESC [ ? 1049 l` and the bytes `XY`.
It is well formed, on the primary screen, with the parser at ground and view
base 0, but each `tscrollback` has set `line[i] = last_line[i]`, so `line`
and `alt` hold the same row pointers. The round trip `ESC [ ? 1049 h`, `Z` (or
no byte at all), `ESC [ ? 1049 l` clears these rows when it leaves the
alternate screen: row 0 of the primary grid, `XY` before, is blank after. -/
theorem altscreen_roundtrip_blanks_shared_rows :
    Reachable sharedRowsExample ∧ GridOk sharedRowsExample ∧
    sharedRowsExample.term.mode &&& MODE_ALTSCREEN = 0 ∧ sharedRowsExample.term.esc = 0 ∧
    sharedRowsExample.term.ybase = 0 ∧ sharedRowsExample.cfg.allowaltscreen = true ∧
    sharedRowsExample.term.line = [3, 6] ∧ sharedRowsExample.term.alt = [3, 6] ∧
    sharedRowsExample.rowText 0 = [88, 89] ∧
    (tputs (tputs (tputs sharedRowsExample [27, 91, 63, 49, 48, 52, 57, 104]) [90])
      [27, 91, 63, 49, 48, 52, 57, 108]).rowText 0 = [32, 32] ∧
    (tputs (tputs (tputs sharedRowsExample [27, 91, 63, 49, 48, 52, 57, 104]) [])
      [27, 91, 63, 49, 48, 52, 57, 108]).rowText 0 = [32, 32] ∧
    (tputs (tputs (tputs sharedRowsExample [27, 91, 63, 49, 48, 52, 57, 104]) [90])
      [27, 91, 63, 49, 48, 52, 57, 108]).term.mode &&& MODE_ALTSCREEN = 0 :=
  ⟨reachable_sharedRowsExample, by decide, by decide, by decide, by decide, by decide,
    by decide, by decide, by decide, by decide, by decide, by decide⟩

/-- C20, where it holds. View shift mapping: for every well-formed
terminal state with `ybase = 0` whose snapshot rows `last_line` are buffers of
their own (`SnapshotOk`: distinct from each other, from the rows of the screen
and from the scrollback lines) and whose scrollback lines have the width of the
terminal, and every `n` of type `int`, `tscrollback(n)` sets `ybase` to `n`
clamped to `[-total, 0]` and makes each visible row `i` show scrollback entry
`-(i + ybase + 1)` (0 the most recent) if `i + ybase < 0` and the former live
row `i + ybase` otherwise, also when the new `ybase` is 0. This is the state of
a terminal that has not left a scrolled view before. The dirty flags are left
out: the loops mark every row dirty, and the closing `redraw(0)` paints the
rows and clears the flags again when the window is visible. -/
theorem tscrollback_view (s : State) (n : Int) (hg : GridOk s) (hsb : SbOk s.term.sb)
    (hv : SnapshotOk s) (hy : s.term.ybase = 0)
    (hn1 : -2147483648 ≤ n) (hn2 : n < 2147483648) :
    (tscrollback s n).term.ybase = clamp n (-s.term.sb.total) 0 ∧
    (∀ i, 0 ≤ i → i < s.term.row →
      (tscrollback s n).lineAt i =
        (if i + clamp n (-s.term.sb.total) 0 < 0 then
          s.sbLines.getD (-(i + clamp n (-s.term.sb.total) 0 + 1)).toNat []
        else s.lineAt (i + clamp n (-s.term.sb.total) 0))) := by
  have ht : 0 ≤ s.term.sb.total := by rw [← hsb.1]; exact Int.natCast_nonneg _
  have hbase := tscrollbackBase_clamp s n hy ht hn1 hn2
  have hc0 : clamp n (-s.term.sb.total) 0 ≤ 0 := by unfold clamp; omega
  have hc1 : -s.term.sb.total ≤ clamp n (-s.term.sb.total) 0 := by unfold clamp; omega
  generalize clamp n (-s.term.sb.total) 0 = y at hbase hc0 hc1
  generalize hs1 : ({ s with term := { s.term with ybase := y } } : State) = s1
  have f1 : s1.heap = s.heap := by rw [← hs1]
  have f2 : s1.term.line = s.term.line := by rw [← hs1]
  have f3 : s1.term.last_line = s.term.last_line := by rw [← hs1]
  have f4 : s1.term.sb = s.term.sb := by rw [← hs1]
  have f5 : s1.term.row = s.term.row := by rw [← hs1]
  have f6 : s1.term.ybase = y := by rw [← hs1]
  have f7 : s1.term.col = s.term.col := by rw [← hs1]
  have hg1 : GridOk s1 := by rw [← hs1]; exact hg
  have hv1 : SnapshotOk s1 := by rw [← hs1]; exact hv
  have e : tscrollback s n =
      forRange 0 ((forRange 0 (s1.term.row - 1) (fun i s => tscrollbackSnapshot s i) s1).term.row
          - 1) (fun i s => tscrollbackMap s i)
        (forRange 0 (s1.term.row - 1) (fun i s => tscrollbackSnapshot s i) s1) := by
    unfold tscrollback
    simp only [hy, ne_eq, not_true_eq_false, false_and, if_false, if_true, hbase, hs1]
    rw [f5]
  obtain ⟨a1, a2, a3⟩ := snapshot_spec s1 hg1 hv1
  generalize forRange 0 (s1.term.row - 1) (fun i s => tscrollbackSnapshot s i) s1 = t
    at e a1 a2 a3
  obtain ⟨b1, b2, b3⟩ := viewMap_spec t (by rw [a1]; exact hg1.2.2.1)
    (by rw [a1]; exact hg1.2.2.2.1) (by rw [a1]; exact hg1.2.1)
    (by rw [a1]; exact hv1.2.2.2)
    (by rw [a1, f6, f4, hsb.1]; exact hc1)
  rw [← e] at b1 b2 b3
  refine ⟨by rw [b2, a1, f6], ?_⟩
  intro i hi0 hi1
  obtain ⟨c1, _⟩ := b3 i hi0 (by rw [a1, f5]; exact hi1)
  unfold State.lineAt
  rw [c1, b1]
  unfold viewRow
  rw [a1, f6, f4, f3]
  by_cases h : i + y < 0
  · rw [if_pos h, if_pos h]
    have hk : (-(i + y + 1)).toNat < s.term.sb.entries.length := by
      have := hsb.1
      omega
    rw [List.getD_eq_getElem?_getD, List.getElem?_map, List.getElem?_eq_getElem hk]
    unfold State.sbLines
    rw [List.getD_eq_getElem?_getD, List.getElem?_map, List.getElem?_eq_getElem hk]
    show rowAt t.heap (s.term.sb.entries[(-(i + y + 1)).toNat]).line = rowAt s.heap _
    rw [a2 _ (by
      rw [f3]
      intro hm
      exact (hv.2.2.1 _ hm).2.2 _ (List.getElem_mem hk) rfl), f1]
  · rw [if_neg h, if_neg h]
    have := a3 (i + y) (by omega) (by rw [f5]; omega)
    rw [f3] at this
    rw [this]
    unfold State.lineAt
    rw [f1, f2]

/-- Witness of C20 where it holds: with the scrollback head `AAA` and the
live rows `BBB` and `CCC`, `tscrollback(-1)` shows `AAA` then `BBB` with
`ybase = -1`. -/
theorem tscrollback_view_witness :
    GridOk evictedExample ∧ SbOk evictedExample.term.sb ∧ SnapshotOk evictedExample ∧
    evictedExample.term.ybase = 0 ∧
    (tscrollback evictedExample (-1)).term.ybase =
      clamp (-1) (-evictedExample.term.sb.total) 0 ∧
    (tscrollback evictedExample (-1)).term.ybase = -1 ∧
    (tscrollback evictedExample (-1)).lineAt 0 =
      (if 0 + clamp (-1) (-evictedExample.term.sb.total) 0 < 0 then
        evictedExample.sbLines.getD
          (-(0 + clamp (-1) (-evictedExample.term.sb.total) 0 + 1)).toNat []
      else evictedExample.lineAt (0 + clamp (-1) (-evictedExample.term.sb.total) 0)) ∧
    (tscrollback evictedExample (-1)).rowText 0 = [65, 65, 65] ∧
    (tscrollback evictedExample (-1)).rowText 1 = [66, 66, 66] :=
  have h := tscrollback_view evictedExample (-1) (by decide) (by decide) (by decide)
    (by decide) (by decide) (by decide)
  ⟨by decide, by decide, by decide, by decide, h.1, by decide,
    h.2 0 (by decide) (by decide), by decide, by decide⟩

/-- C20, counterexample. The state `aliasExample` is reached from
`tnew` by `tputc` and `tscrollback` calls, has `ybase = 0`, three scrollback
lines of the terminal width, and the live rows `D`, `E`, `F`, but its snapshot
rows are the rows of the screen (`SnapshotOk` fails). After
`tscrollback(-1)` the view base is -1 and row 0 shows scrollback entry 0, but
row 2 shows `D`, not the former live row 1 (`E`): once a scrolled view has been
left, `line` and `last_line` name the same rows, so the copy into `last_line`
overwrites live rows. -/
theorem tscrollback_shows_stale_row :
    Reachable aliasExample ∧ ¬ SnapshotOk aliasExample ∧
    aliasExample.term.ybase = 0 ∧ aliasExample.term.col = 3 ∧
    aliasExample.term.sb.total = 3 ∧
    aliasExample.term.sb.entries.map (fun e => e.col) = [3, 3, 3] ∧
    aliasExample.rowText 0 = [68, 32, 32] ∧ aliasExample.rowText 1 = [69, 32, 32] ∧
    aliasExample.rowText 2 = [70, 32, 32] ∧ aliasExample.sbText 0 = [67, 32, 32] ∧
    (tscrollback aliasExample (-1)).term.ybase = -1 ∧
    (tscrollback aliasExample (-1)).rowText 0 = [67, 32, 32] ∧
    (tscrollback aliasExample (-1)).rowText 1 = [68, 32, 32] ∧
    (tscrollback aliasExample (-1)).rowText 2 = [68, 32, 32] ∧
    (tscrollback aliasExample (-1)).lineAt 2 ≠ aliasExample.lineAt 1 :=
  ⟨reachable_tputs _ _ (Reachable.step _ _ (Reachable.step _ _
      (reachable_example 3 3 (by decide) (by decide) _) (Step.scrollback _ (-1)))
      (Step.scrollback _ 1)),
    by decide, by decide, by decide, by decide, by decide, by decide, by decide, by decide,
    by decide, by decide, by decide, by decide, by decide, by decide⟩

/-! ## Lemmas on the view, the parser and resizing -/

/-- What the mapping loop of `tscrollback` keeps: the heap, the scrollback,
the snapshot pointers, the size, the view base and the number of row pointers
and dirty flags. -/
theorem viewMap_frame (t : State)
    (hcols : ∀ e ∈ t.term.sb.entries, e.col = t.term.col)
    (hy1 : -(t.term.sb.entries.length : Int) ≤ t.term.ybase) :
    (forRange 0 (t.term.row - 1) (fun i s => tscrollbackMap s i) t).term.sb = t.term.sb ∧
    (forRange 0 (t.term.row - 1) (fun i s => tscrollbackMap s i) t).term.last_line =
      t.term.last_line ∧
    (forRange 0 (t.term.row - 1) (fun i s => tscrollbackMap s i) t).term.col = t.term.col ∧
    (forRange 0 (t.term.row - 1) (fun i s => tscrollbackMap s i) t).term.row = t.term.row ∧
    (forRange 0 (t.term.row - 1) (fun i s => tscrollbackMap s i) t).term.line.length =
      t.term.line.length ∧
    (forRange 0 (t.term.row - 1) (fun i s => tscrollbackMap s i) t).term.dirty.length =
      t.term.dirty.length := by
  by_cases hrow : t.term.row ≤ 0
  · rw [forRange_empty _ _ _ _ (by omega)]
    exact ⟨rfl, rfl, rfl, rfl, rfl, rfl⟩
  have key := forRange_ind
    (fun (_ : Int) (w : State) =>
      w.term.ybase = t.term.ybase ∧ w.term.sb = t.term.sb ∧
      w.term.last_line = t.term.last_line ∧ w.term.col = t.term.col ∧
      w.term.row = t.term.row ∧
      w.term.line.length = t.term.line.length ∧ w.term.dirty.length = t.term.dirty.length)
    0 (t.term.row - 1) (fun i s => tscrollbackMap s i) t (by omega)
    ⟨rfl, rfl, rfl, rfl, rfl, rfl, rfl⟩
    (by
      intro i w hi0 hi1 ⟨q2, q3, q4, q5, q5r, q6, q7⟩
      have e := tscrollbackMap_eq w i
        (by
          intro h
          rw [q3]
          rw [q2] at h ⊢
          omega)
        (by rw [q3, q5]; exact hcols)
      beta_reduce
      rw [e]
      refine ⟨q2, q3, q4, q5, q5r, ?_, ?_⟩
      · show (setIdx w.term.line i (viewRow w i)).length = _
        rw [length_setIdx, q6]
      · show (setIdx w.term.dirty i true).length = _
        rw [length_setIdx, q7])
  obtain ⟨_, k3, k4, k5, k5r, k6, k7⟩ := key
  exact ⟨k3, k4, k5, k5r, k6, k7⟩

/-- The loop of `tscrollback` that returns to the live screen: every row
pointer of the screen becomes the snapshot pointer of its row and every row
is marked dirty; nothing else changes. -/
theorem restore_spec (t : State) (hlen : t.term.line.length = t.term.row.toNat)
    (hd : t.term.dirty.length = t.term.row.toNat) (hrow : 1 ≤ t.term.row) :
    (forRange 0 (t.term.row - 1) (fun i s => tscrollbackRestore s i) t).heap = t.heap ∧
    (forRange 0 (t.term.row - 1) (fun i s => tscrollbackRestore s i) t).term.ybase =
      t.term.ybase ∧
    (forRange 0 (t.term.row - 1) (fun i s => tscrollbackRestore s i) t).term.sb = t.term.sb ∧
    (forRange 0 (t.term.row - 1) (fun i s => tscrollbackRestore s i) t).term.row =
      t.term.row ∧
    (∀ i, 0 ≤ i → i < t.term.row →
      idx (forRange 0 (t.term.row - 1) (fun i s => tscrollbackRestore s i) t).term.line i 0 =
        idx t.term.last_line i 0 ∧
      idx (forRange 0 (t.term.row - 1)
        (fun i s => tscrollbackRestore s i) t).term.dirty i false = true) := by
  have key := forRange_ind
    (fun (i : Int) (w : State) =>
      w.heap = t.heap ∧ w.term.ybase = t.term.ybase ∧ w.term.sb = t.term.sb ∧
      w.term.row = t.term.row ∧ w.term.last_line = t.term.last_line ∧
      w.term.line.length = t.term.line.length ∧ w.term.dirty.length = t.term.dirty.length ∧
      ∀ j, 0 ≤ j → j < i →
        idx w.term.line j 0 = idx t.term.last_line j 0 ∧ idx w.term.dirty j false = true)
    0 (t.term.row - 1) (fun i s => tscrollbackRestore s i) t (by omega)
    ⟨rfl, rfl, rfl, rfl, rfl, rfl, rfl, fun j h0 h1 => by omega⟩
    (by
      intro i w hi0 hi1 ⟨q1, q2, q3, q4, q5, q6, q7, q8⟩
      beta_reduce
      refine ⟨q1, q2, q3, q4, q5, ?_, ?_, ?_⟩
      · show (setIdx w.term.line i _).length = _
        rw [length_setIdx, q6]
      · show (setIdx w.term.dirty i true).length = _
        rw [length_setIdx, q7]
      · intro j hj0 hj1
        show idx (setIdx w.term.line i (idx w.term.last_line i 0)) j 0 = _ ∧
          idx (setIdx w.term.dirty i true) j false = true
        by_cases hji : j = i
        · subst hji
          rw [idx_setIdx_eq _ _ _ _ hj0 (by rw [q6, hlen]; omega),
            idx_setIdx_eq _ _ _ _ hj0 (by rw [q7, hd]; omega), q5]
          exact ⟨rfl, rfl⟩
        · obtain ⟨r1, r2⟩ := q8 j hj0 (by omega)
          rw [idx_setIdx_ne _ _ _ _ _ hji]
          exact ⟨r1, idx_setIdx_true _ _ _ r2⟩)
  have e : t.term.row - 1 + 1 = t.term.row := by omega
  rw [e] at key
  obtain ⟨k1, k2, k3, k4, _, _, _, k8⟩ := key
  exact ⟨k1, k2, k3, k4, k8⟩

theorem list_set_self {α : Type} (l : List α) (p : Nat) (hp : p < l.length) :
    l.set p (l.get ⟨p, hp⟩) = l := by
  apply List.ext_getElem
  · simp
  · intro n h1 h2
    by_cases h : p = n
    · subst h; simp
    · simp [List.getElem_set_ne h]

theorem setRow_self (t : State) (p : Nat) : t.setRow p (rowAt t.heap p) = t := by
  unfold State.setRow rowAt
  have h : t.heap.set p (t.heap.getD p []) = t.heap := by
    by_cases hp : p < t.heap.length
    · rw [List.getD_eq_getElem?_getD, List.getElem?_eq_getElem hp]
      exact list_set_self _ _ hp
    · exact List.set_eq_of_length_le (by omega)
  rw [h]

/-- The snapshot loop of `tscrollback` when every row pointer of the screen
is the snapshot pointer of its row: each row is copied onto itself, and the
state is as before. -/
theorem snapshot_alias (t : State)
    (hal : ∀ i, 0 ≤ i → i < t.term.row → idx t.term.line i 0 = idx t.term.last_line i 0)
    (hlen : ∀ i, 0 ≤ i → i < t.term.row →
      (rowAt t.heap (idx t.term.last_line i 0)).length = t.term.col.toNat) :
    forRange 0 (t.term.row - 1) (fun i s => tscrollbackSnapshot s i) t = t := by
  by_cases hrow : t.term.row ≤ 0
  · exact forRange_empty _ _ _ _ (by omega)
  have key := forRange_ind (fun (_ : Int) (w : State) => w = t)
    0 (t.term.row - 1) (fun i s => tscrollbackSnapshot s i) t (by omega) rfl
    (by
      intro i w hi0 hi1 hw
      beta_reduce
      rw [hw]
      unfold tscrollbackSnapshot State.lineAt
      rw [hal i hi0 (by omega),
        memcpyRow_full _ _ _ (hlen i hi0 (by omega)) (hlen i hi0 (by omega))]
      exact setRow_self t _)
  exact key

/-- The call `tscrollback(n)` at the live edge, when the snapshot rows are
buffers of their own: the view base becomes `n` clamped to `[-total, 0]`, the
snapshot rows receive the cells of the live rows, every other row of the heap
is kept, every row pointer of the screen becomes `viewRow`, and the
scrollback, the snapshot pointers and the size are kept. -/
theorem tscrollback_leave (s : State) (n : Int) (hg : GridOk s) (hsb : SbOk s.term.sb)
    (hv : SnapshotOk s) (hy : s.term.ybase = 0)
    (hn1 : -2147483648 ≤ n) (hn2 : n < 2147483648) :
    (tscrollback s n).term.ybase = clamp n (-s.term.sb.total) 0 ∧
    (tscrollback s n).term.sb = s.term.sb ∧
    (tscrollback s n).term.last_line = s.term.last_line ∧
    (tscrollback s n).term.col = s.term.col ∧ (tscrollback s n).term.row = s.term.row ∧
    (tscrollback s n).term.line.length = s.term.line.length ∧
    (tscrollback s n).term.dirty.length = s.term.dirty.length ∧
    (∀ p, p ∉ s.term.last_line → rowAt (tscrollback s n).heap p = rowAt s.heap p) ∧
    (∀ j, 0 ≤ j → j < s.term.row →
      rowAt (tscrollback s n).heap (idx s.term.last_line j 0) = s.lineAt j) ∧
    (∀ i, 0 ≤ i → i < s.term.row →
      idx (tscrollback s n).term.line i 0 =
        (if i + clamp n (-s.term.sb.total) 0 < 0 then
          (s.term.sb.entries.map (fun e => e.line)).getD
            (-(i + clamp n (-s.term.sb.total) 0 + 1)).toNat 0
        else idx s.term.last_line (i + clamp n (-s.term.sb.total) 0) 0)) := by
  have ht : 0 ≤ s.term.sb.total := by rw [← hsb.1]; exact Int.natCast_nonneg _
  have hbase := tscrollbackBase_clamp s n hy ht hn1 hn2
  have hc0 : clamp n (-s.term.sb.total) 0 ≤ 0 := by unfold clamp; omega
  have hc1 : -s.term.sb.total ≤ clamp n (-s.term.sb.total) 0 := by unfold clamp; omega
  generalize clamp n (-s.term.sb.total) 0 = y at hbase hc0 hc1
  generalize hs1 : ({ s with term := { s.term with ybase := y } } : State) = s1
  have f1 : s1.heap = s.heap := by rw [← hs1]
  have f2 : s1.term.line = s.term.line := by rw [← hs1]
  have f3 : s1.term.last_line = s.term.last_line := by rw [← hs1]
  have f4 : s1.term.sb = s.term.sb := by rw [← hs1]
  have f5 : s1.term.row = s.term.row := by rw [← hs1]
  have f6 : s1.term.ybase = y := by rw [← hs1]
  have f7 : s1.term.col = s.term.col := by rw [← hs1]
  have f8 : s1.term.dirty = s.term.dirty := by rw [← hs1]
  have hg1 : GridOk s1 := by rw [← hs1]; exact hg
  have hv1 : SnapshotOk s1 := by rw [← hs1]; exact hv
  have e : tscrollback s n =
      forRange 0 ((forRange 0 (s1.term.row - 1) (fun i s => tscrollbackSnapshot s i) s1).term.row
          - 1) (fun i s => tscrollbackMap s i)
        (forRange 0 (s1.term.row - 1) (fun i s => tscrollbackSnapshot s i) s1) := by
    unfold tscrollback
    simp only [hy, ne_eq, not_true_eq_false, false_and, if_false, if_true, hbase, hs1]
    rw [f5]
  obtain ⟨a1, a2, a3⟩ := snapshot_spec s1 hg1 hv1
  generalize forRange 0 (s1.term.row - 1) (fun i s => tscrollbackSnapshot s i) s1 = t
    at e a1 a2 a3
  have hcols : ∀ e ∈ t.term.sb.entries, e.col = t.term.col := by
    rw [a1]; exact hv1.2.2.2
  have hyb : -(t.term.sb.entries.length : Int) ≤ t.term.ybase := by
    rw [a1, f6, f4, hsb.1]; exact hc1
  obtain ⟨b1, b2, b3⟩ := viewMap_spec t (by rw [a1]; exact hg1.2.2.1)
    (by rw [a1]; exact hg1.2.2.2.1) (by rw [a1]; exact hg1.2.1) hcols hyb
  obtain ⟨c1, c2, c3, c4, c5, c6⟩ := viewMap_frame t hcols hyb
  rw [← e] at b1 b2 b3 c1 c2 c3 c4 c5 c6
  refine ⟨by rw [b2, a1, f6], by rw [c1, a1, f4], by rw [c2, a1, f3], by rw [c3, a1, f7],
    by rw [c4, a1, f5], by rw [c5, a1, f2], by rw [c6, a1, f8], ?_, ?_, ?_⟩
  · intro p hp
    rw [b1, a2 p (by rw [f3]; exact hp), f1]
  · intro j hj0 hj1
    have := a3 j hj0 (by rw [f5]; exact hj1)
    rw [f3] at this
    rw [b1, this]
    unfold State.lineAt
    rw [f1, f2]
  · intro i hi0 hi1
    rw [(b3 i hi0 (by rw [a1, f5]; exact hi1)).1]
    unfold viewRow
    rw [a1, f6, f4, f3]

theorem ykept_of_core {yb : Int} {s t : State} (h : core t = core s)
    (hs : YKept yb s) : YKept yb t := by
  have e2 : t.term.ybase = s.term.ybase := congrArg Core.ybase h
  unfold YKept at hs ⊢
  rw [e2]; exact hs

theorem ykept_ite {yb : Int} {c : Prop} [Decidable c] {a b : State}
    (ha : YKept yb a) (hb : YKept yb b) : YKept yb (if c then a else b) := by
  split_ifs <;> assumption

theorem ykept_tmoveto {yb : Int} (s : State) (x y : Int) (h : YKept yb s) :
    YKept yb (tmoveto s x y) := h

theorem ykept_tmoveato {yb : Int} (s : State) (x y : Int) (h : YKept yb s) :
    YKept yb (tmoveato s x y) := h

theorem ykept_tsetscroll {yb : Int} (s : State) (t b : Int) (h : YKept yb s) :
    YKept yb (tsetscroll s t b) := h

theorem ykept_setCState {yb : Int} (s : State) (v : Nat) (h : YKept yb s) :
    YKept yb (s.setCState v) := h

theorem ykept_setMode {yb : Int} (s : State) (m : Nat) (h : YKept yb s) :
    YKept yb (s.setMode m) := h

theorem ykept_setEsc {yb : Int} (s : State) (m : Nat) (h : YKept yb s) :
    YKept yb (s.setEsc m) := h

theorem ykept_setAttrMode {yb : Int} (s : State) (m : Nat) (h : YKept yb s) :
    YKept yb (s.setAttrMode m) := h

theorem ykept_argDefault {yb : Int} (s : State) (i : Nat) (d : Int)
    (h : YKept yb s) : YKept yb (s.argDefault i d) := h

theorem ykept_setSel {yb : Int} (s : State) (v : Selection) (h : YKept yb s) :
    YKept yb (s.setSel v) := h

theorem ykept_setTabs {yb : Int} (s : State) (t : List Bool) (h : YKept yb s) :
    YKept yb (s.setTabs t) := h

theorem ykept_setStr {yb : Int} (s : State) (q : STREscape) (h : YKept yb s) :
    YKept yb (s.setStr q) := h

theorem ykept_setCsi {yb : Int} (s : State) (q : CSIEscape) (h : YKept yb s) :
    YKept yb (s.setCsi q) := h

theorem ykept_setCell {yb : Int} (s : State) (x y : Int) (g : Glyph)
    (h : YKept yb s) : YKept yb (s.setCell x y g) := h

theorem ykept_setRow {yb : Int} (s : State) (p : Nat) (r : List Glyph)
    (h : YKept yb s) : YKept yb (s.setRow p r) := h

theorem ykept_tsetchar {yb : Int} (s : State) (c : List Nat) (g : Glyph)
    (x y : Int) (h : YKept yb s) : YKept yb (tsetchar s c g x y) := h

theorem ykept_ttywrite {yb : Int} (s : State) (b : List Nat) (h : YKept yb s) :
    YKept yb (ttywrite s b) := h

theorem ykept_tsetattr {yb : Int} (s : State) (a : List Int) (h : YKept yb s) :
    YKept yb (tsetattr s a) := h

theorem ykept_csiparse {yb : Int} (s : State) (h : YKept yb s) :
    YKept yb (csiparse s) := h

theorem ykept_csireset {yb : Int} (s : State) (h : YKept yb s) :
    YKept yb (csireset s) := h

theorem ykept_strreset {yb : Int} (s : State) (h : YKept yb s) :
    YKept yb (strreset s) := h

theorem ykept_strhandle {yb : Int} (s : State) (h : YKept yb s) :
    YKept yb (strhandle s) := h

theorem ykept_tclearregion {yb : Int} (s : State) (x1 y1 x2 y2 : Int)
    (h : YKept yb s) : YKept yb (tclearregion s x1 y1 x2 y2) :=
  ykept_of_core (core_tclearregion s x1 y1 x2 y2) h

theorem ykept_tswapscreen {yb : Int} (s : State) (h : YKept yb s) :
    YKept yb (tswapscreen s) :=
  ykept_of_core (core_tswapscreen s) h

theorem ykept_tinsertblank {yb : Int} (s : State) (n : Int) (h : YKept yb s) :
    YKept yb (tinsertblank s n) :=
  ykept_of_core (core_tinsertblank s n) h

theorem ykept_tdeletechar {yb : Int} (s : State) (n : Int) (h : YKept yb s) :
    YKept yb (tdeletechar s n) :=
  ykept_of_core (core_tdeletechar s n) h

theorem ykept_tinsertblankline {yb : Int} (s : State) (n : Int) (h : YKept yb s) :
    YKept yb (tinsertblankline s n) :=
  ykept_of_core (core_tinsertblankline s n) h

theorem ykept_tscrolldown {yb : Int} (s : State) (o n : Int) (h : YKept yb s) :
    YKept yb (tscrolldown s o n) :=
  ykept_of_core (core_tscrolldown s o n) h

theorem ykept_tputcAlign {yb : Int} (s : State) (h : YKept yb s) :
    YKept yb (tputcAlign s) :=
  ykept_of_core (core_tputcAlign s) h

theorem ykept_tcursor {yb : Int} (s : State) (m : CursorMovement)
    (h : YKept yb s) : YKept yb (tcursor s m) := by
  cases m <;> exact h

theorem ykept_tscrollupSave {yb : Int} (s : State) (i : Int) (h : YKept yb s) :
    YKept yb (tscrollupSave s i) := by
  unfold tscrollupSave scrollback_add allocRow
  simp only []
  split_ifs <;> exact h

theorem ykept_tscrollup {yb : Int} (s : State) (orig n : Int) (h : YKept yb s) :
    YKept yb (tscrollup s orig n) := by
  unfold tscrollup
  simp only []
  refine ykept_of_core (core_selscroll _ _ _) ?_
  refine ykept_of_core (forRange_core _ _ _ (fun i t => core_swapLines t _ _) _) ?_
  refine ykept_of_core (core_tclearregion _ _ _ _ _) ?_
  refine ykept_ite ?_ h
  exact forRange_induct (YKept yb) _ _ _ (fun i t ht => ykept_tscrollupSave t i ht) s h

theorem ykept_tdeleteline {yb : Int} (s : State) (n : Int) (h : YKept yb s) :
    YKept yb (tdeleteline s n) := by
  unfold tdeleteline
  exact ykept_ite h (ykept_tscrollup s _ n h)

theorem ykept_tnewline {yb : Int} (s : State) (b : Bool) (h : YKept yb s) :
    YKept yb (tnewline s b) := by
  unfold tnewline
  repeat' (with_reducible first
    | exact h
    | apply ykept_ite
    | apply ykept_tmoveto
    | apply ykept_tscrollup)

theorem ykept_tsetmode1 {yb : Int} (priv set : Bool) (s : State) (a : Int)
    (h : YKept yb s) : YKept yb (tsetmode1 priv set s a) := by
  unfold tsetmode1
  repeat' (with_reducible first
    | exact h
    | apply ykept_ite
    | apply ykept_tmoveato
    | apply ykept_setCState
    | apply ykept_setMode
    | apply ykept_tcursor
    | apply ykept_tswapscreen
    | apply ykept_tclearregion)

theorem ykept_tsetmode {yb : Int} (s : State) (priv set : Bool) (args : List Int)
    (h : YKept yb s) : YKept yb (tsetmode s priv set args) := by
  unfold tsetmode
  induction args generalizing s with
  | nil => exact h
  | cons a l ih => exact ih _ (ykept_tsetmode1 priv set s a h)

theorem ykept_tputtab {yb : Int} (s : State) (f : Bool) (h : YKept yb s) :
    YKept yb (tputtab s f) := by
  unfold tputtab
  repeat' (with_reducible first
    | exact h
    | apply ykept_ite
    | apply ykept_tmoveto)

theorem ykept_tputtabs {yb : Int} (s : State) (f : Bool) (h : YKept yb s) :
    YKept yb (tputtabs s f) := by
  unfold tputtabs
  exact ykept_of_core (core_setArg _ _ _)
    (repeatN_induct (YKept yb) _ (fun t ht => ykept_tputtab t f ht) _ s h)

theorem ykept_treset {yb : Int} (s : State) (h : YKept yb s) :
    YKept yb (treset s) := by
  unfold treset
  refine ykept_tcursor _ _ (ykept_tmoveto _ _ _ (ykept_tclearregion _ _ _ _ _ ?_))
  exact h

theorem ykept_csihandle {yb : Int} (s : State) (h : YKept yb s) :
    YKept yb (csihandle s) := by
  unfold csihandle
  repeat' (with_reducible first
    | exact h
    | apply ykept_ite
    | apply ykept_tmoveto
    | apply ykept_tmoveato
    | apply ykept_tsetscroll
    | apply ykept_argDefault
    | apply ykept_tinsertblank
    | apply ykept_tdeletechar
    | apply ykept_tinsertblankline
    | apply ykept_tdeleteline
    | apply ykept_tscrollup
    | apply ykept_tscrolldown
    | apply ykept_ttywrite
    | apply ykept_tsetattr
    | apply ykept_tsetmode
    | apply ykept_tputtabs
    | apply ykept_tcursor
    | apply ykept_tclearregion
    | apply ykept_setSel
    | apply ykept_setTabs)

theorem ykept_tputcStr {yb : Int} (s : State) (c : List Nat) (len : Int)
    (h : YKept yb s) : YKept yb (tputcStr s c len) := by
  unfold tputcStr
  repeat' (with_reducible first
    | exact h
    | apply ykept_ite
    | apply ykept_setEsc
    | apply ykept_strhandle
    | apply ykept_setStr)

theorem ykept_tputcControl {yb : Int} (s : State) (a : Nat) (h : YKept yb s) :
    YKept yb (tputcControl s a).1 := by
  unfold tputcControl
  split_ifs <;> simp only [] <;>
  repeat' (with_reducible first
    | exact h
    | apply ykept_setEsc
    | apply ykept_csireset
    | apply ykept_tputtab
    | apply ykept_tnewline
    | apply ykept_tmoveto)

theorem ykept_tputcEsc {yb : Int} (s : State) (a : Nat) (h : YKept yb s) :
    YKept yb (tputcEsc s a) := by
  unfold tputcEsc
  repeat' (with_reducible first
    | exact h
    | apply ykept_ite
    | apply ykept_setEsc
    | apply ykept_setMode
    | apply ykept_setAttrMode
    | apply ykept_csihandle
    | apply ykept_csiparse
    | apply ykept_strhandle
    | apply ykept_strreset
    | apply ykept_setStr
    | apply ykept_setCsi
    | apply ykept_tputcAlign
    | apply ykept_tscrollup
    | apply ykept_tscrolldown
    | apply ykept_tnewline
    | apply ykept_treset
    | apply ykept_tcursor
    | apply ykept_ttywrite
    | apply ykept_tmoveto
    | apply ykept_setTabs)

theorem ykept_tputcPrint {yb : Int} (s : State) (c : List Nat) (h : YKept yb s) :
    YKept yb (tputcPrint s c) := by
  unfold tputcPrint
  repeat' (with_reducible first
    | exact h
    | apply ykept_ite
    | apply ykept_tmoveto
    | apply ykept_setCState
    | apply ykept_tsetchar
    | apply ykept_setRow
    | apply ykept_tnewline
    | apply ykept_setCell
    | apply ykept_setSel)

theorem ykept_tputc {yb : Int} (s : State) (c : List Nat) (len : Int)
    (h : YKept yb s) : YKept yb (tputc s c len) := by
  unfold tputc
  have h1 : YKept yb (tputcControl s (uch c)).1 := ykept_tputcControl s _ h
  have h2 : YKept yb (tputcEsc s (uch c)) := ykept_tputcEsc s _ h
  have h3 : YKept yb
      (if (decide (uch c < 0x20 ∨ uch c = 0x7F)) = true then tputcControl s (uch c)
        else if s.term.esc &&& ESC_START ≠ 0 then (tputcEsc s (uch c), true)
        else (s, false)).1 := by
    split_ifs
    · exact h1
    · exact h2
    · exact h
  repeat' (with_reducible first
    | exact h3
    | apply ykept_ite
    | apply ykept_tputcStr
    | apply ykept_tputcPrint)
  exact h

/-- No call of `tputc` changes the view base. -/
theorem tputc_ybase (s : State) (c : List Nat) (len : Int) :
    (tputc s c len).term.ybase = s.term.ybase :=
  ykept_tputc s c len rfl

/-- The loop of `ttyread` that feeds the decoded characters to `tputc` keeps
the view base. -/
theorem ttyreadFeed_ybase (ds : List (Nat × Nat)) (st : State × List Nat) :
    (ds.foldl ttyreadFeed st).1.term.ybase = st.1.term.ybase := by
  induction ds generalizing st with
  | nil => rfl
  | cons d l ih =>
    rw [List.foldl_cons, ih]
    exact tputc_ybase _ _ _

/-- The call `tscrollback(-ybase)` from a scrolled view returns to the live
edge. -/
theorem tscrollback_snap (s : State) (hy : s.term.ybase < 0)
    (hy2 : -2147483648 < s.term.ybase) (ht : 0 ≤ s.term.sb.total) :
    (tscrollback s (-s.term.ybase)).term.ybase = 0 := by
  have hbase : tscrollbackBase s (-s.term.ybase) = 0 := by
    unfold tscrollbackBase
    have e : s.term.ybase + -s.term.ybase = 0 := by omega
    rw [e]
    have e2 : wrapInt 0 = 0 := by decide
    rw [e2]
    simp only [gt_iff_lt, lt_self_iff_false, if_false]
    rw [if_neg (by omega)]
  generalize hs1 : ({ s with term := { s.term with ybase := 0 } } : State) = s1
  have f5 : s1.term.row = s.term.row := by rw [← hs1]
  have f6 : s1.term.ybase = 0 := by rw [← hs1]
  have e : tscrollback s (-s.term.ybase) =
      forRange 0 (s1.term.row - 1) (fun i s => tscrollbackRestore s i) s1 := by
    unfold tscrollback
    have hne : s.term.ybase ≠ 0 := by omega
    simp only [hne, ne_eq, not_false_eq_true, true_and, if_true, hbase, hs1]
    rw [f5]
  rw [e]
  exact forRange_induct (fun (w : State) => w.term.ybase = 0) 0 (s1.term.row - 1)
    (fun i s => tscrollbackRestore s i)
    (fun i w hw => show (tscrollbackRestore w i).term.ybase = 0 from hw) s1 f6

theorem tsetattrLoop_single (cfg : Config) (p : Int) (g : Glyph) :
    tsetattrLoop cfg [p] 0 g = (tsetattr1 cfg p [] g).1 := by
  rw [tsetattrLoop]
  generalize (tsetattr1 cfg p [] g).2 = k
  rw [tsetattrLoop]

theorem tsetattrLoop_palette (cfg : Config) (a n : Int) (g : Glyph) (ha : a = 38 ∨ a = 48) :
    tsetattrLoop cfg [a, 5, n] 0 g = (tsetattr1 cfg a [5, n] g).1 := by
  rw [tsetattrLoop]
  have e : (tsetattr1 cfg a [5, n] g).2 = 2 := by
    rcases ha with h | h <;> subst h <;> unfold tsetattr1 <;> simp
  rw [e]
  rfl

theorem digitsValue_nonneg_aux (ds : List Nat) (hd : ∀ d ∈ ds, isdigit d = true) :
    ∀ acc : Int, 0 ≤ acc →
      0 ≤ ds.foldl (fun (acc : Int) (d : Nat) => acc * 10 + ((d : Int) - 48)) acc := by
  induction ds with
  | nil => intro acc h; exact h
  | cons d l ih =>
    intro acc h
    rw [List.foldl_cons]
    apply ih (fun x hx => hd x (List.mem_cons_of_mem _ hx))
    have := hd d (List.mem_cons_self _ _)
    unfold isdigit at this
    simp only [decide_eq_true_eq] at this
    omega

theorem digitsValue_nonneg (ds : List Nat) (hd : ∀ d ∈ ds, isdigit d = true) :
    0 ≤ digitsValue ds :=
  digitsValue_nonneg_aux ds hd 0 (le_refl _)

theorem takeWhile_digits (p rest : List Nat) (c : Nat) (hd : ∀ d ∈ p, isdigit d = true)
    (hc : isdigit c = false) :
    (p ++ c :: rest).takeWhile isdigit = p ∧ (p ++ c :: rest).dropWhile isdigit = c :: rest := by
  induction p with
  | nil =>
    simp only [List.nil_append, List.takeWhile_cons, List.dropWhile_cons, hc]
    exact ⟨rfl, rfl⟩
  | cons d l ih =>
    have h1 := hd d (List.mem_cons_self _ _)
    obtain ⟨i1, i2⟩ := ih (fun x hx => hd x (List.mem_cons_of_mem _ hx))
    simp only [List.cons_append, List.takeWhile_cons, List.dropWhile_cons, h1, if_true]
    exact ⟨by rw [i1], i2⟩

/-- The call of `strtol` on a string of digits followed by a byte that is
neither a digit, nor white space, nor a sign. -/
theorem strtol_digits (p rest : List Nat) (c : Nat) (hd : ∀ d ∈ p, isdigit d = true)
    (hv : digitsValue p < 2147483648)
    (hc1 : isdigit c = false) (hc2 : isspace c = false) (hc3 : c ≠ 45) (hc4 : c ≠ 43) :
    strtol (p ++ c :: rest) = (digitsValue p, c :: rest) := by
  obtain ⟨t1, t2⟩ := takeWhile_digits p rest c hd hc1
  have hsp : (p ++ c :: rest).dropWhile isspace = p ++ c :: rest := by
    cases p with
    | nil => simp only [List.nil_append, List.dropWhile_cons, hc2]; rfl
    | cons d l =>
      have h1 := hd d (List.mem_cons_self _ _)
      have h2 : isspace d = false := by
        unfold isdigit at h1
        unfold isspace
        simp only [decide_eq_true_eq] at h1
        simp only [decide_eq_false_iff_not]
        omega
      simp only [List.cons_append, List.dropWhile_cons, h2]
      rfl
  have hhead : (p ++ c :: rest).headD 0 ≠ 45 ∧ (p ++ c :: rest).headD 0 ≠ 43 := by
    cases p with
    | nil => exact ⟨hc3, hc4⟩
    | cons d l =>
      have h1 := hd d (List.mem_cons_self _ _)
      unfold isdigit at h1
      simp only [decide_eq_true_eq] at h1
      simp only [List.cons_append, List.headD_cons]
      omega
  unfold strtol
  simp only [hsp, hhead.1, hhead.2, or_self, if_false, t1, t2, decide_False]
  by_cases hp : p = []
  · subst hp
    rfl
  · rw [if_neg hp]
    have h0 := digitsValue_nonneg p hd
    have e : List.foldl (fun (acc : Int) (d : Int) => acc * 10 + (d - 48)) 0
        (p.flatMap fun a => [(a : Int)]) = digitsValue p :=
      foldl_flatMap_single _ _ _ _
    have e2 : (do let a ← p; pure (a : Int)) = p.flatMap fun a => [(a : Int)] := rfl
    simp only [e2, e, Bool.false_eq_true, if_false]
    have l1 : LONG_MAX = 9223372036854775807 := rfl
    have l2 : LONG_MIN = -9223372036854775808 := rfl
    rw [if_neg (by omega), if_neg (by omega)]

/-- One round of the loop of `csiparse` on a parameter of decimal digits
followed by a byte that ends it. -/
theorem csiparseLoop_step (fuel : Nat) (p rest : List Nat) (c : Nat) (arg : List Int)
    (narg : Nat) (hd : ∀ d ∈ p, isdigit d = true) (hv : digitsValue p < 2147483648)
    (hc1 : isdigit c = false) (hc2 : isspace c = false) (hc3 : c ≠ 45) (hc4 : c ≠ 43) :
    csiparseLoop (fuel + 1) (p ++ c :: rest) arg narg =
      if c ≠ 59 ∨ narg + 1 = ESC_ARG_SIZ then
        (c :: rest, arg.set narg (digitsValue p), narg + 1)
      else csiparseLoop fuel rest (arg.set narg (digitsValue p)) (narg + 1) := by
  have h0 := digitsValue_nonneg p hd
  have hne : p ++ c :: rest ≠ [] := by simp
  have l1 : LONG_MAX = 9223372036854775807 := rfl
  have l2 : LONG_MIN = -9223372036854775808 := rfl
  rw [csiparseLoop, if_neg hne, strtol_digits p rest c hd hv hc1 hc2 hc3 hc4]
  simp only [List.headD_cons, List.tail_cons]
  rw [if_neg (show ¬ (digitsValue p = LONG_MAX ∨ digitsValue p = LONG_MIN) by omega),
    wrapInt_of_range _ (by omega) (by omega)]

theorem final_facts (F : Nat) (hF1 : 0x40 ≤ F) (hF2 : F ≤ 0x7E) :
    isdigit F = false ∧ isspace F = false ∧ F ≠ 45 ∧ F ≠ 43 ∧ F ≠ 59 ∧ F ≠ 63 := by
  unfold isdigit isspace
  simp only [decide_eq_false_iff_not]
  omega

/-- The loop of `csiparse` on `k` parameters of decimal digits separated by
`;` and followed by a final byte: `k` arguments are stored from `narg` on, and
the loop stops at the final byte. -/
theorem csiparseLoop_body (F : Nat) (hF1 : 0x40 ≤ F) (hF2 : F ≤ 0x7E) :
    ∀ (ps : List (List Nat)) (fuel : Nat) (arg : List Int) (narg : Nat),
      ps ≠ [] → ps.length ≤ fuel → narg + ps.length ≤ 16 → arg.length = 16 →
      (∀ p ∈ ps, (∀ d ∈ p, isdigit d = true) ∧ digitsValue p < 2147483648) →
      (csiparseLoop fuel (csiBody ps F) arg narg).1.headD 0 = F ∧
      (csiparseLoop fuel (csiBody ps F) arg narg).2.2 = narg + ps.length ∧
      (csiparseLoop fuel (csiBody ps F) arg narg).2.1.length = 16 ∧
      (∀ i, i < narg →
        (csiparseLoop fuel (csiBody ps F) arg narg).2.1.getD i 0 = arg.getD i 0) ∧
      (∀ i, i < ps.length →
        (csiparseLoop fuel (csiBody ps F) arg narg).2.1.getD (narg + i) 0 =
          digitsValue (ps.getD i [])) := by
  obtain ⟨f1, f2, f3, f4, f5, _⟩ := final_facts F hF1 hF2
  intro ps
  induction ps with
  | nil => intro _ _ _ h; exact absurd rfl h
  | cons p rest ih =>
    intro fuel arg narg _ hfuel hn harg hps
    obtain ⟨hd, hv⟩ := hps p (List.mem_cons_self _ _)
    cases fuel with
    | zero => simp at hfuel
    | succ fuel =>
      cases rest with
      | nil =>
        have e : csiBody [p] F = p ++ F :: [] := rfl
        rw [e, csiparseLoop_step fuel p [] F arg narg hd hv f1 f2 f3 f4,
          if_pos (Or.inl f5)]
        refine ⟨rfl, rfl, by simp [harg], ?_, ?_⟩
        · intro i hi
          show (arg.set narg (digitsValue p)).getD i 0 = _
          rw [List.getD_eq_getElem?_getD, List.getD_eq_getElem?_getD,
            List.getElem?_set_ne (by omega)]
        · intro i hi
          have hi0 : i = 0 := by simpa using hi
          subst hi0
          show (arg.set narg (digitsValue p)).getD (narg + 0) 0 = _
          rw [Nat.add_zero, List.getD_eq_getElem?_getD, List.getElem?_set_self (by
            simp only [List.length_cons, List.length_nil] at hn; omega)]
          rfl
      | cons q rest2 =>
        have e : csiBody (p :: q :: rest2) F = p ++ 59 :: csiBody (q :: rest2) F := rfl
        have hlen : (p :: q :: rest2).length = (q :: rest2).length + 1 := rfl
        rw [hlen] at hn hfuel
        rw [e, csiparseLoop_step fuel p _ 59 arg narg hd hv (by decide) (by decide) (by decide)
          (by decide), if_neg (by
            have : (q :: rest2).length = rest2.length + 1 := rfl
            have h16 : ESC_ARG_SIZ = 16 := rfl
            simp only [ne_eq, not_true_eq_false, false_or]
            omega)]
        obtain ⟨i1, i2, i3, i4, i5⟩ := ih fuel (arg.set narg (digitsValue p)) (narg + 1)
          (by simp) (by omega) (by omega) (by simp [harg])
          (fun x hx => hps x (List.mem_cons_of_mem _ hx))
        refine ⟨i1, by rw [i2, hlen]; omega, i3, ?_, ?_⟩
        · intro i hi
          rw [i4 i (by omega), List.getD_eq_getElem?_getD, List.getD_eq_getElem?_getD,
            List.getElem?_set_ne (by omega)]
        · intro i hi
          cases i with
          | zero =>
            have key := i4 narg (by omega)
            rw [List.getD_eq_getElem?_getD (arg.set narg (digitsValue p)),
              List.getElem?_set_self (by omega)] at key
            exact key
          | succ j =>
            have := i5 j (by rw [hlen] at hi; omega)
            rw [show narg + (j + 1) = narg + 1 + j by omega, this]
            rfl

/-- The loop of `csiparse` never stores more than `ESC_ARG_SIZ` arguments. -/
theorem csiparseLoop_narg (fuel : Nat) :
    ∀ (p : List Nat) (arg : List Int) (narg : Nat), narg < ESC_ARG_SIZ →
      (csiparseLoop fuel p arg narg).2.2 ≤ ESC_ARG_SIZ := by
  induction fuel with
  | zero => intro p arg narg h; exact Nat.le_of_lt h
  | succ fuel ih =>
    intro p arg narg h
    rw [csiparseLoop]
    simp only []
    by_cases h1 : p = []
    · rw [if_pos h1]
      exact Nat.le_of_lt h
    · rw [if_neg h1]
      by_cases h2 : (strtol p).2.headD 0 ≠ 59 ∨ narg + 1 = ESC_ARG_SIZ
      · rw [if_pos h2]
        exact h
      · rw [if_neg h2]
        apply ih
        have h3 : narg + 1 ≠ ESC_ARG_SIZ := fun e => h2 (Or.inr e)
        omega

theorem csiBody_length (F : Nat) : ∀ ps : List (List Nat), ps.length ≤ (csiBody ps F).length
  | [] => by simp
  | [p] => by simp [csiBody]
  | p :: q :: rest => by
    have := csiBody_length F (q :: rest)
    simp only [csiBody, List.length_cons, List.length_append] at this ⊢
    omega

theorem csiBody_head (F : Nat) (hF1 : 0x40 ≤ F) (ps : List (List Nat))
    (hps : ∀ p ∈ ps, ∀ d ∈ p, isdigit d = true) : (csiBody ps F).headD 0 ≠ 63 := by
  have hdig : ∀ d, isdigit d = true → d ≠ 63 := by
    intro d h
    unfold isdigit at h
    simp only [decide_eq_true_eq] at h
    omega
  match ps with
  | [] => simp [csiBody]; omega
  | [p] =>
    cases p with
    | nil => simp [csiBody]; omega
    | cons d l => simpa [csiBody] using hdig d (hps _ (List.mem_cons_self _ _) d (List.mem_cons_self _ _))
  | p :: q :: rest =>
    cases p with
    | nil => simp [csiBody]
    | cons d l => simpa [csiBody] using hdig d (hps _ (List.mem_cons_self _ _) d (List.mem_cons_self _ _))

theorem memmovePtrs_nat (a : List Nat) (slide n : Int) :
    memmovePtrs a slide n = (List.range n.toNat).foldl
      (fun (acc : List Nat) (j : Nat) => setIdx acc (j : Int) (idx a ((j : Int) + slide) 0)) a := by
  unfold memmovePtrs
  exact foldl_flatMap_single _ _ _ _

theorem idx_memmovePtrs_aux (a : List Nat) (slide : Int) (k : Nat) (x : Int) :
    ((List.range k).foldl
        (fun (acc : List Nat) (j : Nat) =>
          setIdx acc (j : Int) (idx a ((j : Int) + slide) 0)) a).length = a.length ∧
    idx ((List.range k).foldl
        (fun (acc : List Nat) (j : Nat) =>
          setIdx acc (j : Int) (idx a ((j : Int) + slide) 0)) a) x 0 =
      if 0 ≤ x ∧ x < (k : Int) ∧ x.toNat < a.length then idx a (x + slide) 0
      else idx a x 0 := by
  induction k with
  | zero =>
    refine ⟨rfl, ?_⟩
    rw [if_neg (by omega)]
    rfl
  | succ k ih =>
    simp only [List.range_succ, List.foldl_append, List.foldl_cons, List.foldl_nil]
    obtain ⟨h1, h2⟩ := ih
    refine ⟨by rw [length_setIdx, h1], ?_⟩
    by_cases hx : x = (k : Int)
    · subst hx
      by_cases hl : k < a.length
      · rw [idx_setIdx_eq _ _ _ _ (by omega) (by rw [h1]; simpa using hl),
          if_pos ⟨by omega, by push_cast; omega, by simpa using hl⟩]
      · rw [idx_of_ge _ _ _ (by rw [length_setIdx, h1]; simp; omega),
          if_neg (by simp; omega), idx_of_ge _ _ _ (by simp; omega)]
    · rw [idx_setIdx_ne _ _ _ _ _ hx, h2]
      by_cases hc : 0 ≤ x ∧ x < (k : Int) ∧ x.toNat < a.length
      · rw [if_pos hc, if_pos ⟨hc.1, by push_cast; omega, hc.2.2⟩]
      · rw [if_neg hc, if_neg (by push_cast; omega)]

/-- The row pointers after `memmove(a, a + slide, n * sizeof(Line))` and
`xrealloc(a, n * sizeof(Line))`: entry `i` is the former entry `i + slide`. -/
theorem idx_slide (a : List Nat) (slide n : Int) (i : Int) (hi0 : 0 ≤ i) (hi1 : i < n)
    (hn : n.toNat ≤ a.length) :
    idx (resizeTo (memmovePtrs a slide n) n 0) i 0 = idx a (i + slide) 0 ∧
    (resizeTo (memmovePtrs a slide n) n 0).length = n.toNat := by
  obtain ⟨h1, h2⟩ := idx_memmovePtrs_aux a slide n.toNat i
  rw [← memmovePtrs_nat] at h1 h2
  have hlen : (resizeTo (memmovePtrs a slide n) n 0).length = n.toNat := by
    unfold resizeTo
    rw [List.length_take, List.length_append, List.length_replicate]
    omega
  refine ⟨?_, hlen⟩
  rw [if_pos ⟨hi0, by omega, by omega⟩] at h2
  rw [← h2]
  unfold resizeTo idx
  rw [if_pos hi0, if_pos hi0, List.getD_eq_getElem?_getD, List.getD_eq_getElem?_getD,
    List.getElem?_take, if_pos (by omega), List.getElem?_append_left (by rw [h1]; omega)]

/-- A row reallocated to `n` cells reads as before in every column below
`n`: the cells gained are zero glyphs, as a read outside the row. -/
theorem idx_resizeTo_row (r : List Glyph) (n x : Int) (hx : x < n) :
    idx (resizeTo r n Glyph.zero) x Glyph.zero = idx r x Glyph.zero := by
  unfold resizeTo idx
  by_cases hx0 : 0 ≤ x
  · rw [if_pos hx0, if_pos hx0, List.getD_eq_getElem?_getD, List.getD_eq_getElem?_getD,
      List.getElem?_take, if_pos (by omega)]
    by_cases hl : x.toNat < r.length
    · rw [List.getElem?_append_left hl]
    · rw [List.getElem?_append_right (by omega), List.getElem?_eq_none (l := r) (by omega),
        List.getElem?_replicate]
      split_ifs <;> rfl
  · rw [if_neg hx0, if_neg hx0]

theorem cells_set_resize (heap : List (List Glyph)) (p : Nat) (col : Int) (q : Nat) (x : Int)
    (hx : x < col) :
    idx (rowAt (heap.set p (resizeTo (rowAt heap p) col Glyph.zero)) q) x Glyph.zero =
      idx (rowAt heap q) x Glyph.zero := by
  by_cases hq : q = p
  · subst hq
    by_cases hp : q < heap.length
    · rw [rowAt_set_eq _ _ _ hp, idx_resizeTo_row _ _ _ hx]
    · rw [List.set_eq_of_length_le (by omega)]
  · rw [rowAt_set_ne _ _ _ _ hq]

/-- The loop of `tresize` over the rows kept: the row pointers, the cursor
and the size are not touched, and every row of the heap reads as before in
the columns below the new width. -/
theorem tresizeKeep_spec (col : Int) (lo hi : Int) (s1 : State) :
    (forRange lo hi (fun i s => tresizeKeep col s i) s1).term.line = s1.term.line ∧
    (forRange lo hi (fun i s => tresizeKeep col s i) s1).term.alt = s1.term.alt ∧
    (forRange lo hi (fun i s => tresizeKeep col s i) s1).term.c = s1.term.c ∧
    (forRange lo hi (fun i s => tresizeKeep col s i) s1).term.col = s1.term.col ∧
    (forRange lo hi (fun i s => tresizeKeep col s i) s1).term.row = s1.term.row ∧
    (∀ q x, x < col →
      idx (rowAt (forRange lo hi (fun i s => tresizeKeep col s i) s1).heap q) x Glyph.zero =
        idx (rowAt s1.heap q) x Glyph.zero) := by
  exact forRange_induct
    (fun (w : State) => w.term.line = s1.term.line ∧ w.term.alt = s1.term.alt ∧
      w.term.c = s1.term.c ∧ w.term.col = s1.term.col ∧ w.term.row = s1.term.row ∧
      ∀ q x, x < col → idx (rowAt w.heap q) x Glyph.zero = idx (rowAt s1.heap q) x Glyph.zero)
    lo hi (fun i s => tresizeKeep col s i)
    (by
      intro i w ⟨q1, q2, q3, q4, q5, q6⟩
      refine ⟨q1, q2, q3, q4, q5, ?_⟩
      intro q x hx
      show idx (rowAt (tresizeKeep col w i).heap q) x Glyph.zero = _
      unfold tresizeKeep State.setRow State.setDirty
      simp only []
      rw [cells_set_resize _ _ _ _ _ hx, cells_set_resize _ _ _ _ _ hx,
        cells_set_resize _ _ _ _ _ hx]
      exact q6 q x hx)
    s1 ⟨rfl, rfl, rfl, rfl, rfl, fun _ _ _ => rfl⟩

theorem tresizeTabs_more (s : State) (col : Int) :
    (tresizeTabs s col).term.alt = s.term.alt ∧ (tresizeTabs s col).term.c = s.term.c := by
  unfold tresizeTabs
  split_ifs
  · exact ⟨rfl, rfl⟩
  · exact ⟨rfl, rfl⟩

/-- What `tclearregion` keeps besides the grid: the cursor and the scroll
region. -/
theorem cleared_cursor {s t : State} {xa xb ya yb : Int} (hc : Cleared s t xa xb ya yb) :
    t.term.c = s.term.c ∧ t.term.top = s.term.top ∧ t.term.bot = s.term.bot :=
  ⟨show (t.withGridOf s).term.c = (s.withGridOf s).term.c by rw [hc.1 s],
    show (t.withGridOf s).term.top = (s.withGridOf s).term.top by rw [hc.1 s],
    show (t.withGridOf s).term.bot = (s.withGridOf s).term.bot by rw [hc.1 s]⟩

/-- One round of the loop that ends `tresize`, when `minrow` is the new
height: the columns from `mincol` on are cleared on the current screen and the
screens are swapped; every row of the heap keeps its cells below `mincol`. -/
theorem tresizeClear_spec (s : State) (col row mincol : Int) (hcol : s.term.col = col)
    (hrow : s.term.row = row) (hc : 1 ≤ col) (hr : 1 ≤ row) (hm0 : 0 ≤ mincol) :
    (tresizeClear col row mincol row s).term.line = s.term.alt ∧
    (tresizeClear col row mincol row s).term.alt = s.term.line ∧
    (tresizeClear col row mincol row s).term.c = s.term.c ∧
    (tresizeClear col row mincol row s).term.col = col ∧
    (tresizeClear col row mincol row s).term.row = row ∧
    (tresizeClear col row mincol row s).term.top = s.term.top ∧
    (tresizeClear col row mincol row s).term.bot = s.term.bot ∧
    (∀ q x, x < mincol →
      idx (rowAt (tresizeClear col row mincol row s).heap q) x Glyph.zero =
        idx (rowAt s.heap q) x Glyph.zero) := by
  have e : tresizeClear col row mincol row s =
      tswapscreen (if mincol < col ∧ 0 < row then
        tclearregion s mincol 0 (col - 1) (row - 1) else s) := by
    unfold tresizeClear
    simp only [lt_self_iff_false, and_false, if_false]
  rw [e]
  have key : ∀ u : State, u.term.line = s.term.line → u.term.alt = s.term.alt →
      u.term.c = s.term.c → u.term.col = col → u.term.row = row →
      u.term.top = s.term.top → u.term.bot = s.term.bot →
      (∀ q x, x < mincol → idx (rowAt u.heap q) x Glyph.zero = idx (rowAt s.heap q) x Glyph.zero) →
      (tswapscreen u).term.line = s.term.alt ∧ (tswapscreen u).term.alt = s.term.line ∧
      (tswapscreen u).term.c = s.term.c ∧ (tswapscreen u).term.col = col ∧
      (tswapscreen u).term.row = row ∧ (tswapscreen u).term.top = s.term.top ∧
      (tswapscreen u).term.bot = s.term.bot ∧
      (∀ q x, x < mincol →
        idx (rowAt (tswapscreen u).heap q) x Glyph.zero = idx (rowAt s.heap q) x Glyph.zero) := by
    intro u u1 u2 u3 u4 u5 u6 u7 u8
    obtain ⟨b1, b2, _, b4, _, _, b7, b8, b9, b10, b11, _⟩ := tswapscreen_spec u
    exact ⟨by rw [b1, u2], by rw [b2, u1], by rw [b7, u3], by rw [b8, u4], by rw [b9, u5],
      by rw [b10, u6], by rw [b11, u7], fun q x hx => by rw [b4]; exact u8 q x hx⟩
  by_cases hcond : mincol < col ∧ 0 < row
  · rw [if_pos hcond]
    have c1 := tclearregion_cleared s mincol 0 (col - 1) (row - 1) (by rw [hcol]; exact hc)
      (by rw [hrow]; exact hr)
    obtain ⟨a1, a2, a3, a4, _⟩ := cleared_fields c1
    obtain ⟨a5, a6, a7⟩ := cleared_cursor c1
    have hxa : clamp (min mincol (col - 1)) 0 (s.term.col - 1) = mincol := by
      rw [hcol]
      unfold clamp
      omega
    refine key _ a1 a2 a5 (by rw [a3, hcol]) (by rw [a4, hrow]) a6 a7 ?_
    intro q x hx
    exact c1.2.2.2.2.1 q x (by rw [hxa]; omega)
  · rw [if_neg hcond]
    exact key s rfl rfl rfl hcol hrow rfl rfl (fun _ _ _ => rfl)

/-- The first part of `tresize` when the cursor would fall off the bottom:
the row pointers of both screens are slid up by `slide = c.y - row + 1`, and
every row of the heap reads as before in the columns below the new width. -/
theorem tresizeRows_slide (s : State) (col row : Int) (hr1 : 1 ≤ row)
    (hr2 : row ≤ s.term.c.y) (hcy : s.term.c.y < s.term.row)
    (hrow : s.term.row < 2147483648)
    (hl : s.term.line.length = s.term.row.toNat) (ha : s.term.alt.length = s.term.row.toNat) :
    (∀ i, 0 ≤ i → i < row →
      idx (tresizeRows s col row).term.line i 0 =
        idx s.term.line (i + (s.term.c.y - row + 1)) 0 ∧
      idx (tresizeRows s col row).term.alt i 0 =
        idx s.term.alt (i + (s.term.c.y - row + 1)) 0) ∧
    (tresizeRows s col row).term.c = s.term.c ∧
    (tresizeRows s col row).term.col = s.term.col ∧
    (∀ q x, x < col →
      idx (rowAt (tresizeRows s col row).heap q) x Glyph.zero =
        idx (rowAt s.heap q) x Glyph.zero) := by
  have hmin : MIN row s.term.row = row := by unfold MIN; rw [if_pos (by omega)]
  have hslide : wrapInt (wrapInt (s.term.c.y - row) + 1) = s.term.c.y - row + 1 := by
    rw [wrapInt_of_range (s.term.c.y - row) (by omega) (by omega),
      wrapInt_of_range _ (by omega) (by omega)]
  generalize hs1 : ({ s with term := { s.term with
      line := resizeTo (memmovePtrs s.term.line (s.term.c.y - row + 1) row) row 0,
      alt := resizeTo (memmovePtrs s.term.alt (s.term.c.y - row + 1) row) row 0,
      dirty := resizeTo s.term.dirty row false,
      tabs := resizeTo s.term.tabs col false,
      last_line := resizeTo (memmovePtrs s.term.last_line (s.term.c.y - row + 1) row) row 0 } }
      : State) = s1
  have e : tresizeRows s col row = forRange 0 (row - 1) (fun i s => tresizeKeep col s i) s1 := by
    unfold tresizeRows
    simp only [hmin, hslide]
    rw [if_pos (by omega), forRange_empty row (row - 1) _ _ (by omega), ← hs1]
  obtain ⟨k1, k2, k3, k4, _, k6⟩ := tresizeKeep_spec col 0 (row - 1) s1
  rw [← e] at k1 k2 k3 k4 k6
  have f1 : s1.term.line = resizeTo (memmovePtrs s.term.line (s.term.c.y - row + 1) row) row 0 := by
    rw [← hs1]
  have f2 : s1.term.alt = resizeTo (memmovePtrs s.term.alt (s.term.c.y - row + 1) row) row 0 := by
    rw [← hs1]
  have f3 : s1.term.c = s.term.c := by rw [← hs1]
  have f4 : s1.term.col = s.term.col := by rw [← hs1]
  have f5 : s1.heap = s.heap := by rw [← hs1]
  refine ⟨?_, by rw [k3, f3], by rw [k4, f4], ?_⟩
  · intro i hi0 hi1
    rw [k1, k2, f1, f2]
    exact ⟨(idx_slide _ _ _ i hi0 hi1 (by rw [hl]; omega)).1,
      (idx_slide _ _ _ i hi0 hi1 (by rw [ha]; omega)).1⟩
  · intro q x hx
    rw [k6 q x hx, f5]

theorem termBefore_split (target : Nat) (post : List Nat) :
    ∀ (pre : List Nat) (a : Nat), a ≠ target → target ∉ pre →
      termBefore (a :: pre ++ target :: post) target = some ((a :: pre).getLast (by simp)) ∧
      termUnlink (a :: pre ++ target :: post) target = a :: pre ++ post := by
  intro pre
  induction pre with
  | nil =>
    intro a _ _
    simp [termBefore, termUnlink]
  | cons b l ih =>
    intro a ha hn
    have hb : b ≠ target := fun h => hn (h ▸ List.mem_cons_self _ _)
    have hl : target ∉ l := fun h => hn (List.mem_cons_of_mem _ h)
    obtain ⟨i1, i2⟩ := ih b hb hl
    constructor
    · show termBefore (a :: b :: (l ++ target :: post)) target = _
      rw [termBefore, if_neg hb]
      rw [List.getLast_cons (by simp)]
      exact i1
    · show termUnlink (a :: b :: (l ++ target :: post)) target = _
      rw [termUnlink, if_neg hb]
      show a :: termUnlink (b :: l ++ target :: post) target = _
      rw [i2]
      rfl

/-- The loop that looks for the last cell to copy stops at the last cell of
the row that is selected and not blank, or at -1. -/
theorem selcopyLast_spec (s : State) (y : Int) (n : Nat) :
    -1 ≤ selcopyLast s y n ∧ selcopyLast s y n < (n : Int) ∧
    (selcopyLast s y n ≠ -1 → 0 ≤ selcopyLast s y n ∧
      selected s.sel (selcopyLast s y n) y ∧ notBlank (s.cell (selcopyLast s y n) y) = true) ∧
    ∀ x : Int, selcopyLast s y n < x → x < (n : Int) →
      ¬ (selected s.sel x y ∧ notBlank (s.cell x y) = true) := by
  induction n with
  | zero =>
    refine ⟨by simp [selcopyLast], by simp [selcopyLast], fun h => absurd rfl h, ?_⟩
    intro x h1 h2
    simp only [selcopyLast] at h1
    omega
  | succ n ih =>
    unfold selcopyLast
    by_cases hc : selected s.sel (n : Int) y ∧ notBlank (s.cell (n : Int) y) = true
    · rw [if_pos hc]
      refine ⟨by omega, by push_cast; omega, fun _ => ⟨by omega, hc.1, hc.2⟩, ?_⟩
      intro x h1 h2
      push_cast at h2
      omega
    · rw [if_neg hc]
      obtain ⟨i1, i2, i3, i4⟩ := ih
      refine ⟨i1, by push_cast; omega, i3, ?_⟩
      intro x h1 h2
      push_cast at h2
      by_cases hx : x = (n : Int)
      · rw [hx]; exact hc
      · exact i4 x h1 (by omega)

/-! ## The view, selections, attributes and tabs -/

/-- C21, where it holds. View round trip: for every well-formed terminal
state with `ybase = 0` whose snapshot rows `last_line` are buffers of their own
(`SnapshotOk`) and all `k ≥ 0` and `m ≥ k` of type `int`, `tscrollback(-k)`
followed by `tscrollback(m)` ends with `ybase = 0`, with every visible row
holding the cells that the live grid had before the first call, and with the
scrollback unchanged (entries, total, and the cells of its lines). This is the
state of a terminal that has not left a scrolled view before. -/
theorem tscrollback_roundtrip (s : State) (k m : Int) (hg : GridOk s)
    (hsb : SbOk s.term.sb) (hv : SnapshotOk s) (hy : s.term.ybase = 0)
    (hk : 0 ≤ k) (hkm : k ≤ m) (hm : m < 2147483648) :
    (tscrollback (tscrollback s (-k)) m).term.ybase = 0 ∧
    (∀ i, 0 ≤ i → i < s.term.row →
      (tscrollback (tscrollback s (-k)) m).lineAt i = s.lineAt i) ∧
    (tscrollback (tscrollback s (-k)) m).term.sb = s.term.sb ∧
    (tscrollback (tscrollback s (-k)) m).sbLines = s.sbLines := by
  have ht : 0 ≤ s.term.sb.total := by rw [← hsb.1]; exact Int.natCast_nonneg _
  have htot : s.term.sb.total ≤ 10000 := hsb.2
  obtain ⟨a1, a2, a3, a4, a5, a6, a7, a8, a9, a10⟩ :=
    tscrollback_leave s (-k) hg hsb hv hy (by omega) (by omega)
  have hc0 : clamp (-k) (-s.term.sb.total) 0 ≤ 0 := by unfold clamp; omega
  have hc1 : -s.term.sb.total ≤ clamp (-k) (-s.term.sb.total) 0 := by unfold clamp; omega
  have hc2 : -k ≤ clamp (-k) (-s.term.sb.total) 0 := by unfold clamp; omega
  generalize clamp (-k) (-s.term.sb.total) 0 = y at a1 a10 hc0 hc1 hc2
  generalize tscrollback s (-k) = t at a1 a2 a3 a4 a5 a6 a7 a8 a9 a10
  have hbase : tscrollbackBase t m = 0 := by
    unfold tscrollbackBase
    rw [a1, a2, wrapInt_of_range (y + m) (by omega) (by omega)]
    simp only [gt_iff_lt]
    split_ifs <;> omega
  generalize ht1 : ({ t with term := { t.term with ybase := 0 } } : State) = t1
  have f1 : t1.heap = t.heap := by rw [← ht1]
  have f2 : t1.term.line = t.term.line := by rw [← ht1]
  have f3 : t1.term.last_line = t.term.last_line := by rw [← ht1]
  have f4 : t1.term.sb = t.term.sb := by rw [← ht1]
  have f5 : t1.term.row = t.term.row := by rw [← ht1]
  have f6 : t1.term.ybase = 0 := by rw [← ht1]
  have f7 : t1.term.col = t.term.col := by rw [← ht1]
  have f8 : t1.term.dirty = t.term.dirty := by rw [← ht1]
  have hlen1 : t1.term.line.length = t1.term.row.toNat := by
    rw [f2, f5, a6, a5]; exact hg.2.2.1
  have hd1 : t1.term.dirty.length = t1.term.row.toNat := by
    rw [f8, f5, a7, a5]; exact hg.2.2.2.1
  have hrow1 : 1 ≤ t1.term.row := by rw [f5, a5]; exact hg.2.1
  -- the state after the second call: the heap of `t`, the snapshot pointers
  -- as row pointers
  have key : (tscrollback t m).heap = t.heap ∧ (tscrollback t m).term.ybase = 0 ∧
      (tscrollback t m).term.sb = t.term.sb ∧
      ∀ i, 0 ≤ i → i < s.term.row →
        idx (tscrollback t m).term.line i 0 = idx s.term.last_line i 0 := by
    by_cases hy0 : y = 0
    · -- the view base did not move: the snapshot copies each row onto itself
      have e : tscrollback t m =
          forRange 0 ((forRange 0 (t1.term.row - 1)
              (fun i s => tscrollbackSnapshot s i) t1).term.row - 1)
            (fun i s => tscrollbackMap s i)
            (forRange 0 (t1.term.row - 1) (fun i s => tscrollbackSnapshot s i) t1) := by
        unfold tscrollback
        simp only [a1, hy0, ne_eq, not_true_eq_false, false_and, if_false, if_true, hbase, ht1]
        rw [f5]
      have hal : ∀ i, 0 ≤ i → i < t1.term.row →
          idx t1.term.line i 0 = idx t1.term.last_line i 0 := by
        intro i hi0 hi1
        rw [f5, a5] at hi1
        rw [f2, f3, a3, a10 i hi0 hi1, hy0, add_zero, if_neg (by omega)]
      have hl : ∀ i, 0 ≤ i → i < t1.term.row →
          (rowAt t1.heap (idx t1.term.last_line i 0)).length = t1.term.col.toNat := by
        intro i hi0 hi1
        rw [f5, a5] at hi1
        rw [f1, f3, a3, a9 i hi0 hi1, f7, a4]
        exact gridOk_lineAt_len hg hi0 hi1
      rw [snapshot_alias t1 hal hl] at e
      have hcols : ∀ e ∈ t1.term.sb.entries, e.col = t1.term.col := by
        rw [f4, a2, f7, a4]; exact hv.2.2.2
      obtain ⟨b1, b2, b3⟩ := viewMap_spec t1 hlen1 hd1 hrow1 hcols (by rw [f6]; omega)
      obtain ⟨c1, _, _, _, _, _⟩ := viewMap_frame t1 hcols (by rw [f6]; omega)
      rw [← e] at b1 b2 b3 c1
      refine ⟨by rw [b1, f1], by rw [b2, f6], by rw [c1, f4], ?_⟩
      intro i hi0 hi1
      rw [(b3 i hi0 (by rw [f5, a5]; exact hi1)).1]
      unfold viewRow
      rw [f6, add_zero, if_neg (by omega), f3, a3]
    · -- the view is left: the row pointers are restored
      have e : tscrollback t m =
          forRange 0 (t1.term.row - 1) (fun i s => tscrollbackRestore s i) t1 := by
        unfold tscrollback
        simp only [a1, hy0, ne_eq, not_false_eq_true, true_and, if_true, hbase, ht1]
        rw [f5]
      obtain ⟨b1, b2, b3, _, b5⟩ := restore_spec t1 hlen1 hd1 hrow1
      rw [← e] at b1 b2 b3 b5
      refine ⟨by rw [b1, f1], by rw [b2, f6], by rw [b3, f4], ?_⟩
      intro i hi0 hi1
      rw [(b5 i hi0 (by rw [f5, a5]; exact hi1)).1, f3, a3]
  obtain ⟨k1, k2, k3, k4⟩ := key
  refine ⟨k2, ?_, by rw [k3, a2], ?_⟩
  · intro i hi0 hi1
    unfold State.lineAt
    rw [k4 i hi0 hi1, k1, a9 i hi0 hi1]
    rfl
  · unfold State.sbLines
    rw [k3, a2, k1]
    apply List.map_congr_left
    intro e he
    exact a8 _ (fun hm => (hv.2.2.1 _ hm).2.2 e he rfl)

/-- Witness of C21 where it holds: with the scrollback head `AAA` and the
live rows `BBB` and `CCC`, `tscrollback(-1)` then `tscrollback(2)` ends at view
base 0 with row 1 and the scrollback as before. -/
theorem tscrollback_roundtrip_witness :
    GridOk evictedExample ∧ SbOk evictedExample.term.sb ∧ SnapshotOk evictedExample ∧
    evictedExample.term.ybase = 0 ∧
    (tscrollback (tscrollback evictedExample (-1)) 2).term.ybase = 0 ∧
    (tscrollback (tscrollback evictedExample (-1)) 2).lineAt 1 = evictedExample.lineAt 1 ∧
    (tscrollback (tscrollback evictedExample (-1)) 2).sbLines = evictedExample.sbLines :=
  have h := tscrollback_roundtrip evictedExample 1 2 (by decide) (by decide) (by decide)
    (by decide) (by decide) (by decide) (by decide)
  ⟨by decide, by decide, by decide, by decide, h.1, h.2.1 1 (by decide) (by decide), h.2.2.2⟩

/-- C21, counterexample. The state `aliasExample` is reached from `tnew`
by `tputc` and `tscrollback` calls and has `ybase = 0` and the live rows `D`,
`E`, `F`. After `tscrollback(-1)` and `tscrollback(1)` the view base is 0 again
and the scrollback is unchanged, but all three rows hold `D`: the rows `E` and
`F` of the live grid are lost, because the snapshot rows of this state are the
rows of the screen. -/
theorem tscrollback_roundtrip_loses_rows :
    Reachable aliasExample ∧ aliasExample.term.ybase = 0 ∧
    aliasExample.rowText 0 = [68, 32, 32] ∧ aliasExample.rowText 1 = [69, 32, 32] ∧
    aliasExample.rowText 2 = [70, 32, 32] ∧
    (tscrollback (tscrollback aliasExample (-1)) 1).term.ybase = 0 ∧
    (tscrollback (tscrollback aliasExample (-1)) 1).rowText 0 = [68, 32, 32] ∧
    (tscrollback (tscrollback aliasExample (-1)) 1).rowText 1 = [68, 32, 32] ∧
    (tscrollback (tscrollback aliasExample (-1)) 1).rowText 2 = [68, 32, 32] ∧
    (tscrollback (tscrollback aliasExample (-1)) 1).lineAt 1 ≠ aliasExample.lineAt 1 ∧
    (tscrollback (tscrollback aliasExample (-1)) 1).sbLines = aliasExample.sbLines :=
  ⟨reachable_tputs _ _ (Reachable.step _ _ (Reachable.step _ _
      (reachable_example 3 3 (by decide) (by decide) _) (Step.scrollback _ (-1)))
      (Step.scrollback _ 1)),
    by decide, by decide, by decide, by decide, by decide, by decide, by decide, by decide,
    by decide, by decide⟩

/-- C22, amended. Snap to the live edge on input: for every terminal state
with `ybase < 0` (with `-ybase` of type `int` and a scrollback total that is not
negative), `ttyread` with the received bytes `input`, empty or not, returns at
once while `select_mode` is set: the state is as it was. While `select_mode` is
clear, it first calls `tscrollback(-ybase)`, which sets `ybase` to 0, then feeds
every complete character of the buffered and received bytes to `tputc` starting
from that state, keeps the incomplete rest in the buffer, and ends with
`ybase = 0`. -/
theorem ttyread_snaps (s : State) (input : List Nat) (hy : s.term.ybase < 0)
    (hy2 : -2147483648 < s.term.ybase) (ht : 0 ≤ s.term.sb.total) :
    (s.select_mode = true → ttyread s input = s) ∧
    (s.select_mode = false →
      (tscrollback s (-s.term.ybase)).term.ybase = 0 ∧
      ttyread s input =
        { (List.foldl ttyreadFeed (tscrollback s (-s.term.ybase), [0, 0, 0, 0])
            (ttyreadDecode ((tscrollback s (-s.term.ybase)).rdbuf ++ input)).1).1 with
          rdbuf := (ttyreadDecode ((tscrollback s (-s.term.ybase)).rdbuf ++ input)).2 } ∧
      (ttyread s input).term.ybase = 0) := by
  refine ⟨?_, ?_⟩
  · intro hsel
    unfold ttyread
    rw [if_pos hsel]
  · intro hsel
    have h0 := tscrollback_snap s hy hy2 ht
    have e : ttyread s input =
        { (List.foldl ttyreadFeed (tscrollback s (-s.term.ybase), [0, 0, 0, 0])
            (ttyreadDecode ((tscrollback s (-s.term.ybase)).rdbuf ++ input)).1).1 with
          rdbuf := (ttyreadDecode ((tscrollback s (-s.term.ybase)).rdbuf ++ input)).2 } := by
      unfold ttyread
      rw [if_neg (by rw [hsel]; decide)]
      simp only [hy, if_true]
    refine ⟨h0, e, ?_⟩
    rw [e]
    show (List.foldl ttyreadFeed (tscrollback s (-s.term.ybase), [0, 0, 0, 0])
      (ttyreadDecode ((tscrollback s (-s.term.ybase)).rdbuf ++ input)).1).1.term.ybase = 0
    rw [ttyreadFeed_ybase]
    exact h0

/-- Witness of the amended C22 at the state `scrolledExample` (view base
-2, select mode off) and the byte `Z`. -/
theorem ttyread_snaps_witness :
    scrolledExample.term.ybase = -2 ∧ scrolledExample.select_mode = false ∧
    (tscrollback scrolledExample (-scrolledExample.term.ybase)).term.ybase = 0 ∧
    (ttyread scrolledExample [90]).term.ybase = 0 :=
  have h := ttyread_snaps scrolledExample [90] (by decide) (by decide) (by decide)
  ⟨by decide, by decide, (h.2 (by decide)).1, (h.2 (by decide)).2.2⟩

/-- C22, counterexample. In the state `selectingExample`, with view base
-2 and `select_mode` set, `ttyread` with the byte `Z` returns the state as it
was: the view base stays -2 and the byte is dropped. -/
theorem ttyread_ignored_while_selecting :
    selectingExample.term.ybase = -2 ∧ selectingExample.select_mode = true ∧
    ttyread selectingExample [90] = selectingExample ∧
    (ttyread selectingExample [90]).term.ybase = -2 := by
  decide

/-- C23, amended. Selection versus scrolling: for every active selection
(`sel.bx ≠ -1`) and `selscroll(orig, n)` with `sel.by + n` and `sel.ey + n` of
type `int`, nothing but the selection changes, and a selection with neither
`sel.by` nor `sel.ey` in `[orig, bot]` is unchanged. Otherwise: if
`sel.by + n > bot` the selection is dropped (`sel.bx = -1`) with `sel.by`
shifted and `sel.ey` as it was; else if `sel.ey + n < top` it is dropped with
both rows shifted; else it is kept and clamped to the scroll region, `sel.by`
becoming `max (sel.by + n) top` and `sel.ey` becoming `min (sel.ey + n) bot`,
with `sel.bx = 0` if a selection that is not rectangular was cut at the top and
`sel.ex = col` if it was cut at the bottom, and `sel.b`, `sel.e` are set to the
new `(sel.bx, sel.by)` and `(sel.ex, sel.ey)`. -/
theorem selscroll_shifts_and_clamps (s : State) (orig n : Int) (hb : s.sel.bx ≠ -1)
    (hby1 : -2147483648 ≤ s.sel.by_ + n) (hby2 : s.sel.by_ + n < 2147483648)
    (hey1 : -2147483648 ≤ s.sel.ey + n) (hey2 : s.sel.ey + n < 2147483648) :
    { selscroll s orig n with sel := s.sel } = s ∧
    (¬ (BETWEEN s.sel.by_ orig s.term.bot ∨ BETWEEN s.sel.ey orig s.term.bot) →
      (selscroll s orig n).sel = s.sel) ∧
    ((BETWEEN s.sel.by_ orig s.term.bot ∨ BETWEEN s.sel.ey orig s.term.bot) →
      (s.term.bot < s.sel.by_ + n →
        (selscroll s orig n).sel = { s.sel with by_ := s.sel.by_ + n, bx := -1 }) ∧
      (s.sel.by_ + n ≤ s.term.bot → s.sel.ey + n < s.term.top →
        (selscroll s orig n).sel =
          { s.sel with by_ := s.sel.by_ + n, ey := s.sel.ey + n, bx := -1 }) ∧
      (s.sel.by_ + n ≤ s.term.bot → s.term.top ≤ s.sel.ey + n →
        (selscroll s orig n).sel.by_ = max (s.sel.by_ + n) s.term.top ∧
        (selscroll s orig n).sel.ey = min (s.sel.ey + n) s.term.bot ∧
        (selscroll s orig n).sel.bx =
          (if s.sel.type ≠ SEL_RECTANGULAR ∧ s.sel.by_ + n < s.term.top then 0
            else s.sel.bx) ∧
        (selscroll s orig n).sel.ex =
          (if s.sel.type ≠ SEL_RECTANGULAR ∧ s.term.bot < s.sel.ey + n then s.term.col
            else s.sel.ex) ∧
        (selscroll s orig n).sel.bx ≠ -1 ∧
        (selscroll s orig n).sel.b =
          ⟨(selscroll s orig n).sel.bx, (selscroll s orig n).sel.by_⟩ ∧
        (selscroll s orig n).sel.e =
          ⟨(selscroll s orig n).sel.ex, (selscroll s orig n).sel.ey⟩)) := by
  have w1 := wrapInt_of_range _ hby1 hby2
  have w2 := wrapInt_of_range _ hey1 hey2
  refine ⟨?_, ?_, ?_⟩
  · unfold selscroll
    simp only []
    split_ifs <;> rfl
  · intro hn
    unfold selscroll
    rw [if_neg hb, if_neg hn]
  · intro hin
    refine ⟨?_, ?_, ?_⟩
    · intro h1
      unfold selscroll
      rw [if_neg hb, if_pos hin]
      simp only [w1, gt_iff_lt, h1, if_true]
    · intro h1 h2
      unfold selscroll
      rw [if_neg hb, if_pos hin]
      simp only [w1, w2, gt_iff_lt, not_lt.mpr h1, h2, if_true, if_false]
    · intro h1 h2
      unfold selscroll
      rw [if_neg hb, if_pos hin]
      simp only [w1, w2, gt_iff_lt, not_lt.mpr h1, not_lt.mpr h2, if_false]
      by_cases ht : s.sel.type = SEL_RECTANGULAR <;>
        by_cases c1 : s.sel.by_ + n < s.term.top <;>
        by_cases c2 : s.term.bot < s.sel.ey + n <;>
        simp only [ht, c1, c2, if_true, if_false, ne_eq, not_true_eq_false, not_false_eq_true,
          false_and, true_and, and_true, and_self, max_def, min_def] <;>
        (try simp only [hb, not_false_eq_true, and_true, true_and]) <;>
        (try constructor) <;> (try split_ifs) <;> (try omega) <;>
        (try exact ⟨rfl, not_false⟩)

/-- Witness of the amended C23 at `selectedExample`, the selection from
(1, 0) to (2, 1) on a 3 x 3 grid, and `selscroll(0, -1)`. -/
theorem selscroll_shifts_and_clamps_witness :
    selectedExample.sel.bx ≠ -1 ∧
    (BETWEEN selectedExample.sel.by_ 0 selectedExample.term.bot ∨
      BETWEEN selectedExample.sel.ey 0 selectedExample.term.bot) ∧
    (selscroll selectedExample 0 (-1)).sel.by_ =
      max (selectedExample.sel.by_ + -1) selectedExample.term.top ∧
    (selscroll selectedExample 0 (-1)).sel.ey =
      min (selectedExample.sel.ey + -1) selectedExample.term.bot ∧
    (selscroll selectedExample 0 (-1)).sel.bx ≠ -1 :=
  have h := selscroll_shifts_and_clamps selectedExample 0 (-1) (by decide) (by decide)
    (by decide) (by decide) (by decide)
  have h3 := (h.2.2 (by decide)).2.2 (by decide) (by decide)
  ⟨by decide, by decide, h3.1, h3.2.1, h3.2.2.2.2.1⟩

/-- C23, counterexample. On the 3 x 3 terminal with the scroll region
[0, 2] and the selection from (1, 0) to (2, 1), `selscroll(0, -1)` shifts the
begin row to -1, outside the region, yet the selection is kept, clamped to the
row 0 from column 0. For the selection made upwards from (1, 2) to (2, 1),
`selscroll(0, 1)` drops the selection after shifting `sel.by` only: `sel.ey` is
still 1. -/
theorem selscroll_keeps_clamped_selection :
    selectedExample.sel.bx = 1 ∧ selectedExample.sel.by_ = 0 ∧ selectedExample.sel.ey = 1 ∧
    selectedExample.term.top = 0 ∧ selectedExample.term.bot = 2 ∧
    (selscroll selectedExample 0 (-1)).sel.bx = 0 ∧
    (selscroll selectedExample 0 (-1)).sel.by_ = 0 ∧
    (selscroll selectedExample 0 (-1)).sel.ey = 0 ∧
    selectedUpExample.sel.bx = 1 ∧ selectedUpExample.sel.by_ = 2 ∧
    selectedUpExample.sel.ey = 1 ∧
    (selscroll selectedUpExample 0 1).sel.bx = -1 ∧
    (selscroll selectedUpExample 0 1).sel.by_ = 3 ∧
    (selscroll selectedUpExample 0 1).sel.ey = 1 := by
  decide

/-- C24, amended. Normalized selection: after every `getbuttoninfo` call
with snap mode none, from any begin point and any pointer position, nothing but
the selection has changed, `sel.by` is as before and `sel.ey` is the row of the
pointer, `sel.b.y = MIN(sel.by, sel.ey)` and `sel.e.y = MAX(sel.by, sel.ey)`, so
`sel.b.y ≤ sel.e.y`. If `sel.by < sel.ey` then `sel.b.x = sel.bx` and
`sel.e.x = sel.ex`; otherwise, also when both are on one row, `sel.b.x = sel.ex`
and `sel.e.x = sel.bx`. Hence `b ≤ e` in reading order holds exactly when the two
rows differ or `sel.ex ≤ sel.bx`. -/
theorem getbuttoninfo_normalized (cf : MouseConfig) (s : State) (e : XButtonEvent)
    (hsnap : s.sel.snap = 0) :
    ∃ t, getbuttoninfo cf s e = some t ∧
      { t with sel := s.sel } = s ∧
      t.sel.by_ = s.sel.by_ ∧ t.sel.ey = y2row cf s.term e.y ∧
      t.sel.b.y = MIN t.sel.by_ t.sel.ey ∧ t.sel.e.y = MAX t.sel.by_ t.sel.ey ∧
      t.sel.b.y ≤ t.sel.e.y ∧
      (t.sel.by_ < t.sel.ey → t.sel.b.x = t.sel.bx ∧ t.sel.e.x = t.sel.ex) ∧
      (t.sel.ey ≤ t.sel.by_ → t.sel.b.x = t.sel.ex ∧ t.sel.e.x = t.sel.bx) ∧
      ((t.sel.b.y < t.sel.e.y ∨ (t.sel.b.y = t.sel.e.y ∧ t.sel.b.x ≤ t.sel.e.x)) ↔
        (t.sel.by_ ≠ t.sel.ey ∨ t.sel.ex ≤ t.sel.bx)) := by
  have h1 : ∀ x y d, ∃ x1, selsnap cf s 0 x y d = some (x1, y) := by
    intro x y d
    unfold selsnap
    rw [if_neg (by decide), if_neg (by decide)]
    split_ifs
    · exact ⟨_, rfl⟩
    · exact ⟨_, rfl⟩
  unfold getbuttoninfo
  simp only [hsnap]
  split_ifs with hc
  · obtain ⟨x1, e1⟩ := h1 s.sel.bx s.sel.by_ (-1)
    obtain ⟨x2, e2⟩ := h1 (x2col cf s.term e.x) (y2row cf s.term e.y) 1
    rw [e1, e2]
    refine ⟨_, rfl, rfl, rfl, rfl, rfl, rfl, ?_, ?_, ?_, ?_⟩
    all_goals simp only [MIN, MAX]
    all_goals split_ifs <;> (try omega)
  · obtain ⟨x1, e1⟩ := h1 s.sel.bx s.sel.by_ 1
    obtain ⟨x2, e2⟩ := h1 (x2col cf s.term e.x) (y2row cf s.term e.y) (-1)
    rw [e1, e2]
    refine ⟨_, rfl, rfl, rfl, rfl, rfl, rfl, ?_, ?_, ?_, ?_⟩
    all_goals simp only [MIN, MAX]
    all_goals split_ifs <;> (try omega)

/-- Witness of the amended C24 on `wordWrapExample` with the pointer on
cell (2, 1). -/
theorem getbuttoninfo_normalized_witness :
    wordWrapExample.sel.snap = 0 ∧
    ∃ t, getbuttoninfo mouseConfigExample wordWrapExample ⟨27, 32, 1, Button1Mask⟩ = some t ∧
      t.sel.b.y ≤ t.sel.e.y ∧
      ((t.sel.b.y < t.sel.e.y ∨ (t.sel.b.y = t.sel.e.y ∧ t.sel.b.x ≤ t.sel.e.x)) ↔
        (t.sel.by_ ≠ t.sel.ey ∨ t.sel.ex ≤ t.sel.bx)) :=
  have h := getbuttoninfo_normalized mouseConfigExample wordWrapExample
    ⟨27, 32, 1, Button1Mask⟩ (by decide)
  ⟨by decide, h.elim (fun t ht => ⟨t, ht.1, ht.2.2.2.2.2.2.1, ht.2.2.2.2.2.2.2.2.2⟩)⟩

/-- C24, counterexample. After a press of button 1 on cell (0, 0) of
`wordWrapExample`, with snap mode none, `getbuttoninfo` with the pointer on
cell (2, 0) of the same row gives `sel.bx = 0`, `sel.ex = 2`, `sel.b = (2, 0)` and
`sel.e = (0, 0)`: `b` comes after `e` in reading order. -/
theorem getbuttoninfo_same_row_swaps :
    ((bpressButton1 mouseConfigExample (mouseStart wordWrapExample) ⟨7, 12, 1, 0⟩
        ⟨1000, 0⟩).bind
      (fun m => getbuttoninfo mouseConfigExample m.st ⟨27, 12, 1, Button1Mask⟩)).map
      (fun t => ([t.sel.snap, t.sel.bx, t.sel.by_, t.sel.ex, t.sel.ey,
        t.sel.b.x, t.sel.b.y, t.sel.e.x, t.sel.e.y],
        decide (t.sel.b.y < t.sel.e.y ∨ (t.sel.b.y = t.sel.e.y ∧ t.sel.b.x ≤ t.sel.e.x)))) =
      some ([0, 0, 0, 2, 0, 2, 0, 0, 0], false) := by
  decide

/-- C25, where it holds. Line breaks in the serialized selection: `selcopy`
serializes the rows `sel.b.y .. sel.e.y` one after the other, and for every row
`y < sel.e.y` the text of row `y` is its selected cells up to the last cell of
the row that is selected and not a space (`selcopyLast`, -1 when there is none),
followed by a line break if and only if that last cell does not carry
`ATTR_WRAP`. When the final cell `col - 1` of the row is selected and not a
space, it is that last cell, and the line break is there if and only if the
final cell does not carry `ATTR_WRAP`. -/
theorem selcopy_line_break (s : State) (y : Int) (hy : y < s.sel.e.y) :
    (s.sel.bx ≠ -1 → selcopy s = some ((List.range (s.sel.e.y - s.sel.b.y + 1).toNat).flatMap
      (fun (k : Nat) => selcopyRow s (s.sel.b.y + (k : Int))))) ∧
    selcopyRow s y = selcopyCells s y (selcopyLast s y s.term.col.toNat) ++
      (if (s.cell (selcopyLast s y s.term.col.toNat) y).mode &&& ATTR_WRAP = 0 then [10]
        else []) ∧
    -1 ≤ selcopyLast s y s.term.col.toNat ∧
    (selcopyLast s y s.term.col.toNat ≠ -1 →
      selected s.sel (selcopyLast s y s.term.col.toNat) y ∧
      notBlank (s.cell (selcopyLast s y s.term.col.toNat) y) = true) ∧
    (∀ x : Int, selcopyLast s y s.term.col.toNat < x → x < s.term.col →
      ¬ (selected s.sel x y ∧ notBlank (s.cell x y) = true)) ∧
    (1 ≤ s.term.col → selected s.sel (s.term.col - 1) y →
      notBlank (s.cell (s.term.col - 1) y) = true →
      selcopyRow s y = selcopyCells s y (s.term.col - 1) ++
        (if (s.cell (s.term.col - 1) y).mode &&& ATTR_WRAP = 0 then [10] else [])) := by
  obtain ⟨i1, i2, i3, i4⟩ := selcopyLast_spec s y s.term.col.toNat
  have hrow : selcopyRow s y = selcopyCells s y (selcopyLast s y s.term.col.toNat) ++
      (if (s.cell (selcopyLast s y s.term.col.toNat) y).mode &&& ATTR_WRAP = 0 then [10]
        else []) := by
    unfold selcopyRow
    have hne : y ≠ s.sel.e.y := by omega
    simp only [hy, true_and, hne, false_and, if_false, List.append_nil]
  refine ⟨?_, hrow, i1, fun h => (i3 h).2, ?_, ?_⟩
  · intro h
    unfold selcopy
    rw [if_neg h]
  · intro x h1 h2
    have hn : (s.term.col.toNat : Int) = s.term.col := Int.toNat_of_nonneg (by omega)
    exact i4 x h1 (by omega)
  · intro hc hs hb
    have hn : (s.term.col.toNat : Int) = s.term.col := Int.toNat_of_nonneg (by omega)
    have hl : selcopyLast s y s.term.col.toNat = s.term.col - 1 := by
      by_contra hne
      exact i4 (s.term.col - 1) (by omega) (by omega) ⟨hs, hb⟩
    rw [hrow, hl]

/-- Witness of C25 where it holds: in `wrapSelectedExample` the final cell
of row 0 holds `d` with `ATTR_WRAP`, so row 0 gives `abcd` without a line break
and the selection serializes to `abcdef`. -/
theorem selcopy_line_break_witness :
    (0 : Int) < wrapSelectedExample.sel.e.y ∧
    selected wrapSelectedExample.sel (wrapSelectedExample.term.col - 1) 0 ∧
    notBlank (wrapSelectedExample.cell (wrapSelectedExample.term.col - 1) 0) = true ∧
    (wrapSelectedExample.cell (wrapSelectedExample.term.col - 1) 0).mode &&& ATTR_WRAP ≠ 0 ∧
    selcopyRow wrapSelectedExample 0 =
      selcopyCells wrapSelectedExample 0 (wrapSelectedExample.term.col - 1) ++
        (if (wrapSelectedExample.cell (wrapSelectedExample.term.col - 1) 0).mode &&& ATTR_WRAP = 0
          then [10] else []) ∧
    selcopyRow wrapSelectedExample 0 = [97, 98, 99, 100] ∧
    selcopy wrapSelectedExample = some [97, 98, 99, 100, 101, 102] :=
  have h := selcopy_line_break wrapSelectedExample 0 (by decide)
  ⟨by decide, by decide, by decide, by decide,
    h.2.2.2.2.2 (by decide) (by decide) (by decide), by decide, by decide⟩

/-- C25, counterexample. In `spaceWrapExample` the final cell of row 0 is a
space that carries `ATTR_WRAP`. A drag from cell (0, 0) to cell (0, 1) makes a
regular selection of the rows 0 and 1, and `selcopy` gives `abc`, a line break
and `d`: the test reads the last copied cell, the `c`, not the final cell. The
line snap of `selsnap`, which reads the final cell, goes on from row 0 to the
end of row 1. -/
theorem selcopy_breaks_wrapped_row :
    spaceWrapExample.rowText 0 = [97, 98, 99, 32] ∧
    spaceWrapExample.rowText 1 = [100, 32, 32, 32] ∧
    (spaceWrapExample.cell 3 0).mode &&& ATTR_WRAP ≠ 0 ∧
    (dragTo spaceWrapExample 0 0 0 1).map
      (fun m => ([m.st.sel.type, m.st.sel.b.x, m.st.sel.b.y, m.st.sel.e.x, m.st.sel.e.y],
        m.clip)) =
      some ([SEL_REGULAR, 0, 0, 0, 1], some [97, 98, 99, 10, 100]) ∧
    (selsnap mouseConfigExample spaceWrapExample SNAP_LINE 0 0 1) = some (3, 1) := by
  decide

/-- C26, counterexample. On the 4 x 2 grid `wordWrapExample` (row 0 `abcd`
with `ATTR_WRAP` on its last cell, row 1 `ef` and two spaces), with the space as
the only word delimiter, two clicks on cell (2, 1) 200 ms apart select with word
snap from (0, 0) to (2, 1), and `selcopy` gives `abcdef` followed by a line
break: cell (2, 1) is a space, after the text of the last selected row. -/
theorem word_snap_appends_newline :
    wordWrapExample.rowText 0 = [97, 98, 99, 100] ∧
    wordWrapExample.rowText 1 = [101, 102, 32, 32] ∧
    (wordWrapExample.cell 3 0).mode &&& ATTR_WRAP ≠ 0 ∧
    isDelimiter mouseConfigExample 32 = true ∧
    (∀ c ∈ [97, 98, 99, 100, 101, 102], isDelimiter mouseConfigExample c = false) ∧
    (doubleClickAt wordWrapExample 2 1).map
      (fun m => ([m.st.sel.snap, m.st.sel.b.x, m.st.sel.b.y, m.st.sel.e.x, m.st.sel.e.y],
        m.clip)) =
      some ([SNAP_WORD, 0, 0, 2, 1], some [97, 98, 99, 100, 101, 102, 10]) := by
  decide

/-- C26, amended. On the grid `wordWrapExample` two clicks 200 ms apart on
cell (1, 1), the `f`, select with word snap from (0, 0) to (1, 1), and `selcopy`
gives exactly `abcdef`, with no line break; so do two clicks on cell (0, 1) and
two clicks on cell (2, 0). -/
theorem word_snap_across_wrap :
    (doubleClickAt wordWrapExample 1 1).map
      (fun m => ([m.st.sel.snap, m.st.sel.b.x, m.st.sel.b.y, m.st.sel.e.x, m.st.sel.e.y],
        m.clip)) =
      some ([SNAP_WORD, 0, 0, 1, 1], some [97, 98, 99, 100, 101, 102]) ∧
    (doubleClickAt wordWrapExample 0 1).map (fun m => m.clip) =
      some (some [97, 98, 99, 100, 101, 102]) ∧
    (doubleClickAt wordWrapExample 2 0).map (fun m => m.clip) =
      some (some [97, 98, 99, 100, 101, 102]) := by
  decide

/-- C27. SGR table: for every state and every single parameter `p`,
`tsetattr([p])` changes nothing but the cursor attribute, and changes it as
follows: 0 clears reverse, underline, bold, italic and blink and sets `fg` and
`bg` to the defaults; 1, 3, 4, 5/6, 7 set bold, italic, underline, blink,
reverse; 21/22, 23, 24, 25/26, 27 clear bold, italic, underline, blink, reverse;
30..37 set `fg = p - 30`; 40..47 set `bg = p - 40`; 90..97 set `fg = p - 82`;
100..107 set `bg = p - 92`; 39 and 49 restore the default `fg` and `bg`; every
other single parameter leaves the attribute as it is. For the lists `[38, 5, n]`
and `[48, 5, n]` with `0 ≤ n ≤ 255` it sets `fg`, respectively `bg`, to `n` and
changes nothing else. -/
theorem sgr_table (s : State) (p n : Int) (hn0 : 0 ≤ n) (hn1 : n ≤ 255) :
    { tsetattr s [p] with term := { (tsetattr s [p]).term with
        c := { (tsetattr s [p]).term.c with attr := s.term.c.attr } } } = s ∧
    (p = 0 → (tsetattr s [p]).term.c.attr =
      { s.term.c.attr with
        mode := andNot s.term.c.attr.mode
          (ATTR_REVERSE ||| ATTR_UNDERLINE ||| ATTR_BOLD ||| ATTR_ITALIC ||| ATTR_BLINK),
        fg := s.cfg.defaultfg, bg := s.cfg.defaultbg }) ∧
    (p = 1 → (tsetattr s [p]).term.c.attr =
      { s.term.c.attr with mode := s.term.c.attr.mode ||| ATTR_BOLD }) ∧
    (p = 3 → (tsetattr s [p]).term.c.attr =
      { s.term.c.attr with mode := s.term.c.attr.mode ||| ATTR_ITALIC }) ∧
    (p = 4 → (tsetattr s [p]).term.c.attr =
      { s.term.c.attr with mode := s.term.c.attr.mode ||| ATTR_UNDERLINE }) ∧
    (p = 5 ∨ p = 6 → (tsetattr s [p]).term.c.attr =
      { s.term.c.attr with mode := s.term.c.attr.mode ||| ATTR_BLINK }) ∧
    (p = 7 → (tsetattr s [p]).term.c.attr =
      { s.term.c.attr with mode := s.term.c.attr.mode ||| ATTR_REVERSE }) ∧
    (p = 21 ∨ p = 22 → (tsetattr s [p]).term.c.attr =
      { s.term.c.attr with mode := andNot s.term.c.attr.mode ATTR_BOLD }) ∧
    (p = 23 → (tsetattr s [p]).term.c.attr =
      { s.term.c.attr with mode := andNot s.term.c.attr.mode ATTR_ITALIC }) ∧
    (p = 24 → (tsetattr s [p]).term.c.attr =
      { s.term.c.attr with mode := andNot s.term.c.attr.mode ATTR_UNDERLINE }) ∧
    (p = 25 ∨ p = 26 → (tsetattr s [p]).term.c.attr =
      { s.term.c.attr with mode := andNot s.term.c.attr.mode ATTR_BLINK }) ∧
    (p = 27 → (tsetattr s [p]).term.c.attr =
      { s.term.c.attr with mode := andNot s.term.c.attr.mode ATTR_REVERSE }) ∧
    (30 ≤ p ∧ p ≤ 37 → (tsetattr s [p]).term.c.attr =
      { s.term.c.attr with fg := (p - 30).toNat }) ∧
    (40 ≤ p ∧ p ≤ 47 → (tsetattr s [p]).term.c.attr =
      { s.term.c.attr with bg := (p - 40).toNat }) ∧
    (90 ≤ p ∧ p ≤ 97 → (tsetattr s [p]).term.c.attr =
      { s.term.c.attr with fg := (p - 82).toNat }) ∧
    (100 ≤ p ∧ p ≤ 107 → (tsetattr s [p]).term.c.attr =
      { s.term.c.attr with bg := (p - 92).toNat }) ∧
    (p = 39 → (tsetattr s [p]).term.c.attr =
      { s.term.c.attr with fg := s.cfg.defaultfg }) ∧
    (p = 49 → (tsetattr s [p]).term.c.attr =
      { s.term.c.attr with bg := s.cfg.defaultbg }) ∧
    (p < 0 ∨ p = 2 ∨ (8 ≤ p ∧ p ≤ 20) ∨ p = 28 ∨ p = 29 ∨ p = 38 ∨ p = 48 ∨
        (50 ≤ p ∧ p ≤ 89) ∨ p = 98 ∨ p = 99 ∨ 108 ≤ p →
      (tsetattr s [p]).term.c.attr = s.term.c.attr) ∧
    (tsetattr s [38, 5, n]).term.c.attr = { s.term.c.attr with fg := n.toNat } ∧
    { tsetattr s [38, 5, n] with term := { (tsetattr s [38, 5, n]).term with
        c := { (tsetattr s [38, 5, n]).term.c with attr := s.term.c.attr } } } = s ∧
    (tsetattr s [48, 5, n]).term.c.attr = { s.term.c.attr with bg := n.toNat } ∧
    { tsetattr s [48, 5, n] with term := { (tsetattr s [48, 5, n]).term with
        c := { (tsetattr s [48, 5, n]).term.c with attr := s.term.c.attr } } } = s := by
  have e1 : (tsetattr s [p]).term.c.attr = (tsetattr1 s.cfg p [] s.term.c.attr).1 :=
    tsetattrLoop_single _ _ _
  have e38 : (tsetattr s [38, 5, n]).term.c.attr = (tsetattr1 s.cfg 38 [5, n] s.term.c.attr).1 :=
    tsetattrLoop_palette _ _ _ _ (Or.inl rfl)
  have e48 : (tsetattr s [48, 5, n]).term.c.attr = (tsetattr1 s.cfg 48 [5, n] s.term.c.attr).1 :=
    tsetattrLoop_palette _ _ _ _ (Or.inr rfl)
  rw [e1, e38, e48]
  have hb : BETWEEN n 0 255 := ⟨hn0, hn1⟩
  refine ⟨rfl, ?_, ?_, ?_, ?_, ?_, ?_, ?_, ?_, ?_, ?_, ?_, ?_, ?_, ?_, ?_, ?_, ?_, ?_, ?_, rfl,
    ?_, rfl⟩
  · intro h; subst h; rfl
  · intro h; subst h; rfl
  · intro h; subst h; rfl
  · intro h; subst h; rfl
  · rintro (h | h) <;> subst h <;> rfl
  · intro h; subst h; rfl
  · rintro (h | h) <;> subst h <;> rfl
  · intro h; subst h; rfl
  · intro h; subst h; rfl
  · rintro (h | h) <;> subst h <;> rfl
  · intro h; subst h; rfl
  · rintro ⟨h1, h2⟩
    interval_cases p <;> rfl
  · rintro ⟨h1, h2⟩
    interval_cases p <;> rfl
  · rintro ⟨h1, h2⟩
    interval_cases p <;> rfl
  · rintro ⟨h1, h2⟩
    interval_cases p <;> rfl
  · intro h; subst h; rfl
  · intro h; subst h; rfl
  · intro h
    by_cases h38 : p = 38
    · subst h38; rfl
    by_cases h48 : p = 48
    · subst h48; rfl
    unfold tsetattr1 BETWEEN
    -- none of the 19 tests of the chain holds
    iterate 19 rw [if_neg (by omega)]
  · have e : tsetattr1 s.cfg 38 [5, n] s.term.c.attr =
        (if BETWEEN n 0 255 then { s.term.c.attr with fg := n.toNat } else s.term.c.attr, 2) :=
      rfl
    rw [e, if_pos hb]
  · have e : tsetattr1 s.cfg 48 [5, n] s.term.c.attr =
        (if BETWEEN n 0 255 then { s.term.c.attr with bg := n.toNat } else s.term.c.attr, 2) :=
      rfl
    rw [e, if_pos hb]

/-- Witness of C27 on `rowsExample` with `p = 31` and `n = 200`. -/
theorem sgr_table_witness :
    (0 : Int) ≤ 200 ∧ (200 : Int) ≤ 255 ∧
    (tsetattr rowsExample [31]).term.c.attr =
      { rowsExample.term.c.attr with fg := ((31 : Int) - 30).toNat } ∧
    (tsetattr rowsExample [38, 5, 200]).term.c.attr =
      { rowsExample.term.c.attr with fg := (200 : Int).toNat } :=
  have h := sgr_table rowsExample 31 200 (by decide) (by decide)
  ⟨by decide, by decide, h.2.2.2.2.2.2.2.2.2.2.2.2.1 (by decide),
    h.2.2.2.2.2.2.2.2.2.2.2.2.2.2.2.2.2.2.2.1⟩

/-- C28. CSI parameter parsing: for every state after `csireset` (`priv` is
0 and there are 16 argument slots) whose buffer is an optional `?`, then `k`
parameters separated by `;` with `1 ≤ k ≤ 16`, each a possibly empty string of
decimal digits with value below 2^31, then a final byte `F` in 0x40..0x7E,
`csiparse` yields `narg = k`, `arg[i]` the value of parameter `i + 1` (0 for an
empty one), `priv = 1` if and only if the buffer starts with `?`, and
`mode = F`; and for every state whatsoever `narg` is at most 16 after
`csiparse`. -/
theorem csiparse_params (s : State) (priv : Bool) (ps : List (List Nat)) (F : Nat)
    (hbuf : s.csiescseq.buf = csiBytes priv ps F) (hpriv : s.csiescseq.priv = 0)
    (harg : s.csiescseq.arg.length = ESC_ARG_SIZ)
    (hk1 : 1 ≤ ps.length) (hk2 : ps.length ≤ 16)
    (hps : ∀ p ∈ ps, (∀ d ∈ p, isdigit d = true) ∧ digitsValue p < 2147483648)
    (hF1 : 0x40 ≤ F) (hF2 : F ≤ 0x7E) :
    (csiparse s).csiescseq.narg = ps.length ∧
    (∀ i, i < ps.length →
      (csiparse s).csiescseq.arg.getD i 0 = digitsValue (ps.getD i [])) ∧
    (csiparse s).csiescseq.priv = (if priv then 1 else 0) ∧
    (csiparse s).csiescseq.mode = F ∧
    (∀ t : State, (csiparse t).csiescseq.narg ≤ ESC_ARG_SIZ) := by
  have hne : ps ≠ [] := by
    intro h
    rw [h] at hk1
    simp at hk1
  have hlen := csiBody_length F ps
  have hhead := csiBody_head F hF1 ps (fun p hp => (hps p hp).1)
  have hp : (if s.csiescseq.buf.headD 0 = 63 then s.csiescseq.buf.tail else s.csiescseq.buf)
      = csiBody ps F := by
    rw [hbuf]
    unfold csiBytes
    cases priv with
    | true => rfl
    | false =>
      simp only [Bool.false_eq_true, if_false, List.nil_append]
      rw [if_neg hhead]
  have hq : (if s.csiescseq.buf.headD 0 = 63 then 1 else s.csiescseq.priv)
      = (if priv then 1 else 0) := by
    rw [hbuf, hpriv]
    unfold csiBytes
    cases priv with
    | true => rfl
    | false =>
      simp only [Bool.false_eq_true, if_false, List.nil_append]
      rw [if_neg hhead]
  obtain ⟨a1, a2, a3, a4, a5⟩ := csiparseLoop_body F hF1 hF2 ps (s.csiescseq.buf.length + 1)
    s.csiescseq.arg 0 hne (by
      rw [hbuf]
      unfold csiBytes
      rw [List.length_append]
      omega) (by omega) harg hps
  refine ⟨?_, ?_, ?_, ?_, ?_⟩
  · show (csiparseLoop (s.csiescseq.buf.length + 1) _ s.csiescseq.arg 0).2.2 = _
    rw [hp, a2, Nat.zero_add]
  · intro i hi
    show (csiparseLoop (s.csiescseq.buf.length + 1) _ s.csiescseq.arg 0).2.1.getD i 0 = _
    rw [hp]
    have := a5 i hi
    rw [Nat.zero_add] at this
    exact this
  · exact hq
  · show (csiparseLoop (s.csiescseq.buf.length + 1) _ s.csiescseq.arg 0).1.headD 0 = _
    rw [hp, a1]
  · intro t
    exact csiparseLoop_narg _ _ _ _ (by decide)

/-- Witness of C28 at the buffer `?25;;7h`: three parameters 25, 0 and 7,
private, mode `h`. -/
theorem csiparse_params_witness :
    csiExample.csiescseq.buf = [63, 50, 53, 59, 59, 55, 104] ∧
    (csiparse csiExample).csiescseq.narg = [[50, 53], [], [55]].length ∧
    (csiparse csiExample).csiescseq.arg.getD 0 0 = digitsValue [50, 53] ∧
    (csiparse csiExample).csiescseq.arg.getD 1 0 = digitsValue [] ∧
    (csiparse csiExample).csiescseq.arg.getD 2 0 = digitsValue [55] ∧
    digitsValue [50, 53] = 25 ∧
    (csiparse csiExample).csiescseq.priv = (if true then 1 else 0) ∧
    (csiparse csiExample).csiescseq.mode = 104 :=
  have h := csiparse_params csiExample true [[50, 53], [], [55]] 104 (by decide) (by decide)
    (by decide) (by decide) (by decide) (by decide) (by decide) (by decide)
  ⟨by decide, h.1, h.2.1 0 (by decide), h.2.1 1 (by decide), h.2.1 2 (by decide), by decide,
    h.2.2.1, h.2.2.2.1⟩

/-- The rows, the cursor and the scroll region after a `tresize` that
slides the screen, on the heap of the model, which keeps the rows passed to
`free` and resizes rows in place. -/
theorem tresize_slide_rows (s : State) (col row : Int) (hc : 1 ≤ col) (hr1 : 1 ≤ row)
    (hr2 : row ≤ s.term.c.y) (hsc : 1 ≤ s.term.col) (hcy : s.term.c.y < s.term.row)
    (hrow : s.term.row < 2147483648)
    (hl : s.term.line.length = s.term.row.toNat) (ha : s.term.alt.length = s.term.row.toNat) :
    (tresize s col row).2 = 1 ∧
    (∀ x i, 0 ≤ i → i < row → 0 ≤ x → x < min s.term.col col →
      (tresize s col row).1.cell x i = s.cell x (i + (s.term.c.y - row + 1)) ∧
      (tresize s col row).1.altCell x i = s.altCell x (i + (s.term.c.y - row + 1))) ∧
    (tresize s col row).1.term.c.y = row - 1 ∧
    (tresize s col row).1.term.c.x = clamp s.term.c.x 0 (col - 1) ∧
    (tresize s col row).1.term.top = 0 ∧ (tresize s col row).1.term.bot = row - 1 ∧
    (tresize s col row).1.term.col = col ∧ (tresize s col row).1.term.row = row := by
  have hmin : MIN row s.term.row = row := by unfold MIN; rw [if_pos (by omega)]
  have hslide : wrapInt (wrapInt (s.term.c.y - row) + 1) = s.term.c.y - row + 1 := by
    rw [wrapInt_of_range (s.term.c.y - row) (by omega) (by omega),
      wrapInt_of_range _ (by omega) (by omega)]
  have hmc0 : 0 ≤ MIN col s.term.col := by unfold MIN; split_ifs <;> omega
  have hmc1 : MIN col s.term.col = min s.term.col col := by
    unfold MIN
    split_ifs <;> omega
  obtain ⟨r1, r2, r3, r4⟩ := tresizeRows_slide s col row hr1 hr2 hcy hrow hl ha
  generalize hW : tresizeRows s col row = W at r1 r2 r3 r4
  obtain ⟨t1, _, t3, _⟩ := tresizeTabs_frame W col
  obtain ⟨t5, t6⟩ := tresizeTabs_more W col
  generalize hS5 : tmoveto (tsetscroll ((tresizeTabs W col).setSize col row) 0 (row - 1))
      (tsetscroll ((tresizeTabs W col).setSize col row) 0 (row - 1)).term.c.x
      (tsetscroll ((tresizeTabs W col).setSize col row) 0 (row - 1)).term.c.y = S5
  have e : tresize s col row =
      (tresizeClear col row (MIN col s.term.col) row
        (tresizeClear col row (MIN col s.term.col) row S5), 1) := by
    have hn : ¬ (col < 1 ∨ row < 1) := by omega
    unfold tresize
    simp only [hmin, hslide, hn, if_false, hW, hS5]
    rw [if_pos (by omega)]
  -- the state before the clearing rounds
  have g1 : S5.term.line = W.term.line := by rw [← hS5]; exact t1
  have g2 : S5.term.alt = W.term.alt := by rw [← hS5]; exact t5
  have g3 : S5.heap = W.heap := by rw [← hS5]; exact t3
  have g4 : S5.term.col = col := by rw [← hS5]; rfl
  have g5 : S5.term.row = row := by rw [← hS5]; rfl
  have ht : LIMIT 0 0 (row - 1) = 0 := by unfold LIMIT; rw [if_neg (by omega), if_neg (by omega)]
  have hb : LIMIT (row - 1) 0 (row - 1) = row - 1 := by
    unfold LIMIT; rw [if_neg (by omega), if_neg (by omega)]
  have g6 : S5.term.top = 0 := by
    rw [← hS5]
    show (if LIMIT 0 0 (row - 1) > LIMIT (row - 1) 0 (row - 1) then LIMIT (row - 1) 0 (row - 1)
      else LIMIT 0 0 (row - 1)) = (0 : Int)
    rw [ht, hb, if_neg (by omega)]
  have g7 : S5.term.bot = row - 1 := by
    rw [← hS5]
    show (if LIMIT 0 0 (row - 1) > LIMIT (row - 1) 0 (row - 1) then LIMIT 0 0 (row - 1)
      else LIMIT (row - 1) 0 (row - 1)) = row - 1
    rw [ht, hb, if_neg (by omega)]
  have g8 : S5.term.c.x = clamp s.term.c.x 0 (col - 1) := by
    rw [← hS5]
    show LIMIT (tresizeTabs W col).term.c.x 0 (col - 1) = _
    rw [t6, r2]
    exact LIMIT_eq_clamp _ _ _ (by omega)
  have g9 : S5.term.c.y = row - 1 := by
    rw [← hS5]
    show LIMIT (tresizeTabs W col).term.c.y
      (if (tresizeTabs W col).term.c.state &&& CURSOR_ORIGIN ≠ 0 then
        (if LIMIT 0 0 (row - 1) > LIMIT (row - 1) 0 (row - 1) then LIMIT (row - 1) 0 (row - 1)
          else LIMIT 0 0 (row - 1)) else 0)
      (if (tresizeTabs W col).term.c.state &&& CURSOR_ORIGIN ≠ 0 then
        (if LIMIT 0 0 (row - 1) > LIMIT (row - 1) 0 (row - 1) then LIMIT 0 0 (row - 1)
          else LIMIT (row - 1) 0 (row - 1)) else row - 1) = row - 1
    rw [ht, hb, t6, r2]
    unfold LIMIT
    split_ifs <;> omega
  obtain ⟨a1, a2, a3, a4, a5, a6, a7, a8⟩ :=
    tresizeClear_spec S5 col row (MIN col s.term.col) g4 g5 hc hr1 hmc0
  generalize tresizeClear col row (MIN col s.term.col) row S5 = S6 at e a1 a2 a3 a4 a5 a6 a7 a8
  obtain ⟨b1, b2, b3, b4, b5, b6, b7, b8⟩ :=
    tresizeClear_spec S6 col row (MIN col s.term.col) a4 a5 hc hr1 hmc0
  generalize tresizeClear col row (MIN col s.term.col) row S6 = S7 at e b1 b2 b3 b4 b5 b6 b7 b8
  rw [e]
  have hcells : ∀ q x, x < min s.term.col col →
      idx (rowAt S7.heap q) x Glyph.zero = idx (rowAt s.heap q) x Glyph.zero := by
    intro q x hx
    rw [b8 q x (by rw [hmc1]; exact hx), a8 q x (by rw [hmc1]; exact hx), g3,
      r4 q x (by omega)]
  refine ⟨rfl, ?_, by show S7.term.c.y = _; rw [b3, a3, g9],
    by show S7.term.c.x = _; rw [b3, a3, g8], by show S7.term.top = _; rw [b6, a6, g6],
    by show S7.term.bot = _; rw [b7, a7, g7], b4, b5⟩
  intro x i hi0 hi1 hx0 hx1
  constructor
  · show idx (rowAt S7.heap (idx S7.term.line i 0)) x Glyph.zero = _
    rw [hcells _ _ hx1, b1, a2, g1, (r1 i hi0 hi1).1]
    rfl
  · show idx (rowAt S7.heap (idx S7.term.alt i 0)) x Glyph.zero = _
    rw [hcells _ _ hx1, b2, a1, g2, (r1 i hi0 hi1).2]
    rfl

/-- C29, where it holds. Resize keeps the cursor's line: for every terminal
state with at least one column, the cursor row inside the grid and `row` row
pointers in both screens, and every `tresize(col', row')` with `col' ≥ 1` and
`1 ≤ row' ≤ c.y` whose calls of `free` and `xrealloc` are well defined
(`TresizeSafe`: no row pointer is freed or reallocated twice and none is a
scrollback line, as on a terminal whose arrays `line`, `alt` and `last_line`
share no row), let `slide = c.y - row' + 1`; `tresize` returns 1, and
afterwards in both screens row `i` (`0 ≤ i < row'`) holds in its first
`min(col, col')` columns the former cells of row `i + slide`, the cursor is on
row `row' - 1` (the row holding the text it was on) with its column clamped to
`[0, col' - 1]`, the scroll region is `[0, row' - 1]`, and the size is
`col'` x `row'`. -/
theorem tresize_keeps_cursor_line (s : State) (col row : Int) (hc : 1 ≤ col) (hr1 : 1 ≤ row)
    (hr2 : row ≤ s.term.c.y) (hsc : 1 ≤ s.term.col) (hcy : s.term.c.y < s.term.row)
    (hrow : s.term.row < 2147483648)
    (hl : s.term.line.length = s.term.row.toNat) (ha : s.term.alt.length = s.term.row.toNat)
    (hsafe : TresizeSafe s row) :
    (tresize s col row).2 = 1 ∧
    (∀ x i, 0 ≤ i → i < row → 0 ≤ x → x < min s.term.col col →
      (tresize s col row).1.cell x i = s.cell x (i + (s.term.c.y - row + 1)) ∧
      (tresize s col row).1.altCell x i = s.altCell x (i + (s.term.c.y - row + 1))) ∧
    (tresize s col row).1.term.c.y = row - 1 ∧
    (tresize s col row).1.term.c.x = clamp s.term.c.x 0 (col - 1) ∧
    (tresize s col row).1.term.top = 0 ∧ (tresize s col row).1.term.bot = row - 1 ∧
    (tresize s col row).1.term.col = col ∧ (tresize s col row).1.term.row = row ∧
    (tresizeFreed s row).Nodup ∧ (tresizeRealloced s row).Nodup :=
  have h := tresize_slide_rows s col row hc hr1 hr2 hsc hcy hrow hl ha
  ⟨h.1, h.2.1, h.2.2.1, h.2.2.2.1, h.2.2.2.2.1, h.2.2.2.2.2.1, h.2.2.2.2.2.2.1,
    h.2.2.2.2.2.2.2, List.Nodup.of_append_left hsafe.1, List.Nodup.of_append_right hsafe.1⟩

/-- Witness of C29 where it holds, on the 3 x 3 grid `rowsExample` with the
cursor on row 2: `tresize(3, 2)` frees the rows 1 and 2 of the heap, the rows
of line 0 of the two screens, and reallocates six distinct rows; afterwards
the rows are `B` and `C` and the cursor is on row 1. -/
theorem tresize_keeps_cursor_line_witness :
    rowsExample.term.c.y = 2 ∧ rowsExample.term.row = 3 ∧ TresizeSafe rowsExample 2 ∧
    tresizeFreed rowsExample 2 = [1, 2] ∧
    tresizeRealloced rowsExample 2 = [4, 5, 6, 7, 8, 9] ∧
    (tresize rowsExample 3 2).2 = 1 ∧
    (tresize rowsExample 3 2).1.cell 0 0 = rowsExample.cell 0 (0 + (rowsExample.term.c.y - 2 + 1)) ∧
    (tresize rowsExample 3 2).1.rowText 0 = [66, 32, 32] ∧
    (tresize rowsExample 3 2).1.rowText 1 = [67, 32, 32] ∧
    (tresize rowsExample 3 2).1.term.c.y = 2 - 1 :=
  have h := tresize_keeps_cursor_line rowsExample 3 2 (by decide) (by decide) (by decide)
    (by decide) (by decide) (by decide) (by decide) (by decide) (by decide)
  ⟨by decide, by decide, by decide, by decide, by decide, h.1,
    (h.2.1 0 0 (by decide) (by decide) (by decide) (by decide)).1,
    by decide, by decide, h.2.2.1⟩

/-- C29, counterexample. The state `lookedExample` is reached from
`tnew(3, 3)` by the bytes `A CR LF B` and `tscrollback(-1)`, which with an
empty scrollback leaves the view base at 0 and sets `line[i] = last_line[i]`.
The cursor is on row 1. For `tresize(3, 1)` the slide is 1, and the loop over
the rows below the new height calls `free(line[2])`, `free(alt[2])` and
`free(last_line[2])`: the row pointer 9 is freed twice. The loop over the rows
kept then calls `xrealloc` twice on the row pointer 6. -/
theorem tresize_frees_row_twice :
    Reachable lookedExample ∧ lookedExample.term.ybase = 0 ∧
    [lookedExample.term.c.y, lookedExample.term.row, lookedExample.term.col] = [1, 3, 3] ∧
    lookedExample.term.line = [3, 6, 9] ∧ lookedExample.term.alt = [2, 5, 8] ∧
    lookedExample.term.last_line = [3, 6, 9] ∧
    tresizeFreed lookedExample 1 = [3, 2, 9, 8, 9] ∧
    tresizeRealloced lookedExample 1 = [6, 5, 6] ∧
    ¬ (tresizeFreed lookedExample 1).Nodup ∧ ¬ TresizeSafe lookedExample 1 :=
  ⟨reachable_lookedExample, by decide, by decide, by decide, by decide, by decide,
    by decide, by decide, by decide, by decide⟩

/-- C30, amended. Focus after closing a tab: for every tab list in which
`target` occurs, split at its first occurrence as `pre ++ target :: post`,
`term_remove(target)` exits the process with `EXIT_SUCCESS` when `target` is the
only terminal; when `target` is the head of a longer list, the list becomes
`post` and the focus goes to its head, the terminal after `target`; otherwise
the list becomes `pre ++ post`, the others in their order, and the focus goes to
the last terminal of `pre`, the one right before `target`. The focus is set in
this way whether or not `target` was the focused terminal. -/
theorem term_remove_focus (t : Tabs) (target : Nat) (pre post : List Nat)
    (hsplit : t.terms = pre ++ target :: post) (hpre : target ∉ pre) :
    (pre = [] → post = [] → term_remove t target = .exited EXIT_SUCCESS) ∧
    (pre = [] → post ≠ [] →
      term_remove t target = .running { terms := post, focused := post.headD 0 }) ∧
    (∀ h : pre ≠ [],
      term_remove t target = .running { terms := pre ++ post, focused := pre.getLast h }) := by
  refine ⟨?_, ?_, ?_⟩
  · intro h1 h2
    subst h1 h2
    unfold term_remove
    rw [hsplit]
    simp only [List.nil_append, List.head?_cons, List.tail_cons, if_true]
  · intro h1 h2
    subst h1
    unfold term_remove
    rw [hsplit]
    simp only [List.nil_append, List.head?_cons, List.tail_cons, if_true]
    rw [if_neg h2]
  · intro h
    cases pre with
    | nil => exact absurd rfl h
    | cons a l =>
      have ha : a ≠ target := fun e => hpre (e ▸ List.mem_cons_self _ _)
      have hl : target ∉ l := fun e => hpre (List.mem_cons_of_mem _ e)
      obtain ⟨i1, i2⟩ := termBefore_split target post l a ha hl
      unfold term_remove
      rw [hsplit]
      have hh : (a :: l ++ target :: post).head? ≠ some target := by
        simp only [List.cons_append, List.head?_cons, ne_eq, Option.some.injEq]
        exact ha
      rw [if_neg hh, i1, i2]

/-- Witness of the amended C30 with the tabs 1, 2, 3, the focus on 3 and
the target 2. -/
theorem term_remove_focus_witness :
    term_remove { terms := [1, 2, 3], focused := 3 } 2 =
      .running { terms := [1, 3], focused := 1 } :=
  (term_remove_focus { terms := [1, 2, 3], focused := 3 } 2 [1] [3] rfl (by decide)).2.2
    (by decide)

/-- C30, counterexample. With the tabs 1, 2, 3 and the focus on 3, closing
tab 2 moves the focus to tab 1 although the closed tab was not the focused one;
and closing the focused head of the tabs 1, 2 moves the focus to tab 2, the next
terminal, as there is none before it. -/
theorem term_remove_steals_focus :
    term_remove { terms := [1, 2, 3], focused := 3 } 2 =
      .running { terms := [1, 3], focused := 1 } ∧
    term_remove { terms := [1, 2], focused := 1 } 1 =
      .running { terms := [2], focused := 2 } := by
  decide


/-! ## Lemmas on select mode, the two screens, tab stops and reports -/

/-- The selection after `selscroll` when its rows are shifted and it is
kept: both rows are clamped to the scroll region, and a selection that is not
rectangular gets `bx = 0` when cut at the top and `ex = col` when cut at the
bottom. -/
theorem selscroll_kept (s : State) (orig n : Int) (hb : s.sel.bx ≠ -1)
    (hby1 : -2147483648 ≤ s.sel.by_ + n) (hby2 : s.sel.by_ + n < 2147483648)
    (hey1 : -2147483648 ≤ s.sel.ey + n) (hey2 : s.sel.ey + n < 2147483648)
    (hin : BETWEEN s.sel.by_ orig s.term.bot ∨ BETWEEN s.sel.ey orig s.term.bot)
    (h1 : s.sel.by_ + n ≤ s.term.bot) (h2 : s.term.top ≤ s.sel.ey + n) :
    (selscroll s orig n).sel.by_ = max (s.sel.by_ + n) s.term.top ∧
    (selscroll s orig n).sel.ey = min (s.sel.ey + n) s.term.bot ∧
    (selscroll s orig n).sel.bx =
      (if s.sel.type ≠ SEL_RECTANGULAR ∧ s.sel.by_ + n < s.term.top then 0 else s.sel.bx) ∧
    (selscroll s orig n).sel.ex =
      (if s.sel.type ≠ SEL_RECTANGULAR ∧ s.term.bot < s.sel.ey + n then s.term.col
        else s.sel.ex) := by
  have w1 := wrapInt_of_range _ hby1 hby2
  have w2 := wrapInt_of_range _ hey1 hey2
  unfold selscroll
  rw [if_neg hb, if_pos hin]
  simp only [w1, w2, gt_iff_lt, not_lt.mpr h1, not_lt.mpr h2, if_false]
  by_cases ht : s.sel.type = SEL_RECTANGULAR <;>
    by_cases c1 : s.sel.by_ + n < s.term.top <;>
    by_cases c2 : s.term.bot < s.sel.ey + n <;>
    simp only [ht, c1, c2, if_true, if_false, ne_eq, not_true_eq_false, not_false_eq_true,
      false_and, true_and, and_true, and_self, max_def, min_def] <;>
    (try constructor) <;> (try split_ifs) <;> (try omega)

/-- The selection is dropped by `selscroll` when its rows are shifted and
the begin row leaves the region at the bottom or the end row leaves it at the
top. -/
theorem selscroll_dropped (s : State) (orig n : Int) (hb : s.sel.bx ≠ -1)
    (hby1 : -2147483648 ≤ s.sel.by_ + n) (hby2 : s.sel.by_ + n < 2147483648)
    (hey1 : -2147483648 ≤ s.sel.ey + n) (hey2 : s.sel.ey + n < 2147483648)
    (hin : BETWEEN s.sel.by_ orig s.term.bot ∨ BETWEEN s.sel.ey orig s.term.bot)
    (h : s.term.bot < s.sel.by_ + n ∨ s.sel.ey + n < s.term.top) :
    (selscroll s orig n).sel.bx = -1 := by
  have w1 := wrapInt_of_range _ hby1 hby2
  have w2 := wrapInt_of_range _ hey1 hey2
  unfold selscroll
  rw [if_neg hb, if_pos hin]
  simp only [w1, w2, gt_iff_lt]
  by_cases c1 : s.term.bot < s.sel.by_ + n
  · rw [if_pos c1]
  · rw [if_neg c1]
    have c2 : s.sel.ey + n < s.term.top := by
      rcases h with h | h
      · exact absurd h c1
      · exact h
    rw [if_pos c2]

/-- An array reallocated to `n` elements reads as before below `n`, when
the new elements are the default of the read. -/
theorem idx_resizeTo {α : Type} (r : List α) (n x : Int) (d : α) (hx : x < n) :
    idx (resizeTo r n d) x d = idx r x d := by
  unfold resizeTo idx
  by_cases hx0 : 0 ≤ x
  · rw [if_pos hx0, if_pos hx0, List.getD_eq_getElem?_getD, List.getD_eq_getElem?_getD,
      List.getElem?_take, if_pos (by omega)]
    by_cases hl : x.toNat < r.length
    · rw [List.getElem?_append_left hl]
    · rw [List.getElem?_append_right (by omega), List.getElem?_eq_none (l := r) (by omega),
        List.getElem?_replicate]
      split_ifs <;> rfl
  · rw [if_neg hx0, if_neg hx0]

theorem length_resizeTo {α : Type} (r : List α) (n : Int) (d : α) :
    (resizeTo r n d).length = n.toNat := by
  unfold resizeTo
  rw [List.length_take, List.length_append, List.length_replicate]
  omega

/-- The tab stops after `memset(tabs + start, 0, n)`: the stops outside
`[start, start + n)` are kept, and no stop is set. -/
theorem clearTabs_spec (tabs : List Bool) (start n : Int) (hn : 0 ≤ n) :
    (clearTabs tabs start n).length = tabs.length ∧
    (∀ j, j < start → idx (clearTabs tabs start n) j false = idx tabs j false) ∧
    (∀ j, idx (clearTabs tabs start n) j false = true → idx tabs j false = true) := by
  unfold clearTabs
  refine forRange_ind (fun (_ : Int) (t : List Bool) => t.length = tabs.length ∧
    (∀ j, j < start → idx t j false = idx tabs j false) ∧
    (∀ j, idx t j false = true → idx tabs j false = true)) start (start + n - 1)
    (fun i t => setIdx t i false) tabs (by omega) ⟨rfl, fun _ _ => rfl, fun _ h => h⟩ ?_
  intro i t hi0 _ ⟨h1, h2, h3⟩
  refine ⟨by rw [length_setIdx]; exact h1, ?_, ?_⟩
  · intro j hj
    rw [idx_setIdx_ne t i j false false (by omega)]
    exact h2 j hj
  · intro j hj
    rcases idx_setIdx t i j false false with e | ⟨e, _⟩
    · rw [e] at hj; exact h3 j hj
    · rw [e] at hj; exact absurd hj (by decide)

/-- The walk back over the tab stops ends at the last stop set at or below
the column it starts from, or at column 0. -/
theorem tabBackward_spec (tabs : List Bool) : ∀ (fuel : Nat) (x : Int), x ≤ (fuel : Int) →
    tabBackward tabs fuel x ≤ x ∧ (0 ≤ x → 0 ≤ tabBackward tabs fuel x) ∧
    (x < 0 → tabBackward tabs fuel x = x) ∧
    (0 < tabBackward tabs fuel x → idx tabs (tabBackward tabs fuel x) false = true) ∧
    (∀ j, tabBackward tabs fuel x < j → j ≤ x → idx tabs j false = false) := by
  intro fuel
  induction fuel with
  | zero =>
    intro x hx
    unfold tabBackward
    refine ⟨le_refl _, fun h => h, fun _ => rfl, fun h => ?_, fun j h1 h2 => ?_⟩
    · simp only [Nat.cast_zero] at hx; omega
    · omega
  | succ fuel ih =>
    intro x hx
    unfold tabBackward
    by_cases hc : x > 0 ∧ ¬ idx tabs x false
    · rw [if_pos hc]
      obtain ⟨i1, i2, i3, i4, i5⟩ := ih (x - 1) (by push_cast at hx; omega)
      refine ⟨by omega, fun _ => i2 (by omega), fun h => by omega, i4, ?_⟩
      intro j h1 h2
      by_cases hj : j = x
      · subst hj
        have := hc.2
        revert this
        cases idx tabs j false <;> simp
      · exact i5 j h1 (by omega)
    · rw [if_neg hc]
      refine ⟨le_refl _, fun h => h, fun _ => rfl, fun h => ?_, fun j h1 h2 => by omega⟩
      by_contra hne
      exact hc ⟨h, by rw [Bool.not_eq_true] at hne ⊢; rw [hne]⟩

/-- The walk back reads only the stops at or below its start. -/
theorem tabBackward_congr (a b : List Bool) : ∀ (fuel : Nat) (x : Int),
    (∀ j, j ≤ x → idx a j false = idx b j false) →
    tabBackward a fuel x = tabBackward b fuel x := by
  intro fuel
  induction fuel with
  | zero => intro x _; rfl
  | succ fuel ih =>
    intro x h
    unfold tabBackward
    rw [h x (le_refl _), ih (x - 1) (fun j hj => h j (by omega))]

/-- The loop that sets a stop every `tabspaces` columns from column `i` up
to `bound`: the stops set before are kept, and the columns `i + k * tabspaces`
below `bound` get a stop. -/
theorem setTabs_spec (ts : Nat) (hts : 1 ≤ ts) (bound : Int) : ∀ (fuel : Nat) (i : Int)
    (tabs : List Bool), bound - i ≤ (fuel : Int) → ∀ j, 0 ≤ j → j.toNat < tabs.length →
    (idx (setTabs ts bound fuel i tabs) j false = true ↔
      idx tabs j false = true ∨ (j < bound ∧ ∃ k : Nat, j = i + (k : Int) * (ts : Int))) := by
  intro fuel
  induction fuel with
  | zero =>
    intro i tabs hf j hj0 hj1
    unfold setTabs
    constructor
    · intro h; exact Or.inl h
    · rintro (h | ⟨h1, k, hk⟩)
      · exact h
      · exfalso
        have : (0 : Int) ≤ (k : Int) * (ts : Int) := by positivity
        simp only [Nat.cast_zero] at hf
        omega
  | succ fuel ih =>
    intro i tabs hf j hj0 hj1
    unfold setTabs
    have hts2 : (1 : Int) ≤ (ts : Int) := by exact_mod_cast hts
    by_cases hc : i < bound
    · rw [if_pos hc, ih (i + ts) (setIdx tabs i true) (by push_cast at hf; omega) j hj0
        (by rw [length_setIdx]; exact hj1)]
      constructor
      · rintro (h | ⟨h1, k, hk⟩)
        · rcases idx_setIdx tabs i j true false with e | ⟨_, e⟩
          · rw [e] at h; exact Or.inl h
          · exact Or.inr ⟨by omega, 0, by simp [e]⟩
        · exact Or.inr ⟨h1, k + 1, by push_cast; rw [hk]; ring⟩
      · rintro (h | ⟨h1, k, hk⟩)
        · left
          rcases idx_setIdx tabs i j true false with e | ⟨e, _⟩
          · rw [e]; exact h
          · exact e
        · cases k with
          | zero =>
            left
            have e : j = i := by simpa using hk
            subst e
            exact idx_setIdx_eq tabs j true false hj0 hj1
          | succ k =>
            right
            exact ⟨h1, k, by push_cast at hk; rw [hk]; ring⟩
    · rw [if_neg hc]
      constructor
      · intro h; exact Or.inl h
      · rintro (h | ⟨h1, k, hk⟩)
        · exact h
        · exfalso
          have : (0 : Int) ≤ (k : Int) * (ts : Int) := by positivity
          omega

theorem tabs_tsetdirt (s : State) (a b : Int) : (tsetdirt s a b).term.tabs = s.term.tabs := by
  unfold tsetdirt
  simp only []
  exact forRange_induct (fun t : State => t.term.tabs = s.term.tabs) _ _
    (fun i s => s.setDirty i)
    (fun i t ht => show (t.setDirty i).term.tabs = s.term.tabs from ht) s rfl

theorem tabs_selclear (s : State) : (selclear s).term.tabs = s.term.tabs := by
  unfold selclear
  split_ifs
  · rfl
  · rw [tabs_tsetdirt]

theorem tabs_tclearregion (s : State) (x1 y1 x2 y2 : Int) :
    (tclearregion s x1 y1 x2 y2).term.tabs = s.term.tabs := by
  unfold tclearregion
  refine forRange_induct (fun t : State => t.term.tabs = s.term.tabs) _ _ _ (fun y t ht => ?_)
    s rfl
  refine forRange_induct (fun u : State => u.term.tabs = s.term.tabs) _ _ _ (fun x u hu => ?_)
    (t.setDirty y) ht
  show (if selected u.sel x y then selclear u else u).term.tabs = s.term.tabs
  split_ifs
  · rw [tabs_selclear]; exact hu
  · exact hu

theorem tabs_tswapscreen (s : State) : (tswapscreen s).term.tabs = s.term.tabs := by
  unfold tswapscreen tfulldirt
  rw [tabs_tsetdirt]

theorem tabs_tresizeClear (col row mincol minrow : Int) (s : State) :
    (tresizeClear col row mincol minrow s).term.tabs = s.term.tabs := by
  unfold tresizeClear
  simp only []
  rw [tabs_tswapscreen]
  split_ifs <;> simp only [tabs_tclearregion]

/-- The first part of `tresize` reallocates the tab stops to the new width
and keeps the old width and the configuration. -/
theorem tabs_tresizeRows (s : State) (col row : Int) :
    (tresizeRows s col row).term.tabs = resizeTo s.term.tabs col false ∧
    (tresizeRows s col row).term.col = s.term.col ∧
    (tresizeRows s col row).cfg = s.cfg := by
  unfold tresizeRows
  simp only []
  refine forRange_induct (fun t : State => t.term.tabs = resizeTo s.term.tabs col false ∧
    t.term.col = s.term.col ∧ t.cfg = s.cfg) _ _ (fun i s => tresizeNew col s i)
    (fun i t ht => show (tresizeNew col t i).term.tabs = _ ∧ (tresizeNew col t i).term.col = _ ∧
      (tresizeNew col t i).cfg = _ from ht) _ ?_
  refine forRange_induct (fun t : State => t.term.tabs = resizeTo s.term.tabs col false ∧
    t.term.col = s.term.col ∧ t.cfg = s.cfg) _ _ (fun i s => tresizeKeep col s i)
    (fun i t ht => show (tresizeKeep col t i).term.tabs = _ ∧ (tresizeKeep col t i).term.col = _ ∧
      (tresizeKeep col t i).cfg = _ from ht) _ ?_
  split_ifs <;> exact ⟨rfl, rfl, rfl⟩

/-- The tab stops after `tresize` are those left by its block
`if(col > term->col)`. -/
theorem tabs_tresize (s : State) (col row : Int) (hc : 1 ≤ col) (hr : 1 ≤ row) :
    (tresize s col row).1.term.tabs = (tresizeTabs (tresizeRows s col row) col).term.tabs := by
  unfold tresize
  rw [if_neg (by omega)]
  simp only []
  rw [tabs_tresizeClear, tabs_tresizeClear]
  rfl

/-- The tab stops after `tresize`, read below the new width: the stops of
the old columns are kept, and when the terminal gets wider a stop is set every
`tabspaces` columns after the last stop of the old columns. -/
theorem tresize_tabs_idx (s : State) (col row : Int) (hc : 1 ≤ col) (hr : 1 ≤ row)
    (hts : 1 ≤ s.cfg.tabspaces) (hsc : 1 ≤ s.term.col)
    (hlen : s.term.tabs.length = s.term.col.toNat) (i : Int) (hi0 : 0 ≤ i) (hi1 : i < col) :
    (idx (tresize s col row).1.term.tabs i false = true ↔
      (i < s.term.col ∧ idx s.term.tabs i false = true) ∨
      (s.term.col < col ∧ ∃ k : Nat, 1 ≤ k ∧
        i = tabBackward s.term.tabs (s.term.col - 1).toNat (s.term.col - 1) +
          (k : Int) * (s.cfg.tabspaces : Int))) := by
  obtain ⟨t1, t2, t3⟩ := tabs_tresizeRows s col row
  rw [tabs_tresize s col row hc hr]
  generalize tresizeRows s col row = T at t1 t2 t3
  have hold : ∀ j, idx s.term.tabs j false = true → j < s.term.col := by
    intro j hj
    by_contra hn
    by_cases hj0 : 0 ≤ j
    · rw [idx_of_ge _ _ _ (by rw [hlen]; omega)] at hj
      exact absurd hj (by decide)
    · rw [idx_of_neg _ _ _ (by omega)] at hj
      exact absurd hj (by decide)
  unfold tresizeTabs
  rw [t2, t3]
  by_cases hw : col > s.term.col
  · rw [if_pos hw]
    show idx (setTabs s.cfg.tabspaces col col.toNat _ _) i false = true ↔ _
    obtain ⟨c1, c2, c3⟩ := clearTabs_spec T.term.tabs s.term.col (col - s.term.col) (by omega)
    have hbp : tabBackward (clearTabs T.term.tabs s.term.col (col - s.term.col))
        (s.term.col - 1).toNat (s.term.col - 1) =
        tabBackward s.term.tabs (s.term.col - 1).toNat (s.term.col - 1) := by
      apply tabBackward_congr
      intro j hj
      rw [c2 j (by omega), t1, idx_resizeTo _ _ _ _ (by omega)]
    rw [hbp]
    obtain ⟨b1, b2, _, _, _⟩ := tabBackward_spec s.term.tabs (s.term.col - 1).toNat
      (s.term.col - 1) (by omega)
    have hb0 := b2 (by omega)
    generalize tabBackward s.term.tabs (s.term.col - 1).toNat (s.term.col - 1) = bp at b1 hb0 ⊢
    have hts2 : (1 : Int) ≤ (s.cfg.tabspaces : Int) := by exact_mod_cast hts
    rw [setTabs_spec s.cfg.tabspaces hts col col.toNat (bp + s.cfg.tabspaces) _ (by omega) i hi0
      (by rw [c1, t1, length_resizeTo]; omega)]
    have hcl : idx (clearTabs T.term.tabs s.term.col (col - s.term.col)) i false = true ↔
        i < s.term.col ∧ idx s.term.tabs i false = true := by
      constructor
      · intro h
        have h2 := c3 i h
        rw [t1, idx_resizeTo _ _ _ _ hi1] at h2
        exact ⟨hold i h2, h2⟩
      · rintro ⟨h1, h2⟩
        rw [c2 i h1, t1, idx_resizeTo _ _ _ _ hi1]
        exact h2
    rw [hcl]
    constructor
    · rintro (h | ⟨_, k, hk⟩)
      · exact Or.inl h
      · exact Or.inr ⟨hw, k + 1, by omega, by push_cast; rw [hk]; ring⟩
    · rintro (h | ⟨_, k, hk1, hk⟩)
      · exact Or.inl h
      · right
        refine ⟨hi1, k - 1, ?_⟩
        have : ((k - 1 : Nat) : Int) = (k : Int) - 1 := by omega
        rw [this, hk]
        ring
  · rw [if_neg hw, t1, idx_resizeTo _ _ _ _ hi1]
    constructor
    · intro h
      exact Or.inl ⟨hold i h, h⟩
    · rintro (h | ⟨h, _⟩)
      · exact h.2
      · exact absurd h (by omega)

theorem csiparse_erase_above (s : State) :
    csiparse ((s.setCsi
        { buf := [49, 74], priv := 0, arg := List.replicate ESC_ARG_SIZ 0, narg := 0,
          mode := 0 }).setEsc 0) =
      (s.setCsi
        { buf := [49, 74], priv := 0, arg := 1 :: List.replicate 15 0, narg := 1,
          mode := 74 }).setEsc 0 := by
  unfold csiparse
  rfl

theorem csihandle_ED_above (s : State) (hm : s.csiescseq.mode = 74) (ha : s.arg 0 = 1) :
    csihandle s =
      tclearregion
        (if s.term.c.y > 1 then
          tclearregion (s.setSel { s.sel with bx := -1 }) 0 0 (s.term.col - 1) (s.term.c.y - 1)
        else s.setSel { s.sel with bx := -1 })
        0
        (if s.term.c.y > 1 then
          tclearregion (s.setSel { s.sel with bx := -1 }) 0 0 (s.term.col - 1) (s.term.c.y - 1)
        else s.setSel { s.sel with bx := -1 }).term.c.y
        (if s.term.c.y > 1 then
          tclearregion (s.setSel { s.sel with bx := -1 }) 0 0 (s.term.col - 1) (s.term.c.y - 1)
        else s.setSel { s.sel with bx := -1 }).term.c.x
        (if s.term.c.y > 1 then
          tclearregion (s.setSel { s.sel with bx := -1 }) 0 0 (s.term.col - 1) (s.term.c.y - 1)
        else s.setSel { s.sel with bx := -1 }).term.c.y := by
  have ha2 : (s.setSel { s.sel with bx := -1 }).arg 0 = 1 := ha
  unfold csihandle
  simp only [hm, ha2]
  rfl

/-- The cells after `ESC [ 1 J`, for the cursor anywhere in the grid: the
rows above the cursor are blanked only when the cursor row is greater than
1. -/
theorem erase_above_cells (s : State) (h : GridOk s) (hesc : s.term.esc = 0)
    (hx0 : 0 ≤ s.term.c.x) (hx1 : s.term.c.x < s.term.col)
    (hy0 : 0 ≤ s.term.c.y) (hy1 : s.term.c.y < s.term.row) :
    (∀ x y, 0 ≤ x → x < s.term.col → 0 ≤ y → y < s.term.row →
      (tputs s [27, 91, 49, 74]).cell x y =
        if (1 < s.term.c.y ∧ y < s.term.c.y) ∨ (y = s.term.c.y ∧ x ≤ s.term.c.x) then
          blankGlyph s.term.c.attr
        else s.cell x y) ∧
    (tputs s [27, 91, 49, 74]).term.c = s.term.c ∧
    (tputs s [27, 91, 49, 74]).term.esc = 0 := by
  generalize hX : (((s.setCsi
        { buf := [49, 74], priv := 0, arg := 1 :: List.replicate 15 0, narg := 1,
          mode := 74 }).setEsc 0)).setSel { s.sel with bx := -1 } = X
  have hgX : GridOk X := by rw [← hX]; exact h
  have hcol : X.term.col = s.term.col := by rw [← hX]; rfl
  have hrow : X.term.row = s.term.row := by rw [← hX]; rfl
  have hcur : X.term.c = s.term.c := by rw [← hX]; rfl
  have hXesc : X.term.esc = 0 := by rw [← hX]; rfl
  have hcell : ∀ x y, X.cell x y = s.cell x y := by intro x y; rw [← hX]; rfl
  have e : tputs s [27, 91, 49, 74] =
      tclearregion
        (if X.term.c.y > 1 then tclearregion X 0 0 (X.term.col - 1) (X.term.c.y - 1) else X)
        0
        (if X.term.c.y > 1 then tclearregion X 0 0 (X.term.col - 1) (X.term.c.y - 1)
          else X).term.c.y
        (if X.term.c.y > 1 then tclearregion X 0 0 (X.term.col - 1) (X.term.c.y - 1)
          else X).term.c.x
        (if X.term.c.y > 1 then tclearregion X 0 0 (X.term.col - 1) (X.term.c.y - 1)
          else X).term.c.y := by
    show tputs s (27 :: 91 :: ([49] ++ [74])) = _
    rw [tputs_csi s [49] 74 hesc (by decide) (by decide) (by decide) (by decide)]
    show csihandle (csiparse ((s.setCsi
        { buf := [49, 74], priv := 0, arg := List.replicate ESC_ARG_SIZ 0, narg := 0,
          mode := 0 }).setEsc 0)) = _
    rw [csiparse_erase_above, csihandle_ED_above _ (by rfl) (by rfl), ← hX]
    rfl
  rw [e]
  -- the state after the first, optional, call
  have hY : ∃ Y : State, Y = (if X.term.c.y > 1 then
      tclearregion X 0 0 (X.term.col - 1) (X.term.c.y - 1) else X) ∧ GridOk Y ∧
      Y.term.col = X.term.col ∧ Y.term.row = X.term.row ∧ Y.term.c = X.term.c ∧
      Y.term.esc = X.term.esc ∧
      ∀ x y, 0 ≤ x → x < X.term.col → 0 ≤ y → y < X.term.row →
        Y.cell x y = if 1 < X.term.c.y ∧ y < X.term.c.y then blankGlyph X.term.c.attr
          else X.cell x y := by
    refine ⟨_, rfl, ?_⟩
    by_cases hc : X.term.c.y > 1
    · rw [if_pos hc]
      have c0 := tclearregion_cleared X 0 0 (X.term.col - 1) (X.term.c.y - 1) hgX.1 hgX.2.1
      have hy1X : X.term.c.y < X.term.row := by rw [hcur, hrow]; exact hy1
      have c1 : clamp (min 0 (X.term.col - 1)) 0 (X.term.col - 1) = 0 := by
        have := hgX.1
        unfold clamp; omega
      have c2 : clamp (max 0 (X.term.col - 1)) 0 (X.term.col - 1) = X.term.col - 1 := by
        have := hgX.1
        unfold clamp; omega
      have c3 : clamp (min 0 (X.term.c.y - 1)) 0 (X.term.row - 1) = 0 := by
        unfold clamp; omega
      have c4 : clamp (max 0 (X.term.c.y - 1)) 0 (X.term.row - 1) = X.term.c.y - 1 := by
        unfold clamp; omega
      rw [c1, c2, c3, c4] at c0
      obtain ⟨_, _, a3, a4, a5⟩ := cleared_fields c0
      obtain ⟨a6, _, _⟩ := cleared_cursor c0
      refine ⟨cleared_gridOk hgX c0, a3, a4, a6, a5, ?_⟩
      intro x y hx0' hx1' hy0' hy1'
      rw [cleared_cell hgX c0 (le_refl _) (by omega) x y hx0' hx1' hy0' hy1']
      by_cases hyy : y < X.term.c.y
      · rw [if_pos ⟨hx0', by omega, hy0', by omega⟩, if_pos ⟨by omega, hyy⟩]
      · rw [if_neg (fun hh => hyy (by omega)), if_neg (fun hh => hyy hh.2)]
    · rw [if_neg hc]
      refine ⟨hgX, rfl, rfl, rfl, rfl, ?_⟩
      intro x y _ _ _ _
      rw [if_neg (fun hh => hc hh.1)]
  obtain ⟨Y, hYe, hgY, y1, y2, y3, y4, y5⟩ := hY
  rw [← hYe]
  have d0 := tclearregion_cleared Y 0 Y.term.c.y Y.term.c.x Y.term.c.y hgY.1 hgY.2.1
  have hcx0 : 0 ≤ Y.term.c.x := by rw [y3, hcur]; exact hx0
  have hcx1 : Y.term.c.x < Y.term.col := by rw [y3, hcur, y1, hcol]; exact hx1
  have hcy0 : 0 ≤ Y.term.c.y := by rw [y3, hcur]; exact hy0
  have hcy1 : Y.term.c.y < Y.term.row := by rw [y3, hcur, y2, hrow]; exact hy1
  have d1 : clamp (min 0 Y.term.c.x) 0 (Y.term.col - 1) = 0 := by unfold clamp; omega
  have d2 : clamp (max 0 Y.term.c.x) 0 (Y.term.col - 1) = Y.term.c.x := by unfold clamp; omega
  have d3 : clamp (min Y.term.c.y Y.term.c.y) 0 (Y.term.row - 1) = Y.term.c.y := by
    unfold clamp; omega
  have d4 : clamp (max Y.term.c.y Y.term.c.y) 0 (Y.term.row - 1) = Y.term.c.y := by
    unfold clamp; omega
  rw [d1, d2, d3, d4] at d0
  obtain ⟨_, _, _, _, b5⟩ := cleared_fields d0
  obtain ⟨b6, _, _⟩ := cleared_cursor d0
  refine ⟨?_, by rw [b6, y3, hcur], by rw [b5, y4, hXesc]⟩
  intro x y hx0' hx1' hy0' hy1'
  rw [cleared_cell hgY d0 hcy0 hcy1 x y hx0' (by rw [y1, hcol]; exact hx1') hy0'
    (by rw [y2, hrow]; exact hy1'),
    y5 x y hx0' (by rw [hcol]; exact hx1') hy0' (by rw [hrow]; exact hy1'), hcell, y3, hcur]
  by_cases k1 : y = s.term.c.y ∧ x ≤ s.term.c.x
  · rw [if_pos ⟨hx0', k1.2, by omega, by omega⟩, if_pos (Or.inr k1)]
  · rw [if_neg (fun hh => k1 ⟨by omega, hh.2.1⟩)]
    by_cases k2 : 1 < s.term.c.y ∧ y < s.term.c.y
    · rw [if_pos k2, if_pos (Or.inl k2)]
    · rw [if_neg k2, if_neg (fun hh => hh.elim k2 k1)]

/-- The call `tsetdirt(term, i, i)` for a row of the grid sets the dirty flag
of that row. -/
theorem tsetdirt_single (s : State) (i : Int) (h0 : 0 ≤ i) (h1 : i < s.term.row) :
    tsetdirt s i i = s.setDirty i := by
  unfold tsetdirt
  simp only []
  rw [LIMIT_id i 0 (s.term.row - 1) h0 (by omega)]
  unfold forRange
  have e : (i + 1 - i).toNat = 1 := by omega
  rw [e]
  simp [List.range_succ]

theorem rowHasAttr_iff (s : State) (attr : Nat) (i : Int) :
    rowHasAttr s attr i = true ↔
      ∃ j : Int, 0 ≤ j ∧ j < s.term.col - 1 ∧ (s.cell j i).mode &&& attr ≠ 0 := by
  unfold rowHasAttr
  rw [List.any_eq_true]
  constructor
  · rintro ⟨j, hj, h⟩
    rw [List.mem_range] at hj
    exact ⟨(j : Int), by omega, by omega, of_decide_eq_true h⟩
  · rintro ⟨j, hj0, hj1, h⟩
    refine ⟨j.toNat, by rw [List.mem_range]; omega, ?_⟩
    have e : ((j.toNat : Nat) : Int) = j := by omega
    rw [e]
    exact decide_eq_true h

theorem setIdx_idx_self {α : Type} (l : List α) (i : Int) (d : α) :
    setIdx l i (idx l i d) = l := by
  unfold setIdx idx
  by_cases h0 : 0 ≤ i
  · rw [if_pos h0, if_pos h0]
    by_cases h1 : i.toNat < l.length
    · rw [List.getD_eq_getElem?_getD, List.getElem?_eq_getElem h1]
      exact list_set_self l i.toNat h1
    · exact List.set_eq_of_length_le (by omega)
  · rw [if_neg h0]

/-- The exchange of a row pointer with itself leaves the row pointers as
they are. -/
theorem swapLines_self (s : State) (i : Int) :
    (swapLines s i i).term.line = s.term.line ∧ (swapLines s i i).heap = s.heap ∧
    (swapLines s i i).term.sb = s.term.sb ∧ (swapLines s i i).sel = s.sel ∧
    (swapLines s i i).term.c = s.term.c ∧ (swapLines s i i).term.col = s.term.col ∧
    (swapLines s i i).term.row = s.term.row ∧ (swapLines s i i).term.bot = s.term.bot ∧
    (swapLines s i i).term.top = s.term.top := by
  refine ⟨?_, rfl, rfl, rfl, rfl, rfl, rfl, rfl, rfl⟩
  show setIdx (setIdx s.term.line i (idx s.term.line i 0)) i (idx s.term.line i 0) = _
  rw [setIdx_idx_self, setIdx_idx_self]

/-- A scroll loop that exchanges every row pointer with itself keeps the row
pointers, the heap, the selection and the scrollback. -/
theorem selfSwap_up (u : State) (lo hi : Int) :
    (forRange lo hi (fun i s => swapLines s i (i + 0)) u).term.line = u.term.line ∧
    (forRange lo hi (fun i s => swapLines s i (i + 0)) u).heap = u.heap ∧
    (forRange lo hi (fun i s => swapLines s i (i + 0)) u).term.sb = u.term.sb ∧
    (forRange lo hi (fun i s => swapLines s i (i + 0)) u).sel = u.sel ∧
    (forRange lo hi (fun i s => swapLines s i (i + 0)) u).term.bot = u.term.bot ∧
    (forRange lo hi (fun i s => swapLines s i (i + 0)) u).term.top = u.term.top := by
  refine forRange_induct (fun t : State => t.term.line = u.term.line ∧ t.heap = u.heap ∧
    t.term.sb = u.term.sb ∧ t.sel = u.sel ∧ t.term.bot = u.term.bot ∧
    t.term.top = u.term.top) lo hi
    (fun i s => swapLines s i (i + 0)) ?_ u ⟨rfl, rfl, rfl, rfl, rfl, rfl⟩
  intro i t ⟨h1, h2, h3, h4, h5, h6⟩
  beta_reduce
  rw [add_zero]
  obtain ⟨a1, a2, a3, a4, _, _, _, a8, a9⟩ := swapLines_self t i
  exact ⟨a1.trans h1, a2.trans h2, a3.trans h3, a4.trans h4, a8.trans h5, a9.trans h6⟩

theorem selfSwap_down (u : State) (hi lo : Int) :
    (forRangeDown hi lo (fun i s => swapLines s i (i - 0)) u).term.line = u.term.line ∧
    (forRangeDown hi lo (fun i s => swapLines s i (i - 0)) u).heap = u.heap ∧
    (forRangeDown hi lo (fun i s => swapLines s i (i - 0)) u).term.sb = u.term.sb ∧
    (forRangeDown hi lo (fun i s => swapLines s i (i - 0)) u).sel = u.sel ∧
    (forRangeDown hi lo (fun i s => swapLines s i (i - 0)) u).term.bot = u.term.bot ∧
    (forRangeDown hi lo (fun i s => swapLines s i (i - 0)) u).term.top = u.term.top := by
  refine forRangeDown_induct (fun t : State => t.term.line = u.term.line ∧ t.heap = u.heap ∧
    t.term.sb = u.term.sb ∧ t.sel = u.sel ∧ t.term.bot = u.term.bot ∧
    t.term.top = u.term.top) hi lo
    (fun i s => swapLines s i (i - 0)) ?_ u ⟨rfl, rfl, rfl, rfl, rfl, rfl⟩
  intro i t ⟨h1, h2, h3, h4, h5, h6⟩
  beta_reduce
  rw [sub_zero]
  obtain ⟨a1, a2, a3, a4, _, _, _, a8, a9⟩ := swapLines_self t i
  exact ⟨a1.trans h1, a2.trans h2, a3.trans h3, a4.trans h4, a8.trans h5, a9.trans h6⟩

theorem LIMIT_nonpos (n b : Int) (hn : n ≤ 0) (hb : 0 ≤ b) : LIMIT n 0 b = 0 := by
  unfold LIMIT
  split_ifs <;> omega

/-- The call `tscrollup(orig, n)` with `n <= 0`: nothing is scrolled, but
the rows `orig - 1` and `orig` are blanked. -/
theorem tscrollup_nonpos (s : State) (orig n : Int) (h : GridOk s) (hn : n ≤ 0)
    (h0 : 0 ≤ orig) (hob : orig ≤ s.term.bot) (hb : s.term.bot < s.term.row) :
    (tscrollup s orig n).term.line = s.term.line ∧
    (tscrollup s orig n).term.sb = s.term.sb ∧
    ∀ x y, 0 ≤ x → x < s.term.col → 0 ≤ y → y < s.term.row →
      (tscrollup s orig n).cell x y =
        if orig - 1 ≤ y ∧ y ≤ orig then blankGlyph s.term.c.attr else s.cell x y := by
  have hl : LIMIT n 0 (s.term.bot - orig + 1) = 0 := LIMIT_nonpos n _ hn (by omega)
  have c0 := tclearregion_cleared s 0 orig (s.term.col - 1) (orig + 0 - 1) h.1 h.2.1
  have c1 : clamp (min 0 (s.term.col - 1)) 0 (s.term.col - 1) = 0 := by
    have := h.1
    unfold clamp; omega
  have c2 : clamp (max 0 (s.term.col - 1)) 0 (s.term.col - 1) = s.term.col - 1 := by
    have := h.1
    unfold clamp; omega
  have c3 : clamp (max orig (orig + 0 - 1)) 0 (s.term.row - 1) = orig := by
    unfold clamp; omega
  rw [c1, c2, c3] at c0
  have hya : 0 ≤ clamp (min orig (orig + 0 - 1)) 0 (s.term.row - 1) := by unfold clamp; omega
  have hya2 : ∀ y, 0 ≤ y →
      (clamp (min orig (orig + 0 - 1)) 0 (s.term.row - 1) ≤ y ↔ orig - 1 ≤ y) := by
    intro y hy
    unfold clamp; omega
  generalize clamp (min orig (orig + 0 - 1)) 0 (s.term.row - 1) = ya at c0 hya hya2
  have e : tscrollup s orig n =
      selscroll (forRange orig
        ((tclearregion s 0 orig (s.term.col - 1) (orig + 0 - 1)).term.bot - 0)
        (fun i s => swapLines s i (i + 0))
        (tclearregion s 0 orig (s.term.col - 1) (orig + 0 - 1))) orig (-0) := by
    unfold tscrollup
    simp only [hl]
    rw [forRange_empty orig (orig + 0 - 1) _ s (by omega)]
    simp only [ite_self]
  rw [e]
  generalize tclearregion s 0 orig (s.term.col - 1) (orig + 0 - 1) = T at c0
  obtain ⟨s1, s2⟩ := selscroll_spec (forRange orig (T.term.bot - 0)
    (fun i s => swapLines s i (i + 0)) T) orig (-0)
  obtain ⟨w1, w2, w3, _⟩ := selfSwap_up T orig (T.term.bot - 0)
  obtain ⟨a1, _, _, _, _⟩ := cleared_fields c0
  have hsb : T.term.sb = s.term.sb :=
    show (T.withGridOf s).term.sb = (s.withGridOf s).term.sb by rw [c0.1 s]
  refine ⟨by rw [s1, w1, a1], by rw [s1, w3, hsb], ?_⟩
  intro x y hx0 hx1 hy0 hy1
  have hcell := cleared_cell h c0 hya (by omega) x y hx0 hx1 hy0 hy1
  have e2 : (selscroll (forRange orig (T.term.bot - 0) (fun i s => swapLines s i (i + 0)) T)
      orig (-0)).cell x y = T.cell x y := by
    unfold State.cell State.lineAt
    rw [s1, s2, w1, w2]
  rw [e2, hcell]
  by_cases hin : orig - 1 ≤ y ∧ y ≤ orig
  · rw [if_pos ⟨hx0, by omega, (hya2 y hy0).mpr hin.1, hin.2⟩, if_pos hin]
  · rw [if_neg (fun hh => hin ⟨(hya2 y hy0).mp hh.2.2.1, hh.2.2.2⟩), if_neg hin]

/-- The call `tscrolldown(orig, n)` with `n <= 0`: nothing is scrolled, but
the rows `bot` and `bot + 1` are blanked. -/
theorem tscrolldown_nonpos (s : State) (orig n : Int) (h : GridOk s) (hn : n ≤ 0)
    (h0 : 0 ≤ orig) (hob : orig ≤ s.term.bot) (hb : s.term.bot < s.term.row) :
    (tscrolldown s orig n).term.line = s.term.line ∧
    (tscrolldown s orig n).term.sb = s.term.sb ∧
    ∀ x y, 0 ≤ x → x < s.term.col → 0 ≤ y → y < s.term.row →
      (tscrolldown s orig n).cell x y =
        if s.term.bot ≤ y ∧ y ≤ s.term.bot + 1 then blankGlyph s.term.c.attr
        else s.cell x y := by
  have hl : LIMIT n 0 (s.term.bot - orig + 1) = 0 := LIMIT_nonpos n _ hn (by omega)
  have c0 := tclearregion_cleared s 0 (s.term.bot - 0 + 1) (s.term.col - 1) s.term.bot h.1 h.2.1
  have c1 : clamp (min 0 (s.term.col - 1)) 0 (s.term.col - 1) = 0 := by
    have := h.1
    unfold clamp; omega
  have c2 : clamp (max 0 (s.term.col - 1)) 0 (s.term.col - 1) = s.term.col - 1 := by
    have := h.1
    unfold clamp; omega
  have c3 : clamp (min (s.term.bot - 0 + 1) s.term.bot) 0 (s.term.row - 1) = s.term.bot := by
    unfold clamp; omega
  rw [c1, c2, c3] at c0
  have hyb : clamp (max (s.term.bot - 0 + 1) s.term.bot) 0 (s.term.row - 1) < s.term.row := by
    unfold clamp; omega
  have hyb2 : ∀ y, y < s.term.row →
      (y ≤ clamp (max (s.term.bot - 0 + 1) s.term.bot) 0 (s.term.row - 1) ↔
        y ≤ s.term.bot + 1) := by
    intro y hy
    unfold clamp; omega
  generalize clamp (max (s.term.bot - 0 + 1) s.term.bot) 0 (s.term.row - 1) = yb
    at c0 hyb hyb2
  have e : tscrolldown s orig n =
      selscroll (forRangeDown
        (tclearregion s 0 (s.term.bot - 0 + 1) (s.term.col - 1) s.term.bot).term.bot (orig + 0)
        (fun i s => swapLines s i (i - 0))
        (tclearregion s 0 (s.term.bot - 0 + 1) (s.term.col - 1) s.term.bot)) orig 0 := by
    unfold tscrolldown
    simp only [hl]
  rw [e]
  generalize tclearregion s 0 (s.term.bot - 0 + 1) (s.term.col - 1) s.term.bot = T at c0
  obtain ⟨s1, s2⟩ := selscroll_spec (forRangeDown T.term.bot (orig + 0)
    (fun i s => swapLines s i (i - 0)) T) orig 0
  obtain ⟨w1, w2, w3, _⟩ := selfSwap_down T T.term.bot (orig + 0)
  obtain ⟨a1, _, _, _, _⟩ := cleared_fields c0
  have hsb : T.term.sb = s.term.sb :=
    show (T.withGridOf s).term.sb = (s.withGridOf s).term.sb by rw [c0.1 s]
  refine ⟨by rw [s1, w1, a1], by rw [s1, w3, hsb], ?_⟩
  intro x y hx0 hx1 hy0 hy1
  have hcell := cleared_cell h c0 (by omega) hyb x y hx0 hx1 hy0 hy1
  have e2 : (selscroll (forRangeDown T.term.bot (orig + 0) (fun i s => swapLines s i (i - 0)) T)
      orig 0).cell x y = T.cell x y := by
    unfold State.cell State.lineAt
    rw [s1, s2, w1, w2]
  rw [e2, hcell]
  by_cases hin : s.term.bot ≤ y ∧ y ≤ s.term.bot + 1
  · rw [if_pos ⟨hx0, by omega, hin.1, (hyb2 y hy1).mpr hin.2⟩, if_pos hin]
  · rw [if_neg (fun hh => hin ⟨hh.2.2.1, (hyb2 y hy1).mp hh.2.2.2⟩), if_neg hin]

theorem mouseMods_bounds (state : Nat) : 0 ≤ mouseMods state ∧ mouseMods state ≤ 28 := by
  unfold mouseMods
  split_ifs <;> omega

theorem charByte_id (v : Int) (h0 : 0 ≤ v) (h1 : v ≤ 255) : (charByte v : Int) = v := by
  unfold charByte
  omega

theorem charByte_le (v : Int) : charByte v ≤ 255 := by
  unfold charByte
  omega

theorem view_scrollback_get (s : State) (i : Int) (v : State) :
    (scrollback_get s i).1.withViewOf v = s.withViewOf v ∧
    (scrollback_get s i).1.term.ybase = s.term.ybase := by
  unfold scrollback_get
  split
  · exact ⟨rfl, rfl⟩
  · split_ifs
    · exact ⟨rfl, rfl⟩
    · exact ⟨rfl, rfl⟩

theorem view_tscrollbackMap (s : State) (i : Int) (v : State) :
    (tscrollbackMap s i).withViewOf v = s.withViewOf v ∧
    (tscrollbackMap s i).term.ybase = s.term.ybase := by
  unfold tscrollbackMap
  simp only []
  split_ifs
  · obtain ⟨h1, h2⟩ := view_scrollback_get s (-(i + s.term.ybase + 1)) v
    exact ⟨h1, h2⟩
  · exact ⟨rfl, rfl⟩

/-- What `tscrollback` leaves as it is: everything but the heap, the row
pointers, the dirty flags and the view base, which becomes the clamped sum. -/
theorem tscrollback_frame (s : State) (n : Int) :
    (∀ v : State, (tscrollback s n).withViewOf v = s.withViewOf v) ∧
    (tscrollback s n).term.ybase = tscrollbackBase s n := by
  have hP : ∀ (f : Int → State → State) (lo hi : Int) (u : State),
      (∀ i t v, (f i t).withViewOf v = t.withViewOf v ∧ (f i t).term.ybase = t.term.ybase) →
      (∀ v : State, (forRange lo hi f u).withViewOf v = u.withViewOf v) ∧
      (forRange lo hi f u).term.ybase = u.term.ybase := by
    intro f lo hi u hf
    exact forRange_induct (fun t : State => (∀ v : State, t.withViewOf v = u.withViewOf v) ∧
      t.term.ybase = u.term.ybase) lo hi f
      (fun i t ht => ⟨fun v => ((hf i t v).1).trans (ht.1 v), ((hf i t u).2).trans ht.2⟩)
      u ⟨fun _ => rfl, rfl⟩
  have hR := fun (lo hi : Int) (u : State) =>
    hP (fun i s => tscrollbackRestore s i) lo hi u (fun i t v => ⟨rfl, rfl⟩)
  have hS := fun (lo hi : Int) (u : State) =>
    hP (fun i s => tscrollbackSnapshot s i) lo hi u (fun i t v => ⟨rfl, rfl⟩)
  have hM := fun (lo hi : Int) (u : State) =>
    hP (fun i s => tscrollbackMap s i) lo hi u (fun i t v => view_tscrollbackMap t i v)
  unfold tscrollback
  simp only []
  split_ifs
  · obtain ⟨a1, a2⟩ := hR 0 (s.term.row - 1)
      { s with term := { s.term with ybase := tscrollbackBase s n } }
    exact ⟨fun v => (a1 v), a2⟩
  · obtain ⟨a1, a2⟩ := hM 0 ((forRange 0 (s.term.row - 1) (fun i s => tscrollbackSnapshot s i)
      { s with term := { s.term with ybase := tscrollbackBase s n } }).term.row - 1)
      (forRange 0 (s.term.row - 1) (fun i s => tscrollbackSnapshot s i)
      { s with term := { s.term with ybase := tscrollbackBase s n } })
    obtain ⟨b1, b2⟩ := hS 0 (s.term.row - 1)
      { s with term := { s.term with ybase := tscrollbackBase s n } }
    exact ⟨fun v => (a1 v).trans (b1 v), a2.trans b2⟩
  · obtain ⟨a1, a2⟩ := hM 0 (s.term.row - 1)
      { s with term := { s.term with ybase := tscrollbackBase s n } }
    exact ⟨fun v => (a1 v), a2⟩

/-- The fields read from a frame equation of `tscrollback`. -/
theorem fields_of_view {t u v : State} (h : t.withViewOf v = u.withViewOf v) :
    t.term.c = u.term.c ∧ t.term.col = u.term.col ∧ t.term.row = u.term.row ∧
    t.term.top = u.term.top ∧ t.term.bot = u.term.bot ∧ t.term.mode = u.term.mode ∧
    t.term.sb = u.term.sb ∧ t.select_mode = u.select_mode :=
  ⟨show (t.withViewOf v).term.c = (u.withViewOf v).term.c by rw [h],
    show (t.withViewOf v).term.col = (u.withViewOf v).term.col by rw [h],
    show (t.withViewOf v).term.row = (u.withViewOf v).term.row by rw [h],
    show (t.withViewOf v).term.top = (u.withViewOf v).term.top by rw [h],
    show (t.withViewOf v).term.bot = (u.withViewOf v).term.bot by rw [h],
    show (t.withViewOf v).term.mode = (u.withViewOf v).term.mode by rw [h],
    show (t.withViewOf v).term.sb = (u.withViewOf v).term.sb by rw [h],
    show (t.withViewOf v).select_mode = (u.withViewOf v).select_mode by rw [h]⟩

theorem oinv_of_core {s t : State} (h : core t = core s) (hs : OInv s) : OInv t := by
  refine ⟨inv_of_core h hs.1, ?_⟩
  have e1 : t.term.c.state = s.term.c.state := congrArg Core.cstate h
  have e2 : t.term.top = s.term.top := congrArg Core.top h
  have e3 : t.term.bot = s.term.bot := congrArg Core.bot h
  have e4 : t.term.c.y = s.term.c.y := congrArg Core.cy h
  have ho := hs.2
  unfold OriginOk at ho ⊢
  rw [e1, e2, e3, e4]
  exact ho

theorem oinv_tmoveto (s : State) (x y : Int) (h : (core s).geom) : OInv (tmoveto s x y) := by
  refine ⟨inv_tmoveto s x y h, ?_⟩
  obtain ⟨h1, h2, h3, h4, h5, h6, h7⟩ := h
  simp only [core] at h1 h2 h3 h4 h5 h6 h7
  unfold OriginOk
  show andNot s.term.c.state CURSOR_WRAPNEXT &&& CURSOR_ORIGIN ≠ 0 →
    s.term.top ≤ LIMIT y (if s.term.c.state &&& CURSOR_ORIGIN ≠ 0 then s.term.top else 0)
        (if s.term.c.state &&& CURSOR_ORIGIN ≠ 0 then s.term.bot else s.term.row - 1) ∧
      LIMIT y (if s.term.c.state &&& CURSOR_ORIGIN ≠ 0 then s.term.top else 0)
        (if s.term.c.state &&& CURSOR_ORIGIN ≠ 0 then s.term.bot else s.term.row - 1) ≤
        s.term.bot
  rw [andNot_wrapnext_origin]
  intro ho
  rw [if_pos ho, if_pos ho]
  exact LIMIT_bounds y _ _ h4

theorem oinv_tmoveato (s : State) (x y : Int) (h : OInv s) : OInv (tmoveato s x y) :=
  oinv_tmoveto s _ _ h.1.1

theorem inv_treset_arg (s0 : State) (col row : Int) (hc : 1 ≤ col) (hr : 1 ≤ row) :
    TermInv { (tresize { s0 with term := Term.zero } col row).1 with
      term := { (tresize { s0 with term := Term.zero } col row).1.term with numlock := true } } := by
  apply inv_of_core (s := (tresize { s0 with term := Term.zero } col row).1) rfl
  exact inv_tresize_of { s0 with term := Term.zero } col row (Or.inr ⟨hc, hr⟩)
    (show -(0 : Int) ≤ 0 by decide) (show (0 : Int) ≤ 0 by decide)

theorem oinv_scrollback_add (s : State) (l : Nat) (h : OInv s) : OInv (scrollback_add s l) := by
  refine ⟨inv_scrollback_add s l h.1, ?_⟩
  exact h.2

theorem oinv_tscrollupSave (s : State) (i : Int) (h : OInv s) : OInv (tscrollupSave s i) := by
  unfold tscrollupSave
  exact oinv_scrollback_add _ _ (oinv_of_core rfl h)

theorem oinv_tscrollup (s : State) (orig n : Int) (h : OInv s) : OInv (tscrollup s orig n) := by
  unfold tscrollup
  simp only []
  refine oinv_of_core (core_selscroll _ _ _) ?_
  refine oinv_of_core (forRange_core _ _ _ (fun i t => core_swapLines t _ _) _) ?_
  refine oinv_of_core (core_tclearregion _ _ _ _ _) ?_
  split_ifs
  · exact forRange_induct OInv _ _ _ (fun i t ht => oinv_tscrollupSave t i ht) s h
  · exact h

theorem oinv_tdeleteline (s : State) (n : Int) (h : OInv s) : OInv (tdeleteline s n) := by
  unfold tdeleteline
  split_ifs
  · exact h
  · exact oinv_tscrollup s _ n h

theorem oinv_tscrollbackMap (s : State) (i : Int) (h : OInv s) : OInv (tscrollbackMap s i) := by
  unfold tscrollbackMap
  simp only []
  split_ifs
  · exact oinv_of_core (s := s) (core_scrollback_get s _) h
  · exact h

theorem oinv_tscrollback (s : State) (n : Int) (h : OInv s) : OInv (tscrollback s n) := by
  refine ⟨inv_tscrollback s n h.1, ?_⟩
  obtain ⟨f1, _⟩ := tscrollback_frame s n
  obtain ⟨e1, e2, e3, e4, e5, e6, e7, e8⟩ := fields_of_view (f1 s)
  have ho := h.2
  unfold OriginOk at ho ⊢
  rw [e1, e4, e5]
  exact ho

theorem oinv_ite {c : Prop} [Decidable c] {a b : State} (ha : OInv a) (hb : OInv b) :
    OInv (if c then a else b) := by
  split_ifs <;> assumption

theorem oinv_setMode (s : State) (m : Nat) (h : OInv s) : OInv (s.setMode m) :=
  oinv_of_core (s := s) rfl h

theorem oinv_setEsc (s : State) (m : Nat) (h : OInv s) : OInv (s.setEsc m) :=
  oinv_of_core (s := s) rfl h

theorem oinv_setAttrMode (s : State) (m : Nat) (h : OInv s) : OInv (s.setAttrMode m) :=
  oinv_of_core (s := s) rfl h

theorem oinv_argDefault (s : State) (i : Nat) (d : Int) (h : OInv s) :
    OInv (s.argDefault i d) :=
  oinv_of_core (s := s) rfl h

theorem oinv_tclearregion (s : State) (x1 y1 x2 y2 : Int) (h : OInv s) :
    OInv (tclearregion s x1 y1 x2 y2) :=
  oinv_of_core (core_tclearregion s x1 y1 x2 y2) h

theorem oinv_tswapscreen (s : State) (h : OInv s) : OInv (tswapscreen s) :=
  oinv_of_core (core_tswapscreen s) h

theorem oinv_tcursor (s : State) (m : CursorMovement) (h : OInv s) : OInv (tcursor s m) := by
  cases m with
  | CURSOR_SAVE => exact oinv_of_core (s := s) rfl h
  | CURSOR_LOAD => exact oinv_tmoveto _ _ _ h.1.1

theorem oinv_tmoveto_of_inv (s : State) (x y : Int) (h : OInv s) : OInv (tmoveto s x y) :=
  oinv_tmoveto s x y h.1.1

theorem oinv_tsetmode1 (priv set : Bool) (s : State) (a : Int) (h : OInv s) :
    OInv (tsetmode1 priv set s a) := by
  unfold tsetmode1
  have hm : ∀ (x y : Int),
      OInv (tmoveato (s.setCState (MODBIT s.term.c.state set CURSOR_ORIGIN)) x y) :=
    fun x y => oinv_tmoveto _ _ _ h.1.1
  repeat' (with_reducible first
    | exact h
    | exact hm _ _
    | apply oinv_ite
    | apply oinv_setMode
    | apply oinv_tcursor
    | apply oinv_tswapscreen
    | apply oinv_tclearregion)

theorem oinv_tsetmode (s : State) (priv set : Bool) (args : List Int) (h : OInv s) :
    OInv (tsetmode s priv set args) := by
  unfold tsetmode
  induction args generalizing s with
  | nil => exact h
  | cons a l ih => exact ih _ (oinv_tsetmode1 priv set s a h)

theorem oinv_tnewline (s : State) (b : Bool) (h : OInv s) : OInv (tnewline s b) := by
  unfold tnewline
  repeat' (with_reducible first
    | exact h
    | apply oinv_ite
    | apply oinv_tmoveto_of_inv
    | apply oinv_tscrollup)

theorem oinv_tputtab (s : State) (f : Bool) (h : OInv s) : OInv (tputtab s f) := by
  unfold tputtab
  repeat' (with_reducible first
    | exact h
    | apply oinv_ite
    | apply oinv_tmoveto_of_inv)

theorem oinv_tputtabs (s : State) (f : Bool) (h : OInv s) : OInv (tputtabs s f) := by
  unfold tputtabs
  exact oinv_of_core (core_setArg _ _ _)
    (repeatN_induct OInv _ (fun t ht => oinv_tputtab t f ht) _ s h)

theorem oinv_treset_of (s : State) (h : TermInv s) : OInv (treset s) := by
  obtain ⟨⟨h1, h2, h3, h4, h5, h6, h7⟩, hc⟩ := h
  simp only [core] at h1 h2 h3 h4 h5 h6 h7
  unfold treset
  refine oinv_tcursor _ _ (oinv_tmoveto _ _ _ ?_)
  rw [core_tclearregion]
  simp only [Core.geom, core]
  exact ⟨h1, h2, le_refl _, by omega, by omega, h6, h7⟩

theorem oinv_treset (s : State) (h : OInv s) : OInv (treset s) :=
  oinv_treset_of s h.1

theorem oinv_tinsertblank (s : State) (n : Int) (h : OInv s) : OInv (tinsertblank s n) :=
  oinv_of_core (core_tinsertblank s n) h

theorem oinv_tdeletechar (s : State) (n : Int) (h : OInv s) : OInv (tdeletechar s n) :=
  oinv_of_core (core_tdeletechar s n) h

theorem oinv_tinsertblankline (s : State) (n : Int) (h : OInv s) :
    OInv (tinsertblankline s n) :=
  oinv_of_core (core_tinsertblankline s n) h

theorem oinv_tscrolldown (s : State) (o n : Int) (h : OInv s) : OInv (tscrolldown s o n) :=
  oinv_of_core (core_tscrolldown s o n) h

theorem oinv_ttywrite (s : State) (b : List Nat) (h : OInv s) : OInv (ttywrite s b) :=
  oinv_of_core (s := s) rfl h

theorem oinv_tsetattr (s : State) (a : List Int) (h : OInv s) : OInv (tsetattr s a) :=
  oinv_of_core (s := s) rfl h

theorem oinv_setSel (s : State) (v : Selection) (h : OInv s) : OInv (s.setSel v) :=
  oinv_of_core (s := s) rfl h

theorem oinv_setTabs (s : State) (t : List Bool) (h : OInv s) : OInv (s.setTabs t) :=
  oinv_of_core (s := s) rfl h

theorem oinv_setStr (s : State) (q : STREscape) (h : OInv s) : OInv (s.setStr q) :=
  oinv_of_core (s := s) rfl h

theorem oinv_setCsi (s : State) (q : CSIEscape) (h : OInv s) : OInv (s.setCsi q) :=
  oinv_of_core (s := s) rfl h

theorem oinv_region (s : State) (t b x y : Int) (h : OInv s) :
    OInv (tmoveato (tsetscroll s t b) x y) :=
  oinv_tmoveto _ _ _ (inv_tsetscroll s t b h.1).1

theorem oinv_csihandle (s : State) (h : OInv s) : OInv (csihandle s) := by
  unfold csihandle
  repeat' (with_reducible first
    | exact h
    | apply oinv_ite
    | apply oinv_tmoveto_of_inv
    | apply oinv_region
    | apply oinv_tmoveato
    | apply oinv_argDefault
    | apply oinv_tinsertblank
    | apply oinv_tdeletechar
    | apply oinv_tinsertblankline
    | apply oinv_tdeleteline
    | apply oinv_tscrollup
    | apply oinv_tscrolldown
    | apply oinv_ttywrite
    | apply oinv_tsetattr
    | apply oinv_tsetmode
    | apply oinv_tputtabs
    | apply oinv_tcursor
    | apply oinv_tclearregion
    | apply oinv_setSel
    | apply oinv_setTabs)

theorem oinv_csiparse (s : State) (h : OInv s) : OInv (csiparse s) :=
  oinv_of_core (s := s) rfl h

theorem oinv_csireset (s : State) (h : OInv s) : OInv (csireset s) :=
  oinv_of_core (s := s) rfl h

theorem oinv_strreset (s : State) (h : OInv s) : OInv (strreset s) :=
  oinv_of_core (s := s) rfl h

theorem oinv_strhandle (s : State) (h : OInv s) : OInv (strhandle s) :=
  oinv_of_core (s := s) rfl h

theorem oinv_tputcStr (s : State) (c : List Nat) (len : Int) (h : OInv s) :
    OInv (tputcStr s c len) := by
  unfold tputcStr
  repeat' (with_reducible first
    | exact h
    | apply oinv_ite
    | apply oinv_setEsc
    | apply oinv_strhandle
    | apply oinv_setStr)

theorem oinv_tputcControl (s : State) (a : Nat) (h : OInv s) :
    OInv (tputcControl s a).1 := by
  unfold tputcControl
  split_ifs <;> simp only [] <;>
  repeat' (with_reducible first
    | exact h
    | apply oinv_setEsc
    | apply oinv_csireset
    | apply oinv_tputtab
    | apply oinv_tnewline
    | apply oinv_tmoveto_of_inv)

theorem oinv_tputcAlign (s : State) (h : OInv s) : OInv (tputcAlign s) :=
  oinv_of_core (core_tputcAlign s) h

theorem oinv_tputcEsc (s : State) (a : Nat) (h : OInv s) : OInv (tputcEsc s a) := by
  unfold tputcEsc
  repeat' (with_reducible first
    | exact h
    | apply oinv_ite
    | apply oinv_setEsc
    | apply oinv_setMode
    | apply oinv_setAttrMode
    | apply oinv_csihandle
    | apply oinv_csiparse
    | apply oinv_strhandle
    | apply oinv_strreset
    | apply oinv_setStr
    | apply oinv_setCsi
    | apply oinv_tputcAlign
    | apply oinv_tscrollup
    | apply oinv_tscrolldown
    | apply oinv_tnewline
    | apply oinv_treset
    | apply oinv_tcursor
    | apply oinv_ttywrite
    | apply oinv_tmoveto_of_inv
    | apply oinv_setTabs)

theorem oinv_dite {c : Prop} [Decidable c] {a b : State} (ha : c → OInv a)
    (hb : ¬ c → OInv b) : OInv (if c then a else b) := by
  split_ifs with hc
  · exact ha hc
  · exact hb hc

theorem oinv_setCell (s : State) (x y : Int) (g : Glyph) (h : OInv s) :
    OInv (s.setCell x y g) :=
  oinv_of_core (s := s) rfl h

theorem oinv_setRow (s : State) (p : Nat) (r : List Glyph) (h : OInv s) :
    OInv (s.setRow p r) :=
  oinv_of_core (s := s) rfl h

theorem oinv_setDirty (s : State) (y : Int) (h : OInv s) : OInv (s.setDirty y) :=
  oinv_of_core (s := s) rfl h

theorem oinv_tsetchar (s : State) (c : List Nat) (g : Glyph) (x y : Int) (h : OInv s) :
    OInv (tsetchar s c g x y) :=
  oinv_of_core (s := s) rfl h

theorem or_wrapnext_origin (m : Nat) :
    (m ||| CURSOR_WRAPNEXT) &&& CURSOR_ORIGIN = m &&& CURSOR_ORIGIN := by
  apply Nat.eq_of_testBit_eq
  intro i
  rw [Nat.testBit_and, Nat.testBit_and, Nat.testBit_or]
  have hw : (Nat.testBit CURSOR_WRAPNEXT i && Nat.testBit CURSOR_ORIGIN i) = false := by
    rw [← Nat.testBit_and]
    exact Nat.zero_testBit i
  cases hm : m.testBit i <;> cases ho : Nat.testBit CURSOR_ORIGIN i <;>
    simp only [Bool.false_or, Bool.true_or, Bool.and_false, Bool.and_true, Bool.false_and,
      Bool.true_and]
  rw [ho] at hw
  simpa using hw

theorem oinv_wrapnext (s : State) (h : OInv s) (hx : ¬ (s.term.c.x + 1 < s.term.col)) :
    OInv (s.setCState (s.term.c.state ||| CURSOR_WRAPNEXT)) := by
  refine ⟨inv_wrapnext s h.1 hx, ?_⟩
  have ho := h.2
  unfold OriginOk at ho ⊢
  show (s.term.c.state ||| CURSOR_WRAPNEXT) &&& CURSOR_ORIGIN ≠ 0 → _
  rw [or_wrapnext_origin]
  exact ho

theorem oinv_tputcPrint (s : State) (c : List Nat) (h : OInv s) :
    OInv (tputcPrint s c) := by
  unfold tputcPrint
  apply oinv_dite
  · intro _
    repeat' (with_reducible first
      | exact h
      | apply oinv_ite
      | apply oinv_tmoveto_of_inv
      | apply oinv_tsetchar
      | apply oinv_setRow
      | apply oinv_tnewline
      | apply oinv_setCell
      | apply oinv_setSel)
  · intro hc
    apply oinv_wrapnext _ _ hc
    repeat' (with_reducible first
      | exact h
      | apply oinv_ite
      | apply oinv_tsetchar
      | apply oinv_setRow
      | apply oinv_tnewline
      | apply oinv_setCell
      | apply oinv_setSel)

theorem oinv_tputc (s : State) (c : List Nat) (len : Int) (h : OInv s) :
    OInv (tputc s c len) := by
  unfold tputc
  have h1 : OInv (tputcControl s (uch c)).1 := oinv_tputcControl s _ h
  have h2 : OInv (tputcEsc s (uch c)) := oinv_tputcEsc s _ h
  have h3 : OInv
      (if (decide (uch c < 0x20 ∨ uch c = 0x7F)) = true then tputcControl s (uch c)
        else if s.term.esc &&& ESC_START ≠ 0 then (tputcEsc s (uch c), true)
        else (s, false)).1 := by
    split_ifs
    · exact h1
    · exact h2
    · exact h
  repeat' (with_reducible first
    | exact h3
    | apply oinv_ite
    | apply oinv_tputcStr
    | apply oinv_tputcPrint)
  exact h

theorem oinv_tresizeClear (col row mincol minrow : Int) (s : State) (h : OInv s) :
    OInv (tresizeClear col row mincol minrow s) := by
  unfold tresizeClear
  repeat' (with_reducible first
    | exact h
    | apply oinv_ite
    | apply oinv_tswapscreen
    | apply oinv_tclearregion)

theorem oinv_tresize_of (s : State) (col row : Int) (h0 : OInv s ∨ (1 ≤ col ∧ 1 ≤ row))
    (h6 : -s.term.sb.total ≤ s.term.ybase) (h7 : s.term.ybase ≤ 0) :
    OInv (tresize s col row).1 := by
  unfold tresize
  by_cases hcr : col < 1 ∨ row < 1
  · simp only [if_pos hcr]
    rcases h0 with h0 | h0
    · exact h0
    · omega
  · simp only [if_neg hcr]
    have hg := geom_tresize s col row (by omega) (by omega) h6 h7
    exact oinv_tresizeClear _ _ _ _ _ (oinv_tresizeClear _ _ _ _ _ (oinv_tmoveto _ _ _ hg))

theorem oinv_tresize (s : State) (col row : Int) (h : OInv s) :
    OInv (tresize s col row).1 :=
  oinv_tresize_of s col row (Or.inl h) h.1.1.2.2.2.2.2.1 h.1.1.2.2.2.2.2.2

theorem oinv_tnew (s0 : State) (col row : Int) (hc : 1 ≤ col) (hr : 1 ≤ row) :
    OInv (tnew s0 col row) :=
  oinv_treset_of _ (inv_treset_arg s0 col row hc hr)

theorem oinv_step (s t : State) (h : OInv s) (hst : Step s t) : OInv t := by
  cases hst with
  | putc c len => exact oinv_tputc s c len h
  | scrollback n => exact oinv_tscrollback s n h
  | resize col row => exact oinv_tresize s col row h
  | sbadd l => exact oinv_scrollback_add s l h

theorem oinv_reachable (s : State) (h : Reachable s) : OInv s := by
  induction h with
  | init s0 col row hc hr => exact oinv_tnew s0 col row hc hr
  | step s t _ hst ih => exact oinv_step s t ih hst

theorem oinv_reachable_of (s : State) (h : Reachable s) : OriginOk s :=
  (oinv_reachable s h).2

theorem ai_ite {a : List Nat} {v : Nat} {c : Prop} [Decidable c] {x y : State}
    (hx : AltIs a v x) (hy : AltIs a v y) : AltIs a v (if c then x else y) := by
  split_ifs <;> assumption

theorem ai_tmoveto {a : List Nat} {v : Nat} (s : State) (x y : Int) (h : AltIs a v s) :
    AltIs a v (tmoveto s x y) := h

theorem ai_tmoveato {a : List Nat} {v : Nat} (s : State) (x y : Int) (h : AltIs a v s) :
    AltIs a v (tmoveato s x y) := h

theorem ai_tsetscroll {a : List Nat} {v : Nat} (s : State) (t b : Int) (h : AltIs a v s) :
    AltIs a v (tsetscroll s t b) := h

theorem ai_setCState {a : List Nat} {v : Nat} (s : State) (m : Nat) (h : AltIs a v s) :
    AltIs a v (s.setCState m) := h

theorem ai_setEsc {a : List Nat} {v : Nat} (s : State) (m : Nat) (h : AltIs a v s) :
    AltIs a v (s.setEsc m) := h

theorem ai_setAttrMode {a : List Nat} {v : Nat} (s : State) (m : Nat) (h : AltIs a v s) :
    AltIs a v (s.setAttrMode m) := h

theorem ai_argDefault {a : List Nat} {v : Nat} (s : State) (i : Nat) (d : Int)
    (h : AltIs a v s) : AltIs a v (s.argDefault i d) := h

theorem ai_setArg {a : List Nat} {v : Nat} (s : State) (i : Nat) (d : Int)
    (h : AltIs a v s) : AltIs a v (s.setArg i d) := h

theorem ai_setSel {a : List Nat} {v : Nat} (s : State) (q : Selection) (h : AltIs a v s) :
    AltIs a v (s.setSel q) := h

theorem ai_setTabs {a : List Nat} {v : Nat} (s : State) (t : List Bool) (h : AltIs a v s) :
    AltIs a v (s.setTabs t) := h

theorem ai_setStr {a : List Nat} {v : Nat} (s : State) (q : STREscape) (h : AltIs a v s) :
    AltIs a v (s.setStr q) := h

theorem ai_setCsi {a : List Nat} {v : Nat} (s : State) (q : CSIEscape) (h : AltIs a v s) :
    AltIs a v (s.setCsi q) := h

theorem ai_setCell {a : List Nat} {v : Nat} (s : State) (x y : Int) (g : Glyph)
    (h : AltIs a v s) : AltIs a v (s.setCell x y g) := h

theorem ai_setRow {a : List Nat} {v : Nat} (s : State) (p : Nat) (r : List Glyph)
    (h : AltIs a v s) : AltIs a v (s.setRow p r) := h

theorem ai_setDirty {a : List Nat} {v : Nat} (s : State) (y : Int) (h : AltIs a v s) :
    AltIs a v (s.setDirty y) := h

theorem ai_tsetchar {a : List Nat} {v : Nat} (s : State) (c : List Nat) (g : Glyph)
    (x y : Int) (h : AltIs a v s) : AltIs a v (tsetchar s c g x y) := h

theorem ai_ttywrite {a : List Nat} {v : Nat} (s : State) (b : List Nat) (h : AltIs a v s) :
    AltIs a v (ttywrite s b) := h

theorem ai_tsetattr {a : List Nat} {v : Nat} (s : State) (l : List Int) (h : AltIs a v s) :
    AltIs a v (tsetattr s l) := h

theorem ai_csiparse {a : List Nat} {v : Nat} (s : State) (h : AltIs a v s) :
    AltIs a v (csiparse s) := h

theorem ai_csireset {a : List Nat} {v : Nat} (s : State) (h : AltIs a v s) :
    AltIs a v (csireset s) := h

theorem ai_strreset {a : List Nat} {v : Nat} (s : State) (h : AltIs a v s) :
    AltIs a v (strreset s) := h

theorem ai_strhandle {a : List Nat} {v : Nat} (s : State) (h : AltIs a v s) :
    AltIs a v (strhandle s) := h

theorem ai_swapLines {a : List Nat} {v : Nat} (s : State) (i j : Int) (h : AltIs a v s) :
    AltIs a v (swapLines s i j) := h

theorem ai_scrollback_add {a : List Nat} {v : Nat} (s : State) (l : Nat) (h : AltIs a v s) :
    AltIs a v (scrollback_add s l) := h

theorem ai_tscrollupSave {a : List Nat} {v : Nat} (s : State) (i : Int) (h : AltIs a v s) :
    AltIs a v (tscrollupSave s i) := h

theorem ai_tsetdirt {a : List Nat} {v : Nat} (s : State) (x y : Int) (h : AltIs a v s) :
    AltIs a v (tsetdirt s x y) := by
  unfold tsetdirt
  exact forRange_induct (AltIs a v) _ _ _ (fun i t ht => ai_setDirty t i ht) s h

theorem ai_selclear {a : List Nat} {v : Nat} (s : State) (h : AltIs a v s) :
    AltIs a v (selclear s) := by
  unfold selclear
  split_ifs
  · exact h
  · exact ai_tsetdirt _ _ _ h

theorem ai_tclearregion {a : List Nat} {v : Nat} (s : State) (x1 y1 x2 y2 : Int)
    (h : AltIs a v s) : AltIs a v (tclearregion s x1 y1 x2 y2) := by
  unfold tclearregion
  refine forRange_induct (AltIs a v) _ _ _ (fun y t ht => ?_) s h
  refine forRange_induct (AltIs a v) _ _ _ (fun x u hu => ?_) _ (ai_setDirty t y ht)
  simp only []
  apply ai_setCell
  split_ifs
  · exact ai_selclear u hu
  · exact hu

theorem ai_selscroll {a : List Nat} {v : Nat} (s : State) (o n : Int) (h : AltIs a v s) :
    AltIs a v (selscroll s o n) := by
  unfold selscroll
  simp only []
  split_ifs <;> exact h

theorem ai_tscrolldown {a : List Nat} {v : Nat} (s : State) (o n : Int) (h : AltIs a v s) :
    AltIs a v (tscrolldown s o n) := by
  unfold tscrolldown
  simp only []
  refine ai_selscroll _ _ _ ?_
  refine forRangeDown_induct (AltIs a v) _ _ _ (fun i t ht => ai_swapLines t _ _ ht) _ ?_
  exact ai_tclearregion _ _ _ _ _ h

theorem ai_tscrollup {a : List Nat} {v : Nat} (s : State) (o n : Int) (h : AltIs a v s) :
    AltIs a v (tscrollup s o n) := by
  unfold tscrollup
  simp only []
  refine ai_selscroll _ _ _ ?_
  refine forRange_induct (AltIs a v) _ _ _ (fun i t ht => ai_swapLines t _ _ ht) _ ?_
  refine ai_tclearregion _ _ _ _ _ ?_
  refine ai_ite ?_ h
  exact forRange_induct (AltIs a v) _ _ _ (fun i t ht => ai_tscrollupSave t i ht) s h

theorem ai_tinsertblank {a : List Nat} {v : Nat} (s : State) (n : Int) (h : AltIs a v s) :
    AltIs a v (tinsertblank s n) := by
  unfold tinsertblank
  simp only []
  split_ifs <;> exact ai_tclearregion _ _ _ _ _ h

theorem ai_tdeletechar {a : List Nat} {v : Nat} (s : State) (n : Int) (h : AltIs a v s) :
    AltIs a v (tdeletechar s n) := by
  unfold tdeletechar
  simp only []
  split_ifs <;> exact ai_tclearregion _ _ _ _ _ h

theorem ai_tinsertblankline {a : List Nat} {v : Nat} (s : State) (n : Int)
    (h : AltIs a v s) : AltIs a v (tinsertblankline s n) := by
  unfold tinsertblankline
  exact ai_ite h (ai_tscrolldown s _ n h)

theorem ai_tdeleteline {a : List Nat} {v : Nat} (s : State) (n : Int) (h : AltIs a v s) :
    AltIs a v (tdeleteline s n) := by
  unfold tdeleteline
  exact ai_ite h (ai_tscrollup s _ n h)

theorem ai_tputcAlign {a : List Nat} {v : Nat} (s : State) (h : AltIs a v s) :
    AltIs a v (tputcAlign s) := by
  unfold tputcAlign
  refine forRange_induct (AltIs a v) _ _ _ (fun x t ht => ?_) s h
  exact forRange_induct (AltIs a v) _ _ _ (fun y u hu => ai_tsetchar u _ _ _ _ hu) t ht

theorem ai_tcursor {a : List Nat} {v : Nat} (s : State) (m : CursorMovement)
    (h : AltIs a v s) : AltIs a v (tcursor s m) := by
  cases m <;> exact h

theorem ai_tnewline {a : List Nat} {v : Nat} (s : State) (b : Bool) (h : AltIs a v s) :
    AltIs a v (tnewline s b) := by
  unfold tnewline
  repeat' (with_reducible first
    | exact h
    | apply ai_ite
    | apply ai_tmoveto
    | apply ai_tscrollup)

theorem ai_tputtab {a : List Nat} {v : Nat} (s : State) (f : Bool) (h : AltIs a v s) :
    AltIs a v (tputtab s f) := by
  unfold tputtab
  repeat' (with_reducible first
    | exact h
    | apply ai_ite
    | apply ai_tmoveto)

theorem ai_tputtabs {a : List Nat} {v : Nat} (s : State) (f : Bool) (h : AltIs a v s) :
    AltIs a v (tputtabs s f) := by
  unfold tputtabs
  exact ai_setArg _ _ _
    (repeatN_induct (AltIs a v) _ (fun t ht => ai_tputtab t f ht) _ s h)

theorem ai_tputcStr {a : List Nat} {v : Nat} (s : State) (c : List Nat) (len : Int)
    (h : AltIs a v s) : AltIs a v (tputcStr s c len) := by
  unfold tputcStr
  repeat' (with_reducible first
    | exact h
    | apply ai_ite
    | apply ai_setEsc
    | apply ai_strhandle
    | apply ai_setStr)

theorem ai_tputcControl {a : List Nat} {v : Nat} (s : State) (b : Nat) (h : AltIs a v s) :
    AltIs a v (tputcControl s b).1 := by
  unfold tputcControl
  split_ifs <;> simp only [] <;>
  repeat' (with_reducible first
    | exact h
    | apply ai_setEsc
    | apply ai_csireset
    | apply ai_tputtab
    | apply ai_tnewline
    | apply ai_tmoveto)

theorem ai_tputcPrint {a : List Nat} {v : Nat} (s : State) (c : List Nat) (h : AltIs a v s) :
    AltIs a v (tputcPrint s c) := by
  unfold tputcPrint
  repeat' (with_reducible first
    | exact h
    | apply ai_ite
    | apply ai_tmoveto
    | apply ai_setCState
    | apply ai_tsetchar
    | apply ai_setRow
    | apply ai_tnewline
    | apply ai_setCell
    | apply ai_setSel)

theorem alt_bit_cases (m : Nat) :
    m &&& MODE_ALTSCREEN = 0 ∨ m &&& MODE_ALTSCREEN = MODE_ALTSCREEN := by
  have h := Nat.and_two_pow m 3
  have e : (2 : Nat) ^ 3 = MODE_ALTSCREEN := by decide
  rw [e] at h
  rw [h]
  cases m.testBit 3
  · left; rfl
  · right; rfl

theorem or_keeps_alt (m b : Nat) (hb : MODE_ALTSCREEN &&& b = 0) :
    (m ||| b) &&& MODE_ALTSCREEN = m &&& MODE_ALTSCREEN := by
  rw [Nat.and_comm, Nat.and_or_distrib_left, hb, Nat.or_zero, Nat.and_comm]

theorem andNot_keeps_alt (m b : Nat)
    (hb : (0xFFFFFFFF ^^^ b) &&& MODE_ALTSCREEN = MODE_ALTSCREEN) :
    andNot m b &&& MODE_ALTSCREEN = m &&& MODE_ALTSCREEN := by
  unfold andNot
  rw [Nat.and_assoc, hb]

theorem modbit_keeps_alt (m : Nat) (set : Bool) (b : Nat) (h1 : MODE_ALTSCREEN &&& b = 0)
    (h2 : (0xFFFFFFFF ^^^ b) &&& MODE_ALTSCREEN = MODE_ALTSCREEN) :
    MODBIT m set b &&& MODE_ALTSCREEN = m &&& MODE_ALTSCREEN := by
  unfold MODBIT
  cases set
  · exact andNot_keeps_alt m b h2
  · exact or_keeps_alt m b h1

theorem xor_alt_bit (m : Nat) :
    (m ^^^ MODE_ALTSCREEN) &&& MODE_ALTSCREEN = (m &&& MODE_ALTSCREEN) ^^^ MODE_ALTSCREEN := by
  rw [Nat.and_xor_distrib_right, Nat.and_self]

theorem screens_setDirty (s : State) (y : Int) : screens (s.setDirty y) = screens s := rfl

theorem screens_tsetdirt (s : State) (x y : Int) : screens (tsetdirt s x y) = screens s := by
  unfold tsetdirt
  exact forRange_induct (fun t => screens t = screens s) _ _ _
    (fun i t ht => (screens_setDirty t i).trans ht) s rfl

theorem screens_selclear (s : State) : screens (selclear s) = screens s := by
  unfold selclear
  split_ifs
  · rfl
  · exact screens_tsetdirt _ _ _

theorem screens_tclearregion (s : State) (x1 y1 x2 y2 : Int) :
    screens (tclearregion s x1 y1 x2 y2) = screens s := by
  unfold tclearregion
  refine forRange_induct (fun t => screens t = screens s) _ _ _ (fun y t ht => ?_) s rfl
  refine forRange_induct (fun t => screens t = screens s) _ _ _ (fun x u hu => ?_) _
    ((screens_setDirty t y).trans ht)
  simp only []
  show screens (if selected u.sel x y then selclear u else u) = screens s
  split_ifs
  · exact (screens_selclear u).trans hu
  · exact hu

theorem screens_tcursor (s : State) (m : CursorMovement) : screens (tcursor s m) = screens s := by
  cases m <;> rfl

theorem bo_of_screens {l a : List Nat} {v : Nat} {s t : State} (e : screens t = screens s)
    (h : BothAre l a v s) : BothAre l a v t := by
  have e1 : t.term.line = s.term.line := congrArg (fun p => p.1) e
  have e2 : t.term.alt = s.term.alt := congrArg (fun p => p.2.1) e
  have e3 : t.term.mode = s.term.mode := congrArg (fun p => p.2.2) e
  unfold BothAre AltIs at h ⊢
  rw [e1, e2, e3]
  exact h

theorem bo_ite {l a : List Nat} {v : Nat} {c : Prop} [Decidable c] {x y : State}
    (hx : BothAre l a v x) (hy : BothAre l a v y) : BothAre l a v (if c then x else y) := by
  split_ifs <;> assumption

theorem bo_tclearregion {l a : List Nat} {v : Nat} (s : State) (x1 y1 x2 y2 : Int)
    (h : BothAre l a v s) : BothAre l a v (tclearregion s x1 y1 x2 y2) :=
  bo_of_screens (screens_tclearregion s x1 y1 x2 y2) h

theorem bo_tcursor {l a : List Nat} {v : Nat} (s : State) (m : CursorMovement)
    (h : BothAre l a v s) : BothAre l a v (tcursor s m) :=
  bo_of_screens (screens_tcursor s m) h

theorem bo_modbit {l a : List Nat} {v : Nat} (s : State) (set : Bool) (b : Nat)
    (h1 : MODE_ALTSCREEN &&& b = 0)
    (h2 : (0xFFFFFFFF ^^^ b) &&& MODE_ALTSCREEN = MODE_ALTSCREEN)
    (h : BothAre l a v s) : BothAre l a v (s.setMode (MODBIT s.term.mode set b)) :=
  ⟨h.1, h.2.1, (modbit_keeps_alt s.term.mode set b h1 h2).trans h.2.2⟩

theorem bo_modbit2 {l a : List Nat} {v : Nat} (s : State) (set : Bool) (b c : Nat)
    (h1 : MODE_ALTSCREEN &&& b = 0)
    (h2 : (0xFFFFFFFF ^^^ b) &&& MODE_ALTSCREEN = MODE_ALTSCREEN)
    (h3 : (0xFFFFFFFF ^^^ c) &&& MODE_ALTSCREEN = MODE_ALTSCREEN)
    (h : BothAre l a v s) :
    BothAre l a v (s.setMode (MODBIT (MODBIT s.term.mode set b) false c)) :=
  ⟨h.1, h.2.1, (andNot_keeps_alt _ c h3).trans
    ((modbit_keeps_alt s.term.mode set b h1 h2).trans h.2.2)⟩

theorem bo_tswapscreen {l a : List Nat} {v : Nat} (s : State) (h : BothAre l a v s) :
    BothAre a l (v ^^^ MODE_ALTSCREEN) (tswapscreen s) := by
  obtain ⟨e1, e2, e3, _⟩ := tswapscreen_spec s
  obtain ⟨h1, h2, h3⟩ := h
  refine ⟨e1.trans h2, e2.trans h1, ?_⟩
  rw [e3, xor_alt_bit, h3]

theorem sw_ite {l a : List Nat} {v : Nat} {set : Bool} {c : Prop} [Decidable c] {x y : State}
    (hx : AltSwap l a v set x) (hy : AltSwap l a v set y) :
    AltSwap l a v set (if c then x else y) := by
  split_ifs <;> assumption

theorem sw_keep {l a : List Nat} {v : Nat} {set : Bool} {t : State} (h : BothAre l a v t) :
    AltSwap l a v set t := Or.inl h

/-- The cases 1049, 47 and 1047 of `tsetmode`. -/
theorem sw_altscreen {l a : List Nat} {v : Nat} (set : Bool) (s : State) (x : Int)
    (h : BothAre l a v s) :
    AltSwap l a v set
      (if x ≠ 1049 then
        (if xor set (decide (IS_SET s.term MODE_ALTSCREEN)) = true then
          tswapscreen (if decide (IS_SET s.term MODE_ALTSCREEN) = true then
            tclearregion s 0 0 (s.term.col - 1) (s.term.row - 1) else s)
        else (if decide (IS_SET s.term MODE_ALTSCREEN) = true then
            tclearregion s 0 0 (s.term.col - 1) (s.term.row - 1) else s))
      else tcursor
        (if xor set (decide (IS_SET s.term MODE_ALTSCREEN)) = true then
          tswapscreen (if decide (IS_SET s.term MODE_ALTSCREEN) = true then
            tclearregion s 0 0 (s.term.col - 1) (s.term.row - 1) else s)
        else (if decide (IS_SET s.term MODE_ALTSCREEN) = true then
            tclearregion s 0 0 (s.term.col - 1) (s.term.row - 1) else s))
        (if set = true then .CURSOR_SAVE else .CURSOR_LOAD)) := by
  have h1 : BothAre l a v (if decide (IS_SET s.term MODE_ALTSCREEN) = true then
      tclearregion s 0 0 (s.term.col - 1) (s.term.row - 1) else s) :=
    bo_ite (bo_tclearregion s _ _ _ _ h) h
  generalize (if decide (IS_SET s.term MODE_ALTSCREEN) = true then
      tclearregion s 0 0 (s.term.col - 1) (s.term.row - 1) else s) = s1 at h1
  have hv : s.term.mode &&& MODE_ALTSCREEN = v := h.2.2
  by_cases hx : xor set (decide (IS_SET s.term MODE_ALTSCREEN)) = true
  · simp only [if_pos hx]
    have h2 := bo_tswapscreen s1 h1
    have hset : decide (v ^^^ MODE_ALTSCREEN ≠ 0) = set ∧ decide (v ≠ 0) = !set := by
      subst hv
      rcases alt_bit_cases s.term.mode with h0 | h0
      · simp only [IS_SET, h0] at hx ⊢
        cases set
        · exact absurd hx (by decide)
        · exact ⟨by decide, by decide⟩
      · simp only [IS_SET, h0] at hx ⊢
        cases set
        · exact ⟨by decide, by decide⟩
        · exact absurd hx (by decide)
    by_cases h9 : x ≠ 1049
    · rw [if_pos h9]
      exact Or.inr ⟨h2, hset⟩
    · rw [if_neg h9]
      exact Or.inr ⟨bo_tcursor _ _ h2, hset⟩
  · simp only [if_neg hx]
    by_cases h9 : x ≠ 1049
    · rw [if_pos h9]
      exact Or.inl h1
    · rw [if_neg h9]
      exact Or.inl (bo_tcursor _ _ h1)

theorem sw_tsetmode1 {l a : List Nat} {v : Nat} (priv set : Bool) (s : State) (x : Int)
    (h : BothAre l a v s) : AltSwap l a v set (tsetmode1 priv set s x) := by
  unfold tsetmode1
  have hm : BothAre l a v
      (tmoveato (s.setCState (MODBIT s.term.c.state set CURSOR_ORIGIN)) 0 0) := h
  have hsw := sw_altscreen set s x h
  have k1 := fun (q : Bool) => bo_modbit s q MODE_APPCURSOR (by decide) (by decide) h
  have k2 := fun (q : Bool) => bo_modbit s q MODE_REVERSE (by decide) (by decide) h
  have k3 := fun (q : Bool) => bo_modbit s q MODE_WRAP (by decide) (by decide) h
  have k4 := fun (q : Bool) => bo_modbit s q MODE_HIDE (by decide) (by decide) h
  have k5 := fun (q : Bool) => bo_modbit s q MODE_MOUSESGR (by decide) (by decide) h
  have k6 := fun (q : Bool) => bo_modbit s q MODE_8BIT (by decide) (by decide) h
  have k7 := fun (q : Bool) => bo_modbit s q MODE_KBDLOCK (by decide) (by decide) h
  have k8 := fun (q : Bool) => bo_modbit s q MODE_INSERT (by decide) (by decide) h
  have k9 := fun (q : Bool) => bo_modbit s q MODE_ECHO (by decide) (by decide) h
  have k10 := fun (q : Bool) => bo_modbit s q MODE_CRLF (by decide) (by decide) h
  have k11 := fun (q : Bool) =>
    bo_modbit2 s q MODE_MOUSEBTN MODE_MOUSEMOTION (by decide) (by decide) (by decide) h
  have k12 := fun (q : Bool) =>
    bo_modbit2 s q MODE_MOUSEMOTION MODE_MOUSEBTN (by decide) (by decide) (by decide) h
  repeat' (with_reducible first
    | exact hsw
    | apply sw_ite
    | apply sw_keep
    | exact h
    | exact hm
    | exact k1 _
    | exact k2 _
    | exact k3 _
    | exact k4 _
    | exact k5 _
    | exact k6 _
    | exact k7 _
    | exact k8 _
    | exact k9 _
    | exact k10 _
    | exact k11 _
    | exact k12 _
    | apply bo_tcursor)

theorem bo_tsetmode_settled {l a : List Nat} {v : Nat} (priv set : Bool) (args : List Int) :
    ∀ s : State, BothAre l a v s → decide (v ≠ 0) = set →
      BothAre l a v (tsetmode s priv set args) := by
  unfold tsetmode
  induction args with
  | nil => intro s h _; exact h
  | cons x r ih =>
    intro s h hv
    rw [List.foldl_cons]
    rcases sw_tsetmode1 priv set s x h with h1 | ⟨_, _, h3⟩
    · exact ih _ h1 hv
    · rw [hv] at h3
      cases set <;> exact absurd h3 (by decide)

theorem bo_tsetmode {l a : List Nat} {v : Nat} (priv set : Bool) (args : List Int) :
    ∀ s : State, BothAre l a v s →
      BothAre l a v (tsetmode s priv set args) ∨
      BothAre a l (v ^^^ MODE_ALTSCREEN) (tsetmode s priv set args) := by
  induction args with
  | nil => intro s h; exact Or.inl h
  | cons x r ih =>
    intro s h
    have e : tsetmode s priv set (x :: r) = tsetmode (tsetmode1 priv set s x) priv set r := rfl
    rw [e]
    rcases sw_tsetmode1 priv set s x h with h1 | ⟨h1, h2, _⟩
    · exact ih _ h1
    · exact Or.inr (bo_tsetmode_settled priv set r _ h1 h2)

theorem step_keep {s t : State} (h : AltIs s.term.alt (s.term.mode &&& MODE_ALTSCREEN) t) :
    AltStep s t := Or.inl h

theorem step_ite {s : State} {c : Prop} [Decidable c] {x y : State}
    (hx : AltStep s x) (hy : AltStep s y) : AltStep s (if c then x else y) := by
  split_ifs <;> assumption

theorem step_setEsc {s : State} (t : State) (e : Nat) (h : AltStep s t) :
    AltStep s (t.setEsc e) := h

theorem step_tsetmode {s : State} (t : State) (priv set : Bool) (args : List Int)
    (h : BothAre s.term.line s.term.alt (s.term.mode &&& MODE_ALTSCREEN) t) :
    AltStep s (tsetmode t priv set args) := by
  rcases bo_tsetmode priv set args t h with h1 | h1
  · exact Or.inl h1.2
  · exact Or.inr (Or.inr h1)

theorem step_csihandle {s : State} (t : State)
    (h : BothAre s.term.line s.term.alt (s.term.mode &&& MODE_ALTSCREEN) t) :
    AltStep s (csihandle t) := by
  unfold csihandle
  have hk : AltIs s.term.alt (s.term.mode &&& MODE_ALTSCREEN) t := h.2
  repeat' (with_reducible first
    | exact h
    | exact hk
    | apply step_ite
    | apply step_tsetmode
    | apply step_keep
    | apply ai_ite
    | apply ai_tmoveto
    | apply ai_tmoveato
    | apply ai_tsetscroll
    | apply ai_argDefault
    | apply ai_tinsertblank
    | apply ai_tdeletechar
    | apply ai_tinsertblankline
    | apply ai_tdeleteline
    | apply ai_tscrollup
    | apply ai_tscrolldown
    | apply ai_ttywrite
    | apply ai_tsetattr
    | apply ai_tputtabs
    | apply ai_tcursor
    | apply ai_tclearregion
    | apply ai_setSel
    | apply ai_setTabs)

theorem screens_treset (s : State) :
    screens (treset s) = (s.term.line, s.term.alt, MODE_WRAP) := by
  unfold treset
  simp only []
  rw [screens_tcursor]
  exact screens_tclearregion _ _ _ _ _

theorem step_treset (s : State) : AltStep s (treset s) := by
  have e := screens_treset s
  refine Or.inr (Or.inl ⟨?_, ?_, ?_⟩)
  · exact congrArg (fun p => p.2.1) e
  · exact congrArg (fun p => p.1) e
  · exact congrArg (fun p => p.2.2) e

theorem step_tputcEsc (s : State) (b : Nat) : AltStep s (tputcEsc s b) := by
  unfold tputcEsc
  have hk : AltIs s.term.alt (s.term.mode &&& MODE_ALTSCREEN) s := ⟨rfl, rfl⟩
  have hb : ∀ (q : CSIEscape) (e : Nat),
      BothAre s.term.line s.term.alt (s.term.mode &&& MODE_ALTSCREEN)
        (csiparse ((s.setCsi q).setEsc e)) := fun _ _ => ⟨rfl, rfl, rfl⟩
  have hr := step_treset s
  have k1 : AltIs s.term.alt (s.term.mode &&& MODE_ALTSCREEN)
      (s.setMode (s.term.mode ||| MODE_APPKEYPAD)) :=
    ⟨rfl, or_keeps_alt s.term.mode MODE_APPKEYPAD (by decide)⟩
  have k2 : AltIs s.term.alt (s.term.mode &&& MODE_ALTSCREEN)
      (s.setMode (andNot s.term.mode MODE_APPKEYPAD)) :=
    ⟨rfl, andNot_keeps_alt s.term.mode MODE_APPKEYPAD (by decide)⟩
  repeat' (with_reducible first
    | exact hr
    | exact hk
    | exact k1
    | exact k2
    | exact hb _ _
    | apply step_ite
    | apply step_setEsc
    | apply step_csihandle
    | apply step_keep
    | apply ai_ite
    | apply ai_setEsc
    | apply ai_setAttrMode
    | apply ai_csiparse
    | apply ai_strhandle
    | apply ai_strreset
    | apply ai_setStr
    | apply ai_setCsi
    | apply ai_tputcAlign
    | apply ai_tscrollup
    | apply ai_tscrolldown
    | apply ai_tnewline
    | apply ai_tcursor
    | apply ai_ttywrite
    | apply ai_tmoveto
    | apply ai_setTabs)

theorem step_tputc (s : State) (c : List Nat) (len : Int) : AltStep s (tputc s c len) := by
  have hk : AltIs s.term.alt (s.term.mode &&& MODE_ALTSCREEN) s := ⟨rfl, rfl⟩
  unfold tputc
  simp only []
  by_cases hs : s.term.esc &&& ESC_STR ≠ 0
  · rw [if_pos hs]
    exact step_keep (ai_tputcStr s c len hk)
  · rw [if_neg hs]
    by_cases hc : decide (uch c < 0x20 ∨ uch c = 0x7F) = true
    · simp only [if_pos hc]
      exact step_keep (ai_ite (ai_tputcControl s _ hk)
        (ai_ite (ai_tputcControl s _ hk) (ai_tputcPrint _ c (ai_tputcControl s _ hk))))
    · simp only [if_neg hc]
      by_cases he : s.term.esc &&& ESC_START ≠ 0
      · simp only [if_pos he, if_true]
        exact step_tputcEsc s _
      · simp only [if_neg he]
        exact step_keep (ai_ite hk (ai_ite hk (ai_tputcPrint s c hk)))

/-! ## The saved cursor, select mode, reports and scrolling -/

/-- C31, where it holds. The saved cursor is one slot shared by all
terminals: `ESC 7` stores the cursor of the terminal it is fed to in that slot,
and `ESC 8` in a terminal loads whatever the slot holds, the attributes and the
state as stored and the position clamped to the grid (to the scroll region in
origin mode) of the restoring terminal. So a restore in `A` gives back the
cursor `A` saved when no other terminal saved in between; a save fed to
another terminal `B` leaves `B` and the terminal of `A` as they are but puts the
cursor of `B` into the slot, and the next restore in `A` loads the attributes
and the clamped position of the cursor of `B`. -/
theorem saved_cursor_shared (s : State) (b : Term) :
    (tcursor s .CURSOR_SAVE).saved = s.term.c ∧
    (∀ m : State, m.saved = s.term.c →
      (tcursor m .CURSOR_LOAD).term.c.attr = s.term.c.attr ∧
      (tcursor m .CURSOR_LOAD).term.c.x = LIMIT s.term.c.x 0 (m.term.col - 1) ∧
      (tcursor m .CURSOR_LOAD).term.c.y =
        LIMIT s.term.c.y
          (if s.term.c.state &&& CURSOR_ORIGIN ≠ 0 then m.term.top else 0)
          (if s.term.c.state &&& CURSOR_ORIGIN ≠ 0 then m.term.bot else m.term.row - 1) ∧
      (tcursor m .CURSOR_LOAD).term.c.state = andNot s.term.c.state CURSOR_WRAPNEXT) ∧
    (onOther (fun t => tcursor t .CURSOR_SAVE) (tcursor s .CURSOR_SAVE) b).2 = b ∧
    (onOther (fun t => tcursor t .CURSOR_SAVE) (tcursor s .CURSOR_SAVE) b).1.term = s.term ∧
    (onOther (fun t => tcursor t .CURSOR_SAVE) (tcursor s .CURSOR_SAVE) b).1.saved = b.c ∧
    (tcursor (onOther (fun t => tcursor t .CURSOR_SAVE) (tcursor s .CURSOR_SAVE) b).1
      .CURSOR_LOAD).term.c.attr = b.c.attr ∧
    (tcursor (onOther (fun t => tcursor t .CURSOR_SAVE) (tcursor s .CURSOR_SAVE) b).1
      .CURSOR_LOAD).term.c.x = LIMIT b.c.x 0 (s.term.col - 1) ∧
    (tcursor (onOther (fun t => tcursor t .CURSOR_SAVE) (tcursor s .CURSOR_SAVE) b).1
      .CURSOR_LOAD).term.c.y =
        LIMIT b.c.y (if b.c.state &&& CURSOR_ORIGIN ≠ 0 then s.term.top else 0)
          (if b.c.state &&& CURSOR_ORIGIN ≠ 0 then s.term.bot else s.term.row - 1) := by
  refine ⟨rfl, ?_, rfl, rfl, rfl, rfl, rfl, rfl⟩
  intro m hm
  unfold tcursor
  simp only [hm]
  exact ⟨rfl, rfl, rfl, rfl⟩

/-- C31, counterexample. Two terminals of 3 x 3 cells with rows of their
own. `A` is fed `ESC [ 2 ; 2 H`, `ESC [ 1 m`, `ESC 7`, `ESC [ H`, `ESC 8`: its
cursor is back at (1, 1), bold. When `B` is fed `ESC [ 3 ; 3 H` and `ESC 7`
between the save and the restore of `A`, the cursor of `A` ends at (2, 2)
without bold: the position saved by `B`. -/
theorem saved_cursor_leaks :
    twoTerminals.1.term.line = [1, 4, 7] ∧ twoTerminals.2.line = [10, 13, 16] ∧
    ownSaveExample.term.c.x = 1 ∧ ownSaveExample.term.c.y = 1 ∧
    ownSaveExample.term.c.attr.mode = ATTR_BOLD ∧
    crossSaveExample.1.term.c.x = 2 ∧ crossSaveExample.1.term.c.y = 2 ∧
    crossSaveExample.1.term.c.attr.mode = ATTR_NULL ∧
    crossSaveExample.2.c.x = 2 ∧ crossSaveExample.2.c.y = 2 := by
  decide

/-- C33, amended. X10 mouse reports: with `MODE_MOUSESGR` clear, a button
number of at most 255 and the last reported button within a thousand of zero,
`mousereport` at the grid cell (x, y) of the pointer does the following. For a
press or release it writes the six bytes `ESC [ M`, 32 + b, 32 + x + 1,
32 + y + 1, each reduced to a byte, if `x < 223` and `y < 223`, and nothing
otherwise, where b is 3 for a release (and for button 0), and else the button
number minus 1, with 61 more for the buttons from 4 on, in each case plus the
modifiers; a press records b and the cell. For a motion event it returns at
once, writing nothing, unless `MODE_MOUSEMOTION` is set and the cell differs
from the recorded one; then it records the cell and reports with b the recorded
button plus 32 plus the modifiers. The modifiers add between 0 and 28; every
byte written is at most 255 and equals its value when that is in 0..255; the
cell coordinates are not negative on a grid that is not empty. -/
theorem mousereport_x10 (cf : MouseConfig) (s : State) (o : Reported) (type : Nat)
    (e : XButtonEvent) (hsgr : ¬ IS_SET s.term MODE_MOUSESGR) (hbtn : e.button ≤ 255)
    (hob0 : -1000 ≤ o.ob) (hob1 : o.ob ≤ 1000) :
    (type ≠ MotionNotify → (type = ButtonRelease ∨ e.button = 0) →
      mousereport cf s o type e =
        (if x2col cf s.term e.x < 223 ∧ y2row cf s.term e.y < 223 then
          ttywrite s [27, 91, 77, charByte (32 + (3 + mouseMods e.state)),
            charByte (32 + x2col cf s.term e.x + 1), charByte (32 + y2row cf s.term e.y + 1)]
         else s, o)) ∧
    (type ≠ MotionNotify → type ≠ ButtonRelease → e.button ≠ 0 →
      mousereport cf s o type e =
        (if x2col cf s.term e.x < 223 ∧ y2row cf s.term e.y < 223 then
          ttywrite s [27, 91, 77,
            charByte (32 + ((if 4 ≤ e.button then (e.button : Int) + 60 else (e.button : Int) - 1)
              + mouseMods e.state)),
            charByte (32 + x2col cf s.term e.x + 1), charByte (32 + y2row cf s.term e.y + 1)]
         else s,
         if type = ButtonPress then
           { ob := if 4 ≤ e.button then (e.button : Int) + 60 else (e.button : Int) - 1,
             ox := x2col cf s.term e.x, oy := y2row cf s.term e.y }
         else o)) ∧
    (type = MotionNotify →
      (¬ IS_SET s.term MODE_MOUSEMOTION ∨
        (x2col cf s.term e.x = o.ox ∧ y2row cf s.term e.y = o.oy)) →
      mousereport cf s o type e = (s, o)) ∧
    (type = MotionNotify → IS_SET s.term MODE_MOUSEMOTION →
      ¬ (x2col cf s.term e.x = o.ox ∧ y2row cf s.term e.y = o.oy) →
      mousereport cf s o type e =
        (if x2col cf s.term e.x < 223 ∧ y2row cf s.term e.y < 223 then
          ttywrite s [27, 91, 77, charByte (32 + (o.ob + 32 + mouseMods e.state)),
            charByte (32 + x2col cf s.term e.x + 1), charByte (32 + y2row cf s.term e.y + 1)]
         else s, { o with ox := x2col cf s.term e.x, oy := y2row cf s.term e.y })) ∧
    (∀ v : Int, charByte v ≤ 255) ∧
    (∀ v : Int, 0 ≤ v → v ≤ 255 → (charByte v : Int) = v) ∧
    (0 ≤ mouseMods e.state ∧ mouseMods e.state ≤ 28) ∧
    (1 ≤ s.term.col → 0 ≤ x2col cf s.term e.x) ∧ (1 ≤ s.term.row → 0 ≤ y2row cf s.term e.y) := by
  have hm := mouseMods_bounds e.state
  have hb : wrapInt (e.button : Int) = (e.button : Int) :=
    wrapInt_of_range _ (by omega) (by omega)
  refine ⟨?_, ?_, ?_, ?_, charByte_le, charByte_id, hm, ?_, ?_⟩
  · intro ht hr
    have hr2 : type = ButtonRelease ∨ (e.button : Int) = AnyButton := by
      rcases hr with h | h
      · exact Or.inl h
      · right; rw [h]; rfl
    unfold mousereport
    simp only [hb]
    rw [if_neg (fun hh => ht hh.1)]
    simp only [if_neg ht, if_pos (And.intro hsgr hr2), if_neg hsgr]
    rw [wrapInt_of_range (3 + mouseMods e.state) (by omega) (by omega)]
    split_ifs <;> rfl
  · intro ht hr hb0
    have hr2 : ¬ (¬ IS_SET s.term MODE_MOUSESGR ∧
        (type = ButtonRelease ∨ (e.button : Int) = AnyButton)) := by
      rintro ⟨_, h | h⟩
      · exact hr h
      · exact hb0 (by exact_mod_cast h)
    unfold mousereport
    simp only [hb]
    rw [if_neg (fun hh => ht hh.1)]
    simp only [if_neg ht, if_neg hr2, if_neg hsgr]
    have w1 : wrapInt ((e.button : Int) - Button1) = (e.button : Int) - 1 :=
      wrapInt_of_range _ (by unfold Button1; omega) (by unfold Button1; omega)
    rw [w1]
    by_cases h4 : 4 ≤ e.button
    · have h3 : (e.button : Int) - 1 ≥ 3 := by omega
      rw [if_pos h3, if_pos h4]
      have w2 : wrapInt ((e.button : Int) - 1 + (64 - 3)) = (e.button : Int) + 60 := by
        rw [wrapInt_of_range _ (by omega) (by omega)]; omega
      rw [w2, wrapInt_of_range ((e.button : Int) + 60 + mouseMods e.state) (by omega) (by omega)]
      split_ifs <;> rfl
    · have h3 : ¬ ((e.button : Int) - 1 ≥ 3) := by omega
      rw [if_neg h3, if_neg h4]
      rw [wrapInt_of_range ((e.button : Int) - 1 + mouseMods e.state) (by omega) (by omega)]
      split_ifs <;> rfl
  · intro ht hq
    unfold mousereport
    simp only []
    rw [if_pos ⟨ht, hq⟩]
  · intro ht hq1 hq2
    unfold mousereport
    simp only []
    rw [if_neg (fun hh => hh.2.elim (fun h => h hq1) hq2)]
    simp only [if_pos ht, if_neg hsgr]
    rw [wrapInt_of_range (o.ob + 32) (by omega) (by omega),
      wrapInt_of_range (o.ob + 32 + mouseMods e.state) (by omega) (by omega)]
    split_ifs <;> rfl
  · intro hc
    unfold x2col LIMIT
    split_ifs <;> omega
  · intro hr
    unfold y2row LIMIT
    split_ifs <;> omega

/-- Witness of the amended C33 on a 3 x 3 terminal with `MODE_MOUSEBTN`
set: a press of button 1 with Shift on cell (1, 1) writes `ESC [ M` 36 34 34
and records button 0 at (1, 1); the release with Control writes `ESC [ M` 51 34
34. -/
theorem mousereport_x10_witness :
    ¬ IS_SET mouseBtnExample.term MODE_MOUSESGR ∧
    IS_SET mouseBtnExample.term MODE_MOUSEBTN ∧
    [x2col mouseConfigExample mouseBtnExample.term 17,
      y2row mouseConfigExample mouseBtnExample.term 32] = [1, 1] ∧
    mousereport mouseConfigExample mouseBtnExample { ob := 7, ox := 0, oy := 0 } ButtonPress
        { x := 17, y := 32, button := 1, state := ShiftMask } =
      (ttywrite mouseBtnExample [27, 91, 77, 36, 34, 34], { ob := 0, ox := 1, oy := 1 }) ∧
    mousereport mouseConfigExample mouseBtnExample { ob := 0, ox := 1, oy := 1 } ButtonRelease
        { x := 17, y := 32, button := 1, state := ControlMask } =
      (ttywrite mouseBtnExample [27, 91, 77, 51, 34, 34], { ob := 0, ox := 1, oy := 1 }) :=
  ⟨by decide, by decide, by decide,
    ((mousereport_x10 mouseConfigExample mouseBtnExample { ob := 7, ox := 0, oy := 0 }
      ButtonPress { x := 17, y := 32, button := 1, state := ShiftMask }
      (by decide) (by decide) (by decide) (by decide)).2.1
      (by decide) (by decide) (by decide)).trans rfl,
    ((mousereport_x10 mouseConfigExample mouseBtnExample { ob := 0, ox := 1, oy := 1 }
      ButtonRelease { x := 17, y := 32, button := 1, state := ControlMask }
      (by decide) (by decide) (by decide) (by decide)).1
      (by decide) (Or.inl rfl)).trans rfl⟩

/-- C33, counterexample. On the 3 x 3 terminal with the mouse mode
`MODE_MOUSEBTN` set and `MODE_MOUSESGR` clear, a motion event on cell (1, 1),
a cell other than the recorded one and well below 223, writes nothing. A press
of button 4 on that cell writes the button byte 96: 32 plus 64, not 32 plus the
button number. -/
theorem mousereport_motion_silent :
    IS_SET mouseBtnExample.term MODE_MOUSEBTN ∧ ¬ IS_SET mouseBtnExample.term MODE_MOUSESGR ∧
    [x2col mouseConfigExample mouseBtnExample.term 17,
      y2row mouseConfigExample mouseBtnExample.term 32] = [1, 1] ∧
    (mousereport mouseConfigExample mouseBtnExample { ob := 0, ox := 0, oy := 0 } MotionNotify
      { x := 17, y := 32, button := 0, state := 0 }).1.ttyout = mouseBtnExample.ttyout ∧
    (mousereport mouseConfigExample mouseBtnExample { ob := 0, ox := 0, oy := 0 } ButtonPress
      { x := 17, y := 32, button := 4, state := 0 }).1.ttyout =
      mouseBtnExample.ttyout ++ [27, 91, 77, 96, 34, 34] := by
  decide

/-- C34, where it holds. Erase above: for every well-formed terminal state
with the parser at ground and the cursor at (x, y) inside the grid, feeding
`ESC [ 1 J` leaves the cursor where it is and, when `y` is not 1, blanks (space
with the cursor attribute) every cell of the rows `0 .. y-1` and the cells
`0 .. x` of row `y` and leaves every other cell unchanged. When `y = 1` only the
cells `0 .. x` of row 1 are blanked: row 0 stays as it is. -/
theorem erase_above (s : State) (h : GridOk s) (hesc : s.term.esc = 0)
    (hx0 : 0 ≤ s.term.c.x) (hx1 : s.term.c.x < s.term.col)
    (hy0 : 0 ≤ s.term.c.y) (hy1 : s.term.c.y < s.term.row) :
    (s.term.c.y ≠ 1 →
      ∀ x y, 0 ≤ x → x < s.term.col → 0 ≤ y → y < s.term.row →
        (tputs s [27, 91, 49, 74]).cell x y =
          if y < s.term.c.y ∨ (y = s.term.c.y ∧ x ≤ s.term.c.x) then blankGlyph s.term.c.attr
          else s.cell x y) ∧
    (s.term.c.y = 1 →
      ∀ x y, 0 ≤ x → x < s.term.col → 0 ≤ y → y < s.term.row →
        (tputs s [27, 91, 49, 74]).cell x y =
          if y = 1 ∧ x ≤ s.term.c.x then blankGlyph s.term.c.attr else s.cell x y) ∧
    (tputs s [27, 91, 49, 74]).term.c = s.term.c := by
  obtain ⟨k1, k2, _⟩ := erase_above_cells s h hesc hx0 hx1 hy0 hy1
  refine ⟨fun hy x y a b c d => ?_, fun hy x y a b c d => ?_, k2⟩
  · rw [k1 x y a b c d]
    by_cases hc : y < s.term.c.y ∨ (y = s.term.c.y ∧ x ≤ s.term.c.x)
    · rw [if_pos hc, if_pos (by omega)]
    · rw [if_neg hc, if_neg (by omega)]
  · rw [k1 x y a b c d]
    by_cases hc : y = 1 ∧ x ≤ s.term.c.x
    · rw [if_pos hc, if_pos (by omega)]
    · rw [if_neg hc, if_neg (by omega)]

/-- Witness of C34 where it holds: with the rows `AAA`, `BBB`, `CCC` and
the cursor at (1, 2), `ESC [ 1 J` blanks the rows 0 and 1 and the first two
cells of row 2. -/
theorem erase_above_witness :
    GridOk eraseLowExample ∧ [eraseLowExample.term.c.x, eraseLowExample.term.c.y] = [1, 2] ∧
    (tputs eraseLowExample [27, 91, 49, 74]).cell 2 0 =
      (if (0 : Int) < eraseLowExample.term.c.y ∨
          ((0 : Int) = eraseLowExample.term.c.y ∧ (2 : Int) ≤ eraseLowExample.term.c.x) then
        blankGlyph eraseLowExample.term.c.attr
      else eraseLowExample.cell 2 0) ∧
    [(tputs eraseLowExample [27, 91, 49, 74]).rowText 0,
      (tputs eraseLowExample [27, 91, 49, 74]).rowText 1,
      (tputs eraseLowExample [27, 91, 49, 74]).rowText 2] =
      [[32, 32, 32], [32, 32, 32], [32, 32, 67]] :=
  ⟨by decide, by decide,
    (erase_above eraseLowExample (by decide) (by decide) (by decide) (by decide) (by decide)
      (by decide)).1 (by decide) 2 0 (by decide) (by decide) (by decide) (by decide),
    by decide⟩

/-- C34, counterexample. With the rows `AAA`, `BBB`, `CCC` and the cursor
at (1, 1), `ESC [ 1 J` blanks the first two cells of row 1 and leaves row 0,
which is above the cursor, as `AAA`. -/
theorem erase_above_skips_row_zero :
    GridOk eraseExample ∧ [eraseExample.term.c.x, eraseExample.term.c.y] = [1, 1] ∧
    [eraseExample.rowText 0, eraseExample.rowText 1, eraseExample.rowText 2] =
      [[65, 65, 65], [66, 66, 66], [67, 67, 67]] ∧
    [(tputs eraseExample [27, 91, 49, 74]).rowText 0,
      (tputs eraseExample [27, 91, 49, 74]).rowText 1,
      (tputs eraseExample [27, 91, 49, 74]).rowText 2] =
      [[65, 65, 65], [32, 32, 66], [67, 67, 67]] := by
  decide

/-- C35, where it holds. For every state with at least one row and one
dirty flag per row, and every attribute mask, after `tsetdirtattr` the dirty
flag of a row `i` of the grid is set if and only if it was set before or
`i < row - 1` and some cell of row `i` in the columns `0 .. col-2` has a mode
that intersects the mask; nothing but the dirty flags changes. The last row and
the last column are not examined. -/
theorem tsetdirtattr_marks (s : State) (attr : Nat) (hr : 1 ≤ s.term.row)
    (hd : s.term.dirty.length = s.term.row.toNat) :
    (∀ i, 0 ≤ i → i < s.term.row →
      (idx (tsetdirtattr s attr).term.dirty i false = true ↔
        idx s.term.dirty i false = true ∨
        (i < s.term.row - 1 ∧
          ∃ j : Int, 0 ≤ j ∧ j < s.term.col - 1 ∧ (s.cell j i).mode &&& attr ≠ 0))) ∧
    (∀ v : State, (tsetdirtattr s attr).withGridOf v = s.withGridOf v) ∧
    (tsetdirtattr s attr).heap = s.heap ∧ (tsetdirtattr s attr).sel = s.sel := by
  have key := forRange_ind (fun (k : Int) (t : State) =>
    (∀ v : State, t.withGridOf v = s.withGridOf v) ∧ t.heap = s.heap ∧ t.sel = s.sel ∧
    t.term.dirty.length = s.term.dirty.length ∧
    ∀ i, 0 ≤ i → i < s.term.row →
      (idx t.term.dirty i false = true ↔
        idx s.term.dirty i false = true ∨ (i < k ∧ rowHasAttr s attr i = true)))
    0 (s.term.row - 2) (fun i s => if rowHasAttr s attr i then tsetdirt s i i else s) s
    (by omega)
    ⟨fun _ => rfl, rfl, rfl, rfl, fun i hi0 _ =>
      ⟨fun h => Or.inl h, fun h => h.elim id (fun hh => by omega)⟩⟩
    (by
      intro k t hk0 hk1 ⟨f1, f2, f3, f4, f5⟩
      beta_reduce
      obtain ⟨e1, _, _, e4⟩ := fields_of_frame (f1 s)
      have hsame : rowHasAttr t attr k = rowHasAttr s attr k := by
        unfold rowHasAttr State.cell State.lineAt
        rw [e1, f2, (fields_of_frame (f1 s)).2.2.1]
      rw [hsame]
      by_cases hrow : rowHasAttr s attr k = true
      · rw [if_pos hrow, tsetdirt_single t k hk0 (by rw [e4]; omega)]
        refine ⟨fun v => ?_, f2, f3, ?_, ?_⟩
        · exact (f1 v)
        · show (setIdx t.term.dirty k true).length = _
          rw [length_setIdx]; exact f4
        · intro i hi0 hi1
          show idx (setIdx t.term.dirty k true) i false = true ↔ _
          by_cases hik : i = k
          · subst hik
            rw [idx_setIdx_eq _ _ _ _ hi0 (by rw [f4, hd]; omega)]
            exact ⟨fun _ => Or.inr ⟨by omega, hrow⟩, fun _ => rfl⟩
          · rw [idx_setIdx_ne _ _ _ _ _ hik, f5 i hi0 hi1]
            constructor
            · rintro (h | ⟨h1, h2⟩)
              · exact Or.inl h
              · exact Or.inr ⟨by omega, h2⟩
            · rintro (h | ⟨h1, h2⟩)
              · exact Or.inl h
              · exact Or.inr ⟨by omega, h2⟩
      · rw [if_neg hrow]
        refine ⟨f1, f2, f3, f4, ?_⟩
        intro i hi0 hi1
        rw [f5 i hi0 hi1]
        constructor
        · rintro (h | ⟨h1, h2⟩)
          · exact Or.inl h
          · exact Or.inr ⟨by omega, h2⟩
        · rintro (h | ⟨h1, h2⟩)
          · exact Or.inl h
          · right
            refine ⟨?_, h2⟩
            by_contra hn
            have : i = k := by omega
            subst this
            exact hrow h2)
  obtain ⟨f1, f2, f3, _, f5⟩ := key
  refine ⟨?_, f1, f2, f3⟩
  intro i hi0 hi1
  unfold tsetdirtattr
  rw [f5 i hi0 hi1, rowHasAttr_iff]
  constructor
  · rintro (h | ⟨h1, h2⟩)
    · exact Or.inl h
    · exact Or.inr ⟨by omega, h2⟩
  · rintro (h | ⟨h1, h2⟩)
    · exact Or.inl h
    · exact Or.inr ⟨by omega, h2⟩

/-- Witness of C35 where it holds: on a 3 x 3 grid whose only blinking
cell is cell (0, 0), `tsetdirtattr` with `ATTR_BLINK` marks row 0 and no other
row, and `tattrset` finds the attribute. -/
theorem tsetdirtattr_marks_witness :
    blinkFirstExample.term.dirty = [false, false, false] ∧
    (blinkFirstExample.cell 0 0).mode &&& ATTR_BLINK ≠ 0 ∧
    (idx (tsetdirtattr blinkFirstExample ATTR_BLINK).term.dirty 0 false = true ↔
      idx blinkFirstExample.term.dirty 0 false = true ∨
      ((0 : Int) < blinkFirstExample.term.row - 1 ∧
        ∃ j : Int, 0 ≤ j ∧ j < blinkFirstExample.term.col - 1 ∧
          (blinkFirstExample.cell j 0).mode &&& ATTR_BLINK ≠ 0)) ∧
    (tsetdirtattr blinkFirstExample ATTR_BLINK).term.dirty = [true, false, false] ∧
    tattrset blinkFirstExample ATTR_BLINK = 1 :=
  ⟨by decide, by decide,
    (tsetdirtattr_marks blinkFirstExample ATTR_BLINK (by decide) (by decide)).1 0
      (by decide) (by decide),
    by decide, by decide⟩

/-- C35, counterexample. On a 3 x 2 grid with clean rows whose only
blinking cell is the last cell (2, 0) of row 0, `tsetdirtattr` with
`ATTR_BLINK` marks no row, and `tattrset` reports that no cell has the
attribute. -/
theorem tsetdirtattr_misses_last_column :
    blinkExample.term.dirty = [false, false] ∧
    [blinkExample.term.col, blinkExample.term.row] = [3, 2] ∧
    (blinkExample.cell 2 0).mode &&& ATTR_BLINK ≠ 0 ∧
    (tsetdirtattr blinkExample ATTR_BLINK).term.dirty = [false, false] ∧
    tattrset blinkExample ATTR_BLINK = 0 := by
  decide

/-- C36, amended. Tab stops after resize: for every state with at least
one column and one tab flag per column, `tabspaces ≥ 1`, and every
`tresize(col', row')` with `col', row' ≥ 1`, afterwards for `0 ≤ i < col'` the
flag `tabs[i]` is set if and only if `i` is below the old width and was a stop
before, or the terminal got wider and `i` is the last stop of the old columns
(column 0 when there was none) plus a positive multiple of `tabspaces`, be `i`
a new column or an old one. No stop below the new width is cleared, and none
is set unless the terminal gets wider. When the stops before the call were the
default ones (the positive multiples of `tabspaces`), they are so afterwards:
`tabs[i]` is set if and only if `0 < i < col'` and `tabspaces` divides `i`. -/
theorem tresize_tab_stops (s : State) (col row : Int) (hc : 1 ≤ col) (hr : 1 ≤ row)
    (hts : 1 ≤ s.cfg.tabspaces) (hsc : 1 ≤ s.term.col)
    (hlen : s.term.tabs.length = s.term.col.toNat) :
    (∀ i, 0 ≤ i → i < col →
      (idx (tresize s col row).1.term.tabs i false = true ↔
        (i < s.term.col ∧ idx s.term.tabs i false = true) ∨
        (s.term.col < col ∧ ∃ k : Nat, 1 ≤ k ∧
          i = tabBackward s.term.tabs (s.term.col - 1).toNat (s.term.col - 1) +
            (k : Int) * (s.cfg.tabspaces : Int)))) ∧
    ((∀ i, 0 ≤ i → i < s.term.col →
        (idx s.term.tabs i false = true ↔ 0 < i ∧ (s.cfg.tabspaces : Int) ∣ i)) →
      ∀ i, 0 ≤ i → i < col →
        (idx (tresize s col row).1.term.tabs i false = true ↔
          0 < i ∧ (s.cfg.tabspaces : Int) ∣ i)) := by
  refine ⟨fun i hi0 hi1 => tresize_tabs_idx s col row hc hr hts hsc hlen i hi0 hi1, ?_⟩
  intro hd i hi0 hi1
  rw [tresize_tabs_idx s col row hc hr hts hsc hlen i hi0 hi1]
  obtain ⟨b1, b2, _, b4, b5⟩ := tabBackward_spec s.term.tabs (s.term.col - 1).toNat
    (s.term.col - 1) (by omega)
  have hb0 := b2 (by omega)
  have hts2 : (1 : Int) ≤ (s.cfg.tabspaces : Int) := by exact_mod_cast hts
  generalize tabBackward s.term.tabs (s.term.col - 1).toNat (s.term.col - 1) = bp
    at b1 hb0 b4 b5 ⊢
  have hbd : (s.cfg.tabspaces : Int) ∣ bp := by
    by_cases h0 : bp = 0
    · rw [h0]; exact dvd_zero _
    · exact ((hd bp hb0 (by omega)).mp (b4 (by omega))).2
  constructor
  · rintro (⟨h1, h2⟩ | ⟨h1, k, hk1, hk⟩)
    · exact (hd i hi0 h1).mp h2
    · have hpos : (0 : Int) < (k : Int) * (s.cfg.tabspaces : Int) := by
        have : (1 : Int) ≤ (k : Int) := by exact_mod_cast hk1
        positivity
      refine ⟨by omega, ?_⟩
      rw [hk]
      exact dvd_add hbd (dvd_mul_left _ _)
  · rintro ⟨h1, h2⟩
    by_cases hlt : i < s.term.col
    · exact Or.inl ⟨hlt, (hd i hi0 hlt).mpr ⟨h1, h2⟩⟩
    · right
      refine ⟨by omega, ?_⟩
      obtain ⟨q, hq⟩ := h2
      obtain ⟨m, hm⟩ := hbd
      have hqm : m < q := by
        by_contra hn
        have : q ≤ m := by omega
        have : (s.cfg.tabspaces : Int) * q ≤ (s.cfg.tabspaces : Int) * m :=
          mul_le_mul_of_nonneg_left this (by omega)
        omega
      refine ⟨(q - m).toNat, by omega, ?_⟩
      have : ((q - m).toNat : Int) = q - m := by omega
      rw [this, hq, hm]
      ring

/-- Witness of the amended C36 on the terminal of 10 columns with a
stop set in column 3, resized to 12 columns, at column 3. -/
theorem tresize_tab_stops_witness :
    tabStopExample.term.tabs.length = tabStopExample.term.col.toNat ∧
    (idx (tresize tabStopExample 12 2).1.term.tabs 3 false = true ↔
      ((3 : Int) < tabStopExample.term.col ∧ idx tabStopExample.term.tabs 3 false = true) ∨
      (tabStopExample.term.col < 12 ∧ ∃ k : Nat, 1 ≤ k ∧
        (3 : Int) = tabBackward tabStopExample.term.tabs (tabStopExample.term.col - 1).toNat
          (tabStopExample.term.col - 1) + (k : Int) * (tabStopExample.cfg.tabspaces : Int))) :=
  ⟨by decide,
    (tresize_tab_stops tabStopExample 12 2 (by decide) (by decide) (by decide) (by decide)
      (by decide)).1 3 (by decide) (by decide)⟩

/-- C36, counterexample. The terminal of 10 columns with a stop set in
column 3 by `ESC H` keeps that stop, which is no multiple of 8, through
`tresize(12, 2)`. After `ESC [ 3 g` has cleared every stop, `tresize` to the
same size or to 9 columns sets none, so that column 8 is no stop; and
`tresize(12, 1)` sets the stop of column 8, a column that existed before,
since the new stops are counted from the last stop set, here from column 0. -/
theorem tresize_keeps_custom_tab_stops :
    tabStopExample.term.tabs =
      [false, false, false, true, false, false, false, false, true, false] ∧
    (tresize tabStopExample 12 2).1.term.tabs =
      [false, false, false, true, false, false, false, false, true, false, false, false] ∧
    tabClearExample.term.tabs = List.replicate 10 false ∧
    (tresize tabClearExample 10 1).1.term.tabs = List.replicate 10 false ∧
    (tresize tabClearExample 9 1).1.term.tabs.take 9 = List.replicate 9 false ∧
    (tresize tabClearExample 12 1).1.term.tabs =
      [false, false, false, false, false, false, false, false, true, false, false, false] := by
  decide

/-- C38, amended. The two screens across one `tputc` step, from any state:
either the `alt` buffer and the bit `MODE_ALTSCREEN` are as before; or the
terminal was reset (`ESC c`), which keeps both buffers in place and sets the
mode word to `MODE_WRAP`, so the bit is cleared without an exchange; or the
`line` and `alt` buffers were exchanged and the bit was flipped. So the bit
changes in every step that exchanges the buffers, and in a step that does not
exchange them it changes only by a reset fed while the bit is set. -/
theorem tputc_alt_screen (s : State) (c : List Nat) (len : Int) :
    ((tputc s c len).term.alt = s.term.alt ∧
      (tputc s c len).term.mode &&& MODE_ALTSCREEN = s.term.mode &&& MODE_ALTSCREEN) ∨
    ((tputc s c len).term.alt = s.term.alt ∧ (tputc s c len).term.line = s.term.line ∧
      (tputc s c len).term.mode = MODE_WRAP) ∨
    ((tputc s c len).term.line = s.term.alt ∧ (tputc s c len).term.alt = s.term.line ∧
      (tputc s c len).term.mode &&& MODE_ALTSCREEN =
        (s.term.mode &&& MODE_ALTSCREEN) ^^^ MODE_ALTSCREEN) :=
  step_tputc s c len

/-- C38, counterexample. The state reached from `tnew(2, 2)` by
`ESC [ ? 1049 h`, a line feed and `ESC` has `MODE_ALTSCREEN` set; feeding `c`
(the reset `ESC c`) clears the bit while the `line` and `alt` buffers, which
differ, stay where they are: the bit changed without an exchange, and the
current grid is still the one that was the alternate one. -/
theorem reset_clears_alt_bit :
    Reachable (tputs altScreenExample [27]) ∧
    (tputs altScreenExample [27]).term.mode &&& MODE_ALTSCREEN = MODE_ALTSCREEN ∧
    (tputc (tputs altScreenExample [27]) [99, 0, 0, 0] 1).term.mode &&& MODE_ALTSCREEN = 0 ∧
    (tputc (tputs altScreenExample [27]) [99, 0, 0, 0] 1).term.line =
      (tputs altScreenExample [27]).term.line ∧
    (tputc (tputs altScreenExample [27]) [99, 0, 0, 0] 1).term.alt =
      (tputs altScreenExample [27]).term.alt ∧
    (tputs altScreenExample [27]).term.line ≠ (tputs altScreenExample [27]).term.alt :=
  ⟨reachable_tputs [27] altScreenExample
    (reachable_example 2 2 (by decide) (by decide) [27, 91, 63, 49, 48, 52, 57, 104, 10]),
    by decide, by decide, by decide, by decide, by decide⟩

/-- C39, where it holds. Scrolling by a count that is not positive: for
every well-formed terminal state, `0 ≤ orig ≤ bot < row` and `n ≤ 0`, neither
`tscrollup(orig, n)` nor `tscrolldown(orig, n)` moves a row, and `tscrollup`
adds nothing to the scrollback; but `tscrollup` blanks the rows `orig - 1` and
`orig` of the grid and `tscrolldown` blanks the rows `bot` and `bot + 1` of the
grid (space with the cursor attribute), every other cell being unchanged. -/
theorem scroll_nonpos (s : State) (orig n : Int) (h : GridOk s) (hn : n ≤ 0)
    (h0 : 0 ≤ orig) (hob : orig ≤ s.term.bot) (hb : s.term.bot < s.term.row) :
    (∀ x y, 0 ≤ x → x < s.term.col → 0 ≤ y → y < s.term.row →
      (tscrollup s orig n).cell x y =
        if orig - 1 ≤ y ∧ y ≤ orig then blankGlyph s.term.c.attr else s.cell x y) ∧
    (∀ x y, 0 ≤ x → x < s.term.col → 0 ≤ y → y < s.term.row →
      (tscrolldown s orig n).cell x y =
        if s.term.bot ≤ y ∧ y ≤ s.term.bot + 1 then blankGlyph s.term.c.attr
        else s.cell x y) ∧
    (tscrollup s orig n).term.line = s.term.line ∧
    (tscrolldown s orig n).term.line = s.term.line ∧
    (tscrollup s orig n).term.sb = s.term.sb :=
  have hu := tscrollup_nonpos s orig n h hn h0 hob hb
  have hd := tscrolldown_nonpos s orig n h hn h0 hob hb
  ⟨hu.2.2, hd.2.2, hu.1, hd.1, hu.2.1⟩

/-- Witness of C39 where it holds: on the 3 x 3 grid with the rows `A`,
`B`, `C`, `tscrollup(1, -1)` leaves row 2 and the row pointers as they are. -/
theorem scroll_nonpos_witness :
    GridOk rowsExample ∧ [rowsExample.term.top, rowsExample.term.bot] = [0, 2] ∧
    (tscrollup rowsExample 1 (-1)).cell 0 2 =
      (if (1 : Int) - 1 ≤ 2 ∧ (2 : Int) ≤ 1 then blankGlyph rowsExample.term.c.attr
        else rowsExample.cell 0 2) ∧
    (tscrollup rowsExample 1 (-1)).term.line = rowsExample.term.line :=
  have h := scroll_nonpos rowsExample 1 (-1) (by decide) (by decide) (by decide) (by decide)
    (by decide)
  ⟨by decide, by decide, h.1 0 2 (by decide) (by decide) (by decide) (by decide), h.2.2.1⟩

/-- C39, counterexample. On the 3 x 3 grid with the rows `A`, `B`, `C`
and the scroll region [0, 2], `ESC [ - 1 S` blanks row 0, `ESC [ - 1 T` blanks
row 2, and `tscrollup(1, 0)` blanks the rows 0 and 1. -/
theorem scroll_nonpos_blanks_rows :
    [rowsExample.rowText 0, rowsExample.rowText 1, rowsExample.rowText 2] =
      [[65, 32, 32], [66, 32, 32], [67, 32, 32]] ∧
    [(tputs rowsExample [27, 91, 45, 49, 83]).rowText 0,
      (tputs rowsExample [27, 91, 45, 49, 83]).rowText 1,
      (tputs rowsExample [27, 91, 45, 49, 83]).rowText 2] =
      [[32, 32, 32], [66, 32, 32], [67, 32, 32]] ∧
    [(tputs rowsExample [27, 91, 45, 49, 84]).rowText 0,
      (tputs rowsExample [27, 91, 45, 49, 84]).rowText 1,
      (tputs rowsExample [27, 91, 45, 49, 84]).rowText 2] =
      [[65, 32, 32], [66, 32, 32], [32, 32, 32]] ∧
    [(tscrollup rowsExample 1 0).rowText 0, (tscrollup rowsExample 1 0).rowText 1,
      (tscrollup rowsExample 1 0).rowText 2] = [[32, 32, 32], [32, 32, 32], [67, 32, 32]] := by
  decide

/-- C40, amended. Selection coordinates under scrolling: for every active
selection with `0 ≤ bx, ex ≤ col - 1`, `top ≤ bot`, and `selscroll(orig, n)`
with `sel.by + n` and `sel.ey + n` of type `int`, if the selection is still
active afterwards then `0 ≤ sel.bx ≤ col - 1` and `0 ≤ sel.ex ≤ col`, where
`sel.ex = col`, one past the last column, exactly when the rows were shifted
and a selection that is not rectangular was cut at the bottom of the scroll
region (`sel.ey + n > bot`); and `top ≤ sel.by, sel.ey ≤ bot` whenever the rows
were shifted. -/
theorem selscroll_in_grid (s : State) (orig n : Int) (hb : s.sel.bx ≠ -1)
    (hbx0 : 0 ≤ s.sel.bx) (hbx1 : s.sel.bx ≤ s.term.col - 1)
    (hex0 : 0 ≤ s.sel.ex) (hex1 : s.sel.ex ≤ s.term.col - 1)
    (htb : s.term.top ≤ s.term.bot)
    (hby1 : -2147483648 ≤ s.sel.by_ + n) (hby2 : s.sel.by_ + n < 2147483648)
    (hey1 : -2147483648 ≤ s.sel.ey + n) (hey2 : s.sel.ey + n < 2147483648)
    (ha : (selscroll s orig n).sel.bx ≠ -1) :
    0 ≤ (selscroll s orig n).sel.bx ∧ (selscroll s orig n).sel.bx ≤ s.term.col - 1 ∧
    0 ≤ (selscroll s orig n).sel.ex ∧ (selscroll s orig n).sel.ex ≤ s.term.col ∧
    ((selscroll s orig n).sel.ex = s.term.col ↔
      (BETWEEN s.sel.by_ orig s.term.bot ∨ BETWEEN s.sel.ey orig s.term.bot) ∧
      s.sel.type ≠ SEL_RECTANGULAR ∧ s.term.bot < s.sel.ey + n) ∧
    ((BETWEEN s.sel.by_ orig s.term.bot ∨ BETWEEN s.sel.ey orig s.term.bot) →
      s.term.top ≤ (selscroll s orig n).sel.by_ ∧ (selscroll s orig n).sel.by_ ≤ s.term.bot ∧
      s.term.top ≤ (selscroll s orig n).sel.ey ∧ (selscroll s orig n).sel.ey ≤ s.term.bot) := by
  by_cases hin : BETWEEN s.sel.by_ orig s.term.bot ∨ BETWEEN s.sel.ey orig s.term.bot
  · by_cases h1 : s.term.bot < s.sel.by_ + n
    · exact absurd (selscroll_dropped s orig n hb hby1 hby2 hey1 hey2 hin (Or.inl h1)) ha
    by_cases h2 : s.sel.ey + n < s.term.top
    · exact absurd (selscroll_dropped s orig n hb hby1 hby2 hey1 hey2 hin (Or.inr h2)) ha
    obtain ⟨k1, k2, k3, k4⟩ :=
      selscroll_kept s orig n hb hby1 hby2 hey1 hey2 hin (by omega) (by omega)
    rw [k1, k2, k3, k4]
    refine ⟨?_, ?_, ?_, ?_, ?_, ?_⟩
    · split_ifs <;> omega
    · split_ifs <;> omega
    · split_ifs <;> omega
    · split_ifs <;> omega
    · constructor
      · intro h
        by_cases c : s.sel.type ≠ SEL_RECTANGULAR ∧ s.term.bot < s.sel.ey + n
        · exact ⟨hin, c⟩
        · rw [if_neg c] at h
          omega
      · rintro ⟨_, c⟩
        rw [if_pos c]
    · intro _
      simp only [max_def, min_def]
      refine ⟨?_, ?_, ?_, ?_⟩ <;> split_ifs <;> omega
  · have e : selscroll s orig n = s := by
      unfold selscroll
      rw [if_neg hb, if_neg hin]
    rw [e]
    refine ⟨hbx0, hbx1, hex0, by omega, ?_, fun h => absurd h hin⟩
    constructor
    · intro h; omega
    · rintro ⟨h, _⟩; exact absurd h hin

/-- Witness of the amended C40 at `selectedExample`, the selection from
(1, 0) to (2, 1) on a 3 x 3 grid, and `selscroll(0, -1)`. -/
theorem selscroll_in_grid_witness :
    selectedExample.sel.bx ≠ -1 ∧ (selscroll selectedExample 0 (-1)).sel.bx ≠ -1 ∧
    0 ≤ (selscroll selectedExample 0 (-1)).sel.bx ∧
    (selscroll selectedExample 0 (-1)).sel.bx ≤ selectedExample.term.col - 1 ∧
    0 ≤ (selscroll selectedExample 0 (-1)).sel.ex ∧
    (selscroll selectedExample 0 (-1)).sel.ex ≤ selectedExample.term.col :=
  have h := selscroll_in_grid selectedExample 0 (-1) (by decide) (by decide) (by decide)
    (by decide) (by decide) (by decide) (by decide) (by decide) (by decide) (by decide)
    (by decide)
  ⟨by decide, by decide, h.1, h.2.1, h.2.2.1, h.2.2.2.1⟩

/-- C40, counterexample. On a terminal of 3 columns and 4 rows with the
scroll region [0, 1] and the selection from (1, 1) to (2, 3), `tscrollup(0, 1)`
calls `selscroll(0, -1)`: the selection stays active with `sel.by = 0`,
`sel.ey = 1` and `sel.ex = 3`, which is `col`, outside `0 .. col - 1`. -/
theorem selscroll_end_column_past_grid :
    regionSelectedExample.term.col = 3 ∧ regionSelectedExample.term.row = 4 ∧
    regionSelectedExample.term.top = 0 ∧ regionSelectedExample.term.bot = 1 ∧
    regionSelectedExample.sel.bx = 1 ∧ regionSelectedExample.sel.by_ = 1 ∧
    regionSelectedExample.sel.ex = 2 ∧ regionSelectedExample.sel.ey = 3 ∧
    (tscrollup regionSelectedExample 0 1).sel.bx = 1 ∧
    (tscrollup regionSelectedExample 0 1).sel.by_ = 0 ∧
    (tscrollup regionSelectedExample 0 1).sel.ey = 1 ∧
    (tscrollup regionSelectedExample 0 1).sel.ex = 3 ∧
    (tscrollup regionSelectedExample 0 1).sel.e.x = 3 := by
  decide

end St
